import Mathlib

/-!
# BIRD Linux Netlink interface (`sysdep/linux/netlink.c`)

A shallow embedding of the Netlink codec, transport and route encoder/decoder of
`sysdep/linux/netlink.c`, and theorems about it.

Conventions of the embedding:

* memory is byte addressed (`Mem`); a C pointer is the address it holds, `NULL` is `none`;
* host byte order is little-endian (Linux on x86-64 / AArch64), pointers are 8 bytes;
* `u8`/`u16`/`u32` values are naturals, reduced `% 2 ^ w` where C truncates or wraps;
  `int` values are integers, wrapped with `to_int32` where a conversion can leave the range;
* `bug()` and `die()` abort the process and are explicit outcomes.
-/

namespace Netlink

/-! ## Memory -/

/-- Byte-addressed memory: the value of the byte stored at every address. -/
abbrev Mem := Nat → Nat

/-- Load of one byte. -/
def ld8 (m : Mem) (a : Nat) : Nat := m a % 256

/-- Load of a 16-bit value in host byte order. -/
def ld16 (m : Mem) (a : Nat) : Nat := ld8 m a + 256 * ld8 m (a + 1)

/-- Load of a 32-bit value in host byte order. -/
def ld32 (m : Mem) (a : Nat) : Nat := ld16 m a + 65536 * ld16 m (a + 2)

/-- Store of one byte (the value is truncated to 8 bits). -/
def st8 (m : Mem) (a v : Nat) : Mem := fun i => if i = a then v % 256 else m i

/-- Store of a 16-bit value in host byte order (the value is truncated to 16 bits). -/
def st16 (m : Mem) (a v : Nat) : Mem := st8 (st8 m a v) (a + 1) (v / 256)

/-- Store of a 32-bit value in host byte order (the value is truncated to 32 bits). -/
def st32 (m : Mem) (a v : Nat) : Mem := st16 (st16 m a v) (a + 2) (v / 65536)

/-- The C library `memcpy(dst, src, n)`, the source being given as the list of its `n` bytes. -/
def memcpy (m : Mem) (dst : Nat) (src : List Nat) : Mem :=
  fun i => if dst ≤ i ∧ i < dst + src.length then src.getD (i - dst) 0 else m i

/-- The C library `bzero(dst, n)`. -/
def bzero (m : Mem) (dst n : Nat) : Mem :=
  fun i => if dst ≤ i ∧ i < dst + n then 0 else m i

/-- Memory whose first bytes are the given list and which is zero elsewhere. -/
def mem_of_list (l : List Nat) : Mem := fun i => l.getD i 0

/-- Truncation to an unsigned 32-bit value (`uint`, `u32`). -/
def u32 (n : Nat) : Nat := n % 2 ^ 32

/-- Conversion of an integer to `int` (32-bit two's complement). -/
def to_int32 (n : Int) : Int := (n + 2 ^ 31) % 2 ^ 32 - 2 ^ 31

/-! ## Constants of `<linux/netlink.h>`, `<linux/rtnetlink.h>`, `<linux/lwtunnel.h>` -/

def NLMSG_ERROR : Nat := 2
def NLMSG_DONE : Nat := 3
def NLM_F_REQUEST : Nat := 1
def NLM_F_ACK : Nat := 4
def NLM_F_EXCL : Nat := 0x200
def NLM_F_CREATE : Nat := 0x400
def RTM_NEWROUTE : Nat := 24
def RTM_DELROUTE : Nat := 25
def AF_INET : Nat := 2
def AF_INET6 : Nat := 10
def AF_MPLS : Nat := 28
def RTA_UNSPEC : Nat := 0
def RTA_DST : Nat := 1
def RTA_IIF : Nat := 3
def RTA_OIF : Nat := 4
def RTA_GATEWAY : Nat := 5
def RTA_PRIORITY : Nat := 6
def RTA_PREFSRC : Nat := 7
def RTA_METRICS : Nat := 8
def RTA_MULTIPATH : Nat := 9
def RTA_FLOW : Nat := 11
def RTA_TABLE : Nat := 15
def RTA_VIA : Nat := 18
def RTA_NEWDST : Nat := 19
def RTA_ENCAP_TYPE : Nat := 21
def RTA_ENCAP : Nat := 22
def RTN_UNICAST : Nat := 1
def RTN_BLACKHOLE : Nat := 6
def RTN_UNREACHABLE : Nat := 7
def RTN_PROHIBIT : Nat := 8
def RTPROT_UNSPEC : Nat := 0
def RTPROT_REDIRECT : Nat := 1
def RTPROT_KERNEL : Nat := 2
def RTPROT_BOOT : Nat := 3
def RTPROT_BIRD : Nat := 12
def RT_SCOPE_UNIVERSE : Nat := 0
def RTNH_F_ONLINK : Nat := 4
def LWTUNNEL_ENCAP_MPLS : Nat := 1
def ENOBUFS : Int := 105

/-- The receive buffer size `NL_RX_SIZE`. -/
def NL_RX_SIZE : Nat := 8192

/-- Size of `struct nlmsghdr`: `nlmsg_len` (u32, offset 0), `nlmsg_type` (u16, 4),
`nlmsg_flags` (u16, 6), `nlmsg_seq` (u32, 8), `nlmsg_pid` (u32, 12). -/
def sizeof_nlmsghdr : Nat := 16

/-- Size of `struct rtattr`: `rta_len` (u16, offset 0), `rta_type` (u16, offset 2). -/
def sizeof_rtattr : Nat := 4

/-- Size of `struct rtmsg`: `rtm_family`, `rtm_dst_len`, `rtm_src_len`, `rtm_tos`, `rtm_table`,
`rtm_protocol`, `rtm_scope`, `rtm_type` (one byte each, offsets 0..7), `rtm_flags` (u32, 8). -/
def sizeof_rtmsg : Nat := 12

/-- Size of `struct nlmsgerr`: `error` (int, offset 0) followed by a `struct nlmsghdr`. -/
def sizeof_nlmsgerr : Nat := 20

/-- Size of `struct rtnexthop`: `rtnh_len` (u16, offset 0), `rtnh_flags` (u8, 2),
`rtnh_hops` (u8, 3), `rtnh_ifindex` (int, 4). -/
def sizeof_rtnexthop : Nat := 8

/-- Size of `struct rtvia`: `rtvia_family` (u16, offset 0) followed by the address bytes. -/
def sizeof_rtvia : Nat := 2

/-- Size of a pointer (`sizeof(struct rtattr *)`, and `sizeof(r)` for a pointer `r`). -/
def sizeof_ptr : Nat := 8

/-! ## Macros of `<linux/netlink.h>` and `<linux/rtnetlink.h>`

`NLMSG_ALIGNTO`, `RTA_ALIGNTO` and `RTNH_ALIGNTO` are 4; `(x + 3) & ~3` clears the two low bits
of `x + 3`, which is `(x + 3) / 4 * 4`. -/

/-- The macro `NLMSG_ALIGN(len)`: `((len) + NLMSG_ALIGNTO - 1) & ~(NLMSG_ALIGNTO - 1)`. -/
def NLMSG_ALIGN (len : Nat) : Nat := (len + 3) / 4 * 4

/-- The macro `NLMSG_HDRLEN`: `NLMSG_ALIGN(sizeof(struct nlmsghdr))`. -/
def NLMSG_HDRLEN : Nat := NLMSG_ALIGN sizeof_nlmsghdr

/-- The macro `NLMSG_LENGTH(len)`: `(len) + NLMSG_HDRLEN`. -/
def NLMSG_LENGTH (len : Nat) : Nat := len + NLMSG_HDRLEN

/-- The macro `NLMSG_DATA(nlh)`: `(char *) nlh + NLMSG_LENGTH(0)`. -/
def NLMSG_DATA (h : Nat) : Nat := h + NLMSG_LENGTH 0

/-- The field `h->nlmsg_len`. -/
def nlmsg_len (m : Mem) (h : Nat) : Nat := ld32 m h

/-- The field `h->nlmsg_type`. -/
def nlmsg_type (m : Mem) (h : Nat) : Nat := ld16 m (h + 4)

/-- The field `h->nlmsg_flags`. -/
def nlmsg_flags (m : Mem) (h : Nat) : Nat := ld16 m (h + 6)

/-- The field `h->nlmsg_seq`. -/
def nlmsg_seq (m : Mem) (h : Nat) : Nat := ld32 m (h + 8)

/-- The field `h->nlmsg_pid`. -/
def nlmsg_pid (m : Mem) (h : Nat) : Nat := ld32 m (h + 12)

/-- The macro `NLMSG_OK(nlh, len)` for an unsigned `len`:
`len >= sizeof(struct nlmsghdr) && nlh->nlmsg_len >= sizeof(struct nlmsghdr) && nlh->nlmsg_len <= len`. -/
def NLMSG_OK (m : Mem) (h : Nat) (len : Nat) : Bool :=
  decide (sizeof_nlmsghdr ≤ len) && decide (sizeof_nlmsghdr ≤ nlmsg_len m h)
    && decide (nlmsg_len m h ≤ len)

/-- The macro `RTA_ALIGN(len)`: `((len) + RTA_ALIGNTO - 1) & ~(RTA_ALIGNTO - 1)`. -/
def RTA_ALIGN (len : Nat) : Nat := (len + 3) / 4 * 4

/-- The macro `RTA_LENGTH(len)`: `RTA_ALIGN(sizeof(struct rtattr)) + (len)`. -/
def RTA_LENGTH (len : Nat) : Nat := RTA_ALIGN sizeof_rtattr + len

/-- The macro `RTA_DATA(rta)`: `(char *) rta + RTA_LENGTH(0)`. -/
def RTA_DATA (a : Nat) : Nat := a + RTA_LENGTH 0

/-- The field `a->rta_len`. -/
def rta_len (m : Mem) (a : Nat) : Nat := ld16 m a

/-- The field `a->rta_type`. -/
def rta_type (m : Mem) (a : Nat) : Nat := ld16 m (a + 2)

/-- The macro `RTA_PAYLOAD(rta)`: `(int) rta->rta_len - RTA_LENGTH(0)`. It is only applied to
attributes that passed `RTA_OK` or that the builder wrote, whose `rta_len` is at least 4. -/
def RTA_PAYLOAD (m : Mem) (a : Nat) : Int := (rta_len m a : Int) - (RTA_LENGTH 0 : Nat)

/-- The macro `RTA_OK(rta, len)` for a signed `len`:
`len >= (int) sizeof(struct rtattr) && rta->rta_len >= sizeof(struct rtattr) && rta->rta_len <= len`. -/
def RTA_OK (m : Mem) (a : Nat) (len : Int) : Bool :=
  decide ((sizeof_rtattr : Int) ≤ len) && decide (sizeof_rtattr ≤ rta_len m a)
    && decide ((rta_len m a : Int) ≤ len)

/-- The macro `RTNH_ALIGN(len)`. -/
def RTNH_ALIGN (len : Nat) : Nat := (len + 3) / 4 * 4

/-- The macro `RTNH_LENGTH(len)`: `RTNH_ALIGN(sizeof(struct rtnexthop)) + (len)`. -/
def RTNH_LENGTH (len : Nat) : Nat := RTNH_ALIGN sizeof_rtnexthop + len

/-- The macro `RTNH_DATA(rtnh)`: `(char *) rtnh + RTNH_LENGTH(0)`. -/
def RTNH_DATA (nh : Nat) : Nat := nh + RTNH_LENGTH 0

/-- The macro `RTM_RTA(r)`: `(char *) r + NLMSG_ALIGN(sizeof(struct rtmsg))`. -/
def RTM_RTA (r : Nat) : Nat := r + NLMSG_ALIGN sizeof_rtmsg

/-! ## Netlink attributes: check-in and parsing -/

/-- The function `nl_checkin(h, lsize)`: the first component is the value it leaves in the
module variable `nl_attr_len` (`h->nlmsg_len - NLMSG_LENGTH(lsize)`, computed in `u32` and
converted to `int`), the second the returned pointer (`none` for `NULL`). -/
def nl_checkin (m : Mem) (h : Nat) (lsize : Nat) : Int × Option Nat :=
  let nl_attr_len := to_int32 ((nlmsg_len m h : Int) - (NLMSG_LENGTH lsize : Nat))
  if nl_attr_len < 0 then (nl_attr_len, none) else (nl_attr_len, some (NLMSG_DATA h))

/-- The descriptor `struct nl_want_attrs` of one attribute code. -/
structure nl_want_attrs where
  defined : Bool
  checksize : Bool
  size : Nat
deriving DecidableEq, Repr

/-- An entry of a descriptor table that has no initialiser (all zero). -/
def want_none : nl_want_attrs := ⟨false, false, 0⟩

/-- The capacity `BIRD_RTA_MAX` (`RTA_ENCAP + 1`) of the route tables and vectors. -/
def BIRD_RTA_MAX : Nat := RTA_ENCAP + 1

/-- The table `nexthop_attr_want4`. -/
def nexthop_attr_want4 (c : Nat) : nl_want_attrs :=
  if c = RTA_GATEWAY then ⟨true, true, 4⟩ else want_none

/-- The table `encap_mpls_want`. -/
def encap_mpls_want (c : Nat) : nl_want_attrs :=
  if c = RTA_DST then ⟨true, false, 0⟩ else want_none

/-- The table `rtm_attr_want4`. -/
def rtm_attr_want4 (c : Nat) : nl_want_attrs :=
  if c = RTA_DST then ⟨true, true, 4⟩
  else if c = RTA_OIF then ⟨true, true, 4⟩
  else if c = RTA_GATEWAY then ⟨true, true, 4⟩
  else if c = RTA_PRIORITY then ⟨true, true, 4⟩
  else if c = RTA_PREFSRC then ⟨true, true, 4⟩
  else if c = RTA_METRICS then ⟨true, false, 0⟩
  else if c = RTA_MULTIPATH then ⟨true, false, 0⟩
  else if c = RTA_FLOW then ⟨true, true, 4⟩
  else if c = RTA_TABLE then ⟨true, true, 4⟩
  else if c = RTA_ENCAP_TYPE then ⟨true, true, 2⟩
  else if c = RTA_ENCAP then ⟨true, false, 0⟩
  else want_none

/-- The table `rtm_attr_want6`. -/
def rtm_attr_want6 (c : Nat) : nl_want_attrs :=
  if c = RTA_DST then ⟨true, true, 16⟩
  else if c = RTA_IIF then ⟨true, true, 4⟩
  else if c = RTA_OIF then ⟨true, true, 4⟩
  else if c = RTA_GATEWAY then ⟨true, true, 16⟩
  else if c = RTA_PRIORITY then ⟨true, true, 4⟩
  else if c = RTA_PREFSRC then ⟨true, true, 16⟩
  else if c = RTA_METRICS then ⟨true, false, 0⟩
  else if c = RTA_FLOW then ⟨true, true, 4⟩
  else if c = RTA_TABLE then ⟨true, true, 4⟩
  else if c = RTA_ENCAP_TYPE then ⟨true, true, 2⟩
  else if c = RTA_ENCAP then ⟨true, false, 0⟩
  else want_none

/-- The table `rtm_attr_want_mpls`. -/
def rtm_attr_want_mpls (c : Nat) : nl_want_attrs :=
  if c = RTA_DST then ⟨true, true, 4⟩
  else if c = RTA_IIF then ⟨true, true, 4⟩
  else if c = RTA_OIF then ⟨true, true, 4⟩
  else if c = RTA_PRIORITY then ⟨true, true, 4⟩
  else if c = RTA_METRICS then ⟨true, false, 0⟩
  else if c = RTA_FLOW then ⟨true, true, 4⟩
  else if c = RTA_TABLE then ⟨true, true, 4⟩
  else if c = RTA_VIA then ⟨true, false, 0⟩
  else if c = RTA_NEWDST then ⟨true, false, 0⟩
  else want_none

/-- The sparse attribute vector `struct rtattr *k[]`: the pointer stored in each slot. -/
abbrev AttrVec := Nat → Option Nat

/-- The vector after `bzero(k, ksize)`. -/
def k_zero : AttrVec := fun _ => none

/-- The assignment `k[t] = a`. -/
def k_set (k : AttrVec) (t a : Nat) : AttrVec := fun i => if i = t then some a else k i

/-- What `nl_parse_attrs` leaves behind: its return value (1 accept, 0 reject), the vector `k`
and the module variable `nl_attr_len`. -/
structure ParseAttrs where
  ret : Nat
  k : AttrVec
  nl_attr_len : Int

/-- The end of `nl_parse_attrs`, after the loop: `if (nl_attr_len) return 0; return 1;`. -/
def nl_parse_attrs_end (k : AttrVec) (len : Int) : ParseAttrs :=
  if len ≠ 0 then ⟨0, k, len⟩ else ⟨1, k, len⟩

/-- The loop of `nl_parse_attrs`, `for ( ; RTA_OK(a, nl_attr_len); a = RTA_NEXT(a, nl_attr_len))`,
followed by the end of the function. `max` is `ksize / sizeof(struct rtattr *)`, the number of
slots of `k`. `RTA_NEXT` subtracts `RTA_ALIGN(a->rta_len)` from the length, which stays above
`-4` because `RTA_OK` held. The first argument bounds the number of iterations; every iteration
lowers the length by at least 4, so `nl_attr_len` iterations always suffice. -/
def nl_parse_attrs_loop (m : Mem) (want : Nat → nl_want_attrs) (max : Nat) :
    Nat → Nat → Int → AttrVec → ParseAttrs
  | 0, _, len, k => nl_parse_attrs_end k len
  | fuel + 1, a, len, k =>
    if RTA_OK m a len then
      if max ≤ rta_type m a || !(want (rta_type m a)).defined then
        nl_parse_attrs_loop m want max fuel (a + RTA_ALIGN (rta_len m a))
          (len - (RTA_ALIGN (rta_len m a) : Nat)) k
      else if (want (rta_type m a)).checksize
          && decide (RTA_PAYLOAD m a ≠ ((want (rta_type m a)).size : Nat)) then
        ⟨0, k, len⟩
      else
        nl_parse_attrs_loop m want max fuel (a + RTA_ALIGN (rta_len m a))
          (len - (RTA_ALIGN (rta_len m a) : Nat)) (k_set k (rta_type m a) a)
    else nl_parse_attrs_end k len

/-- The function `nl_parse_attrs(a, want, k, ksize)`, run with the module variable
`nl_attr_len` holding `nl_attr_len` on entry. -/
def nl_parse_attrs (m : Mem) (a : Nat) (want : Nat → nl_want_attrs) (max : Nat)
    (nl_attr_len : Int) : ParseAttrs :=
  nl_parse_attrs_loop m want max nl_attr_len.toNat a nl_attr_len k_zero

/-- The loop heads `(a, nl_attr_len)` that the walk of `nl_parse_attrs` passes through, in
order: the state at every evaluation of the loop condition `RTA_OK(a, nl_attr_len)`. -/
def nl_parse_attrs_walk (m : Mem) (want : Nat → nl_want_attrs) (max : Nat) :
    Nat → Nat → Int → List (Nat × Int)
  | 0, a, len => [(a, len)]
  | fuel + 1, a, len =>
    if RTA_OK m a len then
      if max ≤ rta_type m a || !(want (rta_type m a)).defined then
        (a, len) :: nl_parse_attrs_walk m want max fuel (a + RTA_ALIGN (rta_len m a))
          (len - (RTA_ALIGN (rta_len m a) : Nat))
      else if (want (rta_type m a)).checksize
          && decide (RTA_PAYLOAD m a ≠ ((want (rta_type m a)).size : Nat)) then
        [(a, len)]
      else
        (a, len) :: nl_parse_attrs_walk m want max fuel (a + RTA_ALIGN (rta_len m a))
          (len - (RTA_ALIGN (rta_len m a) : Nat))
    else [(a, len)]

/-! ## Netlink attributes: building -/

/-- The function `nl_add_attr(h, bufsize, code, data, dlen)`, `data` being the list of the
`dlen` bytes to copy. The result is `none` when it aborts through `bug()`, otherwise the new
memory and the returned pointer `a`. `pos`, `len` and their sum are `uint`; `rta_type` and
`rta_len` are 16-bit fields. -/
def nl_add_attr (m : Mem) (h bufsize code : Nat) (data : List Nat) : Option (Mem × Nat) :=
  let pos := u32 (NLMSG_ALIGN (nlmsg_len m h))
  let len := u32 (RTA_LENGTH data.length)
  if u32 (pos + len) > bufsize then none
  else
    let a := h + pos
    let m1 := st16 m (a + 2) code
    let m2 := st16 m1 a len
    let m3 := st32 m2 h (pos + len)
    let m4 := if data.length > 0 then memcpy m3 (RTA_DATA a) data else m3
    some (m4, a)

/-- The function `nl_open_attr(h, bufsize, code)`. -/
def nl_open_attr (m : Mem) (h bufsize code : Nat) : Option (Mem × Nat) :=
  nl_add_attr m h bufsize code []

/-- The function `nl_close_attr(h, a)`: `a->rta_len = (void *) h + h->nlmsg_len - (void *) a`. -/
def nl_close_attr (m : Mem) (h a : Nat) : Mem :=
  st16 m a (h + nlmsg_len m h - a)

/-- The bytes of a 16-bit value in host byte order. -/
def bytes_u16 (v : Nat) : List Nat := [v % 256, v / 256 % 256]

/-- The bytes of a 32-bit value in host byte order. -/
def bytes_u32 (v : Nat) : List Nat :=
  [v % 256, v / 256 % 256, v / 65536 % 256, v / 16777216 % 256]

/-- The bytes of a 32-bit value in network byte order. -/
def bytes_be32 (v : Nat) : List Nat :=
  [v / 16777216 % 256, v / 65536 % 256, v / 256 % 256, v % 256]

/-- The function `nl_add_attr_u16(h, bufsize, code, data)`. -/
def nl_add_attr_u16 (m : Mem) (h bufsize code data : Nat) : Option Mem :=
  (nl_add_attr m h bufsize code (bytes_u16 data)).map Prod.fst

/-- The function `nl_add_attr_u32(h, bufsize, code, data)`. -/
def nl_add_attr_u32 (m : Mem) (h bufsize code data : Nat) : Option Mem :=
  (nl_add_attr m h bufsize code (bytes_u32 data)).map Prod.fst

/-- Modelled from the spec: the address types of `lib/ip.h`, which is not under src/. An
`ip_addr` is an IPv4 address (a 32-bit value) or an IPv6 address (a 128-bit value); on the
wire addresses are in network byte order. -/
inductive ip_addr where
  | ip4 (a : Nat)
  | ip6 (a : Nat)
deriving DecidableEq, Repr

/-- Modelled from the spec: `IPA_NONE` of `lib/ip.h`, the all-zero address. -/
def IPA_NONE : ip_addr := .ip6 0

/-- Modelled from the spec: `ipa_is_ip4` of `lib/ip.h`. -/
def ipa_is_ip4 : ip_addr → Bool
  | .ip4 _ => true
  | .ip6 _ => false

/-- Modelled from the spec: `ipa_nonzero` of `lib/ip.h`: the address is present, that is, it
is not `IPA_NONE` (§3.5: a gateway may be absent). -/
def ipa_nonzero (a : ip_addr) : Bool := a != IPA_NONE

/-- Modelled from the spec: the 4 bytes of `ip4_hton(ip4)`, network byte order. -/
def ip4_hton_bytes (a : Nat) : List Nat := bytes_be32 a

/-- Modelled from the spec: the 16 bytes of `ip6_hton(ip6)`, network byte order. -/
def ip6_hton_bytes (a : Nat) : List Nat :=
  bytes_be32 (a / 2 ^ 96 % 2 ^ 32) ++ bytes_be32 (a / 2 ^ 64 % 2 ^ 32)
    ++ bytes_be32 (a / 2 ^ 32 % 2 ^ 32) ++ bytes_be32 (a % 2 ^ 32)

/-- The function `nl_add_attr_ip4(h, bufsize, code, ip4)`. -/
def nl_add_attr_ip4 (m : Mem) (h bufsize code ip4 : Nat) : Option Mem :=
  (nl_add_attr m h bufsize code (ip4_hton_bytes ip4)).map Prod.fst

/-- The function `nl_add_attr_ip6(h, bufsize, code, ip6)`. -/
def nl_add_attr_ip6 (m : Mem) (h bufsize code ip6 : Nat) : Option Mem :=
  (nl_add_attr m h bufsize code (ip6_hton_bytes ip6)).map Prod.fst

/-- The function `nl_add_attr_ipa(h, bufsize, code, ipa)`. -/
def nl_add_attr_ipa (m : Mem) (h bufsize code : Nat) : ip_addr → Option Mem
  | .ip4 a => nl_add_attr_ip4 m h bufsize code a
  | .ip6 a => nl_add_attr_ip6 m h bufsize code a

/-- Modelled from the spec: `mpls_put` of `lib/mpls.h`, which is not under src/: the label
stack as packed 32-bit entries in network byte order, the label in the high 20 bits and the
bottom-of-stack bit on the last entry. -/
def mpls_put : List Nat → List Nat
  | [] => []
  | [l] => bytes_be32 (u32 (l * 4096) ||| 0x100)
  | l :: ls => bytes_be32 (u32 (l * 4096)) ++ mpls_put ls

/-- The function `nl_add_attr_mpls(h, bufsize, code, len, stack)`, the stack being given as the
list of its `len` labels. -/
def nl_add_attr_mpls (m : Mem) (h bufsize code : Nat) (stack : List Nat) : Option Mem :=
  (nl_add_attr m h bufsize code (mpls_put stack)).map Prod.fst

/-- The function `nl_add_attr_mpls_encap(h, bufsize, len, stack)`. -/
def nl_add_attr_mpls_encap (m : Mem) (h bufsize : Nat) (stack : List Nat) : Option Mem :=
  match nl_open_attr m h bufsize RTA_ENCAP with
  | none => none
  | some (m1, nest) =>
    match nl_add_attr_mpls m1 h bufsize RTA_DST stack with
    | none => none
    | some m2 => nl_add_attr_u16 (nl_close_attr m2 h nest) h bufsize RTA_ENCAP_TYPE LWTUNNEL_ENCAP_MPLS

/-- The function `nl_add_attr_via(h, bufsize, ipa)`. After `nl_open_attr` it advances
`h->nlmsg_len` by `sizeof(struct rtvia)` and by the address size, and stores the family and
the address, with no further test against `bufsize`. -/
def nl_add_attr_via (m : Mem) (h bufsize : Nat) (ipa : ip_addr) : Option Mem :=
  match nl_open_attr m h bufsize RTA_VIA with
  | none => none
  | some (m1, nest) =>
    let via := RTA_DATA nest
    let m2 := st32 m1 h (nlmsg_len m1 h + sizeof_rtvia)
    match ipa with
    | .ip4 a =>
      let m3 := st16 m2 via AF_INET
      let m4 := memcpy m3 (via + sizeof_rtvia) (ip4_hton_bytes a)
      let m5 := st32 m4 h (nlmsg_len m4 h + 4)
      some (nl_close_attr m5 h nest)
    | .ip6 a =>
      let m3 := st16 m2 via AF_INET6
      let m4 := memcpy m3 (via + sizeof_rtvia) (ip6_hton_bytes a)
      let m5 := st32 m4 h (nlmsg_len m4 h + 16)
      some (nl_close_attr m5 h nest)

/-- The function `nl_open_nexthop(h, bufsize)`: `none` when it aborts through `bug()`, otherwise
the new memory and the returned pointer. -/
def nl_open_nexthop (m : Mem) (h bufsize : Nat) : Option (Mem × Nat) :=
  let pos := u32 (NLMSG_ALIGN (nlmsg_len m h))
  let len := RTNH_LENGTH 0
  if u32 (pos + len) > bufsize then none
  else some (st32 m h (pos + len), h + pos)

/-- The function `nl_close_nexthop(h, nh)`. -/
def nl_close_nexthop (m : Mem) (h nh : Nat) : Mem :=
  st16 m nh (h + nlmsg_len m h - nh)

/-! ## Building a message and parsing it back -/

/-- Appending the attributes `(code, payload bytes)` of a list, in order, with `nl_add_attr`;
`none` when one of the calls aborts through `bug()`. -/
def nl_add_attrs (m : Mem) (h bufsize : Nat) : List (Nat × List Nat) → Option Mem
  | [] => some m
  | (code, data) :: rest =>
    match nl_add_attr m h bufsize code data with
    | none => none
    | some (m1, _) => nl_add_attrs m1 h bufsize rest

/-- The room a list of attributes takes when every attribute is padded to 4 bytes:
the sum of `RTA_ALIGN(RTA_LENGTH(dlen))`. -/
def attrs_space : List (Nat × List Nat) → Nat
  | [] => 0
  | (_, d) :: rest => RTA_ALIGN (RTA_LENGTH d.length) + attrs_space rest

/-- The length `nl_add_attr` gives to a list of attributes: every attribute but the last is
padded to 4 bytes, the last one is not. -/
def attrs_len : List (Nat × List Nat) → Nat
  | [] => 0
  | [(_, d)] => RTA_LENGTH d.length
  | (_, d) :: rest => RTA_ALIGN (RTA_LENGTH d.length) + attrs_len rest

/-- The memory holds, from address `a` on, the attributes of the list one after the other:
each header with its length and code, its payload bytes, and the next one at the aligned
distance. -/
def attrs_at (m : Mem) : Nat → List (Nat × List Nat) → Prop
  | _, [] => True
  | a, (c, d) :: rest =>
    rta_len m a = RTA_LENGTH d.length ∧ rta_type m a = c
      ∧ (∀ i, i < d.length → m (RTA_DATA a + i) = d.getD i 0)
      ∧ attrs_at m (a + RTA_ALIGN (RTA_LENGTH d.length)) rest

/-- The vector in which every attribute of the list, laid out from address `a` on, has been
stored in the slot of its code. -/
def attrs_vec (k : AttrVec) : Nat → List (Nat × List Nat) → AttrVec
  | _, [] => k
  | a, (c, d) :: rest => attrs_vec (k_set k c a) (a + RTA_ALIGN (RTA_LENGTH d.length)) rest

/-- A message at address 0 that holds only its header and the fixed route payload. -/
def route_msg_empty : Mem := st32 (fun _ => 0) 0 (NLMSG_LENGTH sizeof_rtmsg)

/-! ## Daemon types used by the route encoder and decoder

The declarations of `nest/route.h`, `nest/iface.h`, `lib/net.h`, `lib/ip.h`, `lib/mpls.h` and
`sysdep/unix/krt.h` are not part of `netlink.c`; the types below carry the fields that
`netlink.c` reads and writes. -/

/-- Modelled from the spec: `struct iface` of `nest/iface.h` (§3.3): name, kernel index, MTU
and flags. -/
structure iface where
  name : List Nat := []
  index : Nat := 0
  mtu : Nat := 0
  flags : Nat := 0
deriving DecidableEq, Repr

/-- Modelled from the spec: `net_addr` of `lib/net.h` (§3.5): a destination is an IPv4 or IPv6
network with its length, or an MPLS label. -/
inductive net_addr where
  | ip4 (addr pxlen : Nat)
  | ip6 (addr pxlen : Nat)
  | mpls (label : Nat)
deriving DecidableEq, Repr

/-- Modelled from the spec: `net_pxlen` of `lib/net.h`, the length of the destination. -/
def net_pxlen : net_addr → Nat
  | .ip4 _ l => l
  | .ip6 _ l => l
  | .mpls _ => 0

/-- Modelled from the spec: `net_prefix` of `lib/net.h`, the network address of an IP
destination. -/
def net_pfx : net_addr → ip_addr
  | .ip4 a _ => .ip4 a
  | .ip6 a _ => .ip6 a
  | .mpls _ => IPA_NONE

/-- Modelled from the spec: `net_mpls` of `lib/net.h`, the label of an MPLS destination. -/
def net_mpls : net_addr → Nat
  | .mpls l => l
  | _ => 0

/-- Modelled from the spec: the route dispositions `RTD_*` of `nest/route.h` (§3.5); `NONE`
stands for every other value of `a->dest`. -/
inductive rtd where
  | NONE
  | UNICAST
  | BLACKHOLE
  | UNREACHABLE
  | PROHIBIT
deriving DecidableEq, Repr

/-- Modelled from the spec: `struct nexthop` of `nest/route.h` (§3.5) without its `next`
pointer: gateway, interface (`none` for `NULL`), weight, and the label stack with its
count `labels`. These are the fields that `netlink.c` reads and writes; it stores no on-link
flag in a next-hop (`RTNH_F_ONLINK` only selects the flag passed to `neigh_find2`, and
`nl_add_multipath` writes `rtnh_flags = 0`). -/
structure nexthop where
  gw : ip_addr := IPA_NONE
  iface : Option iface := none
  weight : Nat := 0
  labels : Int := 0
  label : List Nat := []
deriving DecidableEq, Repr

/-- Modelled from the spec: the identifiers of the extended attributes `netlink.c` uses, from
`sysdep/linux/krt-sys.h`: `EA_KRT_METRIC`, `EA_KRT_PREFSRC`, `EA_KRT_REALM`, and
`EA_KRT_METRICS + t`, which is `EA_CODE(EAP_KRT, KRT_METRICS_OFFSET + t)`. -/
inductive ea_code where
  | KRT_METRIC
  | KRT_PREFSRC
  | KRT_REALM
  | KRT_METRICS (t : Nat)
deriving DecidableEq, Repr

/-- Modelled from the spec: the value of an extended attribute: `u.data` for an integer,
or the address stored in `u.ptr->data` for `EAF_TYPE_IP_ADDRESS`. -/
inductive ea_value where
  | data (v : Nat)
  | ip (a : ip_addr)
deriving DecidableEq, Repr

/-- Modelled from the spec: `eattr` of `nest/route.h`. -/
structure eattr where
  id : ea_code
  u : ea_value
deriving DecidableEq, Repr

/-- Modelled from the spec: `KRT_METRICS_MAX` of `sysdep/linux/krt-sys.h`, the number of
slots of a metrics vector (§6.6: slot 0 and the metrics 1..15). -/
def KRT_METRICS_MAX : Nat := 16

/-- Modelled from the spec: `MPLS_MAX_LABEL_STACK` of `lib/mpls.h`. -/
def MPLS_MAX_LABEL_STACK : Nat := 8

/-- Modelled from the spec: `struct rta` of `nest/route.h`: disposition, first next-hop `nh`,
the next-hops linked after it (`nh.next`), and the extended attribute lists, newest first. -/
structure rta where
  dest : rtd := .NONE
  nh : nexthop := {}
  nh_next : List nexthop := []
  eattrs : List (List eattr) := []
deriving DecidableEq, Repr

/-- Modelled from the spec: the source classification `KRT_SRC_*` of `sysdep/unix/krt.h`. -/
inductive krt_src where
  | BIRD
  | REDIRECT
  | ALIEN
  | KERNEL
deriving DecidableEq, Repr

/-- Modelled from the spec: `struct krt_proto`: the address family `af`, the configured
kernel table id, and a name that tells instances apart. -/
structure krt_proto where
  af : Nat
  table_id : Nat
  name : Nat := 0
deriving DecidableEq, Repr

/-- The function `krt_table_id(p)`. -/
def krt_table_id (p : krt_proto) : Nat := p.table_id

/-- Modelled from the spec: `rte` of `nest/route.h` with the `u.krt` fields that `netlink.c`
sets: the network `net->n.addr`, the attributes, and source, protocol tag and metric. -/
structure rte where
  net : net_addr
  attrs : rta
  krt_src : krt_src := .ALIEN
  krt_proto : Nat := 0
  krt_seen : Nat := 0
  krt_best : Nat := 0
  krt_metric : Nat := 0
deriving DecidableEq, Repr

/-- Modelled from the spec: `neighbor` of `nest/iface.h`, of which only the scope is read. -/
structure neighbor where
  scope : Int
deriving DecidableEq, Repr

/-- Modelled from the spec: scope and class constants of `lib/ip.h`. -/
def SCOPE_HOST : Int := 0

/-- Modelled from the spec: scope and class constants of `lib/ip.h`. -/
def SCOPE_LINK : Int := 1

/-- Modelled from the spec: scope and class constants of `lib/ip.h`. -/
def IADDR_SCOPE_MASK : Nat := 0xfff

/-- Modelled from the spec: scope and class constants of `lib/ip.h`. -/
def IADDR_HOST : Nat := 0x1000

/-- The daemon services that the route decoder calls, and the contents of the storage it
reads without having written it. -/
structure Daemon where
  /-- The registry `nl_table_map`, as the list of registered protocols. -/
  nl_table_map : List krt_proto
  /-- The function `net_classify`. -/
  net_classify : net_addr → Int
  /-- The function `if_find_by_index`. -/
  if_find_by_index : Nat → Option iface
  /-- The function `neigh_find2(p, gw, iface, flags)`; the last argument tells whether
  `NEF_ONLINK` is passed. -/
  neigh_find2 : krt_proto → ip_addr → iface → Bool → Option neighbor
  /-- The contents of the local variable `dst` when nothing was stored in it. -/
  dst_uninit : net_addr
  /-- The contents of the scratch arena `nh_buffer` before the call. -/
  nh_buffer : Nat → nexthop

/-- The lookup `HASH_FIND(nl_table_map, RTH, af, id)`, with `RTH_EQ` comparing the family and
the table id. -/
def HASH_FIND (map : List krt_proto) (af id : Nat) : Option krt_proto :=
  map.find? (fun p => p.af == af && krt_table_id p == id)

/-! ## Attribute value readers -/

/-- Load of a 32-bit value in network byte order (`get_u32` of `lib/unaligned.h`). -/
def get_u32 (m : Mem) (a : Nat) : Nat :=
  16777216 * ld8 m a + 65536 * ld8 m (a + 1) + 256 * ld8 m (a + 2) + ld8 m (a + 3)

/-- The function `rta_get_u32(a)`. -/
def rta_get_u32 (m : Mem) (a : Nat) : Nat := ld32 m (RTA_DATA a)

/-- The function `rta_get_ip4(a)`: the 4 payload bytes in network byte order. -/
def rta_get_ip4 (m : Mem) (a : Nat) : Nat := get_u32 m (RTA_DATA a)

/-- The 16 bytes at an address as an IPv6 address, network byte order. -/
def ld_ip6 (m : Mem) (a : Nat) : Nat :=
  2 ^ 96 * get_u32 m a + 2 ^ 64 * get_u32 m (a + 4) + 2 ^ 32 * get_u32 m (a + 8)
    + get_u32 m (a + 12)

/-- The function `rta_get_ip6(a)`. -/
def rta_get_ip6 (m : Mem) (a : Nat) : Nat := ld_ip6 m (RTA_DATA a)

/-- The function `rta_get_ipa(a)`. -/
def rta_get_ipa (m : Mem) (a : Nat) : ip_addr :=
  if RTA_PAYLOAD m a = 4 then .ip4 (rta_get_ip4 m a) else .ip6 (rta_get_ip6 m a)

/-- The function `rta_get_via(a)`. -/
def rta_get_via (m : Mem) (a : Nat) : ip_addr :=
  let v := RTA_DATA a
  if ld16 m v = AF_INET then .ip4 (get_u32 m (v + sizeof_rtvia))
  else if ld16 m v = AF_INET6 then .ip6 (ld_ip6 m (v + sizeof_rtvia))
  else IPA_NONE

/-- Modelled from the spec: `mpls_get(buf, buflen, stack)` of `lib/mpls.h`, which is not under
src/: it reads packed 32-bit entries in network byte order, the label in the high 20 bits,
up to the entry with the bottom-of-stack bit, and returns the number of labels; it returns
-1 when no such entry lies within `buflen` bytes and `MPLS_MAX_LABEL_STACK` entries. The
second component is what it stored in `stack`. The first argument counts the entries left. -/
def mpls_get (m : Mem) (buf : Nat) (buflen : Int) : Nat → Nat → List Nat → Int × List Nat
  | 0, _, stack => (-1, stack)
  | n + 1, i, stack =>
    if ((i * 4 + 3 : Nat) : Int) < buflen then
      let s := get_u32 m (buf + i * 4)
      if s / 256 % 2 = 1 then ((i + 1 : Nat), stack ++ [s / 4096])
      else mpls_get m buf buflen n (i + 1) (stack ++ [s / 4096])
    else (-1, stack)

/-- The function `rta_get_mpls(a, stack)`: `mpls_get(RTA_DATA(a), RTA_PAYLOAD(a) & ~0x3, stack)`. -/
def rta_get_mpls (m : Mem) (a : Nat) : Int × List Nat :=
  mpls_get m (RTA_DATA a) (RTA_PAYLOAD m a / 4 * 4) MPLS_MAX_LABEL_STACK 0 []

/-! ## Route decoder -/

/-- What `nl_parse_route` did with a message. -/
inductive RouteOutcome where
  /-- It returned without calling `krt_got_route` or `krt_got_route_async`; the argument is
  the destination passed to `net_get`, `none` when it returned before looking a network up. -/
  | ignored (looked_up : Option net_addr)
  /-- It dereferenced a `NULL` attribute pointer. -/
  | null_deref
  /-- It called `krt_got_route(p, e)`. -/
  | got_route (p : krt_proto) (e : rte)
  /-- It called `krt_got_route_async(p, e, new)`. -/
  | got_route_async (p : krt_proto) (e : rte) (new : Bool)
deriving DecidableEq, Repr

/-- The loop of `nl_parse_metrics`, `for (; RTA_OK(a, len); a = RTA_NEXT(a, len))`, and the
end of the function: the return value (0 or -1) and the vector `metrics`. The first argument
bounds the number of iterations. -/
def nl_parse_metrics_loop (m : Mem) (max : Nat) : Nat → Nat → Int → (Nat → Nat) → Int × (Nat → Nat)
  | 0, _, len, metrics => (if len > 0 then -1 else 0, metrics)
  | fuel + 1, a, len, metrics =>
    if RTA_OK m a len then
      if rta_type m a = RTA_UNSPEC then
        nl_parse_metrics_loop m max fuel (a + RTA_ALIGN (rta_len m a))
          (len - (RTA_ALIGN (rta_len m a) : Nat)) metrics
      else if max ≤ rta_type m a then
        nl_parse_metrics_loop m max fuel (a + RTA_ALIGN (rta_len m a))
          (len - (RTA_ALIGN (rta_len m a) : Nat)) metrics
      else if RTA_PAYLOAD m a ≠ 4 then (-1, metrics)
      else
        nl_parse_metrics_loop m max fuel (a + RTA_ALIGN (rta_len m a))
          (len - (RTA_ALIGN (rta_len m a) : Nat))
          (fun i => if i = rta_type m a then rta_get_u32 m a
            else if i = 0 then u32 (metrics 0 ||| 1 <<< rta_type m a) else metrics i)
    else (if len > 0 then -1 else 0, metrics)

/-- The function `nl_parse_metrics(hdr, metrics, max)`; the vector starts with `metrics[0] = 0`. -/
def nl_parse_metrics (m : Mem) (hdr : Nat) (max : Nat) : Int × (Nat → Nat) :=
  nl_parse_metrics_loop m max (RTA_PAYLOAD m hdr).toNat (RTA_DATA hdr) (RTA_PAYLOAD m hdr)
    (fun _ => 0)

/-- The loop `while (len)` of `nl_parse_multipath`, as to its control flow and the values of
the next-hops: `none` for `return NULL` inside the loop, otherwise the list `first` of
next-hops (empty when `first` is still `NULL`). `used` is `nh_buf_used`, `acc` the next-hops
linked so far. The comparison `len < sizeof(*nh)` is unsigned, so it only holds for
`0 <= len < 8`. The first argument bounds the number of iterations. The growth of the scratch
arena (`nh_buf_size`, `xrealloc`) is left aside here; `nl_parse_multipath_arena_loop` is the
same loop with the arena, and the two agree whenever no block is released while a pointer
into it is held (`nl_parse_multipath_arena_loop_sound`). -/
def nl_parse_multipath_loop (d : Daemon) (m : Mem) (p : krt_proto) :
    Nat → Nat → Int → Nat → List nexthop → Option (List nexthop)
  | 0, _, _, _, _ => none
  | fuel + 1, nh, len, used, acc =>
    if len = 0 then some acc
    else if (0 ≤ len ∧ len < (sizeof_rtnexthop : Nat)) ∨ len < (ld16 m nh : Nat) then none
    else
      match d.if_find_by_index (ld32 m (nh + 4)) with
      | none => none
      | some ifa =>
        let pa := nl_parse_attrs m (RTNH_DATA nh) nexthop_attr_want4 BIRD_RTA_MAX
          ((ld16 m nh : Nat) - (RTNH_LENGTH 0 : Nat))
        match pa.k RTA_GATEWAY with
        | none => none
        | some g =>
          let gw := rta_get_ipa m g
          match d.neigh_find2 p gw ifa (ld8 m (nh + 2) &&& RTNH_F_ONLINK != 0) with
          | none => none
          | some nbr =>
            if nbr.scope = SCOPE_HOST then none
            else
              let rv : nexthop := { (d.nh_buffer used) with
                weight := ld8 m (nh + 3)
                iface := some ifa
                gw := gw }
              nl_parse_multipath_loop d m p fuel (nh + RTNH_ALIGN (ld16 m nh))
                (to_int32 (len - (NLMSG_ALIGN (ld16 m nh) : Nat))) (used + 1) (acc ++ [rv])

/-- The function `nl_parse_multipath(p, ra)`: `none` when it returns `NULL`, otherwise the
non-empty list of next-hops it returns; the scratch arena is left aside as in
`nl_parse_multipath_loop` (`nl_parse_multipath_arena` has it). -/
def nl_parse_multipath (d : Daemon) (m : Mem) (p : krt_proto) (ra : Nat) :
    Option (List nexthop) :=
  match nl_parse_multipath_loop d m p ((RTA_PAYLOAD m ra).toNat + 1) (RTA_DATA ra)
      (RTA_PAYLOAD m ra) 0 [] with
  | some (nh :: rest) => some (nh :: rest)
  | _ => none

/-- The fields of `struct rtmsg` at address `i`. -/
def rtm_family (m : Mem) (i : Nat) : Nat := ld8 m i

/-- The field `i->rtm_dst_len`. -/
def rtm_dst_len (m : Mem) (i : Nat) : Nat := ld8 m (i + 1)

/-- The field `i->rtm_tos`. -/
def rtm_tos (m : Mem) (i : Nat) : Nat := ld8 m (i + 3)

/-- The field `i->rtm_table`. -/
def rtm_table (m : Mem) (i : Nat) : Nat := ld8 m (i + 4)

/-- The field `i->rtm_protocol`. -/
def rtm_protocol (m : Mem) (i : Nat) : Nat := ld8 m (i + 5)

/-- The field `i->rtm_scope`. -/
def rtm_scope (m : Mem) (i : Nat) : Nat := ld8 m (i + 6)

/-- The field `i->rtm_type`. -/
def rtm_type (m : Mem) (i : Nat) : Nat := ld8 m (i + 7)

/-- The field `i->rtm_flags`. -/
def rtm_flags (m : Mem) (i : Nat) : Nat := ld32 m (i + 8)

/-- The end of `nl_parse_route`, from `rte_get_temp(ra)` on: metric, preferred source, realm
and metrics, then the delivery. -/
def nl_parse_route_deliver (m : Mem) (i : Nat) (scan new : Bool) (a : AttrVec)
    (p : krt_proto) (dst : net_addr) (src : krt_src) (ra : rta) : RouteOutcome :=
  let metric := match a RTA_PRIORITY with
    | some x => rta_get_u32 m x
    | none => 0
  let ra1 : rta := match a RTA_PREFSRC with
    | some x => { ra with eattrs := [⟨.KRT_PREFSRC, .ip (rta_get_ipa m x)⟩] :: ra.eattrs }
    | none => ra
  let ra2 : rta := match a RTA_FLOW with
    | some x => { ra1 with eattrs := [⟨.KRT_REALM, .data (rta_get_u32 m x)⟩] :: ra1.eattrs }
    | none => ra1
  let deliver (r : rta) : RouteOutcome :=
    let e : rte := { net := dst, attrs := r, krt_src := src, krt_proto := rtm_protocol m i,
                     krt_seen := 0, krt_best := 0, krt_metric := metric }
    if scan then .got_route p e else .got_route_async p e new
  match a RTA_METRICS with
  | none => deliver ra2
  | some x =>
    let pm := nl_parse_metrics m x KRT_METRICS_MAX
    if pm.1 < 0 then .ignored (some dst)
    else
      let ea := ((List.range KRT_METRICS_MAX).filter
          (fun t => decide (1 ≤ t) && (pm.2 0 &&& 1 <<< t != 0))).map
        (fun t => (⟨.KRT_METRICS t, .data (pm.2 t)⟩ : eattr))
      if ea.length > 0 then deliver { ra2 with eattrs := ea :: ra2.eattrs } else deliver ra2

/-- The part of `nl_parse_route` from the MPLS label stacks on (`RTA_NEWDST`, `RTA_ENCAP`),
after the switch on `i->rtm_type`. -/
def nl_parse_route_labels (m : Mem) (i : Nat) (scan new : Bool) (a : AttrVec)
    (p : krt_proto) (dst : net_addr) (src : krt_src) (ra : rta) : RouteOutcome :=
  let ra1 : rta :=
    match a RTA_NEWDST with
    | some x =>
      if rtm_family m i = AF_MPLS ∧ ra.nh_next = [] then
        { ra with nh := { ra.nh with labels := (rta_get_mpls m x).1, label := (rta_get_mpls m x).2 } }
      else ra
    | none => ra
  let finish (r : rta) : RouteOutcome :=
    nl_parse_route_deliver m i scan new a p dst src
      (if r.nh.labels < 0 then { r with nh := { r.nh with labels := 0 } } else r)
  match a RTA_ENCAP, a RTA_ENCAP_TYPE with
  | some enc, some ty =>
    if ra1.nh_next = [] then
      if ld16 m (RTA_DATA ty) = LWTUNNEL_ENCAP_MPLS then
        let enca := nl_parse_attrs m (RTA_DATA enc) encap_mpls_want BIRD_RTA_MAX
          (RTA_PAYLOAD m enc)
        match enca.k RTA_DST with
        | none => .null_deref
        | some x =>
          finish { ra1 with nh := { ra1.nh with labels := (rta_get_mpls m x).1,
                                                label := (rta_get_mpls m x).2 } }
      else .ignored (some dst)
    else finish ra1
  | _, _ => finish ra1

/-- The switch on `i->rtm_type` of `nl_parse_route`, which fills the disposition and the
next-hops of the route attributes. -/
def nl_parse_route_type (d : Daemon) (m : Mem) (i : Nat) (scan new : Bool) (a : AttrVec)
    (p : krt_proto) (dst : net_addr) (src : krt_src) (oif : Nat) : RouteOutcome :=
  let continue_ (ra : rta) : RouteOutcome := nl_parse_route_labels m i scan new a p dst src ra
  if rtm_type m i = RTN_UNICAST then
    let multipath := if rtm_family m i = AF_INET then a RTA_MULTIPATH else none
    match multipath with
    | some mp =>
      match nl_parse_multipath d m p mp with
      | some (nh :: rest) => continue_ { dest := .UNICAST, nh := nh, nh_next := rest }
      | _ => .ignored (some dst)
    | none =>
      match d.if_find_by_index oif with
      | none => .ignored (some dst)
      | some ifa =>
        let gwattr := if rtm_family m i ≠ AF_MPLS then a RTA_GATEWAY else a RTA_VIA
        match gwattr with
        | some g =>
          let gw := if rtm_family m i = AF_MPLS then rta_get_via m g else rta_get_ipa m g
          let sit := match gw with
            | .ip6 x => decide (rtm_family m i = AF_INET6) && decide (x / 2 ^ 32 = 0)
            | .ip4 _ => false
          if sit then .ignored (some dst)
          else
            match d.neigh_find2 p gw ifa (rtm_flags m i &&& RTNH_F_ONLINK != 0) with
            | none => .ignored (some dst)
            | some nbr =>
              if nbr.scope = SCOPE_HOST then .ignored (some dst)
              else continue_ { dest := .UNICAST, nh := { iface := some ifa, gw := gw } }
        | none => continue_ { dest := .UNICAST, nh := { iface := some ifa } }
  else if rtm_type m i = RTN_BLACKHOLE then continue_ { dest := .BLACKHOLE }
  else if rtm_type m i = RTN_UNREACHABLE then continue_ { dest := .UNREACHABLE }
  else if rtm_type m i = RTN_PROHIBIT then continue_ { dest := .PROHIBIT }
  else .ignored (some dst)

/-- The part of `nl_parse_route` after the per-family attribute parse: interface and table
id, the registry lookup, the skip conditions and the source classification. -/
def nl_parse_route_checks (d : Daemon) (m : Mem) (i : Nat) (scan new : Bool) (a : AttrVec)
    (dst : net_addr) : RouteOutcome :=
  let oif := match a RTA_OIF with
    | some x => rta_get_u32 m x
    | none => 0xFFFFFFFF
  let table_id := match a RTA_TABLE with
    | some x => rta_get_u32 m x
    | none => rtm_table m i
  match HASH_FIND d.nl_table_map (rtm_family m i) table_id with
  | none => .ignored none
  | some p =>
    if (a RTA_IIF).isSome then .ignored none
    else if rtm_tos m i ≠ 0 then .ignored none
    else if scan && !new then .ignored none
    else
      let c := d.net_classify dst
      if c < 0 ∨ c.toNat &&& IADDR_HOST = 0 ∨ ((c.toNat &&& IADDR_SCOPE_MASK : Nat) : Int) ≤ SCOPE_LINK
      then .ignored none
      else if rtm_protocol m i = RTPROT_UNSPEC then .ignored none
      else if rtm_protocol m i = RTPROT_REDIRECT then
        nl_parse_route_type d m i scan new a p dst .REDIRECT oif
      else if rtm_protocol m i = RTPROT_KERNEL then .ignored none
      else if rtm_protocol m i = RTPROT_BIRD then
        if !scan then .ignored none
        else nl_parse_route_type d m i scan new a p dst .BIRD oif
      else nl_parse_route_type d m i scan new a p dst .ALIEN oif

/-- The function `nl_parse_route(h, scan)`. -/
def nl_parse_route (d : Daemon) (m : Mem) (h : Nat) (scan : Bool) : RouteOutcome :=
  let new := nlmsg_type m h == RTM_NEWROUTE
  match nl_checkin m h sizeof_rtmsg with
  | (_, none) => .ignored none
  | (nl_attr_len, some i) =>
    if rtm_family m i = AF_INET then
      let pa := nl_parse_attrs m (RTM_RTA i) rtm_attr_want4 BIRD_RTA_MAX nl_attr_len
      if pa.ret = 0 then .ignored none
      else
        match pa.k RTA_DST with
        | some x => nl_parse_route_checks d m i scan new pa.k (.ip4 (rta_get_ip4 m x) (rtm_dst_len m i))
        | none => nl_parse_route_checks d m i scan new pa.k (.ip4 0 0)
    else if rtm_family m i = AF_INET6 then
      let pa := nl_parse_attrs m (RTM_RTA i) rtm_attr_want6 BIRD_RTA_MAX nl_attr_len
      if pa.ret = 0 then .ignored none
      else
        match pa.k RTA_DST with
        | some x => nl_parse_route_checks d m i scan new pa.k (.ip6 (rta_get_ip6 m x) (rtm_dst_len m i))
        | none => nl_parse_route_checks d m i scan new pa.k (.ip6 0 0)
    else if rtm_family m i = AF_MPLS then
      let pa := nl_parse_attrs m (RTM_RTA i) rtm_attr_want_mpls BIRD_RTA_MAX nl_attr_len
      if pa.ret = 0 then .ignored none
      else
        match pa.k RTA_DST with
        | some x =>
          if (rta_get_mpls m x).1 = 1 then
            nl_parse_route_checks d m i scan new pa.k (.mpls ((rta_get_mpls m x).2.getD 0 0))
          else nl_parse_route_checks d m i scan new pa.k d.dst_uninit
        | none => .ignored none
    else .ignored none

/-- At the loop head `(a, r)` of the walk stands an attribute whose code is below `max`,
defined and size-checked in the table, and whose payload length differs from the expected
size. -/
def attr_size_mismatch (m : Mem) (want : Nat → nl_want_attrs) (max : Nat) (a : Nat) (r : Int) :
    Prop :=
  RTA_OK m a r = true ∧ rta_type m a < max ∧ (want (rta_type m a)).defined = true
    ∧ (want (rta_type m a)).checksize = true
    ∧ RTA_PAYLOAD m a ≠ ((want (rta_type m a)).size : Nat)

instance (m : Mem) (want : Nat → nl_want_attrs) (max : Nat) (a : Nat) (r : Int) :
    Decidable (attr_size_mismatch m want max a r) := by
  unfold attr_size_mismatch
  infer_instance

/-- A daemon state for examples: one protocol registered for (IPv4, table 254) and one for
(IPv6, table 254), the interface `eth0` with index 2, every destination classified as a host
address of universe scope, and every gateway a neighbor of universe scope. -/
def example_daemon : Daemon where
  nl_table_map := [{ af := AF_INET, table_id := 254, name := 1 },
                   { af := AF_INET6, table_id := 254, name := 2 }]
  net_classify := fun _ => 0x1004
  if_find_by_index := fun i =>
    if i = 2 then some { name := [101, 116, 104, 48], index := 2 } else none
  neigh_find2 := fun _ _ _ _ => some ⟨4⟩
  dst_uninit := .ip4 0 0
  nh_buffer := fun _ => {}

/-- An IPv4 `RTM_NEWROUTE` message for `10.0.0.0/24 dev 2`, table 254, whose `RTA_GATEWAY`
attribute has `rta_len = 7`, a payload of 3 bytes. -/
def route_msg_short_gateway : Mem :=
  mem_of_list [52, 0, 0, 0, 24, 0, 0, 0, 0, 0, 0, 0, 0, 0, 0, 0,
    2, 24, 0, 0, 254, 3, 0, 1, 0, 0, 0, 0,
    8, 0, 1, 0, 10, 0, 0, 0,
    8, 0, 4, 0, 2, 0, 0, 0,
    7, 0, 5, 0, 192, 0, 2, 0]

/-! ## Route encoder -/

/-- The ways a builder stops without returning: `bug()` aborts the process; a dereference of
a `NULL` pointer. -/
inductive Abort where
  | bug
  | null_deref
deriving DecidableEq, Repr

/-- The result of a builder that aborts through `bug()` when it returns `none`. -/
def or_bug {α : Type} : Option α → Except Abort α
  | some x => .ok x
  | none => .error .bug

/-- The loop of `nl_add_multipath`, `for (; nh; nh = nh->next)`. -/
def nl_add_multipath_loop (h bufsize : Nat) : Mem → List nexthop → Except Abort Mem
  | m, [] => .ok m
  | m, nh :: rest =>
    match nl_open_nexthop m h bufsize with
    | none => .error .bug
    | some (m1, rtnh) =>
      let m2 := st8 m1 (rtnh + 2) 0
      let m3 := st8 m2 (rtnh + 3) nh.weight
      match nh.iface with
      | none => .error .null_deref
      | some ifa =>
        let m4 := st32 m3 (rtnh + 4) ifa.index
        match nl_add_attr_ipa m4 h bufsize RTA_GATEWAY nh.gw with
        | none => .error .bug
        | some m5 => nl_add_multipath_loop h bufsize (nl_close_nexthop m5 h rtnh) rest

/-- The function `nl_add_multipath(h, bufsize, nh)`, the chain of next-hops given as a list. -/
def nl_add_multipath (m : Mem) (h bufsize : Nat) (nhs : List nexthop) : Except Abort Mem :=
  match nl_open_attr m h bufsize RTA_MULTIPATH with
  | none => .error .bug
  | some (m1, a) =>
    match nl_add_multipath_loop h bufsize m1 nhs with
    | .error e => .error e
    | .ok m2 => .ok (nl_close_attr m2 h a)

/-- The loop of `nl_add_metrics`, `for (t = 1; t < max; t++)`, over the remaining values of
`t`. -/
def nl_add_metrics_loop (h bufsize : Nat) (metrics : Nat → Nat) : Mem → List Nat → Option Mem
  | m, [] => some m
  | m, t :: rest =>
    if metrics 0 &&& 1 <<< t != 0 then
      match nl_add_attr_u32 m h bufsize t (metrics t) with
      | none => none
      | some m1 => nl_add_metrics_loop h bufsize metrics m1 rest
    else nl_add_metrics_loop h bufsize metrics m rest

/-- The function `nl_add_metrics(h, bufsize, metrics, max)`. -/
def nl_add_metrics (m : Mem) (h bufsize : Nat) (metrics : Nat → Nat) (max : Nat) : Option Mem :=
  match nl_open_attr m h bufsize RTA_METRICS with
  | none => none
  | some (m1, a) =>
    match nl_add_metrics_loop h bufsize metrics m1 ((List.range max).filter (fun t => 1 ≤ t)) with
    | none => none
    | some m2 => some (nl_close_attr m2 h a)

/-- The function `krt_capable(e)`, on the attributes of `e`. -/
def krt_capable (a : rta) : Nat :=
  match a.dest with
  | .UNICAST => if (a.nh :: a.nh_next).any (fun nh => nh.iface.isSome) then 1 else 0
  | .BLACKHOLE => 1
  | .UNREACHABLE => 1
  | .PROHIBIT => 1
  | .NONE => 0

/-- The function `nh_bufsize(nh)`: `RTNH_LENGTH(RTA_LENGTH(sizeof(ip_addr)))` for every
next-hop of the chain, `sizeof(ip_addr)` being 16. -/
def nh_bufsize (nhs : List nexthop) : Nat :=
  nhs.length * RTNH_LENGTH (RTA_LENGTH 16)

/-- Modelled from the spec: `ea_find(eattrs, id)` of `nest/rt-attr.c`, which is not under src/:
the first attribute with the given identifier. -/
def ea_find (eattrs : List eattr) (id : ea_code) : Option eattr :=
  eattrs.find? (fun ea => ea.id = id)

/-- Modelled from the spec: the attributes that successive calls of
`ea_walk(&ews, EA_KRT_METRICS, KRT_METRICS_MAX)` of `nest/rt-attr.c` return: the first
occurrence of every identifier `EA_KRT_METRICS + t` with `t < KRT_METRICS_MAX`. The result
pairs `t` with the attribute. -/
def ea_walk_metrics : List eattr → List (Nat × eattr)
  | [] => []
  | ea :: rest =>
    match ea.id with
    | .KRT_METRICS t =>
      if t < KRT_METRICS_MAX then
        (t, ea) :: (ea_walk_metrics rest).filter (fun x => x.1 ≠ t)
      else ea_walk_metrics rest
    | _ => ea_walk_metrics rest

/-- The integer `ea->u.data` of an attribute. -/
def ea_data : ea_value → Nat
  | .data v => v
  | .ip _ => 0

/-- The address `*(ip_addr *) ea->u.ptr->data` of an attribute. -/
def ea_ip : ea_value → ip_addr
  | .ip a => a
  | .data _ => IPA_NONE

/-- The loop `while (ea = ea_walk(...))` of `nl_send_route`:
`metrics[0] |= 1 << id; metrics[id] = ea->u.data;`. -/
def nl_send_route_metrics (metrics : Nat → Nat) : List (Nat × eattr) → Nat → Nat
  | [] => metrics
  | (id, ea) :: rest =>
    let m1 : Nat → Nat := fun i => if i = 0 then u32 (metrics 0 ||| 1 <<< id) else metrics i
    let m2 : Nat → Nat := fun i => if i = id then ea_data ea.u else m1 i
    nl_send_route_metrics m2 rest

/-- What `nl_send_route` does: it aborts, or it passes the request at address 0 of the given
memory to `nl_exchange`. -/
inductive SendOutcome where
  | abort (why : Abort)
  | exchange (pkt : Mem)

/-- The switch on `a->dest` of `nl_send_route`. The case `RTD_UNICAST` does not end in a
`break`: after the next-hop attributes, control continues into the case `RTD_BLACKHOLE`. The
calls that add the gateway pass `sizeof(r)`, the size of the pointer `r`, as buffer size. -/
def nl_send_route_dest (m : Mem) (rsize : Nat) (p : krt_proto) (a : rta) : Except Abort Mem :=
  match a.dest with
  | .UNICAST =>
    let m1 := st8 m 23 RTN_UNICAST
    let nexthops : Except Abort Mem :=
      if a.nh_next ≠ [] then nl_add_multipath m1 0 rsize (a.nh :: a.nh_next)
      else
        match a.nh.iface with
        | none => .error .null_deref
        | some ifa =>
          match nl_add_attr_u32 m1 0 rsize RTA_OIF ifa.index with
          | none => .error .bug
          | some m2 =>
            let gw : Option Mem :=
              if ipa_nonzero a.nh.gw then
                if p.af = AF_MPLS then nl_add_attr_via m2 0 sizeof_ptr a.nh.gw
                else nl_add_attr_ipa m2 0 sizeof_ptr RTA_GATEWAY a.nh.gw
              else some m2
            match gw with
            | none => .error .bug
            | some m3 =>
              if a.nh.labels > 0 then
                if p.af = AF_MPLS then
                  or_bug (nl_add_attr_mpls m3 0 rsize RTA_NEWDST (a.nh.label.take a.nh.labels.toNat))
                else
                  or_bug (nl_add_attr_mpls_encap m3 0 rsize (a.nh.label.take a.nh.labels.toNat))
              else .ok m3
    match nexthops with
    | .error e => .error e
    | .ok m4 => .ok (st8 m4 23 RTN_BLACKHOLE)
  | .BLACKHOLE => .ok (st8 m 23 RTN_BLACKHOLE)
  | .UNREACHABLE => .ok (st8 m 23 RTN_UNREACHABLE)
  | .PROHIBIT => .ok (st8 m 23 RTN_PROHIBIT)
  | .NONE => .error .bug

/-- The part of `nl_send_route` that is only run for `new`: metric, preferred source, realm,
metrics, and the switch on the disposition. `metrics0` is the content of the local array
`metrics` before anything is stored in it. -/
def nl_send_route_attrs (m : Mem) (rsize : Nat) (p : krt_proto) (a : rta)
    (eattrs : List eattr) (metrics0 : Nat → Nat) : Except Abort Mem :=
  let priority : Except Abort Mem :=
    match ea_find eattrs .KRT_METRIC with
    | some ea => or_bug (nl_add_attr_u32 m 0 rsize RTA_PRIORITY (ea_data ea.u))
    | none => .ok m
  match priority with
  | .error why => .error why
  | .ok m1 =>
    let prefsrc : Except Abort Mem :=
      match ea_find eattrs .KRT_PREFSRC with
      | some ea => or_bug (nl_add_attr_ipa m1 0 rsize RTA_PREFSRC (ea_ip ea.u))
      | none => .ok m1
    match prefsrc with
    | .error why => .error why
    | .ok m2 =>
      let realm : Except Abort Mem :=
        match ea_find eattrs .KRT_REALM with
        | some ea => or_bug (nl_add_attr_u32 m2 0 rsize RTA_FLOW (ea_data ea.u))
        | none => .ok m2
      match realm with
      | .error why => .error why
      | .ok m3 =>
        let metrics := nl_send_route_metrics (fun i => if i = 0 then 0 else metrics0 i)
          (ea_walk_metrics eattrs)
        let with_metrics : Except Abort Mem :=
          if metrics 0 ≠ 0 then or_bug (nl_add_metrics m3 0 rsize metrics KRT_METRICS_MAX)
          else .ok m3
        match with_metrics with
        | .error why => .error why
        | .ok m4 => nl_send_route_dest m4 rsize p a

/-- The construction of the request in `nl_send_route(p, e, eattrs, new)`: the structure `r`
is allocated at address 0 of the memory `stack`, whose content is arbitrary. -/
def nl_send_route_build (stack : Mem) (p : krt_proto) (e : rte) (eattrs : List eattr)
    (new : Bool) (metrics0 : Nat → Nat) : Except Abort Mem :=
  let bufsize := 128 + KRT_METRICS_MAX * 8 + nh_bufsize (e.attrs.nh :: e.attrs.nh_next)
  let rsize := sizeof_nlmsghdr + sizeof_rtmsg + bufsize
  let m0 := bzero (bzero stack 0 sizeof_nlmsghdr) sizeof_nlmsghdr sizeof_rtmsg
  let m1 := st16 m0 4 (if new then RTM_NEWROUTE else RTM_DELROUTE)
  let m2 := st32 m1 0 (NLMSG_LENGTH sizeof_rtmsg)
  let m3 := st16 m2 6
    (NLM_F_REQUEST ||| NLM_F_ACK ||| (if new then NLM_F_CREATE ||| NLM_F_EXCL else 0))
  let m4 := st8 m3 16 p.af
  let m5 := st8 m4 17 (net_pxlen e.net)
  let m6 := st8 m5 21 RTPROT_BIRD
  let m7 := st8 m6 22 RT_SCOPE_UNIVERSE
  let dst : Except Abort Mem :=
    if p.af = AF_MPLS then or_bug (nl_add_attr_mpls m7 0 rsize RTA_DST [net_mpls e.net])
    else or_bug (nl_add_attr_ipa m7 0 rsize RTA_DST (net_pfx e.net))
  match dst with
  | .error why => .error why
  | .ok m8 =>
    let table : Except Abort Mem :=
      if krt_table_id p < 256 then .ok (st8 m8 20 (krt_table_id p))
      else or_bug (nl_add_attr_u32 m8 0 rsize RTA_TABLE (krt_table_id p))
    match table with
    | .error why => .error why
    | .ok m9 =>
      if !new then .ok m9
      else nl_send_route_attrs m9 rsize p e.attrs eattrs metrics0

/-- The function `nl_send_route(p, e, eattrs, new)` up to its call of `nl_exchange`. -/
def nl_send_route (stack : Mem) (p : krt_proto) (e : rte) (eattrs : List eattr)
    (new : Bool) (metrics0 : Nat → Nat) : SendOutcome :=
  match nl_send_route_build stack p e eattrs new metrics0 with
  | .error why => .abort why
  | .ok pkt => .exchange pkt

/-- The interface `eth0` of the examples, with kernel index 2. -/
def example_eth0 : iface := { name := [101, 116, 104, 48], index := 2 }

/-- The route `2001:db8::/32 via fe80::1 dev eth0`: unicast, one next-hop with an interface
and a non-zero gateway. -/
def example_route6 : rte := {
  net := .ip6 (0x20010db8 * 2 ^ 96) 32,
  attrs := { dest := .UNICAST,
             nh := { gw := .ip6 (0xfe80 * 2 ^ 112 + 1), iface := some example_eth0 } } }

/-- A protocol instance for IPv6 and the kernel table 254. -/
def example_proto6 : krt_proto := { af := AF_INET6, table_id := 254, name := 2 }

/-- The route `10.0.0.0/24 dev eth0`: unicast, one next-hop with an interface and no
gateway. -/
def example_route4_dev : rte := {
  net := .ip4 (10 * 2 ^ 24) 24,
  attrs := { dest := .UNICAST, nh := { iface := some example_eth0 } } }

/-- A protocol instance for IPv4 and the kernel table 254. -/
def example_proto4 : krt_proto := { af := AF_INET, table_id := 254, name := 1 }

/-- A stack whose bytes all hold the value 0xAA before `nl_send_route` allocates `r` on it. -/
def example_stack : Mem := fun _ => 0xAA

/-! ## Synchronous Netlink interface: receiving replies -/

/-- The fields of `struct nl_sock` that `nl_get_reply` uses: the sequence counter, the
receive buffer (its bytes, from address 0 on), `last_hdr` as an address in the buffer
(`none` for `NULL`), and `last_size`. -/
structure nl_sock where
  seq : Nat
  rx_buffer : Mem
  last_hdr : Option Nat
  last_size : Nat

/-- One result of `recvmsg` on the socket: an error (`x < 0`), or a datagram with the sender
id `sa.nl_pid`, the `x` bytes stored in the buffer and whether `MSG_TRUNC` was flagged. -/
inductive Recv where
  | error
  | dgram (nl_pid : Nat) (data : List Nat) (trunc : Bool)
deriving DecidableEq, Repr

/-- The receive buffer after `recvmsg` stored a datagram at its start; the bytes beyond the
datagram keep their values. -/
def recv_into (buf : Mem) (data : List Nat) : Mem :=
  fun i => if i < data.length then data.getD i 0 else buf i

/-- How a call of `nl_get_reply` ends. -/
inductive Reply where
  /-- It returned the message at address `h` of the receive buffer; `nl` is the endpoint
  after the call and `rest` what `recvmsg` has still to deliver. -/
  | ret (h : Nat) (nl : nl_sock) (rest : List Recv)
  /-- It called `die()`. -/
  | die
  /-- It called `bug()`. -/
  | bug
  /-- It is blocked in `recvmsg`: nothing more is delivered. -/
  | blocked
  /-- The bound on the number of loop iterations was reached. -/
  | running

/-- One pass through the body of the loop `for(;;)` of `nl_get_reply`: the call ends, or the
loop goes on with a new endpoint state and the remaining deliveries. -/
inductive ReplyStep where
  | done (r : Reply)
  | next (nl : nl_sock) (input : List Recv)

/-- The second half of the loop body of `nl_get_reply`, from `if (NLMSG_OK(nl->last_hdr,
nl->last_size))` on, with `nl->last_hdr` pointing to `hdr`. `NLMSG_NEXT` subtracts
`NLMSG_ALIGN(h->nlmsg_len)` from the unsigned `last_size`. -/
def nl_get_reply_msg (nl : nl_sock) (hdr : Nat) (input : List Recv) : ReplyStep :=
  if NLMSG_OK nl.rx_buffer hdr nl.last_size then
    let step := u32 (NLMSG_ALIGN (nlmsg_len nl.rx_buffer hdr))
    let nl1 : nl_sock := { nl with
      last_hdr := some (hdr + step)
      last_size := u32 (nl.last_size + 2 ^ 32 - step) }
    if nlmsg_seq nl.rx_buffer hdr ≠ nl.seq then .next nl1 input
    else .done (.ret hdr nl1 input)
  else .next { nl with last_hdr := none } input

/-- The body of the loop `for(;;)` of `nl_get_reply`. -/
def nl_get_reply_step (nl : nl_sock) (input : List Recv) : ReplyStep :=
  match nl.last_hdr with
  | none =>
    match input with
    | [] => .done .blocked
    | .error :: _ => .done .die
    | .dgram nl_pid data trunc :: rest =>
      if nl_pid ≠ 0 then .next { nl with rx_buffer := recv_into nl.rx_buffer data } rest
      else if trunc then .done .bug
      else
        nl_get_reply_msg { nl with
          rx_buffer := recv_into nl.rx_buffer data
          last_size := data.length
          last_hdr := some 0 } 0 rest
  | some hdr => nl_get_reply_msg nl hdr input

/-- The function `nl_get_reply(nl)`, fed with the results of its `recvmsg` calls; the first
argument bounds the number of loop iterations. -/
def nl_get_reply : Nat → nl_sock → List Recv → Reply
  | 0, _, _ => .running
  | fuel + 1, nl, input =>
    match nl_get_reply_step nl input with
    | .done r => r
    | .next nl1 input1 => nl_get_reply fuel nl1 input1

/-- The address of the returned message, when the call returned one. -/
def Reply.hdr : Reply → Option Nat
  | .ret h _ _ => some h
  | _ => none

/-- The endpoint is reading the datagram `cur`: when `last_hdr` is set, the buffer starts
with the bytes of `cur`, `last_hdr` and `last_size` add up to its length, and `last_hdr` is
4-byte aligned. -/
def nl_sock_reading (nl : nl_sock) (cur : List Nat) : Prop :=
  ∀ hdr, nl.last_hdr = some hdr →
    hdr + nl.last_size = cur.length ∧ hdr % 4 = 0
      ∧ ∀ i, i < cur.length → nl.rx_buffer i = cur.getD i 0

/-- A datagram as the kernel frames it: padded to a multiple of 4 bytes, and not longer than
the receive buffer. -/
def dgram_framed (data : List Nat) : Prop :=
  data.length % 4 = 0 ∧ data.length ≤ NL_RX_SIZE

instance (data : List Nat) : Decidable (dgram_framed data) := by
  unfold dgram_framed
  infer_instance

/-- The messages that `n` successive calls of `nl_get_reply` on an endpoint return, each with
the receive buffer as the call left it; the list ends at the first call that does not
return. The first argument bounds the loop iterations of every call. -/
def nl_get_replies (fuel : Nat) : Nat → nl_sock → List Recv → List (Nat × Mem)
  | 0, _, _ => []
  | n + 1, nl, input =>
    match nl_get_reply fuel nl input with
    | .ret h nl1 rest => (h, nl1.rx_buffer) :: nl_get_replies fuel n nl1 rest
    | _ => []

/-- An endpoint as `nl_send` leaves it (`last_hdr = NULL`), with sequence counter 7 and a
zeroed receive buffer. -/
def example_sock : nl_sock :=
  { seq := 7, rx_buffer := fun _ => 0, last_hdr := none, last_size := 0 }

/-- A datagram of 36 bytes (sent with sender id 99 in the examples): a header of length 36,
and at offset 20 a 16-byte header of type `RTM_NEWROUTE` with sequence number 7. -/
def example_dgram_alien : List Nat :=
  [36, 0, 0, 0, 24, 0, 0, 0, 7, 0, 0, 0, 0, 0, 0, 0, 0, 0, 0, 0,
   16, 0, 0, 0, 24, 0, 0, 0, 7, 0, 0, 0, 0, 0, 0, 0]

/-- A datagram of 17 bytes: one message with `nlmsg_len = 17`, type `NLMSG_DONE` and sequence
number 7; neither the message nor the datagram is padded. -/
def example_dgram_short : List Nat :=
  [17, 0, 0, 0, 3, 0, 0, 0, 7, 0, 0, 0, 0, 0, 0, 0, 0]

/-- A datagram of 32 bytes with two 16-byte messages: the first of type `RTM_NEWROUTE` with
sequence number 6, the second of type `NLMSG_DONE` with sequence number 7. -/
def example_dgram_kernel : List Nat :=
  [16, 0, 0, 0, 24, 0, 0, 0, 6, 0, 0, 0, 0, 0, 0, 0,
   16, 0, 0, 0, 3, 0, 0, 0, 7, 0, 0, 0, 0, 0, 0, 0]

/-! ## Synchronous Netlink interface: sending, scanning, exchanging -/

/-- The function `nl_send(nl, nh)` when `sendto` succeeds: the endpoint with the incremented
sequence counter and `last_hdr = NULL`, and the memory of the message with `nlmsg_pid = 0`
and `nlmsg_seq` set to the new counter. -/
def nl_send (nl : nl_sock) (m : Mem) (nh : Nat) : nl_sock × Mem :=
  ({ nl with seq := u32 (nl.seq + 1), last_hdr := none },
   st32 (st32 m (nh + 12) 0) (nh + 8) (u32 (nl.seq + 1)))

/-- The function `nl_error(h)`: `ENOBUFS` for a truncated error message, otherwise
`-e->error`, the field `error` being the `int` at `NLMSG_DATA(h)`. -/
def nl_error (m : Mem) (h : Nat) : Int :=
  if nlmsg_len m h < NLMSG_LENGTH sizeof_nlmsgerr then ENOBUFS
  else to_int32 (-to_int32 (ld32 m (NLMSG_DATA h)))

/-- The message type ends a dump: `NLMSG_DONE` or `NLMSG_ERROR`. -/
def dump_end (m : Mem) (h : Nat) : Bool :=
  nlmsg_type m h == NLMSG_DONE || nlmsg_type m h == NLMSG_ERROR

/-- The function `nl_get_scan()` on the scan endpoint: `none` when its call of `nl_get_reply`
does not return, otherwise the returned pointer (`none` for `NULL`) with the endpoint and
the pending deliveries after the call. For `NLMSG_ERROR` it calls `nl_error`, which only
logs. -/
def nl_get_scan (fuel : Nat) (nl_scan : nl_sock) (input : List Recv) :
    Option (Option Nat × nl_sock × List Recv) :=
  match nl_get_reply fuel nl_scan input with
  | .ret h nl rest =>
    if nlmsg_type nl.rx_buffer h = NLMSG_DONE then some (none, nl, rest)
    else if nlmsg_type nl.rx_buffer h = NLMSG_ERROR then some (none, nl, rest)
    else some (some h, nl, rest)
  | _ => none

/-- A scan loop `while (h = nl_get_scan()) ...` of `kif_do_scan` and `krt_do_scan`, run for at
most `n` calls of `nl_get_scan`: the messages handed to the loop body, each with the receive
buffer at that moment, and whether the loop has ended. -/
def nl_scan_loop (fuel : Nat) : Nat → nl_sock → List Recv → List (Nat × Mem) × Bool
  | 0, _, _ => ([], false)
  | n + 1, nl, input =>
    match nl_get_scan fuel nl input with
    | none => ([], false)
    | some (none, _, _) => ([], true)
    | some (some h, nl1, rest) =>
      ((h, nl1.rx_buffer) :: (nl_scan_loop fuel n nl1 rest).1, (nl_scan_loop fuel n nl1 rest).2)

/-- The loop `for(;;)` of `nl_exchange` with the final `return nl_error(h) ? -1 : 0`, run for
at most `n` calls of `nl_get_reply`: `none` when no value is returned within them. -/
def nl_exchange_loop (fuel : Nat) : Nat → nl_sock → List Recv → Option Int
  | 0, _, _ => none
  | n + 1, nl, input =>
    match nl_get_reply fuel nl input with
    | .ret h nl1 rest =>
      if nlmsg_type nl1.rx_buffer h = NLMSG_ERROR then
        some (if nl_error nl1.rx_buffer h ≠ 0 then -1 else 0)
      else nl_exchange_loop fuel n nl1 rest
    | _ => none

/-- The function `nl_exchange(pkt)` on the request endpoint; `sendto_ok` tells whether the
`sendto` of `nl_send` succeeds (otherwise `nl_send` calls `die()`). The result is `none` when
the function does not return a value. -/
def nl_exchange (fuel n : Nat) (nl_req : nl_sock) (m : Mem) (pkt : Nat) (sendto_ok : Bool)
    (input : List Recv) : Option Int :=
  if sendto_ok then nl_exchange_loop fuel n (nl_send nl_req m pkt).1 input else none

/-! ## Descriptions of attribute streams used by the theorems -/

/-- The attribute code is recognised by a parse with the table `want` and a vector of `max`
slots: it is below `max` and defined in the table. -/
def attr_known (want : Nat → nl_want_attrs) (max : Nat) (cd : Nat × List Nat) : Bool :=
  decide (cd.1 < max) && (want cd.1).defined

/-- What a slot of the vector points at: the code and the payload bytes of the attribute at
address `a`. -/
def attr_view (m : Mem) (a : Nat) : Nat × List Nat :=
  (rta_type m a, (List.range (rta_len m a - RTA_LENGTH 0)).map (fun i => m (RTA_DATA a + i)))


/-- An IPv4 attribute stream for examples: `RTA_DST` 10.0.0.0, an attribute with the unknown
code 99 and a payload of 3 bytes, `RTA_IIF` 5 (not defined in `rtm_attr_want4`), `RTA_OIF` 2. -/
def example_attrs_unknown : List (Nat × List Nat) :=
  [(RTA_DST, [10, 0, 0, 0]), (99, [1, 2, 3]), (RTA_IIF, [5, 0, 0, 0]), (RTA_OIF, [2, 0, 0, 0])]

/-- The bytes of `example_attrs_unknown`, every attribute padded to 4 bytes. -/
def example_stream_unknown : Mem :=
  mem_of_list [8, 0, 1, 0, 10, 0, 0, 0,
    7, 0, 99, 0, 1, 2, 3, 0,
    8, 0, 3, 0, 5, 0, 0, 0,
    8, 0, 4, 0, 2, 0, 0, 0]

/-- The bytes of `example_attrs_unknown` without the two attributes that `rtm_attr_want4` does
not define. -/
def example_stream_known : Mem :=
  mem_of_list [8, 0, 1, 0, 10, 0, 0, 0,
    8, 0, 4, 0, 2, 0, 0, 0]

/-- An IPv4 `RTM_NEWROUTE` message for `10.0.0.0/24 dev 2`, table 254, protocol `RTPROT_BOOT`,
type `RTN_UNICAST`: header, route payload, `RTA_DST` and `RTA_OIF`. -/
def route_msg_dev : Mem :=
  mem_of_list [44, 0, 0, 0, 24, 0, 0, 0, 0, 0, 0, 0, 0, 0, 0, 0,
    2, 24, 0, 0, 254, 3, 0, 1, 0, 0, 0, 0,
    8, 0, 1, 0, 10, 0, 0, 0,
    8, 0, 4, 0, 2, 0, 0, 0]

/-- An IPv4 `RTM_NEWROUTE` message for `10.0.0.0/24 dev 2`, table 254, protocol `RTPROT_BOOT`,
type `RTN_UNICAST`, `rtm_tos` 0, that carries an incoming-interface attribute `RTA_IIF` 5
between `RTA_DST` and `RTA_OIF`. -/
def route_msg_iif4 : Mem :=
  mem_of_list [52, 0, 0, 0, 24, 0, 0, 0, 0, 0, 0, 0, 0, 0, 0, 0,
    2, 24, 0, 0, 254, 3, 0, 1, 0, 0, 0, 0,
    8, 0, 1, 0, 10, 0, 0, 0,
    8, 0, 3, 0, 5, 0, 0, 0,
    8, 0, 4, 0, 2, 0, 0, 0]


/-- The descriptor table that `nl_parse_route` passes to `nl_parse_attrs` for a family. -/
def rtm_attr_want (family : Nat) : Nat → nl_want_attrs :=
  if family = AF_INET then rtm_attr_want4
  else if family = AF_INET6 then rtm_attr_want6
  else rtm_attr_want_mpls

/-- The vector `a` that `nl_parse_route` works with for the message at `h`. -/
def route_attr_vec (m : Mem) (h : Nat) : AttrVec :=
  (nl_parse_attrs m (RTM_RTA (NLMSG_DATA h)) (rtm_attr_want (rtm_family m (NLMSG_DATA h)))
    BIRD_RTA_MAX (nl_checkin m h sizeof_rtmsg).1).k

/-- The table id that `nl_parse_route` resolves from the vector `a`: `RTA_TABLE` when present,
else `i->rtm_table`. -/
def attr_table_id (m : Mem) (i : Nat) (a : AttrVec) : Nat :=
  match a RTA_TABLE with
  | some x => rta_get_u32 m x
  | none => rtm_table m i

/-- The outcome is a delivery: `krt_got_route` or `krt_got_route_async` was called. -/
def RouteOutcome.delivered : RouteOutcome → Bool
  | .got_route _ _ => true
  | .got_route_async _ _ _ => true
  | _ => false


/-- An IPv6 `RTM_NEWROUTE` message for `2001:db8::/32 dev 2`, table 254, protocol
`RTPROT_BOOT`, type `RTN_UNICAST`, `rtm_tos` 0, that carries `RTA_DST`, `RTA_IIF` 5 and
`RTA_OIF`. -/
def route_msg_iif6 : Mem :=
  mem_of_list [64, 0, 0, 0, 24, 0, 0, 0, 0, 0, 0, 0, 0, 0, 0, 0,
    10, 32, 0, 0, 254, 3, 0, 1, 0, 0, 0, 0,
    20, 0, 1, 0, 0x20, 0x01, 0x0d, 0xb8, 0, 0, 0, 0, 0, 0, 0, 0, 0, 0, 0, 0,
    8, 0, 3, 0, 5, 0, 0, 0,
    8, 0, 4, 0, 2, 0, 0, 0]

/-- A daemon state for the MPLS examples: a protocol registered for (MPLS, table 254), the
interface `eth0` with index 2, every destination classified as a host address of universe
scope, every gateway a neighbor of universe scope. The local variable `dst` of
`nl_parse_route` holds, before anything is stored in it, the IPv4 destination `10.0.0.0/24`
that an earlier call left on the stack. -/
def example_daemon_mpls : Daemon where
  nl_table_map := [{ af := AF_MPLS, table_id := 254, name := 3 }]
  net_classify := fun _ => 0x1004
  if_find_by_index := fun i =>
    if i = 2 then some { name := [101, 116, 104, 48], index := 2 } else none
  neigh_find2 := fun _ _ _ _ => some ⟨4⟩
  dst_uninit := .ip4 (10 * 2 ^ 24) 24
  nh_buffer := fun _ => {}

/-- An MPLS `RTM_NEWROUTE` message, table 254, protocol `RTPROT_BOOT`, type `RTN_UNICAST`,
`dev 2`, whose `RTA_DST` holds the label 100 without the bottom-of-stack bit: the label stack
goes on beyond the 4 bytes of the attribute. -/
def route_msg_mpls_nobos : Mem :=
  mem_of_list [44, 0, 0, 0, 24, 0, 0, 0, 0, 0, 0, 0, 0, 0, 0, 0,
    28, 20, 0, 0, 254, 3, 0, 1, 0, 0, 0, 0,
    8, 0, 1, 0, 0, 6, 64, 0,
    8, 0, 4, 0, 2, 0, 0, 0]

/-- The same message with the bottom-of-stack bit set: `RTA_DST` is the single label 100. -/
def route_msg_mpls_one : Mem :=
  mem_of_list [44, 0, 0, 0, 24, 0, 0, 0, 0, 0, 0, 0, 0, 0, 0, 0,
    28, 20, 0, 0, 254, 3, 0, 1, 0, 0, 0, 0,
    8, 0, 1, 0, 0, 6, 65, 0,
    8, 0, 4, 0, 2, 0, 0, 0]

/-! ## Descriptions of multipath attributes used by the theorems -/

/-- The field `nh->rtnh_len` of a `struct rtnexthop`. -/
def rtnh_len (m : Mem) (nh : Nat) : Nat := ld16 m nh

/-- The field `nh->rtnh_flags`. -/
def rtnh_flags (m : Mem) (nh : Nat) : Nat := ld8 m (nh + 2)

/-- The field `nh->rtnh_ifindex`. -/
def rtnh_ifindex (m : Mem) (nh : Nat) : Nat := ld32 m (nh + 4)

/-- The entries of a multipath attribute as the loop `while (len)` of `nl_parse_multipath`
frames them: starting at `nh` with `len` bytes, an entry is there while `len` is not 0 and
neither `len < sizeof(*nh)` nor `len < nh->rtnh_len` holds, and the next one follows at
`RTNH_NEXT(nh)` with `len - NLMSG_ALIGN(nh->rtnh_len)` bytes. The first argument bounds the
number of entries listed. -/
def rtnh_walk (m : Mem) : Nat → Nat → Int → List Nat
  | 0, _, _ => []
  | fuel + 1, nh, len =>
    if len = 0 then []
    else if (0 ≤ len ∧ len < (sizeof_rtnexthop : Nat)) ∨ len < (rtnh_len m nh : Nat) then []
    else nh :: rtnh_walk m fuel (nh + RTNH_ALIGN (rtnh_len m nh))
      (to_int32 (len - (NLMSG_ALIGN (rtnh_len m nh) : Nat)))

/-- The slot `a[RTA_GATEWAY]` that `nl_parse_multipath` gets for the entry at `nh`, from
`nl_parse_attrs` on the private attribute stream of the entry. -/
def rtnh_gateway (m : Mem) (nh : Nat) : Option Nat :=
  (nl_parse_attrs m (RTNH_DATA nh) nexthop_attr_want4 BIRD_RTA_MAX
    ((rtnh_len m nh : Nat) - (RTNH_LENGTH 0 : Nat))).k RTA_GATEWAY

/-- The call `neigh_find2(p, gw, iface, flags)` returns no neighbor, or a neighbor whose scope
is `SCOPE_HOST`. -/
def neigh_unusable (d : Daemon) (p : krt_proto) (gw : ip_addr) (ifa : iface) (onlink : Bool) :
    Bool :=
  match d.neigh_find2 p gw ifa onlink with
  | none => true
  | some nbr => decide (nbr.scope = SCOPE_HOST)

/-- The entry at `nh` cannot be resolved: its interface index is unknown to
`if_find_by_index`, or it has no gateway, or `neigh_find2` on its gateway and interface (with
`NEF_ONLINK` when `rtnh_flags` has `RTNH_F_ONLINK`) gives no usable neighbor. -/
def rtnh_unresolved (d : Daemon) (m : Mem) (p : krt_proto) (nh : Nat) : Bool :=
  match d.if_find_by_index (rtnh_ifindex m nh) with
  | none => true
  | some ifa =>
    match rtnh_gateway m nh with
    | none => true
    | some g =>
      neigh_unusable d p (rta_get_ipa m g) ifa (rtnh_flags m nh &&& RTNH_F_ONLINK != 0)


/-- The interface index that `nl_parse_route` takes from the vector `a`: `RTA_OIF` when
present, else `~0`. -/
def attr_oif (m : Mem) (a : AttrVec) : Nat :=
  match a RTA_OIF with
  | some x => rta_get_u32 m x
  | none => 0xFFFFFFFF


/-- The gateway `gw` cannot be used for a next-hop of the message at `h` with the interface
index `ifindex`: for the protocol that `nl_parse_route` finds for the message and the
interface that `if_find_by_index` returns, `neigh_find2` (with `NEF_ONLINK` when `onlink`)
gives no neighbor or one of scope `SCOPE_HOST`. -/
def next_hop_unusable (d : Daemon) (m : Mem) (h : Nat) (ifindex : Nat) (gw : ip_addr)
    (onlink : Bool) : Prop :=
  ∀ p ifa,
    HASH_FIND d.nl_table_map (rtm_family m (NLMSG_DATA h))
      (attr_table_id m (NLMSG_DATA h) (route_attr_vec m h)) = some p →
    d.if_find_by_index ifindex = some ifa →
    neigh_unusable d p gw ifa onlink = true


/-- The interface `eth1` of the examples, with kernel index 3. -/
def example_eth1 : iface := { name := [101, 116, 104, 49], index := 3 }

/-- A daemon state for the gateway and multipath examples: a protocol registered for (IPv4,
table 254), the interfaces `eth0` (index 2) and `eth1` (index 3), every destination classified
as a host address of universe scope, and every gateway a neighbor of universe scope except
`192.0.2.1`, for which `neigh_find2` finds no neighbor. -/
def example_daemon_mp : Daemon where
  nl_table_map := [{ af := AF_INET, table_id := 254, name := 1 }]
  net_classify := fun _ => 0x1004
  if_find_by_index := fun i =>
    if i = 2 then some example_eth0 else if i = 3 then some example_eth1 else none
  neigh_find2 := fun _ gw _ _ => if gw = .ip4 0xC0000201 then none else some ⟨4⟩
  dst_uninit := .ip4 0 0
  nh_buffer := fun _ => {}

/-- An IPv4 `RTM_NEWROUTE` message for `10.0.0.0/24 via 192.0.2.1 dev 2`, table 254, protocol
`RTPROT_BOOT`, type `RTN_UNICAST`. -/
def route_msg_gw4 : Mem :=
  mem_of_list [52, 0, 0, 0, 24, 0, 0, 0, 0, 0, 0, 0, 0, 0, 0, 0,
    2, 24, 0, 0, 254, 3, 0, 1, 0, 0, 0, 0,
    8, 0, 1, 0, 10, 0, 0, 0,
    8, 0, 4, 0, 2, 0, 0, 0,
    8, 0, 5, 0, 192, 0, 2, 1]

/-- An IPv4 `RTM_NEWROUTE` message for `10.0.0.0/24`, table 254, with the multipath attribute of
the entries `{gw 10.1.1.1 dev 2 weight 1}` and `{gw 10.1.1.2 dev 3 weight 2 on-link}`; the
`RTA_MULTIPATH` attribute stands at address 36. -/
def route_msg_mp_onlink : Mem :=
  mem_of_list [72, 0, 0, 0, 24, 0, 0, 0, 0, 0, 0, 0, 0, 0, 0, 0,
    2, 24, 0, 0, 254, 3, 0, 1, 0, 0, 0, 0,
    8, 0, 1, 0, 10, 0, 0, 0,
    36, 0, 9, 0,
    16, 0, 0, 1, 2, 0, 0, 0, 8, 0, 5, 0, 10, 1, 1, 1,
    16, 0, 4, 2, 3, 0, 0, 0, 8, 0, 5, 0, 10, 1, 1, 2]

/-- An IPv4 `RTM_NEWROUTE` message for `10.0.0.0/24`, table 254, that carries `RTA_OIF` 2, the
gateway `RTA_GATEWAY` 192.0.2.1 and a multipath attribute with the entries
`{gw 10.1.1.1 dev 2 weight 1}` and `{gw 10.1.1.2 dev 3 weight 2}`. -/
def route_msg_mp_gw : Mem :=
  mem_of_list [88, 0, 0, 0, 24, 0, 0, 0, 0, 0, 0, 0, 0, 0, 0, 0,
    2, 24, 0, 0, 254, 3, 0, 1, 0, 0, 0, 0,
    8, 0, 1, 0, 10, 0, 0, 0,
    8, 0, 4, 0, 2, 0, 0, 0,
    8, 0, 5, 0, 192, 0, 2, 1,
    36, 0, 9, 0,
    16, 0, 0, 1, 2, 0, 0, 0, 8, 0, 5, 0, 10, 1, 1, 1,
    16, 0, 0, 2, 3, 0, 0, 0, 8, 0, 5, 0, 10, 1, 1, 2]

/-- An IPv4 `RTM_NEWROUTE` message for `10.0.0.0/24`, table 254, with a multipath attribute of
one entry `{gw 10.1.1.1 dev 2 weight 1}` whose private attribute stream goes on, after the
gateway attribute, with 4 bytes that are no attribute (a header with `rta_len = 2`):
`rtnh_len` is 20 and `nl_parse_attrs` ends with a remnant of 4 bytes. -/
def route_msg_mp_remnant : Mem :=
  mem_of_list [60, 0, 0, 0, 24, 0, 0, 0, 0, 0, 0, 0, 0, 0, 0, 0,
    2, 24, 0, 0, 254, 3, 0, 1, 0, 0, 0, 0,
    8, 0, 1, 0, 10, 0, 0, 0,
    24, 0, 9, 0,
    20, 0, 0, 1, 2, 0, 0, 0, 8, 0, 5, 0, 10, 1, 1, 1, 2, 0, 0, 0]


def RTM_NEWADDR : Nat := 20
def RTM_DELADDR : Nat := 21
def IFA_ADDRESS : Nat := 1
def IFA_LOCAL : Nat := 2
def IFA_BROADCAST : Nat := 4
def IFA_ANYCAST : Nat := 5
def IFA_F_SECONDARY : Nat := 1

/-- Size of `struct ifaddrmsg`: `ifa_family`, `ifa_prefixlen`, `ifa_flags`, `ifa_scope` (one
byte each, offsets 0..3), `ifa_index` (u32, offset 4). -/
def sizeof_ifaddrmsg : Nat := 8

/-- The macro `IFA_RTA(r)`: `(char *) r + NLMSG_ALIGN(sizeof(struct ifaddrmsg))`. -/
def IFA_RTA (i : Nat) : Nat := i + NLMSG_ALIGN sizeof_ifaddrmsg

/-- The field `i->ifa_family`. -/
def ifa_family (m : Mem) (i : Nat) : Nat := ld8 m i

/-- The field `i->ifa_prefixlen`. -/
def ifa_prefixlen (m : Mem) (i : Nat) : Nat := ld8 m (i + 1)

/-- The field `i->ifa_flags`. -/
def ifa_flags (m : Mem) (i : Nat) : Nat := ld8 m (i + 2)

/-- The field `i->ifa_index`. -/
def ifa_index (m : Mem) (i : Nat) : Nat := ld32 m (i + 4)

/-- The capacity `BIRD_IFA_MAX` (`IFA_ANYCAST + 1`) of the address tables and vectors. -/
def BIRD_IFA_MAX : Nat := IFA_ANYCAST + 1

/-- The table `ifa_attr_want4`. -/
def ifa_attr_want4 (c : Nat) : nl_want_attrs :=
  if c = IFA_ADDRESS then ⟨true, true, 4⟩
  else if c = IFA_LOCAL then ⟨true, true, 4⟩
  else if c = IFA_BROADCAST then ⟨true, true, 4⟩
  else want_none

/-- The table `ifa_attr_want6`. -/
def ifa_attr_want6 (c : Nat) : nl_want_attrs :=
  if c = IFA_ADDRESS then ⟨true, true, 16⟩
  else if c = IFA_LOCAL then ⟨true, true, 16⟩
  else want_none

/-- Modelled from the spec: `IP4_MAX_PREFIX_LENGTH` of `lib/ip.h`, which is not under src/. -/
def IP4_MAX_PREFIX_LENGTH : Nat := 32

/-- Modelled from the spec: `IP6_MAX_PREFIX_LENGTH` of `lib/ip.h`. -/
def IP6_MAX_PREFIX_LENGTH : Nat := 128

/-- Modelled from the spec: the address flag `IA_SECONDARY` of `nest/iface.h`, which is not
under src/ (§3.4: flags host, peer, secondary); the three flags are distinct bits. -/
def IA_SECONDARY : Nat := 0x20000

/-- Modelled from the spec: the address flag `IA_PEER` of `nest/iface.h`. -/
def IA_PEER : Nat := 0x40000

/-- Modelled from the spec: the address flag `IA_HOST` of `nest/iface.h`. -/
def IA_HOST : Nat := 0x80000

/-- Modelled from the spec: the interface flag `IF_BROADCAST` of `nest/iface.h` (§3.3). -/
def IF_BROADCAST : Nat := 0x4

/-- Modelled from the spec: the interface flag `IF_TMP_DOWN` of `nest/iface.h`, set during the
first scan. -/
def IF_TMP_DOWN : Nat := 0x20000000

/-- Modelled from the spec: `struct ifa` of `nest/iface.h` (§3.4): owning interface, local
address, prefix, broadcast address, opposite address, scope and flags. -/
structure ifa where
  iface : iface
  ip : ip_addr := IPA_NONE
  pfx : net_addr
  brd : ip_addr := IPA_NONE
  opposite : ip_addr := IPA_NONE
  scope : Nat := 0
  flags : Nat := 0
deriving DecidableEq, Repr

/-- Modelled from the spec: `ipa_to_ip4` of `lib/ip.h`: the IPv4 address in an `ip_addr`. -/
def ipa_to_ip4 : ip_addr → Nat
  | .ip4 a => a
  | .ip6 a => a % 2 ^ 32

/-- Modelled from the spec: `ipa_to_ip6` of `lib/ip.h`: the IPv6 address in an `ip_addr`. -/
def ipa_to_ip6 : ip_addr → Nat
  | .ip4 a => 0xFFFF * 2 ^ 32 + a
  | .ip6 a => a

/-- Modelled from the spec: `ip4_mkmask(n)` of `lib/ip.h`: the netmask with the `n` high bits
set. -/
def ip4_mkmask (n : Nat) : Nat := 2 ^ 32 - 2 ^ (32 - n)

/-- Modelled from the spec: `ip6_mkmask(n)` of `lib/ip.h`. -/
def ip6_mkmask (n : Nat) : Nat := 2 ^ 128 - 2 ^ (128 - n)

/-- Modelled from the spec: `net_normalize` of `lib/net.h` (§3.4: the prefix is network and
length): the bits of the address beyond the prefix length are cleared. -/
def net_normalize : net_addr → net_addr
  | .ip4 a n => .ip4 (a &&& ip4_mkmask n) n
  | .ip6 a n => .ip6 (a &&& ip6_mkmask n) n
  | .mpls l => .mpls l

/-- Modelled from the spec: `ipa_opposite_m1` of `lib/ip.h` (§3.4: for /31 IPv4 and /127 IPv6
the opposite is the other address in the pair): the lowest bit is flipped. -/
def ipa_opposite_m1 : ip_addr → ip_addr
  | .ip4 a => .ip4 (a ^^^ 1)
  | .ip6 a => .ip6 (a ^^^ 1)

/-- Modelled from the spec: `ipa_opposite_m2` of `lib/ip.h` (§3.4: for /30 IPv4 the opposite is
the address obtained by flipping the low two bits and excluding network/broadcast): the two
low bits are flipped when they are 01 or 10, and there is no opposite (`IPA_NONE`) when they
are 00 (network) or 11 (broadcast). -/
def ipa_opposite_m2 : ip_addr → ip_addr
  | .ip4 a => if a % 4 = 1 ∨ a % 4 = 2 then .ip4 (a ^^^ 3) else IPA_NONE
  | .ip6 a => if a % 4 = 1 ∨ a % 4 = 2 then .ip6 (a ^^^ 3) else IPA_NONE

/-- What `nl_parse_addr4` / `nl_parse_addr6` did with a message. -/
inductive AddrOutcome where
  /-- It returned without calling `ifa_update` or `ifa_delete`. -/
  | ignored
  /-- It called `ifa_update(&ifa)`; the flag tells whether `if_end_partial_update(ifi)`
  followed. -/
  | ifa_update (a : ifa) (end_update : Bool)
  /-- It called `ifa_delete(&ifa)`; the flag tells whether `if_end_partial_update(ifi)`
  followed. -/
  | ifa_delete (a : ifa) (end_update : Bool)
deriving DecidableEq, Repr

/-- The end of `nl_parse_addr4` and `nl_parse_addr6`, from `scope = ipa_classify(ifa.ip)` on.
`ipa_classify` is the function of `lib/ip.c`. -/
def nl_parse_addr_submit (ipa_classify : ip_addr → Int) (scan new : Bool) (r : ifa) :
    AddrOutcome :=
  let scope := ipa_classify r.ip
  if scope < 0 then .ignored
  else
    let r1 : ifa := { r with scope := scope.toNat &&& IADDR_SCOPE_MASK }
    if new then .ifa_update r1 (!scan) else .ifa_delete r1 (!scan)

/-- The function `nl_parse_addr4(i, scan, new)`, run with the module variable `nl_attr_len`
holding `nl_attr_len` on entry. -/
def nl_parse_addr4 (d : Daemon) (ipa_classify : ip_addr → Int) (m : Mem) (i : Nat)
    (scan new : Bool) (nl_attr_len : Int) : AddrOutcome :=
  let pa := nl_parse_attrs m (IFA_RTA i) ifa_attr_want4 BIRD_IFA_MAX nl_attr_len
  if pa.ret = 0 then .ignored
  else
    match pa.k IFA_LOCAL with
    | none => .ignored
    | some loc =>
      match pa.k IFA_ADDRESS with
      | none => .ignored
      | some adr =>
        match d.if_find_by_index (ifa_index m i) with
        | none => .ignored
        | some ifi =>
          let flags0 := if ifa_flags m i &&& IFA_F_SECONDARY ≠ 0 then IA_SECONDARY else 0
          let ip := rta_get_ipa m loc
          let new1 := if ifa_prefixlen m i > IP4_MAX_PREFIX_LENGTH then false else new
          if ifa_prefixlen m i = IP4_MAX_PREFIX_LENGTH then
            let brd := rta_get_ipa m adr
            let pfx := net_addr.ip4 (rta_get_ip4 m adr) (ifa_prefixlen m i)
            if ip = brd then
              nl_parse_addr_submit ipa_classify scan new1
                { iface := ifi, ip := ip, pfx := pfx, brd := brd, flags := flags0 ||| IA_HOST }
            else
              nl_parse_addr_submit ipa_classify scan new1
                { iface := ifi, ip := ip, pfx := pfx, brd := brd, flags := flags0 ||| IA_PEER,
                  opposite := brd }
          else
            let pfx := net_normalize (.ip4 (ipa_to_ip4 ip) (ifa_prefixlen m i))
            let opp1 := if ifa_prefixlen m i = IP4_MAX_PREFIX_LENGTH - 1 then ipa_opposite_m1 ip
              else IPA_NONE
            let opp2 := if ifa_prefixlen m i = IP4_MAX_PREFIX_LENGTH - 2 then ipa_opposite_m2 ip
              else opp1
            let brd : ip_addr :=
              match pa.k IFA_BROADCAST with
              | none => IPA_NONE
              | some b =>
                if ifi.flags &&& IF_BROADCAST ≠ 0 then
                  let xbrd := rta_get_ip4 m b
                  let ybrd := ipa_to_ip4 ip ||| (ip4_mkmask (ifa_prefixlen m i) ^^^ 0xFFFFFFFF)
                  if xbrd = (match pfx with
                      | .ip4 a _ => a
                      | _ => 0) ∨ xbrd = ybrd then .ip4 xbrd
                  else if ifi.flags &&& IF_TMP_DOWN ≠ 0 then .ip4 ybrd
                  else IPA_NONE
                else IPA_NONE
            nl_parse_addr_submit ipa_classify scan new1
              { iface := ifi, ip := ip, pfx := pfx, brd := brd, flags := flags0,
                opposite := opp2 }

/-- The function `nl_parse_addr6(i, scan, new)`, run with the module variable `nl_attr_len`
holding `nl_attr_len` on entry. -/
def nl_parse_addr6 (d : Daemon) (ipa_classify : ip_addr → Int) (m : Mem) (i : Nat)
    (scan new : Bool) (nl_attr_len : Int) : AddrOutcome :=
  let pa := nl_parse_attrs m (IFA_RTA i) ifa_attr_want6 BIRD_IFA_MAX nl_attr_len
  if pa.ret = 0 then .ignored
  else
    match pa.k IFA_ADDRESS with
    | none => .ignored
    | some adr =>
      match d.if_find_by_index (ifa_index m i) with
      | none => .ignored
      | some ifi =>
        let flags0 := if ifa_flags m i &&& IFA_F_SECONDARY ≠ 0 then IA_SECONDARY else 0
        let ip := rta_get_ipa m (match pa.k IFA_LOCAL with
          | some loc => loc
          | none => adr)
        let new1 := if ifa_prefixlen m i > IP6_MAX_PREFIX_LENGTH then false else new
        if ifa_prefixlen m i = IP6_MAX_PREFIX_LENGTH then
          let brd := rta_get_ipa m adr
          let pfx := net_addr.ip6 (rta_get_ip6 m adr) (ifa_prefixlen m i)
          if ip = brd then
            nl_parse_addr_submit ipa_classify scan new1
              { iface := ifi, ip := ip, pfx := pfx, brd := brd, flags := flags0 ||| IA_HOST }
          else
            nl_parse_addr_submit ipa_classify scan new1
              { iface := ifi, ip := ip, pfx := pfx, brd := brd, flags := flags0 ||| IA_PEER,
                opposite := brd }
        else
          let pfx := net_normalize (.ip6 (ipa_to_ip6 ip) (ifa_prefixlen m i))
          let opp := if ifa_prefixlen m i = IP6_MAX_PREFIX_LENGTH - 1 then ipa_opposite_m1 ip
            else IPA_NONE
          nl_parse_addr_submit ipa_classify scan new1
            { iface := ifi, ip := ip, pfx := pfx, flags := flags0, opposite := opp }

/-- The function `nl_parse_addr(h, scan)`. -/
def nl_parse_addr (d : Daemon) (ipa_classify : ip_addr → Int) (m : Mem) (h : Nat)
    (scan : Bool) : AddrOutcome :=
  match nl_checkin m h sizeof_ifaddrmsg with
  | (_, none) => .ignored
  | (nl_attr_len, some i) =>
    let new := nlmsg_type m h == RTM_NEWADDR
    if ifa_family m i = AF_INET then nl_parse_addr4 d ipa_classify m i scan new nl_attr_len
    else if ifa_family m i = AF_INET6 then nl_parse_addr6 d ipa_classify m i scan new nl_attr_len
    else .ignored


/-- The descriptor table that `nl_parse_addr4` / `nl_parse_addr6` pass to `nl_parse_attrs`
for the family of the message. -/
def ifa_attr_want (family : Nat) : Nat → nl_want_attrs :=
  if family = AF_INET then ifa_attr_want4 else ifa_attr_want6

/-- The result of `nl_parse_attrs` on the attributes of the address message at `h`. -/
def addr_parse (m : Mem) (h : Nat) : ParseAttrs :=
  nl_parse_attrs m (IFA_RTA (NLMSG_DATA h)) (ifa_attr_want (ifa_family m (NLMSG_DATA h)))
    BIRD_IFA_MAX (nl_checkin m h sizeof_ifaddrmsg).1

/-- The attribute from which the local address of the message at `h` is read: `IFA_LOCAL`,
and for IPv6 `IFA_ADDRESS` when there is no `IFA_LOCAL`. -/
def addr_local (m : Mem) (h : Nat) : Option Nat :=
  match (addr_parse m h).k IFA_LOCAL with
  | some loc => some loc
  | none =>
    if ifa_family m (NLMSG_DATA h) = AF_INET6 then (addr_parse m h).k IFA_ADDRESS else none

/-- The address message at `h` is accepted: it is an IPv4 or IPv6 message that passes the
check-in and the attribute parse, has the attributes the family requires (`loc` holds the
local address, `adr` is `IFA_ADDRESS`), names a known interface `ifi`, and its local address
is classified with a scope. -/
def addr_accepted (d : Daemon) (ipa_classify : ip_addr → Int) (m : Mem) (h : Nat)
    (loc adr : Nat) (ifi : iface) : Prop :=
  (nl_checkin m h sizeof_ifaddrmsg).2 = some (NLMSG_DATA h)
    ∧ (ifa_family m (NLMSG_DATA h) = AF_INET ∨ ifa_family m (NLMSG_DATA h) = AF_INET6)
    ∧ (addr_parse m h).ret ≠ 0
    ∧ addr_local m h = some loc
    ∧ (addr_parse m h).k IFA_ADDRESS = some adr
    ∧ d.if_find_by_index (ifa_index m (NLMSG_DATA h)) = some ifi
    ∧ 0 ≤ ipa_classify (rta_get_ipa m loc)

/-- The call that submits the record `r` of a message: `ifa_update` for `RTM_NEWADDR`,
`ifa_delete` otherwise, followed by `if_end_partial_update` outside a scan. -/
def addr_submitted (m : Mem) (h : Nat) (scan : Bool) (r : ifa) : AddrOutcome :=
  if nlmsg_type m h == RTM_NEWADDR then .ifa_update r (!scan) else .ifa_delete r (!scan)

/-- An address classification for examples: every address is a host address of universe
scope. -/
def example_classify : ip_addr → Int := fun _ => 0x1004

/-- An `RTM_NEWADDR` message for the IPv4 host address `192.0.2.1/32` on the interface 2:
`IFA_ADDRESS` and `IFA_LOCAL` are both `192.0.2.1`. -/
def addr_msg_host4 : Mem :=
  mem_of_list [40, 0, 0, 0, 20, 0, 0, 0, 0, 0, 0, 0, 0, 0, 0, 0,
    2, 32, 0, 0, 2, 0, 0, 0,
    8, 0, 1, 0, 192, 0, 2, 1,
    8, 0, 2, 0, 192, 0, 2, 1]

/-- An `RTM_NEWADDR` message for the IPv4 peer address `192.0.2.1 peer 192.0.2.2/32` on the
interface 2: `IFA_ADDRESS` is `192.0.2.2`, `IFA_LOCAL` is `192.0.2.1`. -/
def addr_msg_peer4 : Mem :=
  mem_of_list [40, 0, 0, 0, 20, 0, 0, 0, 0, 0, 0, 0, 0, 0, 0, 0,
    2, 32, 0, 0, 2, 0, 0, 0,
    8, 0, 1, 0, 192, 0, 2, 2,
    8, 0, 2, 0, 192, 0, 2, 1]

/-- An `RTM_NEWADDR` message for the IPv6 address `2001:db8::1/128` on the interface 2, with
`IFA_ADDRESS` only. -/
def addr_msg_host6 : Mem :=
  mem_of_list [44, 0, 0, 0, 20, 0, 0, 0, 0, 0, 0, 0, 0, 0, 0, 0,
    10, 128, 0, 0, 2, 0, 0, 0,
    20, 0, 1, 0, 0x20, 0x01, 0x0d, 0xb8, 0, 0, 0, 0, 0, 0, 0, 0, 0, 0, 0, 1]

/-- An `RTM_NEWADDR` message for the IPv4 address `10.0.0.0/31` on the interface 2:
`IFA_ADDRESS` and `IFA_LOCAL` are both `10.0.0.0`. -/
def addr_msg_31 : Mem :=
  mem_of_list [40, 0, 0, 0, 20, 0, 0, 0, 0, 0, 0, 0, 0, 0, 0, 0,
    2, 31, 0, 0, 2, 0, 0, 0,
    8, 0, 1, 0, 10, 0, 0, 0,
    8, 0, 2, 0, 10, 0, 0, 0]

/-- An `RTM_NEWADDR` message for the IPv4 address `10.0.0.1/30` on the interface 2. -/
def addr_msg_30 : Mem :=
  mem_of_list [40, 0, 0, 0, 20, 0, 0, 0, 0, 0, 0, 0, 0, 0, 0, 0,
    2, 30, 0, 0, 2, 0, 0, 0,
    8, 0, 1, 0, 10, 0, 0, 1,
    8, 0, 2, 0, 10, 0, 0, 1]

/-- An `RTM_NEWADDR` message for the IPv6 address `2001:db8::1/127` on the interface 2, with
`IFA_ADDRESS` only. -/
def addr_msg_127 : Mem :=
  mem_of_list [44, 0, 0, 0, 20, 0, 0, 0, 0, 0, 0, 0, 0, 0, 0, 0,
    10, 127, 0, 0, 2, 0, 0, 0,
    20, 0, 1, 0, 0x20, 0x01, 0x0d, 0xb8, 0, 0, 0, 0, 0, 0, 0, 0, 0, 0, 0, 1]

/-- The sub-attributes that stand for a metrics vector: for every `t` from 1 to `max - 1`
whose bit is set in the bitmap `metrics[0]`, in increasing order, the attribute of code `t`
with the 4 bytes of `metrics[t]`. -/
def metrics_attrs (metrics : Nat → Nat) (max : Nat) : List (Nat × List Nat) :=
  ((List.range max).filter (fun t => decide (1 ≤ t) && (metrics 0 &&& 1 <<< t != 0))).map
    (fun t => (t, bytes_u32 (metrics t)))

/-- The vector that the loop of `nl_parse_metrics` builds from the sub-attributes of the codes
of a list, each with the value `metrics[t]`: `vec[0] |= 1 << t; vec[t] = metrics[t]`. -/
def metrics_fold (metrics : Nat → Nat) : (Nat → Nat) → List Nat → Nat → Nat
  | vec, [] => vec
  | vec, t :: rest =>
    metrics_fold metrics
      (fun i => if i = t then metrics t else if i = 0 then u32 (vec 0 ||| 1 <<< t) else vec i)
      rest

/-- A metrics vector for examples: the bitmap names the slots 2 and 5, with the values 1500 and
7. -/
def example_metrics : Nat → Nat := fun i =>
  if i = 0 then 0x24 else if i = 2 then 1500 else if i = 5 then 7 else 0

/-! ## Table registry -/

/-- Modelled from the spec: `HASH_INSERT2` of `lib/hash.h`, which is not under src/ (§4.7: a
hash from (family, table-id) to the owning protocol): the node is linked into the table. -/
def HASH_INSERT2 (map : List krt_proto) (p : krt_proto) : List krt_proto := p :: map

/-- Modelled from the spec: `HASH_REMOVE2` of `lib/hash.h` (§4.7: unregister on shutdown): the
node `p` itself is unlinked when the table holds it, and nothing happens otherwise. -/
def HASH_REMOVE2 (map : List krt_proto) (p : krt_proto) : List krt_proto := map.erase p

/-- The function `krt_sys_io_init()`: `HASH_INIT(nl_table_map, krt_pool, 6)`, the empty
registry. -/
def krt_sys_io_init : List krt_proto := []

/-- The function `krt_sys_start(p)`: its return value and the registry `nl_table_map` after the
call. The calls `nl_open()` and `nl_open_async()` do not touch the registry. -/
def krt_sys_start (map : List krt_proto) (p : krt_proto) : Nat × List krt_proto :=
  match HASH_FIND map p.af (krt_table_id p) with
  | some _ => (0, map)
  | none => (1, HASH_INSERT2 map p)

/-- The function `krt_sys_shutdown(p)`: the registry after the call. -/
def krt_sys_shutdown (map : List krt_proto) (p : krt_proto) : List krt_proto :=
  HASH_REMOVE2 map p

/-- A call that changes the registry. -/
inductive registry_call where
  | start (p : krt_proto)
  | shutdown (p : krt_proto)
deriving DecidableEq, Repr

/-- The registry after a sequence of calls of `krt_sys_start` and `krt_sys_shutdown`. -/
def registry_run : List krt_proto → List registry_call → List krt_proto
  | map, [] => map
  | map, .start p :: rest => registry_run (krt_sys_start map p).2 rest
  | map, .shutdown p :: rest => registry_run (krt_sys_shutdown map p) rest

/-- The protocols of a registry that are registered for a family and a table id. -/
def registered (map : List krt_proto) (af id : Nat) : List krt_proto :=
  map.filter (fun q => q.af == af && krt_table_id q == id)

/-! ## Link decoder -/

def RTM_NEWLINK : Nat := 16
def RTM_DELLINK : Nat := 17
def IFLA_IFNAME : Nat := 3
def IFLA_MTU : Nat := 4
def IFLA_WIRELESS : Nat := 11
def IFF_UP : Nat := 0x1
def IFF_BROADCAST : Nat := 0x2
def IFF_LOOPBACK : Nat := 0x8
def IFF_POINTOPOINT : Nat := 0x10
def IFF_MULTICAST : Nat := 0x1000
def IFF_LOWER_UP : Nat := 0x10000

/-- Size of `struct ifinfomsg`: `ifi_family` (u8, offset 0), padding (u8, 1), `ifi_type`
(u16, 2), `ifi_index` (int, 4), `ifi_flags` (unsigned, 8), `ifi_change` (unsigned, 12). -/
def sizeof_ifinfomsg : Nat := 16

/-- The macro `IFLA_RTA(r)`: `(char *) r + NLMSG_ALIGN(sizeof(struct ifinfomsg))`. -/
def IFLA_RTA (i : Nat) : Nat := i + NLMSG_ALIGN sizeof_ifinfomsg

/-- The field `i->ifi_index`. -/
def ifi_index (m : Mem) (i : Nat) : Nat := ld32 m (i + 4)

/-- The field `i->ifi_flags`. -/
def ifi_flags (m : Mem) (i : Nat) : Nat := ld32 m (i + 8)

/-- The capacity `BIRD_IFLA_MAX` (`IFLA_WIRELESS + 1`) of the link table and vector. -/
def BIRD_IFLA_MAX : Nat := IFLA_WIRELESS + 1

/-- The table `ifla_attr_want`. -/
def ifla_attr_want (c : Nat) : nl_want_attrs :=
  if c = IFLA_IFNAME then ⟨true, false, 0⟩
  else if c = IFLA_MTU then ⟨true, true, 4⟩
  else if c = IFLA_WIRELESS then ⟨true, false, 0⟩
  else want_none

/-- Modelled from the spec: the interface flag `IF_MULTIACCESS` of `nest/iface.h`, which is not
under src/ (§3.3: capability flags admin-up, link-up, loopback, broadcast, multicast,
multi-access, ignore); the flags are distinct bits. -/
def IF_MULTIACCESS : Nat := 0x2

/-- Modelled from the spec: the interface flag `IF_MULTICAST` of `nest/iface.h`. -/
def IF_MULTICAST : Nat := 0x8

/-- Modelled from the spec: the interface flag `IF_LOOPBACK` of `nest/iface.h`. -/
def IF_LOOPBACK : Nat := 0x20

/-- Modelled from the spec: the interface flag `IF_IGNORE` of `nest/iface.h`. -/
def IF_IGNORE : Nat := 0x40

/-- Modelled from the spec: the interface flag `IF_ADMIN_UP` of `nest/iface.h`. -/
def IF_ADMIN_UP : Nat := 0x80

/-- Modelled from the spec: the interface flag `IF_LINK_UP` of `nest/iface.h`. -/
def IF_LINK_UP : Nat := 0x100

/-- The characters of the C string at an address, up to its terminating zero byte and at most
`n` of them: what `strncpy(dst, src, n)` copies and what `strncmp(s, src, n)` compares. -/
def c_string (m : Mem) : Nat → Nat → List Nat
  | _, 0 => []
  | a, n + 1 => if ld8 m a = 0 then [] else ld8 m a :: c_string m (a + 1) n

/-- What `nl_parse_link` did with a message. -/
inductive LinkOutcome where
  /-- It returned without calling `if_update` or `if_delete`. -/
  | ignored
  /-- It called `if_delete(ifi)` for a `RTM_DELLINK` message. -/
  | if_delete (ifi : iface)
  /-- It called `if_update(&f)`, after `if_delete(ifi)` for the interface `deleted` when the
  index was in use under another name; the flag tells whether `if_end_partial_update`
  followed. -/
  | if_update (deleted : Option iface) (f : iface) (end_update : Bool)
deriving DecidableEq, Repr

/-- The statements of `nl_parse_link` that translate the kernel flag word `fl = i->ifi_flags`
into `f.flags`, which is 0 before them (`struct iface f = {}`). -/
def nl_parse_link_flags (fl : Nat) : Nat :=
  let f0 : Nat := 0
  let f1 := if fl &&& IFF_UP ≠ 0 then f0 ||| IF_ADMIN_UP else f0
  let f2 := if fl &&& IFF_LOWER_UP ≠ 0 then f1 ||| IF_LINK_UP else f1
  let f3 :=
    if fl &&& IFF_LOOPBACK ≠ 0 then f2 ||| (IF_MULTIACCESS ||| IF_LOOPBACK ||| IF_IGNORE)
    else if fl &&& IFF_POINTOPOINT ≠ 0 then f2 ||| IF_MULTICAST
    else if fl &&& IFF_BROADCAST ≠ 0 then f2 ||| (IF_MULTIACCESS ||| IF_BROADCAST ||| IF_MULTICAST)
    else f2 ||| IF_MULTIACCESS
  if fl &&& IFF_MULTICAST ≠ 0 then f3 ||| IF_MULTICAST else f3

/-- The function `nl_parse_link(h, scan)`. The name field of an interface holds 16 bytes, so
`strncpy` and `strncmp` look at 15 characters. -/
def nl_parse_link (d : Daemon) (m : Mem) (h : Nat) (scan : Bool) : LinkOutcome :=
  let new := nlmsg_type m h == RTM_NEWLINK
  match nl_checkin m h sizeof_ifinfomsg with
  | (_, none) => .ignored
  | (nl_attr_len, some i) =>
    let pa := nl_parse_attrs m (IFLA_RTA i) ifla_attr_want BIRD_IFLA_MAX nl_attr_len
    if pa.ret = 0 then .ignored
    else
      match pa.k IFLA_IFNAME, pa.k IFLA_MTU with
      | some nm, some mt =>
        if RTA_PAYLOAD m nm < 2 then .ignored
        else
          let name := RTA_DATA nm
          let mtu := rta_get_u32 m mt
          if !new then
            match d.if_find_by_index (ifi_index m i) with
            | none => .ignored
            | some ifi => .if_delete ifi
          else
            let deleted : Option iface :=
              match d.if_find_by_index (ifi_index m i) with
              | some ifi => if ifi.name.take 15 ≠ c_string m name 15 then some ifi else none
              | none => none
            .if_update deleted
              { name := c_string m name 15, index := ifi_index m i, mtu := mtu,
                flags := nl_parse_link_flags (ifi_flags m i) } (!scan)
      | _, _ => .ignored

/-- The result of `nl_parse_attrs` on the attributes of the link message at `h`. -/
def link_parse (m : Mem) (h : Nat) : ParseAttrs :=
  nl_parse_attrs m (IFLA_RTA (NLMSG_DATA h)) ifla_attr_want BIRD_IFLA_MAX
    (nl_checkin m h sizeof_ifinfomsg).1

/-- One of the classes of C22, following the words of the claim: the flags added for a
loopback interface, else for a point-to-point interface, else for a broadcast interface, else
for any other interface. -/
def link_class_flags (fl : Nat) : Nat :=
  if fl &&& IFF_LOOPBACK ≠ 0 then IF_MULTIACCESS ||| IF_LOOPBACK ||| IF_IGNORE
  else if fl &&& IFF_POINTOPOINT ≠ 0 then IF_MULTICAST
  else if fl &&& IFF_BROADCAST ≠ 0 then IF_MULTIACCESS ||| IF_BROADCAST ||| IF_MULTICAST
  else IF_MULTIACCESS

/-- An `RTM_NEWLINK` message for the interface `eth0` with index 2, MTU 1500 and the kernel
flags `IFF_UP | IFF_BROADCAST | IFF_MULTICAST | IFF_LOWER_UP` (0x11003). -/
def link_msg_eth0 : Mem :=
  mem_of_list [52, 0, 0, 0, 16, 0, 0, 0, 0, 0, 0, 0, 0, 0, 0, 0,
    0, 0, 1, 0, 2, 0, 0, 0, 3, 16, 1, 0, 0, 0, 0, 0,
    9, 0, 3, 0, 101, 116, 104, 48, 0, 0, 0, 0,
    8, 0, 4, 0, 220, 5, 0, 0]

/-- The source classification of C23, following the words of the claim: `KRT_SRC_REDIRECT` for
`RTPROT_REDIRECT`, `KRT_SRC_BIRD` for `RTPROT_BIRD`, and `KRT_SRC_ALIEN` for every other
protocol tag. -/
def route_src (proto : Nat) : krt_src :=
  if proto = RTPROT_REDIRECT then .REDIRECT
  else if proto = RTPROT_BIRD then .BIRD
  else .ALIEN

/-- The outcome is the delivery of the route `e` to the protocol `p`: `krt_got_route(p, e)` or
`krt_got_route_async(p, e, new)`. -/
def RouteOutcome.delivers (r : RouteOutcome) (p : krt_proto) (e : rte) : Prop :=
  r = .got_route p e ∨ ∃ new, r = .got_route_async p e new

/-- The message `route_msg_dev` with the protocol tag `RTPROT_BIRD`. -/
def route_msg_dev_bird : Mem := st8 route_msg_dev 21 RTPROT_BIRD

/-- The message `route_msg_dev` with the protocol tag `RTPROT_REDIRECT`. -/
def route_msg_dev_redirect : Mem := st8 route_msg_dev 21 RTPROT_REDIRECT

/-- The message `route_msg_dev` with the protocol tag `RTPROT_KERNEL`. -/
def route_msg_dev_kernel : Mem := st8 route_msg_dev 21 RTPROT_KERNEL

/-- The 32-bit value, in host byte order, that the first four bytes of a list stand for. -/
def le32 (d : List Nat) : Nat := ld32 (mem_of_list d) 0

/-- An IPv4 `RTM_NEWROUTE` message for `10.0.0.0/24 dev 2`, table 254, whose `RTA_METRICS`
attribute (at address 44) holds the sub-attribute 2 (mtu) with the value 1500 and the
sub-attribute 16 (`RTAX_CC_ALGO`) with the 6 bytes of the string `cubic`. -/
def route_msg_metrics_cc : Mem :=
  mem_of_list [68, 0, 0, 0, 24, 0, 0, 0, 0, 0, 0, 0, 0, 0, 0, 0,
    2, 24, 0, 0, 254, 3, 0, 1, 0, 0, 0, 0,
    8, 0, 1, 0, 10, 0, 0, 0,
    8, 0, 4, 0, 2, 0, 0, 0,
    24, 0, 8, 0,
    8, 0, 2, 0, 220, 5, 0, 0,
    10, 0, 16, 0, 99, 117, 98, 105, 99, 0, 0, 0]

/-- An IPv4 `RTM_NEWROUTE` message for `10.0.0.0/24 dev 2`, table 254, whose `RTA_METRICS`
attribute (at address 44) holds the sub-attribute 2 (mtu) with a payload of 2 bytes. -/
def route_msg_metrics_short : Mem :=
  mem_of_list [56, 0, 0, 0, 24, 0, 0, 0, 0, 0, 0, 0, 0, 0, 0, 0,
    2, 24, 0, 0, 254, 3, 0, 1, 0, 0, 0, 0,
    8, 0, 1, 0, 10, 0, 0, 0,
    8, 0, 4, 0, 2, 0, 0, 0,
    12, 0, 8, 0,
    6, 0, 2, 0, 220, 5, 0, 0]

/-- An IPv4 `RTM_NEWROUTE` message for `10.0.0.0/24 dev 2`, table 254, that carries
`RTA_ENCAP_TYPE` (at address 44) with the value `LWTUNNEL_ENCAP_MPLS` and `RTA_ENCAP` (at
address 52) with an empty payload: the encapsulation group holds no `RTA_DST`. -/
def route_msg_encap_empty : Mem :=
  mem_of_list [56, 0, 0, 0, 24, 0, 0, 0, 0, 0, 0, 0, 0, 0, 0, 0,
    2, 24, 0, 0, 254, 3, 0, 1, 0, 0, 0, 0,
    8, 0, 1, 0, 10, 0, 0, 0,
    8, 0, 4, 0, 2, 0, 0, 0,
    6, 0, 21, 0, 1, 0, 0, 0,
    4, 0, 22, 0]

/-- The same message with an encapsulation group that holds `RTA_DST` with the single label
100. -/
def route_msg_encap_label : Mem :=
  mem_of_list [64, 0, 0, 0, 24, 0, 0, 0, 0, 0, 0, 0, 0, 0, 0, 0,
    2, 24, 0, 0, 254, 3, 0, 1, 0, 0, 0, 0,
    8, 0, 1, 0, 10, 0, 0, 0,
    8, 0, 4, 0, 2, 0, 0, 0,
    6, 0, 21, 0, 1, 0, 0, 0,
    12, 0, 22, 0, 8, 0, 1, 0, 0, 6, 65, 0]

/-- The route `10.0.0.0/24` with the two next-hops `via 10.1.1.1 dev eth0` and
`via 10.1.1.2` without an interface. -/
def example_route4_mp_noif : rte := {
  net := .ip4 (10 * 2 ^ 24) 24,
  attrs := { dest := .UNICAST,
             nh := { gw := .ip4 0x0A010101, iface := some example_eth0, weight := 1 },
             nh_next := [{ gw := .ip4 0x0A010102, iface := none, weight := 1 }] } }

/-- The route `10.0.0.0/24` with the two next-hops `via 10.1.1.1 dev eth0 weight 1` and
`via 10.1.1.2 dev eth1 weight 2`. -/
def example_route4_mp : rte := {
  net := .ip4 (10 * 2 ^ 24) 24,
  attrs := { dest := .UNICAST,
             nh := { gw := .ip4 0x0A010101, iface := some example_eth0, weight := 1 },
             nh_next := [{ gw := .ip4 0x0A010102, iface := some example_eth1, weight := 2 }] } }

/-! ## Installing and withdrawing routes -/

/-- Modelled from the spec: the flag `KRF_SYNC_ERROR` of `nest/route.h`, which is not under
src/ (§7: a `SYNC_ERROR` flag on the affected route): one bit of the flags byte `n->n.flags`
of a network. -/
def KRF_SYNC_ERROR : Nat := 0x40

/-- The request endpoint and the pending deliveries as the loop of `nl_exchange` leaves them
when it ends at a reply of type `NLMSG_ERROR`; `none` when it does not end within `n` calls of
`nl_get_reply`. -/
def nl_exchange_loop_rest (fuel : Nat) : Nat → nl_sock → List Recv → Option (nl_sock × List Recv)
  | 0, _, _ => none
  | n + 1, nl, input =>
    match nl_get_reply fuel nl input with
    | .ret h nl1 rest =>
      if nlmsg_type nl1.rx_buffer h = NLMSG_ERROR then some (nl1, rest)
      else nl_exchange_loop_rest fuel n nl1 rest
    | _ => none

/-- The request endpoint and the pending deliveries after `nl_exchange(pkt)` returned; `none`
when it does not return. -/
def nl_exchange_rest (fuel n : Nat) (nl_req : nl_sock) (m : Mem) (pkt : Nat) (sendto_ok : Bool)
    (input : List Recv) : Option (nl_sock × List Recv) :=
  if sendto_ok then nl_exchange_loop_rest fuel n (nl_send nl_req m pkt).1 input else none

/-- The statement `if (old) nl_send_route(p, old, NULL, 0);` of `krt_replace_rte`: `none` when
the call does not return, otherwise the request endpoint and the pending deliveries after
it. -/
def krt_replace_rte_old (fuel n : Nat) (nl_req : nl_sock) (input : List Recv)
    (sendto_ok : Bool) (stack : Mem) (p : krt_proto) (old : Option rte)
    (metrics0 : Nat → Nat) : Option (nl_sock × List Recv) :=
  match old with
  | none => some (nl_req, input)
  | some o =>
    match nl_send_route stack p o [] false metrics0 with
    | .abort _ => none
    | .exchange pkt => nl_exchange_rest fuel n nl_req pkt 0 sendto_ok input

/-- The function `krt_replace_rte(p, n, new, old, eattrs)`: the flags byte `n->n.flags` after
the call, `flags` being its value before; `none` when the call does not return. The two calls
of `nl_send_route` allocate their request on the stack, whose content before is `stack_old`
and `stack_new`. -/
def krt_replace_rte (fuel n : Nat) (nl_req : nl_sock) (input : List Recv) (sendto_ok : Bool)
    (stack_old stack_new : Mem) (p : krt_proto) (flags : Nat) (new old : Option rte)
    (eattrs : List eattr) (metrics0 : Nat → Nat) : Option Nat :=
  match krt_replace_rte_old fuel n nl_req input sendto_ok stack_old p old metrics0 with
  | none => none
  | some (nl1, rest) =>
    let err : Option Int :=
      match new with
      | none => some 0
      | some e =>
        match nl_send_route stack_new p e eattrs true metrics0 with
        | .abort _ => none
        | .exchange pkt => nl_exchange fuel n nl1 pkt 0 sendto_ok rest
    match err with
    | none => none
    | some err =>
      if err < 0 then some ((flags ||| KRF_SYNC_ERROR) % 256)
      else some ((flags &&& (0xFFFFFFFF - KRF_SYNC_ERROR)) % 256)

/-- The reply that ends the loop of `nl_exchange` on an endpoint: the first message of type
`NLMSG_ERROR` that `nl_get_reply` returns, with the receive buffer at that moment. -/
def nl_exchange_ack (fuel n : Nat) (nl : nl_sock) (input : List Recv) : Option (Nat × Mem) :=
  (nl_get_replies fuel n nl input).find? (fun hb => nlmsg_type hb.2 hb.1 == NLMSG_ERROR)

/-- A datagram with one acknowledgement: an `NLMSG_ERROR` message of 36 bytes with sequence
number 7 and error code 0. -/
def example_dgram_ack : List Nat :=
  [36, 0, 0, 0, 2, 0, 0, 0, 7, 0, 0, 0, 0, 0, 0, 0, 0, 0, 0, 0,
   28, 0, 0, 0, 24, 0, 0, 0, 7, 0, 0, 0, 0, 0, 0, 0]

/-- A datagram with one negative acknowledgement: an `NLMSG_ERROR` message of 36 bytes with
sequence number 7 and error code -17. -/
def example_dgram_nack : List Nat :=
  [36, 0, 0, 0, 2, 0, 0, 0, 7, 0, 0, 0, 0, 0, 0, 0, 239, 255, 255, 255,
   28, 0, 0, 0, 24, 0, 0, 0, 7, 0, 0, 0, 0, 0, 0, 0]

/-- The request at address 0 is a route request under construction with at most `B` bytes: its
length `nlmsg_len` is a multiple of 4, covers the header and the route payload, and is at most
`B`. -/
def msg_room (m : Mem) (B : Nat) : Prop :=
  nlmsg_len m 0 % 4 = 0 ∧ 28 ≤ nlmsg_len m 0 ∧ nlmsg_len m 0 ≤ B

/-- The size `rsize` of the request buffer that `nl_send_route` allocates for a route with `n`
next-hops, as C30 states it:
`sizeof(nlmsghdr) + sizeof(rtmsg) + 128 + 8 * KRT_METRICS_MAX + 28 * n`. -/
def route_rsize (n : Nat) : Nat :=
  sizeof_nlmsghdr + sizeof_rtmsg + 128 + 8 * KRT_METRICS_MAX + 28 * n

/-- The route request at address 0 holds, after its header and the fixed route payload,
exactly the attributes of the list, one after the other, and its length `nlmsg_len` covers
them and is within `bufsize`. -/
def msg_built (m : Mem) (bufsize : Nat) (attrs : List (Nat × List Nat)) : Prop :=
  nlmsg_len m 0 = NLMSG_LENGTH sizeof_rtmsg + attrs_len attrs ∧ nlmsg_len m 0 ≤ bufsize
    ∧ attrs_at m (RTM_RTA (NLMSG_DATA 0)) attrs

/-- The route request at address 0 holds the attributes of the list, followed by a nested
attribute of code `c` that has been opened with `nl_open_attr` and not yet closed: its header
is in place and the message length is beyond it. -/
def msg_open (m : Mem) (bufsize : Nat) (attrs : List (Nat × List Nat)) (c : Nat) : Prop :=
  RTM_RTA (NLMSG_DATA 0) + attrs_space attrs + 4 ≤ nlmsg_len m 0 ∧ nlmsg_len m 0 ≤ bufsize
    ∧ attrs_at m (RTM_RTA (NLMSG_DATA 0)) attrs
    ∧ rta_type m (RTM_RTA (NLMSG_DATA 0) + attrs_space attrs) = c

/-- The two requests have the same header and fixed route payload, the length `nlmsg_len`
(bytes 0 to 3) and the type `rtm_type` (byte 23) apart. -/
def hdr_same (m m' : Mem) : Prop :=
  ∀ i, 4 ≤ i → i < 28 → i ≠ 23 → m' i = m i

/-- The `n` bytes of the memory from address `a` on. -/
def mem_bytes (m : Mem) (a n : Nat) : List Nat :=
  (List.range n).map (fun i => m (a + i))

/-- The request `m'` is the request `m` with further attributes appended, none of them of
code `c`, and with the same header and fixed payload. -/
def msg_extends (bufsize c : Nat) (m m' : Mem) : Prop :=
  ∀ A, msg_built m bufsize A →
    hdr_same m m' ∧ ∃ B, msg_built m' bufsize (A ++ B) ∧ c ∉ B.map Prod.fst

/-- The bytes that `nl_add_attr_ipa` stores for an address: 4 bytes for IPv4, 16 for IPv6, in
network byte order. -/
def ipa_bytes : ip_addr → List Nat
  | .ip4 a => ip4_hton_bytes a
  | .ip6 a => ip6_hton_bytes a

/-- The payload of the attribute `RTA_DST` of a request of `nl_send_route`: the label for an
MPLS protocol, else the network address. -/
def route_dst_bytes (p : krt_proto) (net : net_addr) : List Nat :=
  if p.af = AF_MPLS then mpls_put [net_mpls net] else ipa_bytes (net_pfx net)

/-- The table attribute of a request of `nl_send_route`: none when the table id is below 256,
else `RTA_TABLE` with the 32-bit table id. -/
def route_table_attr (p : krt_proto) : List (Nat × List Nat) :=
  if krt_table_id p < 256 then [] else [(RTA_TABLE, bytes_u32 (krt_table_id p))]

/-- The header and fixed payload of a request of `nl_send_route(p, e, eattrs, new)` for the
destination `net`: type and flags of the message, and family, destination length, type of
service, table, protocol tag, scope and flags of the route. -/
def route_hdr (m : Mem) (new : Bool) (p : krt_proto) (net : net_addr) : Prop :=
  nlmsg_type m 0 = (if new then RTM_NEWROUTE else RTM_DELROUTE)
    ∧ nlmsg_flags m 0
        = (NLM_F_REQUEST ||| NLM_F_ACK ||| (if new then NLM_F_CREATE ||| NLM_F_EXCL else 0))
    ∧ rtm_family m (NLMSG_DATA 0) = p.af % 256
    ∧ rtm_dst_len m (NLMSG_DATA 0) = net_pxlen net % 256
    ∧ rtm_tos m (NLMSG_DATA 0) = 0
    ∧ rtm_table m (NLMSG_DATA 0) = (if krt_table_id p < 256 then krt_table_id p else 0)
    ∧ rtm_protocol m (NLMSG_DATA 0) = RTPROT_BIRD
    ∧ rtm_scope m (NLMSG_DATA 0) = RT_SCOPE_UNIVERSE
    ∧ rtm_flags m (NLMSG_DATA 0) = 0

/-- A protocol instance for IPv4 and the kernel table 1000. -/
def example_proto4_tab1000 : krt_proto := { af := AF_INET, table_id := 1000, name := 4 }

/-- The request that `nl_send_route` builds to install the route `10.0.0.0/24 dev eth0` for the
protocol of table 1000. -/
def example_request_tab1000 : Mem :=
  match nl_send_route_build example_stack example_proto4_tab1000 example_route4_dev [] true
      (fun _ => 0) with
  | .ok pkt => pkt
  | .error _ => fun _ => 0

/-- What one pass through the loop `while (len)` of `nl_parse_multipath` does: the condition
is false and the function returns `first` after the loop, or the body returns `NULL`, or the
body runs to its end and the loop goes on with a new entry pointer and remaining length. -/
inductive MultipathStep where
  | done (first : List nexthop)
  | null
  | next (nh : Nat) (len : Int) (used : Nat) (acc : List nexthop)
deriving DecidableEq, Repr

/-- One pass through the loop `while (len)` of `nl_parse_multipath`, from the test of `len` to
`len -= NLMSG_ALIGN(nh->rtnh_len); nh = RTNH_NEXT(nh);`. `used` is `nh_buf_used`, `acc` the
next-hops linked so far. The comparison `len < sizeof(*nh)` is unsigned, so it only holds
for `0 <= len < 8`; the comparison `len < nh->rtnh_len` is signed. The growth of the scratch
arena is left aside as in `nl_parse_multipath_loop` (it is in
`nl_parse_multipath_arena_loop`); it has no part in the arithmetic of `len`. -/
def nl_parse_multipath_iter(d : Daemon) (m : Mem) (p : krt_proto) (nh : Nat) (len : Int)
    (used : Nat) (acc : List nexthop) : MultipathStep :=
  if len = 0 then .done acc
  else if (0 ≤ len ∧ len < (sizeof_rtnexthop : Nat)) ∨ len < (ld16 m nh : Nat) then .null
  else
    match d.if_find_by_index (ld32 m (nh + 4)) with
    | none => .null
    | some ifa =>
      let pa := nl_parse_attrs m (RTNH_DATA nh) nexthop_attr_want4 BIRD_RTA_MAX
        ((ld16 m nh : Nat) - (RTNH_LENGTH 0 : Nat))
      match pa.k RTA_GATEWAY with
      | none => .null
      | some g =>
        let gw := rta_get_ipa m g
        match d.neigh_find2 p gw ifa (ld8 m (nh + 2) &&& RTNH_F_ONLINK != 0) with
        | none => .null
        | some nbr =>
          if nbr.scope = SCOPE_HOST then .null
          else
            let rv : nexthop := { (d.nh_buffer used) with
              weight := ld8 m (nh + 3)
              iface := some ifa
              gw := gw }
            .next (nh + RTNH_ALIGN (ld16 m nh))
              (to_int32 (len - (NLMSG_ALIGN (ld16 m nh) : Nat))) (used + 1) (acc ++ [rv])

/-- The loop `while (len)` of `nl_parse_multipath` run for at most the given number of passes:
`some r` when the function has returned `r` (`none` for `NULL`) within that number, `none`
when the loop is still running after it. -/
def nl_parse_multipath_run (d : Daemon) (m : Mem) (p : krt_proto) :
    Nat → Nat → Int → Nat → List nexthop → Option (Option (List nexthop))
  | 0, _, _, _, _ => none
  | fuel + 1, nh, len, used, acc =>
    match nl_parse_multipath_iter d m p nh len used acc with
    | .done first => some (some first)
    | .null => some none
    | .next nh' len' used' acc' => nl_parse_multipath_run d m p fuel nh' len' used' acc'

/-- A multipath payload of 17 bytes with one entry whose `rtnh_len` is 17, not a multiple of
4: `{flags 0, hops 1, ifindex 2, RTA_GATEWAY 10.1.1.1}` and one more byte. -/
def multipath_unaligned : Mem :=
  mem_of_list [17, 0, 0, 1, 2, 0, 0, 0, 8, 0, 5, 0, 10, 1, 1, 1, 0]

/-- A multipath payload whose only entry has `rtnh_len` 0 and the interface index 2. -/
def multipath_zero_len : Mem :=
  mem_of_list [0, 0, 0, 1, 2, 0, 0, 0, 8, 0, 5, 0, 10, 1, 1, 1]

/-! ## Scratch arena of the multipath decoder -/

/-- Modelled from the spec: `xrealloc` of `sysdep/unix/xmalloc.c`, which is not under src/,
behind the doubling next-hop scratch arena: the function from the address of the old block
(0 for `NULL`) and the new number of structures to the address of the block it returns. The
new block holds the old contents; when its address differs from that of the old block, the
old block has been released. -/
abbrev Xrealloc : Type := Nat → Nat → Nat

/-- How a call of `nl_parse_multipath` ends when its scratch arena is followed: it returns
`NULL`, or it returns `first`, the chain of the next-hops `l` that lie in the first slots of
the block `nh_buffer`, or it stores through `last` into a block that `xrealloc` has released.
`buf` and `size` are the static variables `nh_buffer` and `nh_buf_size` as the call leaves
them. -/
inductive ArenaOutcome where
  | null (buf size : Nat)
  | first (l : List nexthop) (buf size : Nat)
  | released
deriving DecidableEq, Repr

/-- The loop `while (len)` of `nl_parse_multipath` with its scratch arena, in the order of the
source: the tests of `len`, then
`if (nh_buf_used == nh_buf_size) { nh_buf_size = nh_buf_size ? (nh_buf_size * 2) : 4;
nh_buffer = xrealloc(nh_buffer, nh_buf_size * sizeof(struct nexthop)); }`, then
`*last = rv = nh_buffer + nh_buf_used++; rv->next = NULL; last = &(rv->next);` and the rest
of the body. `buf` is the address in `nh_buffer`, `size` is `nh_buf_size`, `used` is
`nh_buf_used`, `acc` the next-hops linked so far, `xrealloc` the allocator. After the first
pass `last` points into the block (`&(rv->next)` of the previous next-hop), and `first` does
too, so when the block has moved the store `*last = rv` goes to released memory: the outcome
`released`. The first argument bounds the number of passes (`none` when it is reached).
`nh_buf_size` is at most doubled from a value equal to `nh_buf_used`, which stays below 4096
for a payload of at most 65531 bytes, so the `int` does not overflow. -/
def nl_parse_multipath_arena_loop (d : Daemon) (m : Mem) (p : krt_proto)
    (xrealloc : Xrealloc) :
    Nat → Nat → Int → Nat → Nat → Nat → List nexthop → Option ArenaOutcome
  | 0, _, _, _, _, _, _ => none
  | fuel + 1, nh, len, buf, size, used, acc =>
    if len = 0 then some (.first acc buf size)
    else if (0 ≤ len ∧ len < (sizeof_rtnexthop : Nat)) ∨ len < (ld16 m nh : Nat) then
      some (.null buf size)
    else
      let size1 := if used = size then (if size ≠ 0 then size * 2 else 4) else size
      let buf1 := if used = size then xrealloc buf size1 else buf
      if used ≠ 0 ∧ buf1 ≠ buf then some .released
      else
        match d.if_find_by_index (ld32 m (nh + 4)) with
        | none => some (.null buf1 size1)
        | some ifa =>
          let pa := nl_parse_attrs m (RTNH_DATA nh) nexthop_attr_want4 BIRD_RTA_MAX
            ((ld16 m nh : Nat) - (RTNH_LENGTH 0 : Nat))
          match pa.k RTA_GATEWAY with
          | none => some (.null buf1 size1)
          | some g =>
            let gw := rta_get_ipa m g
            match d.neigh_find2 p gw ifa (ld8 m (nh + 2) &&& RTNH_F_ONLINK != 0) with
            | none => some (.null buf1 size1)
            | some nbr =>
              if nbr.scope = SCOPE_HOST then some (.null buf1 size1)
              else
                let rv : nexthop := { (d.nh_buffer used) with
                  weight := ld8 m (nh + 3)
                  iface := some ifa
                  gw := gw }
                nl_parse_multipath_arena_loop d m p xrealloc fuel (nh + RTNH_ALIGN (ld16 m nh))
                  (to_int32 (len - (NLMSG_ALIGN (ld16 m nh) : Nat))) buf1 size1 (used + 1)
                  (acc ++ [rv])

/-- The destination that `nl_parse_route` fills in for an IPv4 or IPv6 message (`net_fill_ip4`
or `net_fill_ip6`): the address of `RTA_DST` with the length `rtm_dst_len`, or the zero prefix
when the attribute is absent. -/
def route_dst_ip (m : Mem) (h : Nat) : net_addr :=
  if rtm_family m (NLMSG_DATA h) = AF_INET then
    match route_attr_vec m h RTA_DST with
    | some x => .ip4 (rta_get_ip4 m x) (rtm_dst_len m (NLMSG_DATA h))
    | none => .ip4 0 0
  else
    match route_attr_vec m h RTA_DST with
    | some x => .ip6 (rta_get_ip6 m x) (rtm_dst_len m (NLMSG_DATA h))
    | none => .ip6 0 0

/-- The message at `h` passes every test that `nl_parse_route` makes apart from the registry
lookup, and needs no gateway: `nl_checkin` accepts the header, the family is IPv4 or IPv6,
`nl_parse_attrs` accepts the stream, `a[RTA_IIF]` is empty, `rtm_tos` is 0, a message seen in a
scan is `RTM_NEWROUTE`, `net_classify` makes the destination a host address of a scope above
`SCOPE_LINK`, `rtm_protocol` is neither `RTPROT_UNSPEC` nor `RTPROT_KERNEL` and is
`RTPROT_BIRD` only in a scan, `rtm_type` is `RTN_BLACKHOLE`, `RTN_UNREACHABLE` or
`RTN_PROHIBIT`, or it is `RTN_UNICAST` with a known interface `a[RTA_OIF]` and neither
`RTA_MULTIPATH` nor `RTA_GATEWAY`, there is no encapsulation (`a[RTA_ENCAP]` or
`a[RTA_ENCAP_TYPE]` empty), and `nl_parse_metrics` accepts `a[RTA_METRICS]` when present. -/
def route_passes (d : Daemon) (m : Mem) (h : Nat) (scan : Bool) : Prop :=
  0 ≤ (nl_checkin m h sizeof_rtmsg).1
  ∧ (rtm_family m (NLMSG_DATA h) = AF_INET ∨ rtm_family m (NLMSG_DATA h) = AF_INET6)
  ∧ (nl_parse_attrs m (RTM_RTA (NLMSG_DATA h)) (rtm_attr_want (rtm_family m (NLMSG_DATA h)))
      BIRD_RTA_MAX (nl_checkin m h sizeof_rtmsg).1).ret ≠ 0
  ∧ route_attr_vec m h RTA_IIF = none
  ∧ rtm_tos m (NLMSG_DATA h) = 0
  ∧ (scan = true → nlmsg_type m h = RTM_NEWROUTE)
  ∧ ¬ (d.net_classify (route_dst_ip m h) < 0
      ∨ (d.net_classify (route_dst_ip m h)).toNat &&& IADDR_HOST = 0
      ∨ (((d.net_classify (route_dst_ip m h)).toNat &&& IADDR_SCOPE_MASK : Nat) : Int)
          ≤ SCOPE_LINK)
  ∧ rtm_protocol m (NLMSG_DATA h) ≠ RTPROT_UNSPEC
  ∧ rtm_protocol m (NLMSG_DATA h) ≠ RTPROT_KERNEL
  ∧ (rtm_protocol m (NLMSG_DATA h) = RTPROT_BIRD → scan = true)
  ∧ (rtm_type m (NLMSG_DATA h) = RTN_BLACKHOLE ∨ rtm_type m (NLMSG_DATA h) = RTN_UNREACHABLE
      ∨ rtm_type m (NLMSG_DATA h) = RTN_PROHIBIT
      ∨ (rtm_type m (NLMSG_DATA h) = RTN_UNICAST
          ∧ route_attr_vec m h RTA_MULTIPATH = none ∧ route_attr_vec m h RTA_GATEWAY = none
          ∧ (d.if_find_by_index (attr_oif m (route_attr_vec m h))).isSome = true))
  ∧ (route_attr_vec m h RTA_ENCAP = none ∨ route_attr_vec m h RTA_ENCAP_TYPE = none)
  ∧ ∀ x ∈ route_attr_vec m h RTA_METRICS, 0 ≤ (nl_parse_metrics m x KRT_METRICS_MAX).1

instance (d : Daemon) (m : Mem) (h : Nat) (scan : Bool) : Decidable (route_passes d m h scan) := by
  unfold route_passes
  infer_instance

/-- The daemon state `example_daemon` with two IPv4 protocols in the registry: one for the
kernel table 254 and one for the kernel table 1000. -/
def example_daemon_tables : Daemon :=
  { example_daemon with nl_table_map := [example_proto4, example_proto4_tab1000] }

/-- The message `route_msg_dev` (IPv4 `RTM_NEWROUTE` for `10.0.0.0/24 dev 2`, `rtm_table` 254,
protocol `RTPROT_BOOT`) with the attribute `RTA_TABLE` holding 1000 between `RTA_DST` and
`RTA_OIF`. -/
def route_msg_tab1000 : Mem :=
  mem_of_list [52, 0, 0, 0, 24, 0, 0, 0, 0, 0, 0, 0, 0, 0, 0, 0,
    2, 24, 0, 0, 254, 3, 0, 1, 0, 0, 0, 0,
    8, 0, 1, 0, 10, 0, 0, 0,
    8, 0, 15, 0, 232, 3, 0, 0,
    8, 0, 4, 0, 2, 0, 0, 0]

/-! # Theorems -/

/-! ## Memory lemmas -/

theorem st8_same (m : Mem) (a v : Nat) : st8 m a v a = v % 256 := by
  simp [st8]

theorem st8_other (m : Mem) (a v i : Nat) (h : i ≠ a) : st8 m a v i = m i := by
  simp [st8, h]

theorem st16_other (m : Mem) (a v i : Nat) (h0 : i ≠ a) (h1 : i ≠ a + 1) :
    st16 m a v i = m i := by
  simp [st16, st8, h0, h1]

theorem st32_other (m : Mem) (a v i : Nat) (h : i < a ∨ a + 4 ≤ i) : st32 m a v i = m i := by
  unfold st32
  rw [st16_other _ _ _ _ (by omega) (by omega), st16_other _ _ _ _ (by omega) (by omega)]

theorem ld16_congr (m m' : Mem) (a : Nat) (h0 : m' a = m a) (h1 : m' (a + 1) = m (a + 1)) :
    ld16 m' a = ld16 m a := by
  simp [ld16, ld8, h0, h1]

theorem ld32_congr (m m' : Mem) (a : Nat) (h : ∀ i, a ≤ i → i < a + 4 → m' i = m i) :
    ld32 m' a = ld32 m a := by
  unfold ld32
  rw [ld16_congr m m' a (h _ (by omega) (by omega)) (h _ (by omega) (by omega)),
    ld16_congr m m' (a + 2) (h _ (by omega) (by omega)) (h _ (by omega) (by omega))]

theorem ld16_st16 (m : Mem) (a v : Nat) : ld16 (st16 m a v) a = v % 65536 := by
  simp only [ld16, ld8, st16, st8]
  simp
  omega

theorem ld32_st32 (m : Mem) (a v : Nat) : ld32 (st32 m a v) a = v % 2 ^ 32 := by
  unfold ld32 st32
  rw [ld16_st16, ld16_congr (st16 m a v) _ a (st16_other _ _ _ _ (by omega) (by omega))
    (st16_other _ _ _ _ (by omega) (by omega)), ld16_st16]
  omega

theorem ld16_lt (m : Mem) (a : Nat) : ld16 m a < 65536 := by
  simp only [ld16, ld8]
  omega

theorem ld32_lt (m : Mem) (a : Nat) : ld32 m a < 2 ^ 32 := by
  have h0 := ld16_lt m a
  have h1 := ld16_lt m (a + 2)
  simp only [ld32]
  omega

theorem memcpy_inside (m : Mem) (dst : Nat) (src : List Nat) (i : Nat) (h : i < src.length) :
    memcpy m dst src (dst + i) = src.getD i 0 := by
  simp [memcpy, h]

theorem memcpy_other (m : Mem) (dst : Nat) (src : List Nat) (i : Nat)
    (h : i < dst ∨ dst + src.length ≤ i) : memcpy m dst src i = m i := by
  unfold memcpy
  rw [if_neg (by omega)]


theorem RTA_LENGTH_eq (n : Nat) : RTA_LENGTH n = 4 + n := by
  simp [RTA_LENGTH, RTA_ALIGN, sizeof_rtattr]

theorem RTA_DATA_eq (a : Nat) : RTA_DATA a = a + 4 := by
  simp [RTA_DATA, RTA_LENGTH_eq]

theorem NLMSG_LENGTH_eq (n : Nat) : NLMSG_LENGTH n = n + 16 := by
  simp [NLMSG_LENGTH, NLMSG_HDRLEN, NLMSG_ALIGN, sizeof_nlmsghdr]

theorem NLMSG_DATA_eq (h : Nat) : NLMSG_DATA h = h + 16 := by
  simp [NLMSG_DATA, NLMSG_LENGTH_eq]

/-- What one successful `nl_add_attr` does to the message. -/
theorem nl_add_attr_spec (m : Mem) (h bufsize code : Nat) (data : List Nat) (pos : Nat)
    (hpos : NLMSG_ALIGN (nlmsg_len m h) = pos)
    (hfit : pos + RTA_LENGTH data.length ≤ bufsize) (hbuf : bufsize < 2 ^ 32)
    (h4 : 4 ≤ pos) :
    ∃ m', nl_add_attr m h bufsize code data = some (m', h + pos) ∧
      nlmsg_len m' h = pos + RTA_LENGTH data.length ∧
      rta_len m' (h + pos) = RTA_LENGTH data.length % 65536 ∧
      rta_type m' (h + pos) = code % 65536 ∧
      (∀ i, i < data.length → m' (RTA_DATA (h + pos) + i) = data.getD i 0) ∧
      (∀ i, (i < h ∨ h + 4 ≤ i) → (i < h + pos ∨ h + pos + RTA_LENGTH data.length ≤ i) →
        m' i = m i) := by
  have hp : u32 (NLMSG_ALIGN (nlmsg_len m h)) = pos := by
    rw [hpos]; exact Nat.mod_eq_of_lt (by omega)
  have hl : u32 (RTA_LENGTH data.length) = RTA_LENGTH data.length :=
    Nat.mod_eq_of_lt (by omega)
  have hs : u32 (pos + RTA_LENGTH data.length) = pos + RTA_LENGTH data.length :=
    Nat.mod_eq_of_lt (by omega)
  have hle := RTA_LENGTH_eq data.length
  have hcond : ¬ (u32 (pos + RTA_LENGTH data.length) > bufsize) := by rw [hs]; omega
  refine ⟨if data.length > 0 then
      memcpy (st32 (st16 (st16 m (h + pos + 2) code) (h + pos) (RTA_LENGTH data.length)) h
        (pos + RTA_LENGTH data.length)) (RTA_DATA (h + pos)) data
    else st32 (st16 (st16 m (h + pos + 2) code) (h + pos) (RTA_LENGTH data.length)) h
        (pos + RTA_LENGTH data.length), ?_, ?_, ?_, ?_, ?_, ?_⟩
  · simp only [nl_add_attr, hp, hl]
    rw [if_neg hcond]
  · -- nlmsg_len
    show ld32 _ h = _
    by_cases hd : data.length > 0
    · rw [if_pos hd]
      rw [ld32_congr (st32 _ h (pos + RTA_LENGTH data.length)) _ h
        (fun i hi1 hi2 => memcpy_other _ _ _ _ (by rw [RTA_DATA_eq]; omega))]
      rw [ld32_st32]; exact Nat.mod_eq_of_lt (by omega)
    · rw [if_neg hd, ld32_st32]; exact Nat.mod_eq_of_lt (by omega)
  · -- rta_len
    show ld16 _ (h + pos) = _
    have key : ∀ mm : Mem, (∀ i, h + pos ≤ i → i < h + pos + 4 →
        mm i = st16 (st16 m (h + pos + 2) code) (h + pos) (RTA_LENGTH data.length) i) →
        ld16 mm (h + pos) = RTA_LENGTH data.length % 65536 := by
      intro mm hmm
      rw [ld16_congr _ mm (h + pos) (hmm _ (by omega) (by omega)) (hmm _ (by omega) (by omega)),
        ld16_st16]
    apply key
    intro i hi1 hi2
    by_cases hd : data.length > 0
    · rw [if_pos hd, memcpy_other _ _ _ _ (by rw [RTA_DATA_eq]; omega),
        st32_other _ _ _ _ (by omega)]
    · rw [if_neg hd, st32_other _ _ _ _ (by omega)]
  · -- rta_type
    show ld16 _ (h + pos + 2) = _
    have key : ∀ mm : Mem, (∀ i, h + pos + 2 ≤ i → i < h + pos + 4 →
        mm i = st16 m (h + pos + 2) code i) →
        ld16 mm (h + pos + 2) = code % 65536 := by
      intro mm hmm
      rw [ld16_congr _ mm (h + pos + 2) (hmm _ (by omega) (by omega))
        (hmm _ (by omega) (by omega)), ld16_st16]
    apply key
    intro i hi1 hi2
    by_cases hd : data.length > 0
    · rw [if_pos hd, memcpy_other _ _ _ _ (by rw [RTA_DATA_eq]; omega),
        st32_other _ _ _ _ (by omega), st16_other _ _ _ _ (by omega) (by omega)]
    · rw [if_neg hd, st32_other _ _ _ _ (by omega), st16_other _ _ _ _ (by omega) (by omega)]
  · intro i hi
    rw [if_pos (by omega), memcpy_inside _ _ _ _ hi]
  · intro i hi1 hi2
    have e1 : st32 (st16 (st16 m (h + pos + 2) code) (h + pos) (RTA_LENGTH data.length)) h
        (pos + RTA_LENGTH data.length) i = m i := by
      rw [st32_other _ _ _ _ (by omega), st16_other _ _ _ _ (by omega) (by omega),
        st16_other _ _ _ _ (by omega) (by omega)]
    by_cases hd : data.length > 0
    · rw [if_pos hd, memcpy_other _ _ _ _ (by rw [RTA_DATA_eq]; omega)]; exact e1
    · rw [if_neg hd]; exact e1

theorem NLMSG_ALIGN_add (pos n : Nat) (hp : pos % 4 = 0) :
    NLMSG_ALIGN (pos + n) = pos + RTA_ALIGN n := by
  simp only [NLMSG_ALIGN, RTA_ALIGN]
  omega

theorem RTA_ALIGN_ge (n : Nat) : n ≤ RTA_ALIGN n ∧ RTA_ALIGN n < n + 4 ∧ RTA_ALIGN n % 4 = 0 := by
  simp only [RTA_ALIGN]
  omega

theorem attrs_len_le_space (attrs : List (Nat × List Nat)) :
    attrs_len attrs ≤ attrs_space attrs := by
  induction attrs with
  | nil => simp [attrs_len, attrs_space]
  | cons cd rest ih =>
    obtain ⟨c, d⟩ := cd
    cases rest with
    | nil =>
      have := RTA_ALIGN_ge (RTA_LENGTH d.length)
      simp only [attrs_len, attrs_space]
      omega
    | cons cd2 rest2 =>
      simp only [attrs_len, attrs_space] at ih ⊢
      omega

theorem attrs_space_mod (attrs : List (Nat × List Nat)) : attrs_space attrs % 4 = 0 := by
  induction attrs with
  | nil => simp [attrs_space]
  | cons cd rest ih =>
    obtain ⟨c, d⟩ := cd
    have := RTA_ALIGN_ge (RTA_LENGTH d.length)
    simp only [attrs_space]
    omega

/-- What a run of `nl_add_attr` calls that fits the buffer does to the message. -/
theorem nl_add_attrs_spec (h bufsize : Nat) (hbuf : bufsize < 2 ^ 32) :
    ∀ (attrs : List (Nat × List Nat)) (m : Mem) (pos : Nat),
      NLMSG_ALIGN (nlmsg_len m h) = pos → 4 ≤ pos → pos % 4 = 0 →
      pos + attrs_space attrs ≤ bufsize →
      (∀ cd ∈ attrs, cd.1 < 65536 ∧ RTA_LENGTH cd.2.length < 65536) →
      ∃ m', nl_add_attrs m h bufsize attrs = some m' ∧ attrs_at m' (h + pos) attrs ∧
        nlmsg_len m' h = (if attrs = [] then nlmsg_len m h else pos + attrs_len attrs) ∧
        (∀ i, (i < h ∨ h + 4 ≤ i) → i < h + pos → m' i = m i) := by
  intro attrs
  induction attrs with
  | nil =>
    intro m pos _ _ _ _ _
    exact ⟨m, rfl, trivial, by simp, fun _ _ _ => rfl⟩
  | cons cd rest ih =>
    obtain ⟨c, d⟩ := cd
    intro m pos hpos h4 hmod hfit hwf
    have hal := RTA_ALIGN_ge (RTA_LENGTH d.length)
    have hcd := hwf (c, d) (List.mem_cons_self _ _)
    simp only [attrs_space] at hfit
    obtain ⟨m1, e1, hlen1, hrl, hrt, hdata, hframe⟩ :=
      nl_add_attr_spec m h bufsize c d pos hpos (by omega) hbuf h4
    have hpos1 : NLMSG_ALIGN (nlmsg_len m1 h) = pos + RTA_ALIGN (RTA_LENGTH d.length) := by
      rw [hlen1]; exact NLMSG_ALIGN_add pos _ hmod
    obtain ⟨m', e', hat, hlen', hframe'⟩ :=
      ih m1 (pos + RTA_ALIGN (RTA_LENGTH d.length)) hpos1 (by omega) (by omega) (by omega)
        (fun cd hcd => hwf cd (List.mem_cons_of_mem _ hcd))
    have hle := RTA_LENGTH_eq d.length
    refine ⟨m', ?_, ⟨?_, ?_, ?_, ?_⟩, ?_, ?_⟩
    · simp only [nl_add_attrs, e1, e']
    · show ld16 m' (h + pos) = _
      rw [ld16_congr m1 m' (h + pos) (hframe' _ (by omega) (by omega))
        (hframe' _ (by omega) (by omega))]
      show rta_len m1 (h + pos) = _
      rw [hrl]; exact Nat.mod_eq_of_lt hcd.2
    · show ld16 m' (h + pos + 2) = _
      rw [ld16_congr m1 m' (h + pos + 2) (hframe' _ (by omega) (by omega))
        (hframe' _ (by omega) (by omega))]
      show rta_type m1 (h + pos) = _
      rw [hrt]; exact Nat.mod_eq_of_lt hcd.1
    · intro i hi
      rw [hframe' _ (by rw [RTA_DATA_eq]; omega) (by rw [RTA_DATA_eq]; omega)]
      exact hdata i hi
    · rw [Nat.add_assoc]; exact hat
    · rw [hlen', if_neg (List.cons_ne_nil _ _)]
      cases rest with
      | nil => simp [attrs_len, hlen1]
      | cons cd2 rest2 =>
        rw [if_neg (List.cons_ne_nil _ _)]
        simp only [attrs_len]
        omega
    · intro i hi1 hi2
      rw [hframe' i hi1 (by omega)]
      exact hframe i hi1 (Or.inl hi2)

theorem RTA_OK_iff (m : Mem) (a : Nat) (len : Int) :
    RTA_OK m a len = true ↔ 4 ≤ len ∧ 4 ≤ rta_len m a ∧ (rta_len m a : Int) ≤ len := by
  simp [RTA_OK, sizeof_rtattr, and_assoc]

/-- Parsing a stream that holds exactly a list of accepted attributes stores each of them. -/
theorem nl_parse_attrs_loop_attrs_at (m : Mem) (want : Nat → nl_want_attrs) (max : Nat) :
    ∀ (attrs : List (Nat × List Nat)) (fuel a : Nat) (len : Int) (k : AttrVec),
      attrs_at m a attrs → len = (attrs_space attrs : Nat) → attrs_space attrs ≤ fuel →
      (∀ cd ∈ attrs, cd.1 < max ∧ (want cd.1).defined = true
        ∧ ((want cd.1).checksize = true → cd.2.length = (want cd.1).size)) →
      nl_parse_attrs_loop m want max fuel a len k = ⟨1, attrs_vec k a attrs, 0⟩ := by
  intro attrs
  induction attrs with
  | nil =>
    intro fuel a len k _ hlen _ _
    simp only [attrs_space, Nat.cast_zero] at hlen
    subst hlen
    cases fuel with
    | zero => simp [nl_parse_attrs_loop, nl_parse_attrs_end, attrs_vec]
    | succ f =>
      have hno : RTA_OK m a 0 = false := by simp [RTA_OK, sizeof_rtattr]
      simp [nl_parse_attrs_loop, nl_parse_attrs_end, attrs_vec, hno]
  | cons cd rest ih =>
    obtain ⟨c, d⟩ := cd
    intro fuel a len k hat hlen hfuel hwf
    obtain ⟨hrl, hrt, _, hrest⟩ := hat
    have hal := RTA_ALIGN_ge (RTA_LENGTH d.length)
    have hle := RTA_LENGTH_eq d.length
    obtain ⟨hmax, hdef, hsize⟩ := hwf (c, d) (List.mem_cons_self _ _)
    simp only [attrs_space] at hlen hfuel
    cases fuel with
    | zero => omega
    | succ f =>
      have hok : RTA_OK m a len = true := by
        rw [RTA_OK_iff, hrl, hlen]
        refine ⟨?_, by omega, ?_⟩ <;> push_cast <;> omega
      have hskip : (decide (max ≤ rta_type m a) || !(want (rta_type m a)).defined) = false := by
        rw [hrt, hdef]; simp; exact hmax
      have hbad : ((want (rta_type m a)).checksize
          && decide (RTA_PAYLOAD m a ≠ ((want (rta_type m a)).size : Nat))) = false := by
        rw [hrt]
        cases hcs : (want c).checksize with
        | false => simp
        | true =>
          have hsz : d.length = (want c).size := hsize hcs
          simp only [RTA_PAYLOAD, hrl, RTA_LENGTH_eq, Bool.true_and, decide_eq_false_iff_not,
            not_not]
          push_cast
          omega
      rw [nl_parse_attrs_loop, if_pos hok]
      simp only [hskip, hbad, Bool.false_eq_true, if_false]
      rw [hrl, hrt]
      exact ih f _ _ _ hrest (by rw [hlen]; push_cast; omega) (by omega)
        (fun cd hcd => hwf cd (List.mem_cons_of_mem _ hcd))

theorem attrs_vec_not_mem : ∀ (attrs : List (Nat × List Nat)) (k : AttrVec) (a c : Nat),
    c ∉ attrs.map Prod.fst → attrs_vec k a attrs c = k c := by
  intro attrs
  induction attrs with
  | nil => intro k a c _; rfl
  | cons cd rest ih =>
    obtain ⟨c0, d⟩ := cd
    intro k a c hc
    simp only [List.map_cons, List.mem_cons, not_or] at hc
    rw [attrs_vec, ih _ _ _ hc.2]
    simp [k_set, hc.1]

theorem attrs_vec_mem (m : Mem) : ∀ (attrs : List (Nat × List Nat)) (k : AttrVec) (a : Nat),
    (attrs.map Prod.fst).Nodup → attrs_at m a attrs → ∀ cd ∈ attrs,
      ∃ p, attrs_vec k a attrs cd.1 = some p ∧ rta_len m p = RTA_LENGTH cd.2.length
        ∧ rta_type m p = cd.1 ∧ ∀ i, i < cd.2.length → m (RTA_DATA p + i) = cd.2.getD i 0 := by
  intro attrs
  induction attrs with
  | nil => intro k a _ _ cd hcd; cases hcd
  | cons cd0 rest ih =>
    obtain ⟨c0, d0⟩ := cd0
    intro k a hnd hat cd hcd
    simp only [List.map_cons, List.nodup_cons] at hnd
    obtain ⟨hrl, hrt, hdata, hrest⟩ := hat
    rcases List.mem_cons.1 hcd with heq | hmem
    · subst heq
      refine ⟨a, ?_, hrl, hrt, hdata⟩
      rw [attrs_vec, attrs_vec_not_mem _ _ _ _ hnd.1]
      simp [k_set]
    · exact ih (k_set k c0 a) _ hnd.2 hrest cd hmem

theorem attrs_len_eq_space : ∀ (attrs : List (Nat × List Nat)),
    (∀ cd ∈ attrs.getLast?, cd.2.length % 4 = 0) → attrs_len attrs = attrs_space attrs := by
  intro attrs
  induction attrs with
  | nil => intro _; rfl
  | cons cd rest ih =>
    obtain ⟨c, d⟩ := cd
    intro hlast
    cases rest with
    | nil =>
      have h0 : d.length % 4 = 0 := hlast (c, d) (by simp)
      simp only [attrs_len, attrs_space, RTA_ALIGN, RTA_LENGTH_eq]
      omega
    | cons cd2 rest2 =>
      have := ih (fun cd hcd => hlast cd (by simpa [List.getLast?_cons_cons] using hcd))
      simp only [attrs_len, attrs_space] at this ⊢
      omega

theorem to_int32_of_range (n : Int) (h0 : -2 ^ 31 ≤ n) (h1 : n < 2 ^ 31) : to_int32 n = n := by
  unfold to_int32
  omega

/-- C1 (amended): build/parse round trip. Take a descriptor table `want` with a vector of `max`
slots, a message at `h` that holds only its fixed payload of `lsize` bytes, `lsize` a multiple
of 4, and a list of attributes `(code, payload bytes)` whose codes are pairwise distinct, below
`max`, defined in the table and whose payload sizes satisfy the size checks of the table. If
moreover every code and every attribute length `RTA_LENGTH(dlen)` fits the 16-bit header
fields, the payload length of the last attribute is a multiple of 4, and the buffer has room
for the padded attributes (and is smaller than 2^31), then appending them in order with
`nl_add_attr` does not abort, `nl_checkin` returns the payload, `nl_parse_attrs` returns 1,
the vector holds for every attribute of the list a pointer to an attribute with the same
payload length and payload bytes, and it is empty at every other code. -/
theorem build_parse_round_trip (want : Nat → nl_want_attrs) (max : Nat) (m : Mem)
    (h bufsize lsize : Nat) (attrs : List (Nat × List Nat))
    (hfix : nlmsg_len m h = NLMSG_LENGTH lsize) (hl4 : lsize % 4 = 0)
    (hnodup : (attrs.map Prod.fst).Nodup)
    (hwf : ∀ cd ∈ attrs, cd.1 < max ∧ (want cd.1).defined = true
      ∧ ((want cd.1).checksize = true → cd.2.length = (want cd.1).size))
    (hfield : ∀ cd ∈ attrs, cd.1 < 65536 ∧ RTA_LENGTH cd.2.length < 65536)
    (hlast : ∀ cd ∈ attrs.getLast?, cd.2.length % 4 = 0)
    (hfit : NLMSG_LENGTH lsize + attrs_space attrs ≤ bufsize) (hbuf : bufsize < 2 ^ 31) :
    ∃ m', nl_add_attrs m h bufsize attrs = some m'
      ∧ (nl_checkin m' h lsize).2 = some (NLMSG_DATA h)
      ∧ (nl_parse_attrs m' (NLMSG_DATA h + NLMSG_ALIGN lsize) want max
          (nl_checkin m' h lsize).1).ret = 1
      ∧ (∀ cd ∈ attrs, ∃ a,
          (nl_parse_attrs m' (NLMSG_DATA h + NLMSG_ALIGN lsize) want max
            (nl_checkin m' h lsize).1).k cd.1 = some a
          ∧ RTA_PAYLOAD m' a = (cd.2.length : Nat)
          ∧ ∀ i, i < cd.2.length → m' (RTA_DATA a + i) = cd.2.getD i 0)
      ∧ (∀ c, c ∉ attrs.map Prod.fst →
          (nl_parse_attrs m' (NLMSG_DATA h + NLMSG_ALIGN lsize) want max
            (nl_checkin m' h lsize).1).k c = none) := by
  have hL := NLMSG_LENGTH_eq lsize
  have hpos : NLMSG_ALIGN (nlmsg_len m h) = lsize + 16 := by
    rw [hfix, hL]; simp only [NLMSG_ALIGN]; omega
  obtain ⟨m', e', hat, hlen', _⟩ :=
    nl_add_attrs_spec h bufsize (by omega) attrs m (lsize + 16) hpos (by omega) (by omega)
      (by omega) hfield
  have hlen : nlmsg_len m' h = lsize + 16 + attrs_space attrs := by
    rw [hlen', ← attrs_len_eq_space attrs hlast]
    split
    · next he => subst he; simp [attrs_len, hfix, hL]
    · rfl
  have hck : nl_checkin m' h lsize = (((attrs_space attrs : Nat) : Int), some (NLMSG_DATA h)) := by
    have hv : to_int32 ((nlmsg_len m' h : Int) - (NLMSG_LENGTH lsize : Nat))
        = (attrs_space attrs : Nat) := by
      rw [hlen, hL, to_int32_of_range] <;> push_cast <;> omega
    simp only [nl_checkin, hv]
    rw [if_neg (by omega)]
  have hstart : NLMSG_DATA h + NLMSG_ALIGN lsize = h + (lsize + 16) := by
    rw [NLMSG_DATA_eq]; simp only [NLMSG_ALIGN]; omega
  have hparse : nl_parse_attrs m' (NLMSG_DATA h + NLMSG_ALIGN lsize) want max
      (nl_checkin m' h lsize).1 = ⟨1, attrs_vec k_zero (h + (lsize + 16)) attrs, 0⟩ := by
    rw [hck, hstart]
    exact nl_parse_attrs_loop_attrs_at m' want max attrs _ _ _ _ hat rfl (by simp) hwf
  refine ⟨m', e', by rw [hck], by rw [hparse], ?_, ?_⟩
  · intro cd hcd
    obtain ⟨p, hp, hrl, _, hdata⟩ := attrs_vec_mem m' attrs k_zero (h + (lsize + 16)) hnodup hat cd hcd
    refine ⟨p, by rw [hparse]; exact hp, ?_, hdata⟩
    simp only [RTA_PAYLOAD, hrl, RTA_LENGTH_eq]
    push_cast
    omega
  · intro c hc
    rw [hparse]
    exact attrs_vec_not_mem attrs k_zero _ c hc

/-- Witness of `build_parse_round_trip`: a route message with `RTA_DST` and `RTA_OIF`, parsed
with `rtm_attr_want4`. -/
theorem build_parse_round_trip_witness :
    ∃ m', nl_add_attrs route_msg_empty 0 64 [(RTA_DST, [10, 0, 0, 0]), (RTA_OIF, [2, 0, 0, 0])]
        = some m'
      ∧ (nl_checkin m' 0 12).2 = some (NLMSG_DATA 0)
      ∧ (nl_parse_attrs m' (NLMSG_DATA 0 + NLMSG_ALIGN 12) rtm_attr_want4 23
          (nl_checkin m' 0 12).1).ret = 1
      ∧ (∀ cd ∈ [(RTA_DST, [10, 0, 0, 0]), (RTA_OIF, [2, 0, 0, 0])], ∃ a,
          (nl_parse_attrs m' (NLMSG_DATA 0 + NLMSG_ALIGN 12) rtm_attr_want4 23
            (nl_checkin m' 0 12).1).k cd.1 = some a
          ∧ RTA_PAYLOAD m' a = (cd.2.length : Nat)
          ∧ ∀ i, i < cd.2.length → m' (RTA_DATA a + i) = cd.2.getD i 0)
      ∧ (∀ c, c ∉ [(RTA_DST, [10, 0, 0, 0]), (RTA_OIF, [2, 0, 0, 0])].map Prod.fst →
          (nl_parse_attrs m' (NLMSG_DATA 0 + NLMSG_ALIGN 12) rtm_attr_want4 23
            (nl_checkin m' 0 12).1).k c = none) :=
  build_parse_round_trip rtm_attr_want4 23 route_msg_empty 0 64 12
    [(RTA_DST, [10, 0, 0, 0]), (RTA_OIF, [2, 0, 0, 0])]
    (by decide) (by decide) (by decide) (by decide) (by decide) (by decide) (by decide)
    (by decide)

/-- C1 as stated fails: `RTA_DST` (4 bytes) followed by `RTA_ENCAP_TYPE` (2 bytes) are
distinct codes defined in `rtm_attr_want4` with the sizes the table checks, and the buffer is
large enough; `nl_add_attr` leaves `nlmsg_len` at 42, not padded, so after `nl_checkin` the
walk of `nl_parse_attrs` ends with `nl_attr_len = -2` and the parse returns 0. -/
theorem build_parse_round_trip_counterexample :
    ([(RTA_DST, [10, 0, 0, 0]), (RTA_ENCAP_TYPE, [1, 0])].map Prod.fst).Nodup
    ∧ (∀ cd ∈ [(RTA_DST, [10, 0, 0, 0]), (RTA_ENCAP_TYPE, [1, 0])],
        cd.1 < BIRD_RTA_MAX ∧ (rtm_attr_want4 cd.1).defined = true
        ∧ ((rtm_attr_want4 cd.1).checksize = true → cd.2.length = (rtm_attr_want4 cd.1).size))
    ∧ nlmsg_len route_msg_empty 0 = NLMSG_LENGTH sizeof_rtmsg
    ∧ (nl_add_attrs route_msg_empty 0 64
          [(RTA_DST, [10, 0, 0, 0]), (RTA_ENCAP_TYPE, [1, 0])]).map
        (fun m' => ((nl_checkin m' 0 sizeof_rtmsg).2,
          (nl_parse_attrs m' (RTM_RTA (NLMSG_DATA 0)) rtm_attr_want4 BIRD_RTA_MAX
            (nl_checkin m' 0 sizeof_rtmsg).1).ret,
          (nl_parse_attrs m' (RTM_RTA (NLMSG_DATA 0)) rtm_attr_want4 BIRD_RTA_MAX
            (nl_checkin m' 0 sizeof_rtmsg).1).nl_attr_len))
        = some (some 16, 0, -2) := by
  decide

/-- C10: header check-in. For every message header at `h` and fixed payload size `lsize`
(with `NLMSG_LENGTH(lsize)` representable as an `int`), `nl_checkin` returns `NULL` whenever
`h->nlmsg_len < NLMSG_LENGTH(lsize) = 16 + lsize`, and whenever
`16 + lsize <= h->nlmsg_len < 2^31` it returns the payload pointer `NLMSG_DATA(h)` and leaves
`nl_attr_len = h->nlmsg_len - (16 + lsize)`. -/
theorem nl_checkin_spec (m : Mem) (h lsize : Nat) (hl : NLMSG_LENGTH lsize < 2 ^ 31) :
    NLMSG_LENGTH lsize = 16 + lsize
    ∧ (nlmsg_len m h < 16 + lsize → (nl_checkin m h lsize).2 = none)
    ∧ (16 + lsize ≤ nlmsg_len m h → nlmsg_len m h < 2 ^ 31 →
        (nl_checkin m h lsize).2 = some (NLMSG_DATA h)
        ∧ (nl_checkin m h lsize).1 = (nlmsg_len m h : Int) - (16 + lsize : Nat)) := by
  have hL := NLMSG_LENGTH_eq lsize
  have hlt : nlmsg_len m h < 2 ^ 32 := ld32_lt m h
  refine ⟨by omega, ?_, ?_⟩
  · intro hu
    have hneg : to_int32 ((nlmsg_len m h : Int) - (NLMSG_LENGTH lsize : Nat)) < 0 := by
      rw [to_int32_of_range] <;> push_cast <;> omega
    simp only [nl_checkin]
    rw [if_pos hneg]
  · intro h1 h2
    have hv : to_int32 ((nlmsg_len m h : Int) - (NLMSG_LENGTH lsize : Nat))
        = (nlmsg_len m h : Int) - (16 + lsize : Nat) := by
      rw [to_int32_of_range] <;> push_cast <;> omega
    simp only [nl_checkin, hv]
    rw [if_neg (by push_cast; omega)]
    exact ⟨rfl, rfl⟩

/-- Witness of `nl_checkin_spec`: an under-run (length 20 for a route payload) and an empty
route message (length 28). -/
theorem nl_checkin_spec_witness :
    (nl_checkin (st32 (fun _ => 0) 0 20) 0 sizeof_rtmsg).2 = none
    ∧ (nl_checkin route_msg_empty 0 sizeof_rtmsg).2 = some (NLMSG_DATA 0)
    ∧ (nl_checkin route_msg_empty 0 sizeof_rtmsg).1
        = (nlmsg_len route_msg_empty 0 : Int) - (16 + sizeof_rtmsg : Nat) :=
  ⟨(nl_checkin_spec (st32 (fun _ => 0) 0 20) 0 sizeof_rtmsg (by decide)).2.1 (by decide),
   (nl_checkin_spec route_msg_empty 0 sizeof_rtmsg (by decide)).2.2 (by decide) (by decide)⟩

/-- A loop head of the walk at which the parse is bound to fail: either the loop condition
fails there with a non-zero remaining length, or an attribute with a checked size mismatch. -/
theorem nl_parse_attrs_loop_reject (m : Mem) (want : Nat → nl_want_attrs) (max : Nat)
    (a' : Nat) (r : Int)
    (hbad : (RTA_OK m a' r = false ∧ r ≠ 0)
      ∨ (RTA_OK m a' r = true ∧ rta_type m a' < max ∧ (want (rta_type m a')).defined = true
          ∧ (want (rta_type m a')).checksize = true
          ∧ RTA_PAYLOAD m a' ≠ ((want (rta_type m a')).size : Nat))) :
    ∀ (fuel a : Nat) (len : Int) (k : AttrVec), len ≤ (fuel : Nat) →
      (a', r) ∈ nl_parse_attrs_walk m want max fuel a len →
      (nl_parse_attrs_loop m want max fuel a len k).ret = 0 := by
  intro fuel
  induction fuel with
  | zero =>
    intro a len k hfuel hmem
    simp only [nl_parse_attrs_walk, List.mem_singleton, Prod.mk.injEq] at hmem
    obtain ⟨ha, hr⟩ := hmem
    subst ha; subst hr
    rcases hbad with ⟨_, hne⟩ | ⟨hok, _⟩
    · simp [nl_parse_attrs_loop, nl_parse_attrs_end, hne]
    · rw [RTA_OK_iff] at hok
      simp only [Nat.cast_zero] at hfuel
      omega
  | succ f ih =>
    intro a len k hfuel hmem
    have hal := RTA_ALIGN_ge (rta_len m a)
    rw [nl_parse_attrs_walk] at hmem
    rw [nl_parse_attrs_loop]
    by_cases hok : RTA_OK m a len = true
    · have hok' := (RTA_OK_iff m a len).1 hok
      rw [if_pos hok] at hmem ⊢
      by_cases hskip : (decide (max ≤ rta_type m a) || !(want (rta_type m a)).defined) = true
      · rw [if_pos hskip] at hmem ⊢
        rcases List.mem_cons.1 hmem with heq | htail
        · simp only [Prod.mk.injEq] at heq
          obtain ⟨ha, hr⟩ := heq
          subst ha; subst hr
          rcases hbad with ⟨hno, _⟩ | ⟨_, hlt, hdef, _, _⟩
          · rw [hok] at hno; cases hno
          · simp only [Bool.or_eq_true, decide_eq_true_eq, Bool.not_eq_true', hdef] at hskip
            rcases hskip with h1 | h1
            · omega
            · cases h1
        · exact ih _ _ _ (by push_cast at hfuel ⊢; omega) htail
      · rw [if_neg hskip] at hmem ⊢
        by_cases hmal : ((want (rta_type m a)).checksize
            && decide (RTA_PAYLOAD m a ≠ ((want (rta_type m a)).size : Nat))) = true
        · rw [if_pos hmal]
        · rw [if_neg hmal] at hmem ⊢
          rcases List.mem_cons.1 hmem with heq | htail
          · simp only [Prod.mk.injEq] at heq
            obtain ⟨ha, hr⟩ := heq
            subst ha; subst hr
            rcases hbad with ⟨hno, _⟩ | ⟨_, _, _, hcs, hne⟩
            · rw [hok] at hno; cases hno
            · exact absurd (by simp [hcs, hne]) hmal
          · exact ih _ _ _ (by push_cast at hfuel ⊢; omega) htail
    · rw [if_neg hok] at hmem ⊢
      simp only [List.mem_singleton, Prod.mk.injEq] at hmem
      obtain ⟨ha, hr⟩ := hmem
      subst ha; subst hr
      rcases hbad with ⟨_, hne⟩ | ⟨hok2, _⟩
      · simp [nl_parse_attrs_end, hne]
      · exact absurd hok2 hok

/-- An accepting parse ends with the remaining length 0, at the last loop head of the walk. -/
theorem nl_parse_attrs_loop_accept (m : Mem) (want : Nat → nl_want_attrs) (max : Nat) :
    ∀ (fuel a : Nat) (len : Int) (k : AttrVec),
      (nl_parse_attrs_loop m want max fuel a len k).ret = 1 →
      (nl_parse_attrs_loop m want max fuel a len k).nl_attr_len = 0
      ∧ ∃ a', (nl_parse_attrs_walk m want max fuel a len).getLast? = some (a', 0) := by
  have hend : ∀ (k : AttrVec) (len : Int), (nl_parse_attrs_end k len).ret = 1 →
      (nl_parse_attrs_end k len).nl_attr_len = 0 ∧ len = 0 := by
    intro k len
    unfold nl_parse_attrs_end
    split
    · intro h; cases h
    · next h => intro _; exact ⟨by simpa using h, by simpa using h⟩
  intro fuel
  induction fuel with
  | zero =>
    intro a len k hret
    rw [nl_parse_attrs_loop] at hret ⊢
    obtain ⟨h1, h2⟩ := hend k len hret
    exact ⟨h1, a, by simp [nl_parse_attrs_walk, h2]⟩
  | succ f ih =>
    intro a len k hret
    rw [nl_parse_attrs_loop] at hret ⊢
    rw [nl_parse_attrs_walk]
    by_cases hok : RTA_OK m a len = true
    · rw [if_pos hok] at hret ⊢
      rw [if_pos hok]
      by_cases hskip : (decide (max ≤ rta_type m a) || !(want (rta_type m a)).defined) = true
      · rw [if_pos hskip] at hret ⊢
        rw [if_pos hskip]
        obtain ⟨h1, a', h2⟩ := ih _ _ _ hret
        exact ⟨h1, a', by rw [List.getLast?_cons, h2]; rfl⟩
      · rw [if_neg hskip] at hret ⊢
        rw [if_neg hskip]
        by_cases hmal : ((want (rta_type m a)).checksize
            && decide (RTA_PAYLOAD m a ≠ ((want (rta_type m a)).size : Nat))) = true
        · rw [if_pos hmal] at hret
          cases hret
        · rw [if_neg hmal] at hret ⊢
          rw [if_neg hmal]
          obtain ⟨h1, a', h2⟩ := ih _ _ _ hret
          exact ⟨h1, a', by rw [List.getLast?_cons, h2]; rfl⟩
    · rw [if_neg hok] at hret ⊢
      rw [if_neg hok]
      obtain ⟨h1, h2⟩ := hend k len hret
      exact ⟨h1, a, by simp [h2]⟩


/-- C3: framing errors reject the stream. `nl_parse_attrs` returns 1 only if the walk ends
with the remaining length 0 (the value left in `nl_attr_len`, and the length at the last loop
head). It returns 0 whenever the walk passes a loop head with `0 < r < 4` remaining bytes, and
whenever it passes, with bytes remaining (`r` not 0), a loop head whose attribute declares an
`rta_len` smaller than the 4-byte header or larger than the remaining length. -/
theorem nl_parse_attrs_framing (m : Mem) (a : Nat) (want : Nat → nl_want_attrs) (max : Nat)
    (len : Int) :
    ((nl_parse_attrs m a want max len).ret = 1 →
        (nl_parse_attrs m a want max len).nl_attr_len = 0
        ∧ ∃ a', (nl_parse_attrs_walk m want max len.toNat a len).getLast? = some (a', 0))
    ∧ (∀ a' r, (a', r) ∈ nl_parse_attrs_walk m want max len.toNat a len → 0 < r → r < 4 →
        (nl_parse_attrs m a want max len).ret = 0)
    ∧ (∀ a' r, (a', r) ∈ nl_parse_attrs_walk m want max len.toNat a len → r ≠ 0 →
        (rta_len m a' < sizeof_rtattr ∨ r < (rta_len m a' : Nat)) →
        (nl_parse_attrs m a want max len).ret = 0) := by
  refine ⟨fun hret => nl_parse_attrs_loop_accept m want max _ _ _ _ hret, ?_, ?_⟩
  · intro a' r hmem h0 h4
    refine nl_parse_attrs_loop_reject m want max a' r (Or.inl ⟨?_, by omega⟩) _ _ _ _
      (Int.self_le_toNat len) hmem
    cases hok : RTA_OK m a' r with
    | false => rfl
    | true => rw [RTA_OK_iff] at hok; omega
  · intro a' r hmem h0 hlen
    refine nl_parse_attrs_loop_reject m want max a' r (Or.inl ⟨?_, h0⟩) _ _ _ _
      (Int.self_le_toNat len) hmem
    cases hok : RTA_OK m a' r with
    | false => rfl
    | true =>
      rw [RTA_OK_iff] at hok
      simp only [sizeof_rtattr] at hlen
      omega

/-- Witness of `nl_parse_attrs_framing`: a one-attribute stream that is consumed exactly, a
stream with a 2-byte remnant, and an attribute of declared length 12 in a stream of 8 bytes. -/
theorem nl_parse_attrs_framing_witness :
    ((nl_parse_attrs (mem_of_list [4, 0, 0, 0]) 0 rtm_attr_want4 BIRD_RTA_MAX 4).nl_attr_len = 0
      ∧ ∃ a', (nl_parse_attrs_walk (mem_of_list [4, 0, 0, 0]) rtm_attr_want4 BIRD_RTA_MAX
          (4 : Int).toNat 0 4).getLast? = some (a', 0))
    ∧ (nl_parse_attrs (mem_of_list [4, 0, 0, 0, 9, 9]) 0 rtm_attr_want4 BIRD_RTA_MAX 6).ret = 0
    ∧ (nl_parse_attrs (mem_of_list [12, 0, 0, 0, 0, 0, 0, 0]) 0 rtm_attr_want4 BIRD_RTA_MAX
        8).ret = 0 :=
  ⟨(nl_parse_attrs_framing (mem_of_list [4, 0, 0, 0]) 0 rtm_attr_want4 BIRD_RTA_MAX 4).1
      (by decide),
   (nl_parse_attrs_framing (mem_of_list [4, 0, 0, 0, 9, 9]) 0 rtm_attr_want4 BIRD_RTA_MAX
      6).2.1 4 2 (by decide) (by decide) (by decide),
   (nl_parse_attrs_framing (mem_of_list [12, 0, 0, 0, 0, 0, 0, 0]) 0 rtm_attr_want4
      BIRD_RTA_MAX 8).2.2 0 8 (by decide) (by decide) (by decide)⟩

/-- C2: a size mismatch rejects the whole message. If the walk of `nl_parse_attrs` reaches an
attribute whose code is defined and size-checked in the table (and below the capacity of the
vector) and whose payload length differs from the expected size, `nl_parse_attrs` returns 0;
and for every route message of family IPv4, IPv6 or MPLS in which the walk with the table of
that family reaches such an attribute, `nl_parse_route` calls neither `krt_got_route` nor
`krt_got_route_async` (it returns before any lookup). -/
theorem size_mismatch_rejects :
    (∀ (m : Mem) (want : Nat → nl_want_attrs) (max a : Nat) (len : Int) (a' : Nat) (r : Int),
      (a', r) ∈ nl_parse_attrs_walk m want max len.toNat a len →
      attr_size_mismatch m want max a' r →
      (nl_parse_attrs m a want max len).ret = 0)
    ∧ (∀ (d : Daemon) (m : Mem) (h : Nat) (scan : Bool) (want : Nat → nl_want_attrs)
        (a' : Nat) (r : Int),
      (rtm_family m (NLMSG_DATA h) = AF_INET ∧ want = rtm_attr_want4
        ∨ rtm_family m (NLMSG_DATA h) = AF_INET6 ∧ want = rtm_attr_want6
        ∨ rtm_family m (NLMSG_DATA h) = AF_MPLS ∧ want = rtm_attr_want_mpls) →
      (a', r) ∈ nl_parse_attrs_walk m want BIRD_RTA_MAX (nl_checkin m h sizeof_rtmsg).1.toNat
        (RTM_RTA (NLMSG_DATA h)) (nl_checkin m h sizeof_rtmsg).1 →
      attr_size_mismatch m want BIRD_RTA_MAX a' r →
      nl_parse_route d m h scan = .ignored none) := by
  have key : ∀ (m : Mem) (want : Nat → nl_want_attrs) (max a : Nat) (len : Int) (a' : Nat)
      (r : Int), (a', r) ∈ nl_parse_attrs_walk m want max len.toNat a len →
      attr_size_mismatch m want max a' r → (nl_parse_attrs m a want max len).ret = 0 :=
    fun m want max a len a' r hmem hbad =>
      nl_parse_attrs_loop_reject m want max a' r (Or.inr hbad) _ _ _ _
        (Int.self_le_toNat len) hmem
  refine ⟨key, ?_⟩
  intro d m h scan want a' r hfam hmem hbad
  have hret := key m want BIRD_RTA_MAX _ _ a' r hmem hbad
  unfold nl_parse_route
  have hck : ∀ i, (nl_checkin m h sizeof_rtmsg).2 = some i → i = NLMSG_DATA h := by
    intro i hi
    simp only [nl_checkin] at hi
    split at hi
    · cases hi
    · exact (Option.some.inj hi).symm
  rcases hc : nl_checkin m h sizeof_rtmsg with ⟨len, _ | i⟩
  · rfl
  · have hi : i = NLMSG_DATA h := hck i (by rw [hc])
    subst hi
    rw [hc] at hret
    simp only at hret ⊢
    rcases hfam with ⟨hf, hw⟩ | ⟨hf, hw⟩ | ⟨hf, hw⟩
    · subst hw
      rw [if_pos hf, if_pos hret]
    · subst hw
      rw [if_neg (by rw [hf]; decide), if_pos hf, if_pos hret]
    · subst hw
      rw [if_neg (by rw [hf]; decide), if_neg (by rw [hf]; decide), if_pos hf, if_pos hret]

/-- Witness of `size_mismatch_rejects`: an IPv4 route message whose `RTA_GATEWAY` has a payload
of 3 bytes. -/
theorem size_mismatch_rejects_witness :
    (nl_parse_attrs route_msg_short_gateway 28 rtm_attr_want4 BIRD_RTA_MAX 24).ret = 0
    ∧ nl_parse_route example_daemon route_msg_short_gateway 0 true = .ignored none
    ∧ nl_parse_route example_daemon route_msg_short_gateway 0 false = .ignored none :=
  ⟨size_mismatch_rejects.1 route_msg_short_gateway rtm_attr_want4 BIRD_RTA_MAX 28 24 44 8
      (by decide) (by decide),
   size_mismatch_rejects.2 example_daemon route_msg_short_gateway 0 true rtm_attr_want4 44 8
      (Or.inl ⟨by decide, rfl⟩) (by decide) (by decide),
   size_mismatch_rejects.2 example_daemon route_msg_short_gateway 0 false rtm_attr_want4 44 8
      (Or.inl ⟨by decide, rfl⟩) (by decide) (by decide)⟩

/-- C4 (code evaluated at the failing input): `nl_add_attr_via` on a message of length 28 in
a buffer of 32 bytes, with the IPv4 gateway 192.0.2.1, returns without `bug()`, leaves
`h->nlmsg_len = 38`, above the buffer size, and has stored the family (2) at offset 32 and
the address bytes at offsets 34..37, which lie outside the buffer. -/
theorem nl_add_attr_via_overrun :
    (nl_add_attr_via route_msg_empty 0 32 (.ip4 0xC0000201)).map
        (fun m => (nlmsg_len m 0, rta_len m 28, rta_type m 28,
          [m 32, m 33, m 34, m 35, m 36, m 37]))
      = some (38, 10, RTA_VIA, [2, 0, 192, 0, 2, 1])
    ∧ [32, 33, 34, 35, 36, 37].map route_msg_empty = [0, 0, 0, 0, 0, 0] := by
  decide

/-- C5 (code evaluated at the failing input): for the route `2001:db8::/32 via fe80::1 dev
eth0` in table 254, `nl_send_route` with `new = 1` does not reach `nl_exchange`: the call that
adds `RTA_GATEWAY` is given `sizeof(r) = 8` as buffer size and aborts through `bug()`. -/
theorem nl_send_route_gateway_aborts :
    nl_send_route example_stack example_proto6 example_route6 [] true (fun _ => 0)
      = .abort .bug := by
  rfl

/-- C6 (code evaluated at the failing input): for the unicast route `10.0.0.0/24 dev eth0`,
`nl_send_route` with `new = 1` reaches `nl_exchange` with a request whose `rtm_type` is
`RTN_BLACKHOLE` (6), not `RTN_UNICAST` (1), and which carries `RTA_OIF`. -/
theorem nl_send_route_unicast_type :
    (match nl_send_route example_stack example_proto4 example_route4_dev [] true (fun _ => 0) with
      | .exchange pkt =>
        some (rtm_type pkt (NLMSG_DATA 0), nlmsg_type pkt 0, nlmsg_len pkt 0,
          rta_type pkt 36, rta_get_u32 pkt 36)
      | .abort _ => none)
      = some (RTN_BLACKHOLE, RTM_NEWROUTE, 44, RTA_OIF, 2)
    ∧ RTN_BLACKHOLE ≠ RTN_UNICAST := by
  decide

theorem NLMSG_OK_iff (m : Mem) (h len : Nat) :
    NLMSG_OK m h len = true ↔ 16 ≤ len ∧ 16 ≤ nlmsg_len m h ∧ nlmsg_len m h ≤ len := by
  simp [NLMSG_OK, sizeof_nlmsghdr, and_assoc]

/-- The second half of the loop body keeps the endpoint inside the datagram it is reading,
and a message it returns lies inside that datagram and has the sequence number of the
endpoint. -/
theorem nl_get_reply_msg_sound (nl : nl_sock) (hdr : Nat) (input : List Recv) (cur : List Nat)
    (hl : nl.last_hdr = some hdr) (hread : nl_sock_reading nl cur) (hf : dgram_framed cur) :
    (∀ nl1 input1, nl_get_reply_msg nl hdr input = .next nl1 input1 →
      input1 = input ∧ nl1.seq = nl.seq ∧ nl_sock_reading nl1 cur)
    ∧ (∀ r, nl_get_reply_msg nl hdr input = .done r →
      ∃ nl1, r = .ret hdr nl1 input ∧ nl1.seq = nl.seq ∧ nl_sock_reading nl1 cur
        ∧ nlmsg_seq nl1.rx_buffer hdr = nl.seq
        ∧ hdr + nlmsg_len nl1.rx_buffer hdr ≤ cur.length
        ∧ ∀ i, i < cur.length → nl1.rx_buffer i = cur.getD i 0) := by
  obtain ⟨hsum, hmod, hbuf⟩ := hread hdr hl
  obtain ⟨hc4, hcmax⟩ := hf
  simp only [NL_RX_SIZE] at hcmax
  unfold nl_get_reply_msg
  by_cases hok : NLMSG_OK nl.rx_buffer hdr nl.last_size = true
  · rw [if_pos hok]
    obtain ⟨h16, hlen16, hlen⟩ := (NLMSG_OK_iff _ _ _).1 hok
    have hal : NLMSG_ALIGN (nlmsg_len nl.rx_buffer hdr) ≤ nl.last_size
        ∧ NLMSG_ALIGN (nlmsg_len nl.rx_buffer hdr) % 4 = 0 := by
      simp only [NLMSG_ALIGN]; omega
    have hstep : u32 (NLMSG_ALIGN (nlmsg_len nl.rx_buffer hdr))
        = NLMSG_ALIGN (nlmsg_len nl.rx_buffer hdr) := Nat.mod_eq_of_lt (by omega)
    have hsize : u32 (nl.last_size + 2 ^ 32 - NLMSG_ALIGN (nlmsg_len nl.rx_buffer hdr))
        = nl.last_size - NLMSG_ALIGN (nlmsg_len nl.rx_buffer hdr) := by
      unfold u32; omega
    have hread1 : nl_sock_reading
        { nl with
          last_hdr := some (hdr + u32 (NLMSG_ALIGN (nlmsg_len nl.rx_buffer hdr)))
          last_size := u32 (nl.last_size + 2 ^ 32
            - u32 (NLMSG_ALIGN (nlmsg_len nl.rx_buffer hdr))) } cur := by
      intro hdr' hh
      simp only [Option.some.injEq] at hh
      subst hh
      refine ⟨?_, ?_, hbuf⟩
      · show hdr + u32 (NLMSG_ALIGN (nlmsg_len nl.rx_buffer hdr))
          + u32 (nl.last_size + 2 ^ 32 - u32 (NLMSG_ALIGN (nlmsg_len nl.rx_buffer hdr)))
          = cur.length
        rw [hstep, hsize]; omega
      · rw [hstep]; omega
    by_cases hseq : nlmsg_seq nl.rx_buffer hdr ≠ nl.seq
    · rw [if_pos hseq]
      refine ⟨?_, fun r hr => by cases hr⟩
      intro nl1 input1 he
      cases he
      exact ⟨rfl, rfl, hread1⟩
    · rw [if_neg hseq]
      refine ⟨(fun _ _ he => by cases he), ?_⟩
      intro r hr
      cases hr
      exact ⟨_, rfl, rfl, hread1, by simpa using hseq, by simp only; omega, hbuf⟩
  · rw [if_neg hok]
    refine ⟨?_, fun r hr => by cases hr⟩
    intro nl1 input1 he
    cases he
    refine ⟨rfl, rfl, ?_⟩
    intro hdr' hh
    cases hh

/-- Soundness of `nl_get_reply` for any set `Src` of datagrams that contains the datagram
being read and every datagram delivered with sender id 0. -/
theorem nl_get_reply_sound (Src : List Nat → Prop) :
    ∀ (fuel : Nat) (nl : nl_sock) (input : List Recv) (cur : List Nat) (h : Nat)
      (nl' : nl_sock) (rest : List Recv),
      nl_sock_reading nl cur → dgram_framed cur → (nl.last_hdr ≠ none → Src cur) →
      (∀ data trunc, Recv.dgram 0 data trunc ∈ input → Src data ∧ dgram_framed data) →
      nl_get_reply fuel nl input = .ret h nl' rest →
      nlmsg_seq nl'.rx_buffer h = nl.seq ∧ nl'.seq = nl.seq ∧ (∀ x ∈ rest, x ∈ input)
      ∧ ∃ cur', Src cur' ∧ dgram_framed cur' ∧ nl_sock_reading nl' cur'
        ∧ h + nlmsg_len nl'.rx_buffer h ≤ cur'.length
        ∧ ∀ i, i < cur'.length → nl'.rx_buffer i = cur'.getD i 0 := by
  intro fuel
  induction fuel with
  | zero => intro nl input cur h nl' rest _ _ _ _ hr; cases hr
  | succ f ih =>
    intro nl input cur h nl' rest hread hf hsrc hin hr
    rw [nl_get_reply] at hr
    -- the outcome of one pass through the loop body
    have finish_next : ∀ (nl1 : nl_sock) (input1 : List Recv) (cur1 : List Nat),
        nl1.seq = nl.seq → nl_sock_reading nl1 cur1 → dgram_framed cur1 →
        (nl1.last_hdr ≠ none → Src cur1) → (∀ x ∈ input1, x ∈ input) →
        nl_get_reply f nl1 input1 = .ret h nl' rest →
        nlmsg_seq nl'.rx_buffer h = nl.seq ∧ nl'.seq = nl.seq ∧ (∀ x ∈ rest, x ∈ input)
        ∧ ∃ cur', Src cur' ∧ dgram_framed cur' ∧ nl_sock_reading nl' cur'
          ∧ h + nlmsg_len nl'.rx_buffer h ≤ cur'.length
          ∧ ∀ i, i < cur'.length → nl'.rx_buffer i = cur'.getD i 0 := by
      intro nl1 input1 cur1 hs hr1 hf1 hsrc1 hsub hrun
      obtain ⟨h1, h2, h3, h4⟩ := ih nl1 input1 cur1 h nl' rest hr1 hf1 hsrc1
        (fun data trunc hm => hin data trunc (hsub _ hm)) hrun
      rw [hs] at h1 h2
      exact ⟨h1, h2, fun x hx => hsub x (h3 x hx), h4⟩
    have finish_msg : ∀ (nl0 : nl_sock) (hdr : Nat) (input0 : List Recv) (cur0 : List Nat),
        nl0.last_hdr = some hdr → nl0.seq = nl.seq → nl_sock_reading nl0 cur0 →
        dgram_framed cur0 → Src cur0 → (∀ x ∈ input0, x ∈ input) →
        (match nl_get_reply_msg nl0 hdr input0 with
          | .done r => r
          | .next nl1 input1 => nl_get_reply f nl1 input1) = .ret h nl' rest →
        nlmsg_seq nl'.rx_buffer h = nl.seq ∧ nl'.seq = nl.seq ∧ (∀ x ∈ rest, x ∈ input)
        ∧ ∃ cur', Src cur' ∧ dgram_framed cur' ∧ nl_sock_reading nl' cur'
          ∧ h + nlmsg_len nl'.rx_buffer h ≤ cur'.length
          ∧ ∀ i, i < cur'.length → nl'.rx_buffer i = cur'.getD i 0 := by
      intro nl0 hdr input0 cur0 hl0 hs0 hr0 hf0 hsrc0 hsub0 hrun
      obtain ⟨hnext, hdone⟩ := nl_get_reply_msg_sound nl0 hdr input0 cur0 hl0 hr0 hf0
      cases hstep : nl_get_reply_msg nl0 hdr input0 with
      | done r =>
        rw [hstep] at hrun
        simp only at hrun
        obtain ⟨nl1, hr1, hs1, hread1, hseq1, hlen1, hbuf1⟩ := hdone r hstep
        rw [hrun] at hr1
        injection hr1 with e1 e2 e3
        subst e1; subst e2
        subst e3
        exact ⟨by rw [hseq1, hs0], by rw [hs1, hs0], hsub0, cur0, hsrc0, hf0, hread1, hlen1,
          hbuf1⟩
      | next nl1 input1 =>
        rw [hstep] at hrun
        simp only at hrun
        obtain ⟨hi1, hs1, hread1⟩ := hnext nl1 input1 hstep
        rw [hi1] at hrun
        exact finish_next nl1 input0 cur0 (by rw [hs1, hs0]) hread1 hf0 (fun _ => hsrc0) hsub0
          hrun
    unfold nl_get_reply_step at hr
    obtain ⟨seq, buf, lh, ls⟩ := nl
    cases lh with
    | some hdr =>
      simp only at hr
      exact finish_msg ⟨seq, buf, some hdr, ls⟩ hdr input cur rfl rfl hread hf
        (hsrc (by simp)) (fun _ hx => hx) hr
    | none =>
      simp only at hr
      cases input with
      | nil => cases hr
      | cons x rest0 =>
        cases x with
        | error => cases hr
        | dgram pid data trunc =>
          simp only at hr
          by_cases hpid : pid ≠ 0
          · rw [if_pos hpid] at hr
            refine finish_next ⟨seq, recv_into buf data, none, ls⟩ rest0 []
              rfl ?_ (by decide) ?_ (fun _ hx => List.mem_cons_of_mem _ hx) hr
            · intro hdr' hh
              cases hh
            · intro hne
              exact absurd rfl hne
          · rw [if_neg hpid] at hr
            have hp0 : pid = 0 := by omega
            subst hp0
            cases trunc with
            | true => simp only [if_true] at hr; cases hr
            | false =>
              simp only [Bool.false_eq_true, if_false] at hr
              obtain ⟨hsd, hfd⟩ := hin data false (List.mem_cons_self _ _)
              refine finish_msg ⟨seq, recv_into buf data, some 0, data.length⟩ 0 rest0 data
                rfl rfl ?_ hfd hsd (fun _ hx => List.mem_cons_of_mem _ hx) hr
              intro hdr' hh
              simp only [Option.some.injEq] at hh
              subst hh
              refine ⟨by simp, rfl, ?_⟩
              intro i hi
              simp [recv_into, hi]


theorem nl_get_replies_sound (Src : List Nat → Prop) (fuel : Nat) :
    ∀ (n : Nat) (nl : nl_sock) (input : List Recv) (cur : List Nat),
      nl_sock_reading nl cur → dgram_framed cur → (nl.last_hdr ≠ none → Src cur) →
      (∀ data trunc, Recv.dgram 0 data trunc ∈ input → Src data ∧ dgram_framed data) →
      ∀ hb ∈ nl_get_replies fuel n nl input,
        nlmsg_seq hb.2 hb.1 = nl.seq
        ∧ ∃ data, Src data ∧ hb.1 + nlmsg_len hb.2 hb.1 ≤ data.length
          ∧ ∀ i, i < data.length → hb.2 i = data.getD i 0 := by
  intro n
  induction n with
  | zero => intro nl input cur _ _ _ _ hb hmem; cases hmem
  | succ k ih =>
    intro nl input cur hread hf hsrc hin hb hmem
    rw [nl_get_replies] at hmem
    cases hr : nl_get_reply fuel nl input with
    | ret h nl1 rest =>
      rw [hr] at hmem
      simp only at hmem
      obtain ⟨hseq, hs, hsub, cur', hsrc', hf', hread', hlen', hbuf'⟩ :=
        nl_get_reply_sound Src fuel nl input cur h nl1 rest hread hf hsrc hin hr
      rcases List.mem_cons.1 hmem with heq | htail
      · subst heq
        exact ⟨hseq, cur', hsrc', hlen', hbuf'⟩
      · have := ih nl1 rest cur' hread' hf' (fun _ => hsrc')
          (fun data trunc hm => hin data trunc (hsub _ hm)) hb htail
        rw [hs] at this
        exact this
    | die => rw [hr] at hmem; cases hmem
    | bug => rw [hr] at hmem; cases hmem
    | blocked => rw [hr] at hmem; cases hmem
    | running => rw [hr] at hmem; cases hmem

/-- C7 (amended): reply iterator filter. Take an endpoint as `nl_send` leaves it (`last_hdr`
is `NULL`) and any sequence of `recvmsg` results in which every datagram with sender id 0 is
framed as the kernel frames it (its length is a multiple of 4 and at most `NL_RX_SIZE`).
Then every message returned by successive calls of `nl_get_reply` has `nlmsg_seq` equal to
the endpoint's sequence counter, and lies entirely inside a datagram that was received with
sender id 0 and whose bytes the receive buffer holds at that moment. So no datagram with a
non-zero sender id and no message with another sequence number is ever returned to
`nl_get_scan`, `nl_exchange` or the parsers behind them. -/
theorem nl_get_reply_filter (fuel n : Nat) (nl : nl_sock) (input : List Recv)
    (hfresh : nl.last_hdr = none)
    (hframed : ∀ data trunc, Recv.dgram 0 data trunc ∈ input → dgram_framed data) :
    ∀ hb ∈ nl_get_replies fuel n nl input,
      nlmsg_seq hb.2 hb.1 = nl.seq
      ∧ ∃ data trunc, Recv.dgram 0 data trunc ∈ input
        ∧ hb.1 + nlmsg_len hb.2 hb.1 ≤ data.length
        ∧ ∀ i, i < data.length → hb.2 i = data.getD i 0 := by
  intro hb hmem
  obtain ⟨hseq, data, ⟨trunc, hd⟩, hlen, hbuf⟩ :=
    nl_get_replies_sound (fun data => ∃ trunc, Recv.dgram 0 data trunc ∈ input) fuel n nl input []
      (fun hdr hh => by rw [hfresh] at hh; cases hh) (by decide)
      (fun hne => absurd hfresh hne)
      (fun data trunc hm => ⟨⟨trunc, hm⟩, hframed data trunc hm⟩) hb hmem
  exact ⟨hseq, data, trunc, hd, hlen, hbuf⟩

/-- Witness of `nl_get_reply_filter`: a datagram with sender id 99 followed by a kernel
datagram with an out-of-sequence message and an in-sequence one; only the latter, at offset
16 of the kernel datagram, is returned. -/
theorem nl_get_reply_filter_witness :
    (nl_get_replies 8 2 example_sock
        [.dgram 99 example_dgram_alien false, .dgram 0 example_dgram_kernel false]).map
      Prod.fst = [16]
    ∧ ∀ hb ∈ nl_get_replies 8 2 example_sock
        [.dgram 99 example_dgram_alien false, .dgram 0 example_dgram_kernel false],
      nlmsg_seq hb.2 hb.1 = example_sock.seq
      ∧ ∃ data trunc, Recv.dgram 0 data trunc
          ∈ [Recv.dgram 99 example_dgram_alien false, .dgram 0 example_dgram_kernel false]
        ∧ hb.1 + nlmsg_len hb.2 hb.1 ≤ data.length
        ∧ ∀ i, i < data.length → hb.2 i = data.getD i 0 :=
  ⟨by decide,
   nl_get_reply_filter 8 2 example_sock
    [.dgram 99 example_dgram_alien false, .dgram 0 example_dgram_kernel false] rfl
    (by
      intro data trunc hm
      simp only [List.mem_cons, Recv.dgram.injEq, List.mem_singleton, List.not_mem_nil,
        or_false] at hm
      rcases hm with ⟨h0, _, _⟩ | ⟨_, hd, _⟩
      · cases h0
      · subst hd; decide)⟩

/-- C7 as stated fails: after a datagram with sender id 99 and a kernel datagram of 17 bytes
holding one in-sequence message of length 17, the first call returns that message and
`NLMSG_NEXT` wraps the unsigned `last_size` (17 - 20); the second call then returns the
message that starts at offset 20 of the receive buffer and ends at offset 36, in sequence,
whose 16 bytes were stored by the datagram with sender id 99, while the only datagram with
sender id 0 is 17 bytes long. -/
theorem nl_get_reply_filter_counterexample :
    (nl_get_replies 8 2 example_sock
        [.dgram 99 example_dgram_alien false, .dgram 0 example_dgram_short false]).map
      (fun hb => (hb.1, hb.1 + nlmsg_len hb.2 hb.1, nlmsg_seq hb.2 hb.1,
        (List.range (nlmsg_len hb.2 hb.1)).map (fun j => hb.2 (hb.1 + j))))
      = [(0, 17, 7, example_dgram_short),
         (20, 36, 7, (example_dgram_alien.drop 20).take 16)]
    ∧ example_sock.last_hdr = none ∧ example_sock.seq = 7
    ∧ example_dgram_short.length = 17 := by
  decide

theorem dump_end_iff (m : Mem) (h : Nat) :
    dump_end m h = true ↔ nlmsg_type m h = NLMSG_DONE ∨ nlmsg_type m h = NLMSG_ERROR := by
  simp [dump_end]

/-- The scan loop hands to its body the replies that precede the first `NLMSG_DONE` or
`NLMSG_ERROR`, and ends exactly when such a reply arrives. -/
theorem nl_scan_loop_eq (fuel : Nat) :
    ∀ (n : Nat) (nl : nl_sock) (input : List Recv),
      nl_scan_loop fuel n nl input
        = ((nl_get_replies fuel n nl input).takeWhile (fun hb => !dump_end hb.2 hb.1),
           (nl_get_replies fuel n nl input).any (fun hb => dump_end hb.2 hb.1)) := by
  intro n
  induction n with
  | zero => intro nl input; rfl
  | succ k ih =>
    intro nl input
    rw [nl_scan_loop, nl_get_replies, nl_get_scan]
    cases hr : nl_get_reply fuel nl input with
    | ret h nl1 rest =>
      simp only
      by_cases hd : nlmsg_type nl1.rx_buffer h = NLMSG_DONE
      · have he : dump_end nl1.rx_buffer h = true := (dump_end_iff _ _).2 (Or.inl hd)
        rw [if_pos hd]
        simp [List.takeWhile, he]
      · rw [if_neg hd]
        by_cases he : nlmsg_type nl1.rx_buffer h = NLMSG_ERROR
        · have he' : dump_end nl1.rx_buffer h = true := (dump_end_iff _ _).2 (Or.inr he)
          rw [if_pos he]
          simp [List.takeWhile, he']
        · have he' : dump_end nl1.rx_buffer h = false := by
            cases hx : dump_end nl1.rx_buffer h with
            | false => rfl
            | true => exact absurd ((dump_end_iff _ _).1 hx) (by tauto)
          rw [if_neg he]
          simp only [ih nl1 rest, List.takeWhile, he', Bool.not_false, List.any_cons,
            Bool.false_or]
    | die => rfl
    | bug => rfl
    | blocked => rfl
    | running => rfl

/-- C8: dump termination. For every message `h` that `nl_get_reply` returns on the scan
endpoint, `nl_get_scan` returns `NULL` if and only if `h->nlmsg_type` is `NLMSG_DONE` or
`NLMSG_ERROR`, and for every other type it returns `h` itself; so a scan loop
`while (h = nl_get_scan())` hands to its body exactly the replies that precede the first
`NLMSG_DONE` or `NLMSG_ERROR`, and ends exactly when such a reply has arrived. -/
theorem nl_get_scan_dump_end (fuel : Nat) :
    (∀ (nl : nl_sock) (input : List Recv) (h : Nat) (nl1 : nl_sock) (rest : List Recv),
      nl_get_reply fuel nl input = .ret h nl1 rest →
      (nl_get_scan fuel nl input = some (none, nl1, rest) ↔
        (nlmsg_type nl1.rx_buffer h = NLMSG_DONE ∨ nlmsg_type nl1.rx_buffer h = NLMSG_ERROR))
      ∧ (¬ (nlmsg_type nl1.rx_buffer h = NLMSG_DONE ∨ nlmsg_type nl1.rx_buffer h = NLMSG_ERROR) →
        nl_get_scan fuel nl input = some (some h, nl1, rest)))
    ∧ (∀ (n : Nat) (nl : nl_sock) (input : List Recv),
      nl_scan_loop fuel n nl input
        = ((nl_get_replies fuel n nl input).takeWhile (fun hb => !dump_end hb.2 hb.1),
           (nl_get_replies fuel n nl input).any (fun hb => dump_end hb.2 hb.1))) := by
  refine ⟨?_, nl_scan_loop_eq fuel⟩
  intro nl input h nl1 rest hr
  unfold nl_get_scan
  rw [hr]
  simp only
  by_cases hd : nlmsg_type nl1.rx_buffer h = NLMSG_DONE
  · rw [if_pos hd]
    exact ⟨⟨fun _ => Or.inl hd, fun _ => rfl⟩, fun hn => absurd (Or.inl hd) hn⟩
  · rw [if_neg hd]
    by_cases he : nlmsg_type nl1.rx_buffer h = NLMSG_ERROR
    · rw [if_pos he]
      exact ⟨⟨fun _ => Or.inr he, fun _ => rfl⟩, fun hn => absurd (Or.inr he) hn⟩
    · rw [if_neg he]
      refine ⟨⟨fun hx => ?_, fun hx => ?_⟩, fun _ => rfl⟩
      · simp at hx
      · tauto

/-- Witness of `nl_get_scan_dump_end`: on a kernel datagram whose in-sequence message is
`NLMSG_DONE`, `nl_get_scan` returns `NULL`. -/
theorem nl_get_scan_dump_end_witness :
    nl_get_scan 8 example_sock [.dgram 0 example_dgram_kernel false]
      = some (none,
          { seq := 7, rx_buffer := recv_into (fun _ => 0) example_dgram_kernel,
            last_hdr := some 32, last_size := 0 }, []) :=
  ((nl_get_scan_dump_end 8).1 example_sock [.dgram 0 example_dgram_kernel false] 16
    { seq := 7, rx_buffer := recv_into (fun _ => 0) example_dgram_kernel,
      last_hdr := some 32, last_size := 0 } [] rfl).1.2 (by decide)

theorem nl_error_eq_zero (m : Mem) (h : Nat) :
    nl_error m h = 0 ↔
      NLMSG_LENGTH sizeof_nlmsgerr ≤ nlmsg_len m h ∧ ld32 m (NLMSG_DATA h) = 0 := by
  have hlt := ld32_lt m (NLMSG_DATA h)
  unfold nl_error
  by_cases hl : nlmsg_len m h < NLMSG_LENGTH sizeof_nlmsgerr
  · rw [if_pos hl]
    simp only [ENOBUFS]
    constructor
    · intro hx; omega
    · intro hx; omega
  · rw [if_neg hl]
    unfold to_int32
    constructor
    · intro hx; refine ⟨by omega, ?_⟩; omega
    · intro hx; rw [hx.2]; decide

theorem nl_exchange_loop_eq (fuel : Nat) :
    ∀ (n : Nat) (nl : nl_sock) (input : List Recv),
      nl_exchange_loop fuel n nl input
        = ((nl_get_replies fuel n nl input).find?
            (fun hb => nlmsg_type hb.2 hb.1 == NLMSG_ERROR)).map
          (fun hb => if NLMSG_LENGTH sizeof_nlmsgerr ≤ nlmsg_len hb.2 hb.1
            ∧ ld32 hb.2 (NLMSG_DATA hb.1) = 0 then (0 : Int) else -1) := by
  intro n
  induction n with
  | zero => intro nl input; rfl
  | succ k ih =>
    intro nl input
    rw [nl_exchange_loop, nl_get_replies]
    cases hr : nl_get_reply fuel nl input with
    | ret h nl1 rest =>
      simp only
      by_cases he : nlmsg_type nl1.rx_buffer h = NLMSG_ERROR
      · rw [if_pos he]
        have hb : (nlmsg_type nl1.rx_buffer h == NLMSG_ERROR) = true := by simp [he]
        simp only [List.find?, hb, Option.map_some']
        by_cases hz : nl_error nl1.rx_buffer h = 0
        · rw [if_neg (by simp [hz]), if_pos ((nl_error_eq_zero _ _).1 hz)]
        · rw [if_pos hz, if_neg (fun hx => hz ((nl_error_eq_zero _ _).2 hx))]
      · rw [if_neg he]
        have hb : (nlmsg_type nl1.rx_buffer h == NLMSG_ERROR) = false := by simp [he]
        simp only [List.find?, hb]
        exact ih nl1 rest
    | die => rfl
    | bug => rfl
    | blocked => rfl
    | running => rfl

/-- C9: request/ack result. After `nl_send`, `nl_exchange` skips every reply that
`nl_get_reply` returns on the request endpoint whose type is not `NLMSG_ERROR`, and at the
first reply of type `NLMSG_ERROR` it returns 0 if that message is a full `nlmsgerr` record
with error code 0, and -1 otherwise (non-zero code, or a message shorter than
`NLMSG_LENGTH(sizeof(struct nlmsgerr))`); without such a reply it returns nothing. -/
theorem nl_exchange_result (fuel n : Nat) (nl_req : nl_sock) (m : Mem) (pkt : Nat)
    (input : List Recv) :
    nl_exchange fuel n nl_req m pkt true input
      = ((nl_get_replies fuel n (nl_send nl_req m pkt).1 input).find?
          (fun hb => nlmsg_type hb.2 hb.1 == NLMSG_ERROR)).map
        (fun hb => if NLMSG_LENGTH sizeof_nlmsgerr ≤ nlmsg_len hb.2 hb.1
          ∧ ld32 hb.2 (NLMSG_DATA hb.1) = 0 then (0 : Int) else -1) := by
  unfold nl_exchange
  rw [if_pos rfl]
  exact nl_exchange_loop_eq fuel n _ input


/-- Three exchanges on the endpoint of the examples (sequence counter 6 before `nl_send`): an
unexpected reply followed by an acknowledgement with code 0 gives 0; an acknowledgement with
code -17 gives -1; an `NLMSG_ERROR` message of 20 bytes, too short for `struct nlmsgerr`,
gives -1. -/
theorem nl_exchange_examples :
    nl_exchange 8 4 { example_sock with seq := 6 } route_msg_empty 0 true
        [.dgram 0 ([16, 0, 0, 0, 24, 0, 0, 0, 7, 0, 0, 0, 0, 0, 0, 0]
          ++ [36, 0, 0, 0, 2, 0, 0, 0, 7, 0, 0, 0, 0, 0, 0, 0, 0, 0, 0, 0,
              28, 0, 0, 0, 24, 0, 0, 0, 7, 0, 0, 0, 0, 0, 0, 0]) false] = some 0
    ∧ nl_exchange 8 4 { example_sock with seq := 6 } route_msg_empty 0 true
        [.dgram 0 [36, 0, 0, 0, 2, 0, 0, 0, 7, 0, 0, 0, 0, 0, 0, 0, 239, 255, 255, 255,
              28, 0, 0, 0, 24, 0, 0, 0, 7, 0, 0, 0, 0, 0, 0, 0] false] = some (-1)
    ∧ nl_exchange 8 4 { example_sock with seq := 6 } route_msg_empty 0 true
        [.dgram 0 [20, 0, 0, 0, 2, 0, 0, 0, 7, 0, 0, 0, 0, 0, 0, 0, 0, 0, 0, 0] false]
        = some (-1) := by
  decide

theorem ld8_st8_same (m : Mem) (a v : Nat) : ld8 (st8 m a v) a = v % 256 := by
  simp [ld8, st8]

/-- The switch on the disposition leaves `RTN_BLACKHOLE` in `rtm_type` for every unicast
route, and only stores `rtm_type` for the other dispositions. -/
theorem nl_send_route_dest_type (m : Mem) (rsize : Nat) (p : krt_proto) (a : rta) (m' : Mem)
    (h : nl_send_route_dest m rsize p a = .ok m') :
    (a.dest = .UNICAST → rtm_type m' (NLMSG_DATA 0) = RTN_BLACKHOLE)
    ∧ (a.dest = .BLACKHOLE → m' = st8 m 23 RTN_BLACKHOLE)
    ∧ (a.dest = .UNREACHABLE → m' = st8 m 23 RTN_UNREACHABLE)
    ∧ (a.dest = .PROHIBIT → m' = st8 m 23 RTN_PROHIBIT)
    ∧ a.dest ≠ .NONE := by
  unfold nl_send_route_dest at h
  cases hd : a.dest with
  | UNICAST =>
    rw [hd] at h
    simp only at h
    split at h
    · cases h
    · injection h with h
      subst h
      refine ⟨fun _ => ?_, (by intro hx; cases hx), (by intro hx; cases hx), (by intro hx; cases hx),
        (by intro hx; cases hx)⟩
      show ld8 (st8 _ 23 RTN_BLACKHOLE) 23 = RTN_BLACKHOLE
      rw [ld8_st8_same]; rfl
  | BLACKHOLE =>
    rw [hd] at h
    injection h with h
    exact ⟨(by intro hx; cases hx), fun _ => h.symm, (by intro hx; cases hx), (by intro hx; cases hx),
      (by intro hx; cases hx)⟩
  | UNREACHABLE =>
    rw [hd] at h
    injection h with h
    exact ⟨(by intro hx; cases hx), (by intro hx; cases hx), fun _ => h.symm, (by intro hx; cases hx),
      (by intro hx; cases hx)⟩
  | PROHIBIT =>
    rw [hd] at h
    injection h with h
    exact ⟨(by intro hx; cases hx), (by intro hx; cases hx), (by intro hx; cases hx), fun _ => h.symm,
      (by intro hx; cases hx)⟩
  | NONE =>
    rw [hd] at h
    cases h

/-- A request that `nl_send_route` with `new = 1` hands to `nl_exchange` comes out of the
switch on the disposition. -/
theorem nl_send_route_build_dest (stack : Mem) (p : krt_proto) (e : rte)
    (eattrs : List eattr) (metrics0 : Nat → Nat) (pkt : Mem)
    (h : nl_send_route_build stack p e eattrs true metrics0 = .ok pkt) :
    ∃ m rsize, nl_send_route_dest m rsize p e.attrs = .ok pkt := by
  unfold nl_send_route_build at h
  simp only [Bool.not_true, Bool.false_eq_true, if_false] at h
  split at h
  · cases h
  · split at h
    · cases h
    · unfold nl_send_route_attrs at h
      simp only at h
      split at h
      · cases h
      · split at h
        · cases h
        · split at h
          · cases h
          · split at h
            · cases h
            · exact ⟨_, _, h⟩

/-- Every unicast route for which `nl_send_route` with `new = 1` reaches `nl_exchange` is sent
with `rtm_type = RTN_BLACKHOLE`. -/
theorem nl_send_route_unicast_blackhole (stack : Mem) (p : krt_proto) (e : rte)
    (eattrs : List eattr) (metrics0 : Nat → Nat) (pkt : Mem)
    (hd : e.attrs.dest = .UNICAST)
    (h : nl_send_route stack p e eattrs true metrics0 = .exchange pkt) :
    rtm_type pkt (NLMSG_DATA 0) = RTN_BLACKHOLE := by
  unfold nl_send_route at h
  split at h
  · cases h
  · next pkt' hb =>
    injection h with h
    subst h
    obtain ⟨m, rsize, hdest⟩ := nl_send_route_build_dest stack p e eattrs metrics0 _ hb
    exact (nl_send_route_dest_type m rsize p e.attrs _ hdest).1 hd

/-- The bound on the iterations of the loop of `nl_parse_attrs` is never what stops it: with
any two bounds of at least the remaining length the loop gives the same result, so the
result of `nl_parse_attrs` is the result of the unbounded loop. -/
theorem nl_parse_attrs_loop_fuel (m : Mem) (want : Nat → nl_want_attrs) (max : Nat) :
    ∀ (f1 f2 a : Nat) (len : Int) (k : AttrVec), len ≤ (f1 : Nat) → len ≤ (f2 : Nat) →
      nl_parse_attrs_loop m want max f1 a len k = nl_parse_attrs_loop m want max f2 a len k := by
  intro f1
  induction f1 with
  | zero =>
    intro f2 a len k h1 _
    have hno : RTA_OK m a len = false := by
      cases hok : RTA_OK m a len with
      | false => rfl
      | true => rw [RTA_OK_iff] at hok; simp only [Nat.cast_zero] at h1; omega
    cases f2 with
    | zero => rfl
    | succ g => simp [nl_parse_attrs_loop, hno]
  | succ f ih =>
    intro f2 a len k h1 h2
    have hal := RTA_ALIGN_ge (rta_len m a)
    cases f2 with
    | zero =>
      have hno : RTA_OK m a len = false := by
        cases hok : RTA_OK m a len with
        | false => rfl
        | true => rw [RTA_OK_iff] at hok; simp only [Nat.cast_zero] at h2; omega
      simp [nl_parse_attrs_loop, hno]
    | succ g =>
      rw [nl_parse_attrs_loop, nl_parse_attrs_loop]
      by_cases hok : RTA_OK m a len = true
      · have hok' := (RTA_OK_iff m a len).1 hok
        rw [if_pos hok, if_pos hok]
        rw [ih g _ _ k (by push_cast at h1 ⊢; omega) (by push_cast at h2 ⊢; omega),
          ih g _ _ (k_set k (rta_type m a) a) (by push_cast at h1 ⊢; omega)
            (by push_cast at h2 ⊢; omega)]
      · rw [if_neg hok, if_neg hok]

theorem nlmsg_len_st8 (m : Mem) (h a v : Nat) (ha : a < h ∨ h + 4 ≤ a) :
    nlmsg_len (st8 m a v) h = nlmsg_len m h := by
  unfold nlmsg_len
  exact ld32_congr m _ h (fun i h1 h2 => st8_other _ _ _ _ (by omega))

theorem nlmsg_len_st16 (m : Mem) (h a v : Nat) (ha : a + 1 < h ∨ h + 4 ≤ a) :
    nlmsg_len (st16 m a v) h = nlmsg_len m h := by
  unfold nlmsg_len
  exact ld32_congr m _ h (fun i h1 h2 => st16_other _ _ _ _ (by omega) (by omega))

/-- A successful `nl_add_attr` of a short payload keeps the message length between the fixed
route request size and the buffer size, and places the attribute at the padded old length. -/
theorem nl_add_attr_len (m : Mem) (h bufsize code : Nat) (data : List Nat) (m' : Mem) (a : Nat)
    (hlo : 28 ≤ nlmsg_len m h) (hhi : nlmsg_len m h < 2 ^ 31) (hd : data.length ≤ 16)
    (hadd : nl_add_attr m h bufsize code data = some (m', a)) :
    28 ≤ nlmsg_len m' h ∧ nlmsg_len m' h ≤ bufsize ∧ nlmsg_len m h ≤ nlmsg_len m' h
      ∧ a = h + NLMSG_ALIGN (nlmsg_len m h) := by
  have hpos : NLMSG_ALIGN (nlmsg_len m h) < nlmsg_len m h + 4
      ∧ nlmsg_len m h ≤ NLMSG_ALIGN (nlmsg_len m h) := by
    simp only [NLMSG_ALIGN]; omega
  have hle := RTA_LENGTH_eq data.length
  have hp : u32 (NLMSG_ALIGN (nlmsg_len m h)) = NLMSG_ALIGN (nlmsg_len m h) :=
    Nat.mod_eq_of_lt (by omega)
  have hl : u32 (RTA_LENGTH data.length) = RTA_LENGTH data.length :=
    Nat.mod_eq_of_lt (by omega)
  have hs : u32 (NLMSG_ALIGN (nlmsg_len m h) + RTA_LENGTH data.length)
      = NLMSG_ALIGN (nlmsg_len m h) + RTA_LENGTH data.length := Nat.mod_eq_of_lt (by omega)
  simp only [nl_add_attr, hp, hl, hs] at hadd
  split at hadd
  · cases hadd
  · next hfit =>
    simp only [Option.some.injEq, Prod.mk.injEq] at hadd
    obtain ⟨hm, ha⟩ := hadd
    have hlen : nlmsg_len m' h = NLMSG_ALIGN (nlmsg_len m h) + RTA_LENGTH data.length := by
      rw [← hm]
      show ld32 _ h = _
      by_cases hd0 : data.length > 0
      · rw [if_pos hd0, ld32_congr (st32 _ h _) _ h
          (fun i hi1 hi2 => memcpy_other _ _ _ _ (by rw [RTA_DATA_eq]; omega)), ld32_st32]
        exact Nat.mod_eq_of_lt (by omega)
      · rw [if_neg hd0, ld32_st32]
        exact Nat.mod_eq_of_lt (by omega)
    exact ⟨by omega, by omega, by omega, ha.symm⟩

/-- With 8 bytes as buffer size, `nl_add_attr` on a route request aborts through `bug()`. -/
theorem nl_add_attr_sizeof_ptr (m : Mem) (h code : Nat) (data : List Nat)
    (hlo : 28 ≤ nlmsg_len m h) (hhi : nlmsg_len m h < 2 ^ 31) (hd : data.length ≤ 16) :
    nl_add_attr m h sizeof_ptr code data = none := by
  cases hadd : nl_add_attr m h sizeof_ptr code data with
  | none => rfl
  | some r =>
    obtain ⟨m', a⟩ := r
    have := nl_add_attr_len m h sizeof_ptr code data m' a hlo hhi hd hadd
    simp only [sizeof_ptr] at this
    omega

theorem ip_hton_bytes_length (gw : ip_addr) :
    (match gw with
      | .ip4 a => (ip4_hton_bytes a).length
      | .ip6 a => (ip6_hton_bytes a).length) ≤ 16 := by
  cases gw <;> simp [ip4_hton_bytes, ip6_hton_bytes, bytes_be32]

/-- With `sizeof(r)` as buffer size, the gateway of a route request cannot be added. -/
theorem nl_add_gateway_sizeof_ptr (m : Mem) (gw : ip_addr)
    (hlo : 28 ≤ nlmsg_len m 0) (hhi : nlmsg_len m 0 < 2 ^ 31) :
    nl_add_attr_via m 0 sizeof_ptr gw = none
    ∧ nl_add_attr_ipa m 0 sizeof_ptr RTA_GATEWAY gw = none := by
  constructor
  · simp only [nl_add_attr_via, nl_open_attr,
      nl_add_attr_sizeof_ptr m 0 RTA_VIA [] hlo hhi (by simp)]
  · cases gw with
    | ip4 a =>
      simp only [nl_add_attr_ipa, nl_add_attr_ip4,
        nl_add_attr_sizeof_ptr m 0 RTA_GATEWAY (ip4_hton_bytes a) hlo hhi
          (by simp [ip4_hton_bytes, bytes_be32]), Option.map_none']
    | ip6 a =>
      simp only [nl_add_attr_ipa, nl_add_attr_ip6,
        nl_add_attr_sizeof_ptr m 0 RTA_GATEWAY (ip6_hton_bytes a) hlo hhi
          (by simp [ip6_hton_bytes, bytes_be32]), Option.map_none']


theorem nl_add_attr_fst_len (m : Mem) (h bufsize code : Nat) (data : List Nat) (m' : Mem)
    (hlo : 28 ≤ nlmsg_len m h) (hhi : nlmsg_len m h < 2 ^ 31) (hd : data.length ≤ 16)
    (hadd : (nl_add_attr m h bufsize code data).map Prod.fst = some m') :
    28 ≤ nlmsg_len m' h ∧ nlmsg_len m' h ≤ bufsize := by
  cases hr : nl_add_attr m h bufsize code data with
  | none => rw [hr] at hadd; cases hadd
  | some r =>
    obtain ⟨m1, a⟩ := r
    rw [hr] at hadd
    simp only [Option.map_some', Option.some.injEq] at hadd
    subst hadd
    have := nl_add_attr_len m h bufsize code data m1 a hlo hhi hd hr
    exact ⟨this.1, this.2.1⟩

theorem or_bug_ok {α : Type} (x : Option α) (v : α) (h : or_bug x = .ok v) : x = some v := by
  cases x with
  | none => cases h
  | some w => injection h with h; rw [h]

theorem nl_add_attr_ipa_len (m : Mem) (h bufsize code : Nat) (ipa : ip_addr) (m' : Mem)
    (hlo : 28 ≤ nlmsg_len m h) (hhi : nlmsg_len m h < 2 ^ 31)
    (hadd : nl_add_attr_ipa m h bufsize code ipa = some m') :
    28 ≤ nlmsg_len m' h ∧ nlmsg_len m' h ≤ bufsize := by
  cases ipa with
  | ip4 a =>
    exact nl_add_attr_fst_len m h bufsize code _ m' hlo hhi
      (by simp [ip4_hton_bytes, bytes_be32]) hadd
  | ip6 a =>
    exact nl_add_attr_fst_len m h bufsize code _ m' hlo hhi
      (by simp [ip6_hton_bytes, bytes_be32]) hadd

theorem nl_add_metrics_loop_len (h bufsize : Nat) (metrics : Nat → Nat) (hb : bufsize < 2 ^ 31) :
    ∀ (ts : List Nat) (m m' : Mem), 28 ≤ nlmsg_len m h → nlmsg_len m h ≤ bufsize →
      nl_add_metrics_loop h bufsize metrics m ts = some m' →
      28 ≤ nlmsg_len m' h ∧ nlmsg_len m' h ≤ bufsize := by
  intro ts
  induction ts with
  | nil =>
    intro m m' hlo hhi hrun
    simp only [nl_add_metrics_loop, Option.some.injEq] at hrun
    subst hrun
    exact ⟨hlo, hhi⟩
  | cons t rest ih =>
    intro m m' hlo hhi hrun
    rw [nl_add_metrics_loop] at hrun
    split at hrun
    · split at hrun
      · cases hrun
      · next m1 hadd =>
        have := nl_add_attr_fst_len m h bufsize t _ m1 hlo (by omega)
          (by simp [bytes_u32]) hadd
        exact ih m1 m' this.1 this.2 hrun
    · exact ih m m' hlo hhi hrun

theorem nl_add_metrics_len (m : Mem) (h bufsize : Nat) (metrics : Nat → Nat) (max : Nat)
    (m' : Mem) (hb : bufsize < 2 ^ 31) (hlo : 28 ≤ nlmsg_len m h)
    (hhi : nlmsg_len m h ≤ bufsize) (hadd : nl_add_metrics m h bufsize metrics max = some m') :
    28 ≤ nlmsg_len m' h ∧ nlmsg_len m' h ≤ bufsize := by
  unfold nl_add_metrics nl_open_attr at hadd
  split at hadd
  · cases hadd
  · next m1 a hopen =>
    have h1 := nl_add_attr_len m h bufsize RTA_METRICS [] m1 a hlo (by omega) (by simp) hopen
    split at hadd
    · cases hadd
    · next m2 hloop =>
      have h2 := nl_add_metrics_loop_len h bufsize metrics hb _ m1 m2 h1.1 h1.2.1 hloop
      simp only [Option.some.injEq] at hadd
      subst hadd
      have ha : h + 4 ≤ a := by
        have hpos : nlmsg_len m h ≤ NLMSG_ALIGN (nlmsg_len m h) := by
          simp only [NLMSG_ALIGN]; omega
        rw [h1.2.2.2]; omega
      unfold nl_close_attr
      rw [nlmsg_len_st16 _ _ _ _ (Or.inr ha)]
      exact h2

/-- A request that `nl_send_route` with `new = 1` hands to `nl_exchange` comes out of the
switch on the disposition, which is entered with a message length between 28 and `rsize`. -/
theorem nl_send_route_build_dest_len (stack : Mem) (p : krt_proto) (e : rte)
    (eattrs : List eattr) (metrics0 : Nat → Nat) (pkt : Mem)
    (hrs : sizeof_nlmsghdr + sizeof_rtmsg
      + (128 + KRT_METRICS_MAX * 8 + nh_bufsize (e.attrs.nh :: e.attrs.nh_next)) < 2 ^ 31)
    (h : nl_send_route_build stack p e eattrs true metrics0 = .ok pkt) :
    ∃ m rsize, 28 ≤ nlmsg_len m 0 ∧ nlmsg_len m 0 ≤ rsize ∧ rsize < 2 ^ 31
      ∧ nl_send_route_dest m rsize p e.attrs = .ok pkt := by
  unfold nl_send_route_build at h
  simp only [Bool.not_true, Bool.false_eq_true, if_false] at h
  generalize hrsize : sizeof_nlmsghdr + sizeof_rtmsg
      + (128 + KRT_METRICS_MAX * 8 + nh_bufsize (e.attrs.nh :: e.attrs.nh_next)) = rsize at h hrs
  have h7 : ∀ m7 : Mem, nlmsg_len m7 0 = 28 →
      ∀ m8, (if p.af = AF_MPLS then or_bug (nl_add_attr_mpls m7 0 rsize RTA_DST [net_mpls e.net])
        else or_bug (nl_add_attr_ipa m7 0 rsize RTA_DST (net_pfx e.net))) = .ok m8 →
      28 ≤ nlmsg_len m8 0 ∧ nlmsg_len m8 0 ≤ rsize := by
    intro m7 hl m8 hok
    split at hok
    · exact nl_add_attr_fst_len m7 0 rsize RTA_DST _ m8 (by omega) (by omega)
        (by simp [mpls_put, bytes_be32]) (or_bug_ok _ _ hok)
    · exact nl_add_attr_ipa_len m7 0 rsize RTA_DST _ m8 (by omega) (by omega)
        (or_bug_ok _ _ hok)
  have hstart : ∀ (m0 : Mem) (t f a1 a2 a3 a4 : Nat),
      nlmsg_len (st8 (st8 (st8 (st8 (st16 (st32 (st16 m0 4 t) 0 (NLMSG_LENGTH sizeof_rtmsg)) 6 f)
        16 a1) 17 a2) 21 a3) 22 a4) 0 = 28 := by
    intro m0 t f a1 a2 a3 a4
    rw [nlmsg_len_st8 _ _ _ _ (by omega), nlmsg_len_st8 _ _ _ _ (by omega),
      nlmsg_len_st8 _ _ _ _ (by omega), nlmsg_len_st8 _ _ _ _ (by omega),
      nlmsg_len_st16 _ _ _ _ (by omega)]
    show ld32 (st32 _ 0 _) 0 = 28
    rw [ld32_st32]
    decide
  split at h
  · cases h
  · next m8 hdst =>
    have i8 := h7 _ (hstart _ _ _ _ _ _ _) m8 hdst
    split at h
    · cases h
    · next m9 htable =>
      have i9 : 28 ≤ nlmsg_len m9 0 ∧ nlmsg_len m9 0 ≤ rsize := by
        split at htable
        · injection htable with htable
          subst htable
          rw [nlmsg_len_st8 _ _ _ _ (by omega)]
          exact i8
        · exact nl_add_attr_fst_len m8 0 rsize RTA_TABLE _ m9 i8.1 (by omega)
            (by simp [bytes_u32]) (or_bug_ok _ _ htable)
      unfold nl_send_route_attrs at h
      simp only at h
      split at h
      · cases h
      · next m1 hprio =>
        have i1 : 28 ≤ nlmsg_len m1 0 ∧ nlmsg_len m1 0 ≤ rsize := by
          split at hprio
          · exact nl_add_attr_fst_len m9 0 rsize RTA_PRIORITY _ m1 i9.1 (by omega)
              (by simp [bytes_u32]) (or_bug_ok _ _ hprio)
          · injection hprio with hprio
            subst hprio
            exact i9
        split at h
        · cases h
        · next m2 hsrc =>
          have i2 : 28 ≤ nlmsg_len m2 0 ∧ nlmsg_len m2 0 ≤ rsize := by
            split at hsrc
            · exact nl_add_attr_ipa_len m1 0 rsize RTA_PREFSRC _ m2 i1.1 (by omega)
                (or_bug_ok _ _ hsrc)
            · injection hsrc with hsrc
              subst hsrc
              exact i1
          split at h
          · cases h
          · next m3 hrealm =>
            have i3 : 28 ≤ nlmsg_len m3 0 ∧ nlmsg_len m3 0 ≤ rsize := by
              split at hrealm
              · exact nl_add_attr_fst_len m2 0 rsize RTA_FLOW _ m3 i2.1 (by omega)
                  (by simp [bytes_u32]) (or_bug_ok _ _ hrealm)
              · injection hrealm with hrealm
                subst hrealm
                exact i2
            split at h
            · cases h
            · next m4 hmet =>
              have i4 : 28 ≤ nlmsg_len m4 0 ∧ nlmsg_len m4 0 ≤ rsize := by
                split at hmet
                · exact nl_add_metrics_len m3 0 rsize _ _ m4 hrs i3.1 i3.2 (or_bug_ok _ _ hmet)
                · injection hmet with hmet
                  subst hmet
                  exact i3
              exact ⟨m4, rsize, i4.1, i4.2, hrs, h⟩

/-- Every unicast route with a single next-hop and a non-zero gateway makes `nl_send_route`
with `new = 1` stop before `nl_exchange`: the gateway is added with `sizeof(r)` as buffer
size, which a route request always exceeds. -/
theorem nl_send_route_gateway_never_sent (stack : Mem) (p : krt_proto) (e : rte)
    (eattrs : List eattr) (metrics0 : Nat → Nat) (pkt : Mem)
    (hd : e.attrs.dest = .UNICAST) (hone : e.attrs.nh_next = [])
    (hgw : ipa_nonzero e.attrs.nh.gw = true) :
    nl_send_route stack p e eattrs true metrics0 ≠ .exchange pkt := by
  intro h
  unfold nl_send_route at h
  split at h
  · cases h
  · next pkt' hb =>
    obtain ⟨m, rsize, hlo, hhi, hrs, hdest⟩ :=
      nl_send_route_build_dest_len stack p e eattrs metrics0 pkt'
        (by rw [hone]; simp [nh_bufsize, sizeof_nlmsghdr, sizeof_rtmsg, KRT_METRICS_MAX,
          RTNH_LENGTH, RTNH_ALIGN, RTA_LENGTH, RTA_ALIGN, sizeof_rtnexthop, sizeof_rtattr]) hb
    unfold nl_send_route_dest at hdest
    rw [hd] at hdest
    simp only [hone, ne_eq, not_true_eq_false, if_false, hgw, if_true] at hdest
    split at hdest
    · next herr =>
      split at herr
      · cases hdest
      · split at herr
        · cases hdest
        · next ifa m2 hoif =>
          have i2 := nl_add_attr_fst_len (st8 m 23 RTN_UNICAST) 0 rsize RTA_OIF _ m2
            (by rw [nlmsg_len_st8 _ _ _ _ (by omega)]; exact hlo)
            (by rw [nlmsg_len_st8 _ _ _ _ (by omega)]; omega) (by simp [bytes_u32]) hoif
          cases hdest
    · next m4 hok =>
      split at hok
      · cases hok
      · split at hok
        · cases hok
        · next ifa m2 hoif =>
          have i2 := nl_add_attr_fst_len (st8 m 23 RTN_UNICAST) 0 rsize RTA_OIF _ m2
            (by rw [nlmsg_len_st8 _ _ _ _ (by omega)]; exact hlo)
            (by rw [nlmsg_len_st8 _ _ _ _ (by omega)]; omega) (by simp [bytes_u32]) hoif
          have hno := nl_add_gateway_sizeof_ptr m2 e.attrs.nh.gw i2.1 (by omega)
          rw [hno.1, hno.2] at hok
          simp only [ite_self] at hok
          cases hok

/-- The list of loop heads does not depend on the bound either, once the bound is at least
the remaining length. -/
theorem nl_parse_attrs_walk_fuel (m : Mem) (want : Nat → nl_want_attrs) (max : Nat) :
    ∀ (f1 f2 a : Nat) (len : Int), len ≤ (f1 : Nat) → len ≤ (f2 : Nat) →
      nl_parse_attrs_walk m want max f1 a len = nl_parse_attrs_walk m want max f2 a len := by
  intro f1
  induction f1 with
  | zero =>
    intro f2 a len h1 _
    have hno : RTA_OK m a len = false := by
      cases hok : RTA_OK m a len with
      | false => rfl
      | true => rw [RTA_OK_iff] at hok; simp only [Nat.cast_zero] at h1; omega
    cases f2 with
    | zero => rfl
    | succ g => simp [nl_parse_attrs_walk, hno]
  | succ f ih =>
    intro f2 a len h1 h2
    have hal := RTA_ALIGN_ge (rta_len m a)
    cases f2 with
    | zero =>
      have hno : RTA_OK m a len = false := by
        cases hok : RTA_OK m a len with
        | false => rfl
        | true => rw [RTA_OK_iff] at hok; simp only [Nat.cast_zero] at h2; omega
      simp [nl_parse_attrs_walk, hno]
    | succ g =>
      rw [nl_parse_attrs_walk, nl_parse_attrs_walk]
      by_cases hok : RTA_OK m a len = true
      · have hok' := (RTA_OK_iff m a len).1 hok
        rw [if_pos hok, if_pos hok]
        rw [ih g _ _ (by push_cast at h1 ⊢; omega) (by push_cast at h2 ⊢; omega)]
      · rw [if_neg hok, if_neg hok]

/-- The view of an attribute laid out in memory is its code and payload. -/
theorem attr_view_eq (m : Mem) (a c : Nat) (d : List Nat)
    (hrl : rta_len m a = RTA_LENGTH d.length) (hrt : rta_type m a = c)
    (hdata : ∀ i, i < d.length → m (RTA_DATA a + i) = d.getD i 0) :
    attr_view m a = (c, d) := by
  unfold attr_view
  rw [hrl, hrt, RTA_LENGTH_eq, RTA_LENGTH_eq]
  congr 1
  apply List.ext_getElem
  · simp
  · intro n h1 h2
    simp only [List.getElem_map, List.getElem_range]
    rw [hdata n h2]
    simp [List.getD_eq_getElem?_getD, List.getElem?_eq_getElem h2]



/-- The loop of `nl_parse_attrs` on a stream and on the stream without its unrecognised
attributes: same return value, slots that point at equal attributes, and no slot for an
unrecognised code. -/
theorem nl_parse_attrs_loop_filter (want : Nat → nl_want_attrs) (max : Nat) (m m' : Mem) :
    ∀ (attrs : List (Nat × List Nat)) (fuel fuel' a a' : Nat) (k k' : AttrVec),
      attrs_at m a attrs → attrs_at m' a' (attrs.filter (attr_known want max)) →
      attrs_space attrs ≤ fuel → attrs_space (attrs.filter (attr_known want max)) ≤ fuel' →
      (∀ c, (k c).map (attr_view m) = (k' c).map (attr_view m')) →
      (∀ c, max ≤ c ∨ (want c).defined = false → k c = none) →
      (nl_parse_attrs_loop m want max fuel a (attrs_space attrs : Nat) k).ret
        = (nl_parse_attrs_loop m' want max fuel' a'
            (attrs_space (attrs.filter (attr_known want max)) : Nat) k').ret
      ∧ (∀ c, ((nl_parse_attrs_loop m want max fuel a (attrs_space attrs : Nat) k).k c).map
            (attr_view m)
          = ((nl_parse_attrs_loop m' want max fuel' a'
              (attrs_space (attrs.filter (attr_known want max)) : Nat) k').k c).map
            (attr_view m'))
      ∧ (∀ c, max ≤ c ∨ (want c).defined = false →
          (nl_parse_attrs_loop m want max fuel a (attrs_space attrs : Nat) k).k c = none) := by
  intro attrs
  induction attrs with
  | nil =>
    intro fuel fuel' a a' k k' _ _ _ _ hk hun
    have hno : ∀ (mm : Mem) (x : Nat), RTA_OK mm x 0 = false := by
      intro mm x; simp [RTA_OK, sizeof_rtattr]
    have hloop : ∀ (mm : Mem) (f x : Nat) (kk : AttrVec),
        nl_parse_attrs_loop mm want max f x 0 kk = ⟨1, kk, 0⟩ := by
      intro mm f x kk
      cases f with
      | zero => simp [nl_parse_attrs_loop, nl_parse_attrs_end]
      | succ g => simp [nl_parse_attrs_loop, nl_parse_attrs_end, hno]
    simp only [List.filter_nil, attrs_space, Nat.cast_zero, hloop]
    exact ⟨trivial, hk, hun⟩
  | cons cd rest ih =>
    obtain ⟨c, d⟩ := cd
    intro fuel fuel' a a' k k' hat hat' hfuel hfuel' hk hun
    obtain ⟨hrl, hrt, hdata, hrest⟩ := hat
    have hal := RTA_ALIGN_ge (RTA_LENGTH d.length)
    have hle := RTA_LENGTH_eq d.length
    simp only [attrs_space] at hfuel
    cases fuel with
    | zero => omega
    | succ f =>
      have hok : RTA_OK m a ((attrs_space ((c, d) :: rest) : Nat) : Int) = true := by
        rw [RTA_OK_iff, hrl]
        simp only [attrs_space]
        refine ⟨?_, by omega, ?_⟩ <;> push_cast <;> omega
      have hnext : (((attrs_space ((c, d) :: rest) : Nat) : Int)
          - ((RTA_ALIGN (RTA_LENGTH d.length) : Nat) : Int)) = ((attrs_space rest : Nat) : Int) := by
        simp only [attrs_space]; push_cast; omega
      rw [nl_parse_attrs_loop, if_pos hok, hrl, hrt, hnext]
      by_cases hkn : attr_known want max (c, d) = true
      · -- a recognised attribute: it is also the head of the filtered stream
        have hkn' := hkn
        simp only [attr_known, Bool.and_eq_true, decide_eq_true_eq] at hkn'
        obtain ⟨hmax, hdef⟩ := hkn'
        rw [List.filter_cons_of_pos hkn] at hat' hfuel' ⊢
        obtain ⟨hrl', hrt', hdata', hrest'⟩ := hat'
        simp only [attrs_space] at hfuel'
        cases fuel' with
        | zero => omega
        | succ f' =>
          have hok' : RTA_OK m' a'
              ((attrs_space ((c, d) :: rest.filter (attr_known want max)) : Nat) : Int) = true := by
            rw [RTA_OK_iff, hrl']
            simp only [attrs_space]
            refine ⟨?_, by omega, ?_⟩ <;> push_cast <;> omega
          have hnext' : (((attrs_space ((c, d) :: rest.filter (attr_known want max)) : Nat) : Int)
              - ((RTA_ALIGN (RTA_LENGTH d.length) : Nat) : Int))
              = ((attrs_space (rest.filter (attr_known want max)) : Nat) : Int) := by
            simp only [attrs_space]; push_cast; omega
          have hskip : (decide (max ≤ c) || !(want c).defined) = false := by
            rw [hdef]; simp; exact hmax
          have hpl : RTA_PAYLOAD m a = RTA_PAYLOAD m' a' := by
            simp only [RTA_PAYLOAD, hrl, hrl']
          rw [nl_parse_attrs_loop, if_pos hok', hrl', hrt', hnext']
          simp only [hskip, Bool.false_eq_true, if_false]
          rw [hpl]
          by_cases hbad : ((want c).checksize
              && decide (RTA_PAYLOAD m' a' ≠ (((want c).size : Nat) : Int))) = true
          · rw [if_pos hbad, if_pos hbad]
            exact ⟨rfl, hk, hun⟩
          · rw [if_neg hbad, if_neg hbad]
            refine ih f f' _ _ _ _ hrest hrest' (by omega) (by omega) ?_ ?_
            · intro x
              by_cases hx : x = c
              · simp [k_set, hx, attr_view_eq m a c d hrl hrt hdata,
                  attr_view_eq m' a' c d hrl' hrt' hdata']
              · simp only [k_set, if_neg hx]; exact hk x
            · intro x hx
              have hxc : x ≠ c := by
                rintro rfl
                rcases hx with h1 | h1
                · omega
                · rw [hdef] at h1; cases h1
              simp only [k_set, if_neg hxc]; exact hun x hx
      · -- an unrecognised attribute: the loop passes over it
        rw [List.filter_cons_of_neg hkn] at hat' hfuel' ⊢
        have hskip : (decide (max ≤ c) || !(want c).defined) = true := by
          simp only [attr_known, Bool.and_eq_true, decide_eq_true_eq, not_and,
            Bool.not_eq_true] at hkn
          by_cases hm : max ≤ c
          · simp [hm]
          · simp [hkn (by omega)]
        rw [if_pos hskip]
        exact ih f fuel' _ _ _ _ hrest hat' (by omega) hfuel' hk hun


/-- C11: unrecognised attributes are ignored. Let a padded attribute stream, the attributes
`attrs` laid out one after the other at `a` in `m`, be parsed with the table `want` into a
vector of `max` slots, and let the stream of those attributes of `attrs` whose code is below
`max` and defined in `want` be laid out at `a'` in `m'`. Both parses, each with the length of
its stream, return the same value (1 accept, 0 reject), every slot of the two vectors is
empty in both or points in both at an attribute with the same code and payload bytes, and
the slot of a code that is `>= max` or not defined in `want` is empty, whatever the payloads
of the deleted attributes are. -/
theorem unrecognized_attrs_ignored (want : Nat → nl_want_attrs) (max : Nat) (m m' : Mem)
    (a a' : Nat) (attrs : List (Nat × List Nat))
    (hS : attrs_at m a attrs) (hS' : attrs_at m' a' (attrs.filter (attr_known want max))) :
    (nl_parse_attrs m a want max (attrs_space attrs : Nat)).ret
      = (nl_parse_attrs m' a' want max
          (attrs_space (attrs.filter (attr_known want max)) : Nat)).ret
    ∧ (∀ c, ((nl_parse_attrs m a want max (attrs_space attrs : Nat)).k c).map (attr_view m)
        = ((nl_parse_attrs m' a' want max
            (attrs_space (attrs.filter (attr_known want max)) : Nat)).k c).map (attr_view m'))
    ∧ (∀ c, max ≤ c ∨ (want c).defined = false →
        (nl_parse_attrs m a want max (attrs_space attrs : Nat)).k c = none
        ∧ (nl_parse_attrs m' a' want max
            (attrs_space (attrs.filter (attr_known want max)) : Nat)).k c = none) := by
  have key := nl_parse_attrs_loop_filter want max m m' attrs (attrs_space attrs)
    (attrs_space (attrs.filter (attr_known want max))) a a' k_zero k_zero hS hS'
    (Nat.le_refl _) (Nat.le_refl _) (fun _ => rfl) (fun _ _ => rfl)
  simp only [nl_parse_attrs, Int.toNat_ofNat]
  refine ⟨key.1, key.2.1, fun c hc => ⟨key.2.2 c hc, ?_⟩⟩
  have h1 := key.2.1 c
  rw [key.2.2 c hc] at h1
  cases hk : (nl_parse_attrs_loop m' want max (attrs_space (attrs.filter (attr_known want max)))
      a' (attrs_space (attrs.filter (attr_known want max)) : Nat) k_zero).k c with
  | none => rfl
  | some x => rw [hk] at h1; cases h1

/-- Witness of `unrecognized_attrs_ignored`: an IPv4 route attribute stream with an attribute
of the unknown code 99 (3 bytes) and an `RTA_IIF`, which `rtm_attr_want4` does not define. -/
theorem unrecognized_attrs_ignored_witness :
    (nl_parse_attrs example_stream_unknown 0 rtm_attr_want4 BIRD_RTA_MAX
        (attrs_space example_attrs_unknown : Nat)).ret
      = (nl_parse_attrs example_stream_known 0 rtm_attr_want4 BIRD_RTA_MAX
          (attrs_space (example_attrs_unknown.filter (attr_known rtm_attr_want4 BIRD_RTA_MAX))
            : Nat)).ret
    ∧ (∀ c, ((nl_parse_attrs example_stream_unknown 0 rtm_attr_want4 BIRD_RTA_MAX
          (attrs_space example_attrs_unknown : Nat)).k c).map (attr_view example_stream_unknown)
        = ((nl_parse_attrs example_stream_known 0 rtm_attr_want4 BIRD_RTA_MAX
            (attrs_space (example_attrs_unknown.filter (attr_known rtm_attr_want4 BIRD_RTA_MAX))
              : Nat)).k c).map (attr_view example_stream_known))
    ∧ (∀ c, BIRD_RTA_MAX ≤ c ∨ (rtm_attr_want4 c).defined = false →
        (nl_parse_attrs example_stream_unknown 0 rtm_attr_want4 BIRD_RTA_MAX
          (attrs_space example_attrs_unknown : Nat)).k c = none
        ∧ (nl_parse_attrs example_stream_known 0 rtm_attr_want4 BIRD_RTA_MAX
            (attrs_space (example_attrs_unknown.filter (attr_known rtm_attr_want4 BIRD_RTA_MAX))
              : Nat)).k c = none) :=
  unrecognized_attrs_ignored rtm_attr_want4 BIRD_RTA_MAX example_stream_unknown
    example_stream_known 0 0 example_attrs_unknown
    (by simp only [example_attrs_unknown, attrs_at]; decide)
    (by
      show attrs_at example_stream_known 0 [(RTA_DST, [10, 0, 0, 0]), (RTA_OIF, [2, 0, 0, 0])]
      simp only [attrs_at]; decide)

/-- The loop of `nl_parse_attrs` only reads the bytes of the stream: in two memories that
agree on the `len` bytes from `a` on it does the same. -/
theorem nl_parse_attrs_loop_congr (want : Nat → nl_want_attrs) (max : Nat) (m1 m2 : Mem) :
    ∀ (fuel a : Nat) (len : Int) (k : AttrVec),
      (∀ i, a ≤ i → (i : Int) < (a : Int) + len → m1 i = m2 i) →
      nl_parse_attrs_loop m1 want max fuel a len k
        = nl_parse_attrs_loop m2 want max fuel a len k := by
  intro fuel
  induction fuel with
  | zero => intro a len k _; rfl
  | succ f ih =>
    intro a len k hag
    rw [nl_parse_attrs_loop, nl_parse_attrs_loop]
    by_cases h4 : (4 : Int) ≤ len
    · have hl : rta_len m1 a = rta_len m2 a :=
        (ld16_congr m1 m2 a (hag _ (by omega) (by omega)).symm
          (hag _ (by omega) (by omega)).symm).symm
      have ht : rta_type m1 a = rta_type m2 a :=
        (ld16_congr m1 m2 (a + 2) (hag _ (by omega) (by push_cast; omega)).symm
          (hag _ (by omega) (by push_cast; omega)).symm).symm
      have hok : RTA_OK m1 a len = RTA_OK m2 a len := by simp only [RTA_OK, hl]
      have hp : RTA_PAYLOAD m1 a = RTA_PAYLOAD m2 a := by simp only [RTA_PAYLOAD, hl]
      rw [hok, hl, ht, hp]
      by_cases hok2 : RTA_OK m2 a len = true
      · have hal := RTA_ALIGN_ge (rta_len m2 a)
        have hnext : ∀ kk, nl_parse_attrs_loop m1 want max f (a + RTA_ALIGN (rta_len m2 a))
            (len - (RTA_ALIGN (rta_len m2 a) : Nat)) kk
            = nl_parse_attrs_loop m2 want max f (a + RTA_ALIGN (rta_len m2 a))
              (len - (RTA_ALIGN (rta_len m2 a) : Nat)) kk := by
          intro kk
          apply ih
          intro i hi1 hi2
          exact hag i (by omega) (by push_cast at hi2; omega)
        rw [if_pos hok2, if_pos hok2, hnext, hnext]
      · rw [if_neg hok2, if_neg hok2]
    · have hno : ∀ mm : Mem, RTA_OK mm a len = false := by
        intro mm
        cases hok : RTA_OK mm a len with
        | false => rfl
        | true => rw [RTA_OK_iff] at hok; omega
      rw [hno m1, hno m2]
      simp only [Bool.false_eq_true, if_false]

/-- A second run of `nl_parse_attrs` right after an accepting one, without a new check-in,
starts with the length 0 that the first run left in `nl_attr_len`, and finds nothing. -/
theorem nl_parse_attrs_again (m : Mem) (a : Nat) (want : Nat → nl_want_attrs) (max : Nat)
    (len : Int) (hacc : (nl_parse_attrs m a want max len).ret = 1) :
    (nl_parse_attrs m a want max (nl_parse_attrs m a want max len).nl_attr_len).ret = 1
    ∧ ∀ c, (nl_parse_attrs m a want max (nl_parse_attrs m a want max len).nl_attr_len).k c
        = none := by
  have h0 : (nl_parse_attrs m a want max len).nl_attr_len = 0 :=
    (nl_parse_attrs_loop_accept m want max _ _ _ _ hacc).1
  rw [h0]
  simp [nl_parse_attrs, nl_parse_attrs_loop, nl_parse_attrs_end, k_zero]

/-- C12: parse determinism. The outcome of a parse is a function of the table, the length
field of the message header and the bytes of the attribute stream: for two runs on memories
that agree on `h->nlmsg_len` and on the bytes of the stream, each run with the module variable
`nl_attr_len` as `nl_checkin` set it, `nl_checkin` gives the same result and `nl_parse_attrs`
gives equal return values (accept or reject), equal vectors and the same final
`nl_attr_len`. -/
theorem nl_parse_attrs_deterministic (want : Nat → nl_want_attrs) (max : Nat) (m1 m2 : Mem)
    (h lsize : Nat) (hhdr : nlmsg_len m2 h = nlmsg_len m1 h)
    (hS : ∀ i, NLMSG_DATA h + NLMSG_ALIGN lsize ≤ i →
      (i : Int) < ((NLMSG_DATA h + NLMSG_ALIGN lsize : Nat) : Int) + (nl_checkin m1 h lsize).1 →
      m1 i = m2 i) :
    nl_checkin m2 h lsize = nl_checkin m1 h lsize
    ∧ (nl_parse_attrs m2 (NLMSG_DATA h + NLMSG_ALIGN lsize) want max (nl_checkin m2 h lsize).1).ret
      = (nl_parse_attrs m1 (NLMSG_DATA h + NLMSG_ALIGN lsize) want max
          (nl_checkin m1 h lsize).1).ret
    ∧ (nl_parse_attrs m2 (NLMSG_DATA h + NLMSG_ALIGN lsize) want max (nl_checkin m2 h lsize).1).k
      = (nl_parse_attrs m1 (NLMSG_DATA h + NLMSG_ALIGN lsize) want max
          (nl_checkin m1 h lsize).1).k
    ∧ (nl_parse_attrs m2 (NLMSG_DATA h + NLMSG_ALIGN lsize) want max
          (nl_checkin m2 h lsize).1).nl_attr_len
      = (nl_parse_attrs m1 (NLMSG_DATA h + NLMSG_ALIGN lsize) want max
          (nl_checkin m1 h lsize).1).nl_attr_len := by
  have hck : nl_checkin m2 h lsize = nl_checkin m1 h lsize := by
    simp only [nl_checkin, hhdr]
  have hp : nl_parse_attrs m2 (NLMSG_DATA h + NLMSG_ALIGN lsize) want max (nl_checkin m2 h lsize).1
      = nl_parse_attrs m1 (NLMSG_DATA h + NLMSG_ALIGN lsize) want max (nl_checkin m1 h lsize).1 := by
    rw [hck]
    exact (nl_parse_attrs_loop_congr want max m1 m2 _ _ _ _ hS).symm
  exact ⟨hck, by rw [hp], by rw [hp], by rw [hp]⟩

/-- Witness of `nl_parse_attrs_deterministic`: the route message `route_msg_dev` and a memory
that holds the same message and differs from it in a byte after the message. -/
theorem nl_parse_attrs_deterministic_witness :
    nl_checkin (st8 route_msg_dev 100 7) 0 sizeof_rtmsg = nl_checkin route_msg_dev 0 sizeof_rtmsg
    ∧ (nl_parse_attrs (st8 route_msg_dev 100 7) (NLMSG_DATA 0 + NLMSG_ALIGN sizeof_rtmsg)
          rtm_attr_want4 BIRD_RTA_MAX (nl_checkin (st8 route_msg_dev 100 7) 0 sizeof_rtmsg).1).ret
      = (nl_parse_attrs route_msg_dev (NLMSG_DATA 0 + NLMSG_ALIGN sizeof_rtmsg)
          rtm_attr_want4 BIRD_RTA_MAX (nl_checkin route_msg_dev 0 sizeof_rtmsg).1).ret
    ∧ (nl_parse_attrs (st8 route_msg_dev 100 7) (NLMSG_DATA 0 + NLMSG_ALIGN sizeof_rtmsg)
          rtm_attr_want4 BIRD_RTA_MAX (nl_checkin (st8 route_msg_dev 100 7) 0 sizeof_rtmsg).1).k
      = (nl_parse_attrs route_msg_dev (NLMSG_DATA 0 + NLMSG_ALIGN sizeof_rtmsg)
          rtm_attr_want4 BIRD_RTA_MAX (nl_checkin route_msg_dev 0 sizeof_rtmsg).1).k
    ∧ (nl_parse_attrs (st8 route_msg_dev 100 7) (NLMSG_DATA 0 + NLMSG_ALIGN sizeof_rtmsg)
          rtm_attr_want4 BIRD_RTA_MAX
          (nl_checkin (st8 route_msg_dev 100 7) 0 sizeof_rtmsg).1).nl_attr_len
      = (nl_parse_attrs route_msg_dev (NLMSG_DATA 0 + NLMSG_ALIGN sizeof_rtmsg)
          rtm_attr_want4 BIRD_RTA_MAX (nl_checkin route_msg_dev 0 sizeof_rtmsg).1).nl_attr_len :=
  nl_parse_attrs_deterministic rtm_attr_want4 BIRD_RTA_MAX route_msg_dev
    (st8 route_msg_dev 100 7) 0 sizeof_rtmsg (by decide)
    (by
      have hv : (nl_checkin route_msg_dev 0 sizeof_rtmsg).1 = 16 := by decide
      have ha : NLMSG_DATA 0 + NLMSG_ALIGN sizeof_rtmsg = 28 := by decide
      intro i _ h2
      rw [hv, ha] at h2
      exact (st8_other route_msg_dev 100 7 i (by omega)).symm)

/-- A code that is not below `max` or not defined in the table never gets a slot. -/
theorem nl_parse_attrs_loop_undefined (m : Mem) (want : Nat → nl_want_attrs) (max c : Nat)
    (hc : max ≤ c ∨ (want c).defined = false) :
    ∀ (fuel a : Nat) (len : Int) (k : AttrVec), k c = none →
      (nl_parse_attrs_loop m want max fuel a len k).k c = none := by
  intro fuel
  induction fuel with
  | zero =>
    intro a len k hk
    simp only [nl_parse_attrs_loop, nl_parse_attrs_end]
    split <;> exact hk
  | succ f ih =>
    intro a len k hk
    rw [nl_parse_attrs_loop]
    by_cases hok : RTA_OK m a len = true
    · rw [if_pos hok]
      by_cases hskip : (decide (max ≤ rta_type m a) || !(want (rta_type m a)).defined) = true
      · rw [if_pos hskip]; exact ih _ _ _ hk
      · rw [if_neg hskip]
        split
        · exact hk
        · apply ih
          have hne : c ≠ rta_type m a := by
            intro he
            apply hskip
            rw [← he]
            rcases hc with h1 | h1
            · simp [h1]
            · simp [h1]
          simp only [k_set, if_neg hne]; exact hk
    · rw [if_neg hok]
      simp only [nl_parse_attrs_end]
      split <;> exact hk

/-- The table `rtm_attr_want4` does not define `RTA_IIF`: for an IPv4 message the slot
`a[RTA_IIF]` is always empty. -/
theorem rtm_attr_want4_no_iif (m : Mem) (a : Nat) (len : Int) :
    (nl_parse_attrs m a rtm_attr_want4 BIRD_RTA_MAX len).k RTA_IIF = none :=
  nl_parse_attrs_loop_undefined m rtm_attr_want4 BIRD_RTA_MAX RTA_IIF (Or.inr (by decide))
    _ _ _ _ rfl

/-- The skip conditions of `nl_parse_route`: an unknown table, a non-empty slot `a[RTA_IIF]`
or a non-zero `rtm_tos` end the function before a network is looked up. -/
theorem nl_parse_route_checks_skip (d : Daemon) (m : Mem) (i : Nat) (scan new : Bool)
    (a : AttrVec) (dst : net_addr)
    (h : HASH_FIND d.nl_table_map (rtm_family m i) (attr_table_id m i a) = none
        ∨ (a RTA_IIF).isSome = true ∨ rtm_tos m i ≠ 0) :
    nl_parse_route_checks d m i scan new a dst = .ignored none := by
  unfold nl_parse_route_checks attr_table_id at *
  cases hT : a RTA_TABLE with
  | none =>
    simp only [hT] at h ⊢
    cases hp : HASH_FIND d.nl_table_map (rtm_family m i) (rtm_table m i) with
    | none => rfl
    | some p =>
      simp only []
      rcases h with h1 | h1 | h1
      · rw [h1] at hp; cases hp
      · rw [if_pos h1]
      · by_cases hi : (a RTA_IIF).isSome = true
        · rw [if_pos hi]
        · rw [if_neg hi, if_pos h1]
  | some x =>
    simp only [hT] at h ⊢
    cases hp : HASH_FIND d.nl_table_map (rtm_family m i) (rta_get_u32 m x) with
    | none => rfl
    | some p =>
      simp only []
      rcases h with h1 | h1 | h1
      · rw [h1] at hp; cases hp
      · rw [if_pos h1]
      · by_cases hi : (a RTA_IIF).isSome = true
        · rw [if_pos hi]
        · rw [if_neg hi, if_pos h1]

/-- What `nl_checkin` returns: `NULL`, or the payload of the message. -/
theorem nl_checkin_cases (m : Mem) (h lsize : Nat) :
    nl_checkin m h lsize = ((nl_checkin m h lsize).1, none)
    ∨ nl_checkin m h lsize = ((nl_checkin m h lsize).1, some (NLMSG_DATA h)) := by
  unfold nl_checkin
  simp only []
  split
  · exact Or.inl rfl
  · exact Or.inr rfl

/-- The policy skips of `nl_parse_route` in terms of the vector `a` it works with: a non-zero
`rtm_tos`, a non-empty slot `a[RTA_IIF]`, or no protocol registered for the family and the
resolved table id make it return without a delivery (and before a network is looked up). For
an IPv4 message the slot `a[RTA_IIF]` is never filled (`rtm_attr_want4_no_iif`). -/
theorem nl_parse_route_skips_vec (d : Daemon) (m : Mem) (h : Nat) (scan : Bool)
    (hskip : rtm_tos m (NLMSG_DATA h) ≠ 0
      ∨ (route_attr_vec m h RTA_IIF).isSome = true
      ∨ HASH_FIND d.nl_table_map (rtm_family m (NLMSG_DATA h))
          (attr_table_id m (NLMSG_DATA h) (route_attr_vec m h)) = none) :
    nl_parse_route d m h scan = .ignored none := by
  have hskip' : HASH_FIND d.nl_table_map (rtm_family m (NLMSG_DATA h))
        (attr_table_id m (NLMSG_DATA h) (route_attr_vec m h)) = none
      ∨ (route_attr_vec m h RTA_IIF).isSome = true ∨ rtm_tos m (NLMSG_DATA h) ≠ 0 := by
    rcases hskip with h1 | h1 | h1
    · exact Or.inr (Or.inr h1)
    · exact Or.inr (Or.inl h1)
    · exact Or.inl h1
  unfold nl_parse_route
  rcases nl_checkin_cases m h sizeof_rtmsg with hck | hck
  · rw [hck]
  · rw [hck]
    simp only []
    unfold route_attr_vec rtm_attr_want at hskip'
    by_cases h4 : rtm_family m (NLMSG_DATA h) = AF_INET
    · rw [if_pos h4] at hskip' ⊢
      split
      · rfl
      · split <;> exact nl_parse_route_checks_skip d m _ scan _ _ _ hskip'
    · rw [if_neg h4] at hskip' ⊢
      by_cases h6 : rtm_family m (NLMSG_DATA h) = AF_INET6
      · rw [if_pos h6] at hskip' ⊢
        split
        · rfl
        · split <;> exact nl_parse_route_checks_skip d m _ scan _ _ _ hskip'
      · rw [if_neg h6] at hskip' ⊢
        split
        · split
          · rfl
          · split
            · split <;> exact nl_parse_route_checks_skip d m _ scan _ _ _ hskip'
            · rfl
        · rfl

/-- C13 as stated fails for IPv4: the message `route_msg_iif4` is an IPv4 route message whose
attribute stream holds `RTA_DST`, `RTA_IIF` and `RTA_OIF`; `rtm_attr_want4` has no entry for
`RTA_IIF` (the tables of the two other families have one), so the attribute is passed over like
an unrecognised one, the slot stays empty, the test `if (a[RTA_IIF])` does not fire, and the
route is passed to `krt_got_route` in a scan and to `krt_got_route_async` otherwise. -/
theorem nl_parse_route_iif4_delivered :
    rtm_family route_msg_iif4 (NLMSG_DATA 0) = AF_INET
    ∧ attrs_at route_msg_iif4 (RTM_RTA (NLMSG_DATA 0))
        [(RTA_DST, [10, 0, 0, 0]), (RTA_IIF, [5, 0, 0, 0]), (RTA_OIF, [2, 0, 0, 0])]
    ∧ (rtm_attr_want4 RTA_IIF).defined = false
    ∧ (rtm_attr_want6 RTA_IIF).defined = true
    ∧ (rtm_attr_want_mpls RTA_IIF).defined = true
    ∧ nl_parse_route example_daemon route_msg_iif4 0 true
        = .got_route example_proto4
            { net := .ip4 (10 * 2 ^ 24) 24,
              attrs := { dest := .UNICAST, nh := { iface := some example_eth0 } },
              krt_src := .ALIEN,
              krt_proto := RTPROT_BOOT }
    ∧ nl_parse_route example_daemon route_msg_iif4 0 false
        = .got_route_async example_proto4
            { net := .ip4 (10 * 2 ^ 24) 24,
              attrs := { dest := .UNICAST, nh := { iface := some example_eth0 } },
              krt_src := .ALIEN,
              krt_proto := RTPROT_BOOT } true := by
  refine ⟨by decide, ?_, by decide, by decide, by decide, by decide, by decide⟩
  simp only [attrs_at]
  decide


/-- A slot that is filled stays filled. -/
theorem nl_parse_attrs_loop_isSome (m : Mem) (want : Nat → nl_want_attrs) (max c : Nat) :
    ∀ (fuel a : Nat) (len : Int) (k : AttrVec), (k c).isSome = true →
      ((nl_parse_attrs_loop m want max fuel a len k).k c).isSome = true := by
  intro fuel
  induction fuel with
  | zero =>
    intro a len k hk
    simp only [nl_parse_attrs_loop, nl_parse_attrs_end]
    split <;> exact hk
  | succ f ih =>
    intro a len k hk
    rw [nl_parse_attrs_loop]
    split
    · split
      · exact ih _ _ _ hk
      · split
        · exact hk
        · apply ih
          simp only [k_set]
          split
          · rfl
          · exact hk
    · simp only [nl_parse_attrs_end]
      split <;> exact hk

/-- Parsing a padded stream either rejects it or fills the slot of every attribute of the
stream whose code is below `max` and defined in the table. -/
theorem nl_parse_attrs_loop_mem (m : Mem) (want : Nat → nl_want_attrs) (max c : Nat)
    (hmax : c < max) (hdef : (want c).defined = true) :
    ∀ (attrs : List (Nat × List Nat)) (fuel a : Nat) (k : AttrVec),
      attrs_at m a attrs → attrs_space attrs ≤ fuel → c ∈ attrs.map Prod.fst →
      (nl_parse_attrs_loop m want max fuel a (attrs_space attrs : Nat) k).ret = 0
      ∨ ((nl_parse_attrs_loop m want max fuel a (attrs_space attrs : Nat) k).k c).isSome
          = true := by
  intro attrs
  induction attrs with
  | nil => intro _ _ _ _ _ hmem; cases hmem
  | cons cd rest ih =>
    obtain ⟨c0, d0⟩ := cd
    intro fuel a k hat hfuel hmem
    obtain ⟨hrl, hrt, _, hrest⟩ := hat
    have hal := RTA_ALIGN_ge (RTA_LENGTH d0.length)
    have hle := RTA_LENGTH_eq d0.length
    simp only [attrs_space] at hfuel
    cases fuel with
    | zero => omega
    | succ f =>
      have hok : RTA_OK m a ((attrs_space ((c0, d0) :: rest) : Nat) : Int) = true := by
        rw [RTA_OK_iff, hrl]
        simp only [attrs_space]
        refine ⟨?_, by omega, ?_⟩ <;> push_cast <;> omega
      have hnext : (((attrs_space ((c0, d0) :: rest) : Nat) : Int)
          - ((RTA_ALIGN (RTA_LENGTH d0.length) : Nat) : Int)) = ((attrs_space rest : Nat) : Int) := by
        simp only [attrs_space]; push_cast; omega
      rw [nl_parse_attrs_loop, if_pos hok, hrl, hrt, hnext]
      by_cases hc : c = c0
      · subst hc
        have hskip : (decide (max ≤ c) || !(want c).defined) = false := by
          rw [hdef]; simp; exact hmax
        simp only [hskip, Bool.false_eq_true, if_false]
        split
        · exact Or.inl rfl
        · exact Or.inr (nl_parse_attrs_loop_isSome m want max c _ _ _ _ (by simp [k_set]))
      · have hmem' : c ∈ rest.map Prod.fst := by
          simp only [List.map_cons, List.mem_cons] at hmem
          rcases hmem with h1 | h1
          · exact absurd h1 hc
          · exact h1
        split
        · exact ih f _ _ hrest (by omega) hmem'
        · split
          · exact Or.inl rfl
          · exact ih f _ _ hrest (by omega) hmem'


/-- A message whose attribute stream `nl_parse_attrs` rejects is dropped. -/
theorem nl_parse_route_rejected (d : Daemon) (m : Mem) (h : Nat) (scan : Bool)
    (hret : (nl_parse_attrs m (RTM_RTA (NLMSG_DATA h))
      (rtm_attr_want (rtm_family m (NLMSG_DATA h))) BIRD_RTA_MAX
      (nl_checkin m h sizeof_rtmsg).1).ret = 0) :
    nl_parse_route d m h scan = .ignored none := by
  unfold nl_parse_route
  rcases nl_checkin_cases m h sizeof_rtmsg with hck | hck
  · rw [hck]
  · rw [hck]
    simp only []
    unfold rtm_attr_want at hret
    by_cases h4 : rtm_family m (NLMSG_DATA h) = AF_INET
    · rw [if_pos h4] at hret ⊢
      rw [if_pos hret]
    · rw [if_neg h4] at hret ⊢
      by_cases h6 : rtm_family m (NLMSG_DATA h) = AF_INET6
      · rw [if_pos h6] at hret ⊢
        rw [if_pos hret]
      · rw [if_neg h6] at hret ⊢
        by_cases hm : rtm_family m (NLMSG_DATA h) = AF_MPLS
        · rw [if_pos hm, if_pos hret]
        · rw [if_neg hm]

/-- A message of a family other than IPv4, IPv6 and MPLS is dropped. -/
theorem nl_parse_route_other_family (d : Daemon) (m : Mem) (h : Nat) (scan : Bool)
    (h4 : rtm_family m (NLMSG_DATA h) ≠ AF_INET) (h6 : rtm_family m (NLMSG_DATA h) ≠ AF_INET6)
    (hm : rtm_family m (NLMSG_DATA h) ≠ AF_MPLS) :
    nl_parse_route d m h scan = .ignored none := by
  unfold nl_parse_route
  rcases nl_checkin_cases m h sizeof_rtmsg with hck | hck
  · rw [hck]
  · rw [hck]
    simp only []
    rw [if_neg h4, if_neg h6, if_neg hm]

/-- C13 (amended): policy skips. For every route message, if its `rtm_tos` is non-zero, or no
protocol is registered in the table map for `rtm_family` and the resolved table id
(`RTA_TABLE` when present, else `rtm_table`), or the message is not of family IPv4 and its
padded attribute stream holds an incoming-interface attribute `RTA_IIF`, then
`nl_parse_route` returns before it looks a network up and calls neither `krt_got_route` nor
`krt_got_route_async`. (For IPv4, `rtm_attr_want4` does not define `RTA_IIF`, and the
attribute is passed over like every unrecognised code.) -/
theorem nl_parse_route_policy_skips (d : Daemon) (m : Mem) (h : Nat) (scan : Bool)
    (hskip : rtm_tos m (NLMSG_DATA h) ≠ 0
      ∨ HASH_FIND d.nl_table_map (rtm_family m (NLMSG_DATA h))
          (attr_table_id m (NLMSG_DATA h) (route_attr_vec m h)) = none
      ∨ (rtm_family m (NLMSG_DATA h) ≠ AF_INET
          ∧ ∃ attrs, attrs_at m (RTM_RTA (NLMSG_DATA h)) attrs
            ∧ nlmsg_len m h = NLMSG_LENGTH sizeof_rtmsg + attrs_space attrs
            ∧ nlmsg_len m h < 2 ^ 31
            ∧ RTA_IIF ∈ attrs.map Prod.fst)) :
    nl_parse_route d m h scan = .ignored none := by
  rcases hskip with h1 | h1 | ⟨h4, attrs, hat, hlen, h31, hmem⟩
  · exact nl_parse_route_skips_vec d m h scan (Or.inl h1)
  · exact nl_parse_route_skips_vec d m h scan (Or.inr (Or.inr h1))
  · have hL : (nl_checkin m h sizeof_rtmsg).1 = ((attrs_space attrs : Nat) : Int) := by
      have hN := NLMSG_LENGTH_eq sizeof_rtmsg
      have hv : to_int32 ((nlmsg_len m h : Int) - (NLMSG_LENGTH sizeof_rtmsg : Nat))
          = (attrs_space attrs : Nat) := by
        rw [to_int32_of_range] <;> push_cast <;> omega
      simp only [nl_checkin, hv]
      split <;> rfl
    by_cases h6 : rtm_family m (NLMSG_DATA h) = AF_INET6
    · have hw : rtm_attr_want (rtm_family m (NLMSG_DATA h)) = rtm_attr_want6 := by
        rw [h6]; rfl
      rcases nl_parse_attrs_loop_mem m rtm_attr_want6 BIRD_RTA_MAX RTA_IIF (by decide)
        (by decide) attrs (attrs_space attrs) _ k_zero hat (Nat.le_refl _) hmem with hr | hs
      · apply nl_parse_route_rejected
        rw [hw, hL]
        simpa [nl_parse_attrs] using hr
      · apply nl_parse_route_skips_vec
        refine Or.inr (Or.inl ?_)
        unfold route_attr_vec
        rw [hw, hL]
        simpa [nl_parse_attrs] using hs
    · by_cases hm : rtm_family m (NLMSG_DATA h) = AF_MPLS
      · have hw : rtm_attr_want (rtm_family m (NLMSG_DATA h)) = rtm_attr_want_mpls := by
          rw [hm]; rfl
        rcases nl_parse_attrs_loop_mem m rtm_attr_want_mpls BIRD_RTA_MAX RTA_IIF (by decide)
          (by decide) attrs (attrs_space attrs) _ k_zero hat (Nat.le_refl _) hmem with hr | hs
        · apply nl_parse_route_rejected
          rw [hw, hL]
          simpa [nl_parse_attrs] using hr
        · apply nl_parse_route_skips_vec
          refine Or.inr (Or.inl ?_)
          unfold route_attr_vec
          rw [hw, hL]
          simpa [nl_parse_attrs] using hs
      · exact nl_parse_route_other_family d m h scan h4 h6 hm

/-- Witness of `nl_parse_route_policy_skips`: the IPv6 message `route_msg_iif6`, whose stream
holds `RTA_DST`, `RTA_IIF` and `RTA_OIF`. -/
theorem nl_parse_route_policy_skips_witness :
    nl_parse_route example_daemon route_msg_iif6 0 true = .ignored none :=
  nl_parse_route_policy_skips example_daemon route_msg_iif6 0 true
    (Or.inr (Or.inr ⟨by decide,
      [(RTA_DST, [0x20, 0x01, 0x0d, 0xb8, 0, 0, 0, 0, 0, 0, 0, 0, 0, 0, 0, 0]),
        (RTA_IIF, [5, 0, 0, 0]), (RTA_OIF, [2, 0, 0, 0])],
      by simp only [attrs_at]; decide, by decide, by decide, by decide⟩))

/-- The destination of an MPLS message in `nl_parse_route`: when `rta_get_mpls` returns 1 for
`RTA_DST` the destination is the MPLS label it stored; when it returns another value the
function goes on (after a warning) with the local variable `dst` as it was, not written. -/
theorem nl_parse_route_mpls_dst (d : Daemon) (m : Mem) (h : Nat) (scan : Bool) (x : Nat)
    (hck : (nl_checkin m h sizeof_rtmsg).2 = some (NLMSG_DATA h))
    (hfam : rtm_family m (NLMSG_DATA h) = AF_MPLS)
    (hret : (nl_parse_attrs m (RTM_RTA (NLMSG_DATA h)) rtm_attr_want_mpls BIRD_RTA_MAX
      (nl_checkin m h sizeof_rtmsg).1).ret ≠ 0)
    (hdst : (nl_parse_attrs m (RTM_RTA (NLMSG_DATA h)) rtm_attr_want_mpls BIRD_RTA_MAX
      (nl_checkin m h sizeof_rtmsg).1).k RTA_DST = some x) :
    nl_parse_route d m h scan
      = nl_parse_route_checks d m (NLMSG_DATA h) scan (nlmsg_type m h == RTM_NEWROUTE)
          (nl_parse_attrs m (RTM_RTA (NLMSG_DATA h)) rtm_attr_want_mpls BIRD_RTA_MAX
            (nl_checkin m h sizeof_rtmsg).1).k
          (if (rta_get_mpls m x).1 = 1 then .mpls ((rta_get_mpls m x).2.getD 0 0)
            else d.dst_uninit) := by
  have hpair : nl_checkin m h sizeof_rtmsg
      = ((nl_checkin m h sizeof_rtmsg).1, some (NLMSG_DATA h)) := by
    rw [← hck]
  unfold nl_parse_route
  rw [hpair]
  simp only []
  have h4 : rtm_family m (NLMSG_DATA h) ≠ AF_INET := by rw [hfam]; decide
  have h6 : rtm_family m (NLMSG_DATA h) ≠ AF_INET6 := by rw [hfam]; decide
  rw [if_neg h4, if_neg h6, if_pos hfam, if_neg hret, hdst]
  simp only []
  split <;> rfl

/-- C16 fails on the code: in the MPLS message `route_msg_mpls_nobos` the attribute `RTA_DST`
holds one label entry without the bottom-of-stack bit, so `rta_get_mpls` returns -1, not 1.
`nl_parse_route` logs the warning and, lacking a `return`, goes on with the local variable
`dst` it never wrote: it looks a network up and calls `krt_got_route` for whatever the stack
held there, here the destination `10.0.0.0/24` of `example_daemon_mpls`. With the
bottom-of-stack bit set the destination is `MPLS(100)`. -/
theorem nl_parse_route_mpls_nobos_delivered :
    rtm_family route_msg_mpls_nobos (NLMSG_DATA 0) = AF_MPLS
    ∧ route_attr_vec route_msg_mpls_nobos 0 RTA_DST = some 28
    ∧ (rta_get_mpls route_msg_mpls_nobos 28).1 = -1
    ∧ nl_parse_route example_daemon_mpls route_msg_mpls_nobos 0 true
        = .got_route { af := AF_MPLS, table_id := 254, name := 3 }
            { net := example_daemon_mpls.dst_uninit,
              attrs := { dest := .UNICAST, nh := { iface := some example_eth0 } },
              krt_src := .ALIEN,
              krt_proto := RTPROT_BOOT }
    ∧ (rta_get_mpls route_msg_mpls_one 28).1 = 1
    ∧ nl_parse_route example_daemon_mpls route_msg_mpls_one 0 true
        = .got_route { af := AF_MPLS, table_id := 254, name := 3 }
            { net := .mpls 100,
              attrs := { dest := .UNICAST, nh := { iface := some example_eth0 } },
              krt_src := .ALIEN,
              krt_proto := RTPROT_BOOT } := by
  decide

/-- One entry that cannot be resolved makes the loop of `nl_parse_multipath` return `NULL`. -/
theorem nl_parse_multipath_loop_fails (d : Daemon) (m : Mem) (p : krt_proto) (x : Nat)
    (hx : rtnh_unresolved d m p x = true) :
    ∀ (fuel nh : Nat) (len : Int) (used : Nat) (acc : List nexthop) (fuelw : Nat),
      x ∈ rtnh_walk m fuelw nh len →
      nl_parse_multipath_loop d m p fuel nh len used acc = none := by
  intro fuel
  induction fuel with
  | zero => intro nh len used acc fuelw _; rfl
  | succ f ih =>
    intro nh len used acc fuelw hmem
    cases fuelw with
    | zero => cases hmem
    | succ fw =>
      rw [rtnh_walk] at hmem
      rw [nl_parse_multipath_loop]
      by_cases h0 : len = 0
      · rw [if_pos h0] at hmem; cases hmem
      · rw [if_neg h0] at hmem ⊢
        by_cases hfr : (0 ≤ len ∧ len < (sizeof_rtnexthop : Nat)) ∨ len < (ld16 m nh : Nat)
        · rw [if_pos hfr]
        · rw [if_neg hfr]
          rw [if_neg (by simpa [rtnh_len] using hfr)] at hmem
          rcases List.mem_cons.1 hmem with heq | htail
          · subst heq
            unfold rtnh_unresolved rtnh_gateway neigh_unusable rtnh_ifindex rtnh_flags rtnh_len
              at hx
            cases hif : d.if_find_by_index (ld32 m (x + 4)) with
            | none => rfl
            | some ifa =>
              rw [hif] at hx
              simp only [] at hx ⊢
              cases hg : (nl_parse_attrs m (RTNH_DATA x) nexthop_attr_want4 BIRD_RTA_MAX
                  ((ld16 m x : Nat) - (RTNH_LENGTH 0 : Nat))).k RTA_GATEWAY with
              | none => rfl
              | some g =>
                rw [hg] at hx
                simp only [] at hx ⊢
                cases hn : d.neigh_find2 p (rta_get_ipa m g) ifa
                    (ld8 m (x + 2) &&& RTNH_F_ONLINK != 0) with
                | none => rfl
                | some nbr =>
                  rw [hn] at hx
                  simp only [decide_eq_true_eq] at hx
                  simp only []
                  rw [if_pos hx]
          · have hrec := fun u a => ih (nh + RTNH_ALIGN (ld16 m nh))
              (to_int32 (len - (NLMSG_ALIGN (ld16 m nh) : Nat))) u a fw htail
            cases hif : d.if_find_by_index (ld32 m (nh + 4)) with
            | none => rfl
            | some ifa =>
              simp only []
              cases hg : (nl_parse_attrs m (RTNH_DATA nh) nexthop_attr_want4 BIRD_RTA_MAX
                  ((ld16 m nh : Nat) - (RTNH_LENGTH 0 : Nat))).k RTA_GATEWAY with
              | none => rfl
              | some g =>
                simp only []
                cases hn : d.neigh_find2 p (rta_get_ipa m g) ifa
                    (ld8 m (nh + 2) &&& RTNH_F_ONLINK != 0) with
                | none => rfl
                | some nbr =>
                  simp only []
                  split
                  · rfl
                  · exact hrec _ _

/-- One entry that cannot be resolved makes `nl_parse_multipath` return `NULL`. -/
theorem nl_parse_multipath_fails (d : Daemon) (m : Mem) (p : krt_proto) (ra fuel x : Nat)
    (hmem : x ∈ rtnh_walk m fuel (RTA_DATA ra) (RTA_PAYLOAD m ra))
    (hx : rtnh_unresolved d m p x = true) :
    nl_parse_multipath d m p ra = none := by
  unfold nl_parse_multipath
  rw [nl_parse_multipath_loop_fails d m p x hx _ _ _ _ _ fuel hmem]


/-- After the per-family parse, `nl_parse_route` either returns before looking a network up,
or reaches the switch on `rtm_type` with the protocol registered for the family and the
resolved table id: what holds of both holds of its outcome. -/
theorem nl_parse_route_checks_elim (d : Daemon) (m : Mem) (i : Nat) (scan new : Bool)
    (a : AttrVec) (dst : net_addr) (P : RouteOutcome → Prop) (h0 : P (.ignored none))
    (h1 : ∀ p src, HASH_FIND d.nl_table_map (rtm_family m i) (attr_table_id m i a) = some p →
      P (nl_parse_route_type d m i scan new a p dst src (attr_oif m a))) :
    P (nl_parse_route_checks d m i scan new a dst) := by
  have ht : attr_table_id m i a = (match a RTA_TABLE with
      | some x => rta_get_u32 m x
      | none => rtm_table m i) := rfl
  have ho : attr_oif m a = (match a RTA_OIF with
      | some x => rta_get_u32 m x
      | none => 0xFFFFFFFF) := rfl
  unfold nl_parse_route_checks
  cases hT : a RTA_TABLE <;> cases hO : a RTA_OIF <;> rw [hT] at ht <;> rw [hO] at ho <;>
    rw [ht, ho] at h1 <;> simp only [] <;> split <;>
    first
    | with_reducible exact h0
    | (rename_i p hp
       by_cases c1 : (a RTA_IIF).isSome = true
       · rw [if_pos c1]; exact h0
       rw [if_neg c1]
       by_cases c2 : rtm_tos m i ≠ 0
       · rw [if_pos c2]; exact h0
       rw [if_neg c2]
       by_cases c3 : (scan && !new) = true
       · rw [if_pos c3]; exact h0
       rw [if_neg c3]
       by_cases c4 : d.net_classify dst < 0 ∨ (d.net_classify dst).toNat &&& IADDR_HOST = 0
           ∨ (((d.net_classify dst).toNat &&& IADDR_SCOPE_MASK : Nat) : Int) ≤ SCOPE_LINK
       · rw [if_pos c4]; exact h0
       rw [if_neg c4]
       by_cases c5 : rtm_protocol m i = RTPROT_UNSPEC
       · rw [if_pos c5]; exact h0
       rw [if_neg c5]
       by_cases c6 : rtm_protocol m i = RTPROT_REDIRECT
       · rw [if_pos c6]; exact h1 p _ hp
       rw [if_neg c6]
       by_cases c7 : rtm_protocol m i = RTPROT_KERNEL
       · rw [if_pos c7]; exact h0
       rw [if_neg c7]
       by_cases c8 : rtm_protocol m i = RTPROT_BIRD
       · rw [if_pos c8]
         by_cases c9 : (!scan) = true
         · rw [if_pos c9]; exact h0
         · rw [if_neg c9]; exact h1 p _ hp
       · rw [if_neg c8]; exact h1 p _ hp)

/-- The outcome of `nl_parse_route` is an early return, or that of the switch on `rtm_type`
applied to the vector of the message, the protocol registered for the family and the resolved
table id, and the interface index of the message. -/
theorem nl_parse_route_elim (d : Daemon) (m : Mem) (h : Nat) (scan : Bool)
    (P : RouteOutcome → Prop) (h0 : P (.ignored none))
    (h1 : ∀ p dst src,
      HASH_FIND d.nl_table_map (rtm_family m (NLMSG_DATA h))
        (attr_table_id m (NLMSG_DATA h) (route_attr_vec m h)) = some p →
      P (nl_parse_route_type d m (NLMSG_DATA h) scan (nlmsg_type m h == RTM_NEWROUTE)
        (route_attr_vec m h) p dst src (attr_oif m (route_attr_vec m h)))) :
    P (nl_parse_route d m h scan) := by
  unfold nl_parse_route
  rcases nl_checkin_cases m h sizeof_rtmsg with hck | hck
  · rw [hck]; exact h0
  · rw [hck]
    simp only []
    unfold route_attr_vec rtm_attr_want at h1
    by_cases h4 : rtm_family m (NLMSG_DATA h) = AF_INET
    · rw [if_pos h4] at h1 ⊢
      split
      · exact h0
      · split <;> exact nl_parse_route_checks_elim d m _ scan _ _ _ P h0 (fun p src => h1 p _ src)
    · rw [if_neg h4] at h1 ⊢
      by_cases h6 : rtm_family m (NLMSG_DATA h) = AF_INET6
      · rw [if_pos h6] at h1 ⊢
        split
        · exact h0
        · split <;>
            exact nl_parse_route_checks_elim d m _ scan _ _ _ P h0 (fun p src => h1 p _ src)
      · rw [if_neg h6] at h1 ⊢
        by_cases hm : rtm_family m (NLMSG_DATA h) = AF_MPLS
        · rw [if_pos hm]
          split
          · exact h0
          · split
            · split <;>
                exact nl_parse_route_checks_elim d m _ scan _ _ _ P h0 (fun p src => h1 p _ src)
            · exact h0
        · rw [if_neg hm]; exact h0


/-- In the switch on `rtm_type`: an IPv4 unicast message with `RTA_MULTIPATH` for which
`nl_parse_multipath` returns `NULL` is dropped. -/
theorem nl_parse_route_type_multipath_null (d : Daemon) (m : Mem) (i : Nat) (scan new : Bool)
    (a : AttrVec) (p : krt_proto) (dst : net_addr) (src : krt_src) (oif mp : Nat)
    (ht : rtm_type m i = RTN_UNICAST) (hf : rtm_family m i = AF_INET)
    (hmp : a RTA_MULTIPATH = some mp) (hnull : nl_parse_multipath d m p mp = none) :
    nl_parse_route_type d m i scan new a p dst src oif = .ignored (some dst) := by
  unfold nl_parse_route_type
  simp only []
  rw [if_pos ht, if_pos hf, hmp]
  simp only []
  rw [hnull]

/-- In the switch on `rtm_type`: a unicast message that is not an IPv4 message with
`RTA_MULTIPATH`, and whose gateway (`RTA_GATEWAY`, or `RTA_VIA` for MPLS) is no usable
neighbor on the interface of the message, is dropped. -/
theorem nl_parse_route_type_gateway (d : Daemon) (m : Mem) (i : Nat) (scan new : Bool)
    (a : AttrVec) (p : krt_proto) (dst : net_addr) (src : krt_src) (oif g : Nat)
    (ht : rtm_type m i = RTN_UNICAST)
    (hsingle : rtm_family m i ≠ AF_INET ∨ a RTA_MULTIPATH = none)
    (hg : (if rtm_family m i ≠ AF_MPLS then a RTA_GATEWAY else a RTA_VIA) = some g)
    (hn : ∀ ifa, d.if_find_by_index oif = some ifa →
      neigh_unusable d p (if rtm_family m i = AF_MPLS then rta_get_via m g else rta_get_ipa m g)
        ifa (rtm_flags m i &&& RTNH_F_ONLINK != 0) = true) :
    nl_parse_route_type d m i scan new a p dst src oif = .ignored (some dst) := by
  unfold nl_parse_route_type
  simp only []
  rw [if_pos ht]
  have hmp : (if rtm_family m i = AF_INET then a RTA_MULTIPATH else none) = none := by
    rcases hsingle with h1 | h1
    · rw [if_neg h1]
    · rw [h1]; split <;> rfl
  rw [hmp]
  simp only []
  cases hif : d.if_find_by_index oif with
  | none => rfl
  | some ifa =>
    simp only []
    rw [hg]
    simp only []
    have hu := hn ifa hif
    revert hu
    generalize (if rtm_family m i = AF_MPLS then rta_get_via m g else rta_get_ipa m g) = gw
    intro hu
    unfold neigh_unusable at hu
    split
    · rfl
    · cases hnb : d.neigh_find2 p gw ifa (rtm_flags m i &&& RTNH_F_ONLINK != 0) with
      | none => rfl
      | some nbr =>
        rw [hnb] at hu
        simp only [decide_eq_true_eq] at hu
        simp only []
        rw [if_pos hu]


/-- The part of C14 that holds: an IPv4 unicast message with `RTA_MULTIPATH` one of whose
entries has an unknown interface index, or no gateway in the vector of its private
attributes, or a gateway that is no usable neighbor, is not delivered. -/
theorem nl_parse_route_multipath_unresolved (d : Daemon) (m : Mem) (h : Nat) (scan : Bool)
    (mp fuel nh : Nat)
    (htype : rtm_type m (NLMSG_DATA h) = RTN_UNICAST)
    (hf : rtm_family m (NLMSG_DATA h) = AF_INET)
    (hmp : route_attr_vec m h RTA_MULTIPATH = some mp)
    (hmem : nh ∈ rtnh_walk m fuel (RTA_DATA mp) (RTA_PAYLOAD m mp))
    (hx : ∀ p, rtnh_unresolved d m p nh = true) :
    (∀ p, nl_parse_multipath d m p mp = none)
    ∧ (nl_parse_route d m h scan).delivered = false := by
  refine ⟨fun p => nl_parse_multipath_fails d m p mp fuel nh hmem (hx p), ?_⟩
  apply nl_parse_route_elim d m h scan (fun r => r.delivered = false) rfl
  intro p dst src _
  show (nl_parse_route_type d m (NLMSG_DATA h) scan (nlmsg_type m h == RTM_NEWROUTE)
    (route_attr_vec m h) p dst src (attr_oif m (route_attr_vec m h))).delivered = false
  rw [nl_parse_route_type_multipath_null d m _ scan _ _ p dst src _ mp htype hf hmp
    (nl_parse_multipath_fails d m p mp fuel nh hmem (hx p))]
  rfl

/-- C14 fails on the code: in the IPv4 unicast message `route_msg_mp_remnant` the multipath
attribute (at address 36) has one entry (at address 40) whose private attribute stream
`nl_parse_attrs` rejects, with a remnant of 4 bytes after the gateway attribute.
`nl_parse_multipath` does not look at the return value of `nl_parse_attrs`; the slot
`a[RTA_GATEWAY]` was filled before the remnant was met, so it returns a next-hop and
`nl_parse_route` calls `krt_got_route`. -/
theorem nl_parse_multipath_remnant_delivered :
    rtm_family route_msg_mp_remnant (NLMSG_DATA 0) = AF_INET
    ∧ rtm_type route_msg_mp_remnant (NLMSG_DATA 0) = RTN_UNICAST
    ∧ route_attr_vec route_msg_mp_remnant 0 RTA_MULTIPATH = some 36
    ∧ rtnh_walk route_msg_mp_remnant 2 (RTA_DATA 36) (RTA_PAYLOAD route_msg_mp_remnant 36) = [40]
    ∧ (nl_parse_attrs route_msg_mp_remnant (RTNH_DATA 40) nexthop_attr_want4 BIRD_RTA_MAX
        ((rtnh_len route_msg_mp_remnant 40 : Nat) - (RTNH_LENGTH 0 : Nat))).ret = 0
    ∧ (nl_parse_attrs route_msg_mp_remnant (RTNH_DATA 40) nexthop_attr_want4 BIRD_RTA_MAX
        ((rtnh_len route_msg_mp_remnant 40 : Nat) - (RTNH_LENGTH 0 : Nat))).nl_attr_len = 4
    ∧ nl_parse_multipath example_daemon_mp route_msg_mp_remnant example_proto4 36
        = some [{ gw := .ip4 0x0A010101, iface := some example_eth0, weight := 1 }]
    ∧ nl_parse_route example_daemon_mp route_msg_mp_remnant 0 true
        = .got_route example_proto4
            { net := .ip4 (10 * 2 ^ 24) 24,
              attrs := { dest := .UNICAST,
                         nh := { gw := .ip4 0x0A010101, iface := some example_eth0,
                                 weight := 1 } },
              krt_src := .ALIEN,
              krt_proto := RTPROT_BOOT } := by
  decide


/-- C17 (amended): the gateway of a next-hop must be a usable neighbor. Let a unicast route
message carry the gateway of a next-hop that `nl_parse_route` builds from it: the
`RTA_GATEWAY` of an entry of the multipath attribute of an IPv4 message; or the `RTA_GATEWAY`
of an IPv6 message or of an IPv4 message without `RTA_MULTIPATH`; or the `RTA_VIA` of an MPLS
message. If `neigh_find2` on that gateway and the interface of the next-hop (entry interface
index, respectively `RTA_OIF`), with `NEF_ONLINK` if and only if `RTNH_F_ONLINK` is set in
the flags of the entry, respectively in `rtm_flags`, returns no neighbor or a neighbor of
scope `SCOPE_HOST`, then `nl_parse_route` calls neither `krt_got_route` nor
`krt_got_route_async`. -/
theorem nl_parse_route_gateway_unusable (d : Daemon) (m : Mem) (h : Nat) (scan : Bool)
    (htype : rtm_type m (NLMSG_DATA h) = RTN_UNICAST)
    (hgw :
      (rtm_family m (NLMSG_DATA h) = AF_INET
        ∧ ∃ mp, route_attr_vec m h RTA_MULTIPATH = some mp
          ∧ ∃ fuel nh g, nh ∈ rtnh_walk m fuel (RTA_DATA mp) (RTA_PAYLOAD m mp)
            ∧ rtnh_gateway m nh = some g
            ∧ next_hop_unusable d m h (rtnh_ifindex m nh) (rta_get_ipa m g)
                (rtnh_flags m nh &&& RTNH_F_ONLINK != 0))
      ∨ ((rtm_family m (NLMSG_DATA h) = AF_INET6
            ∨ (rtm_family m (NLMSG_DATA h) = AF_INET ∧ route_attr_vec m h RTA_MULTIPATH = none))
        ∧ ∃ g, route_attr_vec m h RTA_GATEWAY = some g
          ∧ next_hop_unusable d m h (attr_oif m (route_attr_vec m h)) (rta_get_ipa m g)
              (rtm_flags m (NLMSG_DATA h) &&& RTNH_F_ONLINK != 0))
      ∨ (rtm_family m (NLMSG_DATA h) = AF_MPLS
        ∧ ∃ g, route_attr_vec m h RTA_VIA = some g
          ∧ next_hop_unusable d m h (attr_oif m (route_attr_vec m h)) (rta_get_via m g)
              (rtm_flags m (NLMSG_DATA h) &&& RTNH_F_ONLINK != 0))) :
    (nl_parse_route d m h scan).delivered = false := by
  apply nl_parse_route_elim d m h scan (fun r => r.delivered = false) rfl
  intro p dst src hp
  show (nl_parse_route_type d m (NLMSG_DATA h) scan (nlmsg_type m h == RTM_NEWROUTE)
    (route_attr_vec m h) p dst src (attr_oif m (route_attr_vec m h))).delivered = false
  rcases hgw with ⟨hf, mp, hmp, fuel, nh, g, hmem, hg, hun⟩ | ⟨hf, g, hg, hun⟩ | ⟨hf, g, hg, hun⟩
  · have hx : rtnh_unresolved d m p nh = true := by
      unfold rtnh_unresolved
      cases hif : d.if_find_by_index (rtnh_ifindex m nh) with
      | none => rfl
      | some ifa =>
        simp only []
        rw [hg]
        exact hun p ifa hp hif
    rw [nl_parse_route_type_multipath_null d m _ scan _ _ p dst src _ mp htype hf hmp
      (nl_parse_multipath_fails d m p mp fuel nh hmem hx)]
    rfl
  · have hnm : rtm_family m (NLMSG_DATA h) ≠ AF_MPLS := by
      rcases hf with h1 | ⟨h1, _⟩ <;> rw [h1] <;> decide
    rw [nl_parse_route_type_gateway d m _ scan _ _ p dst src _ g htype
      (by
        rcases hf with h1 | ⟨_, h1⟩
        · left; rw [h1]; decide
        · right; exact h1)
      (by rw [if_pos hnm]; exact hg)
      (by
        intro ifa hif
        rw [if_neg hnm]
        exact hun p ifa hp hif)]
    rfl
  · rw [nl_parse_route_type_gateway d m _ scan _ _ p dst src _ g htype
      (by left; rw [hf]; decide)
      (by rw [if_neg (by rw [hf]; decide)]; exact hg)
      (by
        intro ifa hif
        rw [if_pos hf]
        exact hun p ifa hp hif)]
    rfl

/-- Witness of `nl_parse_route_gateway_unusable`: the IPv4 message
`10.0.0.0/24 via 192.0.2.1 dev 2`, for a daemon whose neighbor cache does not know
`192.0.2.1`. -/
theorem nl_parse_route_gateway_unusable_witness :
    (nl_parse_route example_daemon_mp route_msg_gw4 0 true).delivered = false :=
  nl_parse_route_gateway_unusable example_daemon_mp route_msg_gw4 0 true (by decide)
    (Or.inr (Or.inl ⟨Or.inr ⟨by decide, by decide⟩, 44, by decide, by
      have hg : rta_get_ipa route_msg_gw4 44 = .ip4 0xC0000201 := by decide
      intro p ifa _ _
      rw [hg]
      rfl⟩))

/-- C17 as stated fails: the IPv4 unicast message `route_msg_mp_gw` carries the gateway
`RTA_GATEWAY` 192.0.2.1 and `RTA_OIF` 2, and `neigh_find2` finds no neighbor for that gateway on
the interface; the message also carries `RTA_MULTIPATH`, so `nl_parse_route` takes the
next-hops from the multipath entries, does not look at `RTA_GATEWAY`, and calls
`krt_got_route`. -/
theorem nl_parse_route_gateway_unusable_counterexample :
    rtm_family route_msg_mp_gw (NLMSG_DATA 0) = AF_INET
    ∧ rtm_type route_msg_mp_gw (NLMSG_DATA 0) = RTN_UNICAST
    ∧ route_attr_vec route_msg_mp_gw 0 RTA_GATEWAY = some 44
    ∧ rta_get_ipa route_msg_mp_gw 44 = .ip4 0xC0000201
    ∧ attr_oif route_msg_mp_gw (route_attr_vec route_msg_mp_gw 0) = 2
    ∧ example_daemon_mp.if_find_by_index 2 = some example_eth0
    ∧ example_daemon_mp.neigh_find2 example_proto4 (.ip4 0xC0000201) example_eth0
        (rtm_flags route_msg_mp_gw (NLMSG_DATA 0) &&& RTNH_F_ONLINK != 0) = none
    ∧ nl_parse_route example_daemon_mp route_msg_mp_gw 0 true
        = .got_route example_proto4
            { net := .ip4 (10 * 2 ^ 24) 24,
              attrs := { dest := .UNICAST,
                         nh := { gw := .ip4 0x0A010101, iface := some example_eth0, weight := 1 },
                         nh_next := [{ gw := .ip4 0x0A010102, iface := some example_eth1,
                                       weight := 2 }] },
              krt_src := .ALIEN,
              krt_proto := RTPROT_BOOT } := by
  decide


theorem RTNH_LENGTH_eq (n : Nat) : RTNH_LENGTH n = 8 + n := by
  simp [RTNH_LENGTH, RTNH_ALIGN, sizeof_rtnexthop]

theorem RTNH_DATA_eq (nh : Nat) : RTNH_DATA nh = nh + 8 := by
  simp [RTNH_DATA, RTNH_LENGTH_eq]

/-- What the loop of `nl_parse_multipath` returns with the arena followed, it returns with
the arena left aside: the same list `first`, or `NULL`. -/
theorem nl_parse_multipath_arena_loop_sound (d : Daemon) (m : Mem) (p : krt_proto)
    (xrealloc : Xrealloc) :
    ∀ (fuel nh : Nat) (len : Int) (buf size used : Nat) (acc : List nexthop),
      (∀ l b s, nl_parse_multipath_arena_loop d m p xrealloc fuel nh len buf size used acc
          = some (.first l b s) →
        nl_parse_multipath_loop d m p fuel nh len used acc = some l)
      ∧ (∀ b s, nl_parse_multipath_arena_loop d m p xrealloc fuel nh len buf size used acc
          = some (.null b s) →
        nl_parse_multipath_loop d m p fuel nh len used acc = none) := by
  intro fuel
  induction fuel with
  | zero =>
    intro nh len buf size used acc
    exact ⟨fun l b s h => (by cases h), fun b s h => (by cases h)⟩
  | succ f ih =>
    intro nh len buf size used acc
    rw [nl_parse_multipath_loop, nl_parse_multipath_arena_loop]
    by_cases h0 : len = 0
    · rw [if_pos h0, if_pos h0]
      exact ⟨fun l b s h => (by cases h; rfl), fun b s h => (by cases h)⟩
    · rw [if_neg h0, if_neg h0]
      by_cases h1 : (0 ≤ len ∧ len < (sizeof_rtnexthop : Nat)) ∨ len < (ld16 m nh : Nat)
      · rw [if_pos h1, if_pos h1]
        exact ⟨fun l b s h => (by cases h), fun b s h => rfl⟩
      · rw [if_neg h1, if_neg h1]
        simp only []
        by_cases hrel : used ≠ 0 ∧ (if used = size then xrealloc buf
            (if used = size then (if size ≠ 0 then size * 2 else 4) else size) else buf) ≠ buf
        · rw [if_pos hrel]
          exact ⟨fun l b s h => (by cases h), fun b s h => (by cases h)⟩
        · rw [if_neg hrel]
          cases hif : d.if_find_by_index (ld32 m (nh + 4)) with
          | none => exact ⟨fun l b s h => (by cases h), fun b s h => rfl⟩
          | some ifa =>
            simp only []
            cases hg : (nl_parse_attrs m (RTNH_DATA nh) nexthop_attr_want4 BIRD_RTA_MAX
                ((ld16 m nh : Nat) - (RTNH_LENGTH 0 : Nat))).k RTA_GATEWAY with
            | none => exact ⟨fun l b s h => (by cases h), fun b s h => rfl⟩
            | some g =>
              simp only []
              cases hn : d.neigh_find2 p (rta_get_ipa m g) ifa
                  (ld8 m (nh + 2) &&& RTNH_F_ONLINK != 0) with
              | none => exact ⟨fun l b s h => (by cases h), fun b s h => rfl⟩
              | some nbr =>
                simp only []
                by_cases hs : nbr.scope = SCOPE_HOST
                · rw [if_pos hs, if_pos hs]
                  exact ⟨fun l b s h => (by cases h), fun b s h => rfl⟩
                · rw [if_neg hs, if_neg hs]
                  exact ih _ _ _ _ _ _

/-- An attribute in a slot whose size the table checks has the payload length of the table. -/
theorem nl_parse_attrs_loop_slot_size (m : Mem) (want : Nat → nl_want_attrs) (max : Nat) :
    ∀ (fuel a : Nat) (len : Int) (k : AttrVec),
      (∀ c g, k c = some g → (want c).checksize = true →
        RTA_PAYLOAD m g = (((want c).size : Nat) : Int)) →
      ∀ c g, (nl_parse_attrs_loop m want max fuel a len k).k c = some g →
        (want c).checksize = true → RTA_PAYLOAD m g = (((want c).size : Nat) : Int) := by
  intro fuel
  induction fuel with
  | zero =>
    intro a len k hk c g hg
    simp only [nl_parse_attrs_loop, nl_parse_attrs_end] at hg
    split at hg <;> exact hk c g hg
  | succ f ih =>
    intro a len k hk c g hg
    rw [nl_parse_attrs_loop] at hg
    split at hg
    · split at hg
      · exact ih _ _ _ hk c g hg
      · split at hg
        · exact hk c g hg
        · rename_i hbad
          refine ih _ _ _ ?_ c g hg
          intro c' g' hg' hcs
          simp only [k_set] at hg'
          split at hg'
          · rename_i hc
            cases hg'
            subst hc
            simp only [hcs, Bool.true_and, decide_eq_true_eq, not_not] at hbad
            exact hbad
          · exact hk c' g' hg' hcs
    · simp only [nl_parse_attrs_end] at hg
      split at hg <;> exact hk c g hg

/-- The payload length of an attribute in a slot of `nl_parse_attrs`. -/
theorem nl_parse_attrs_slot_size (m : Mem) (a : Nat) (want : Nat → nl_want_attrs)
    (max : Nat) (len : Int) (c g : Nat)
    (hg : (nl_parse_attrs m a want max len).k c = some g) (hcs : (want c).checksize = true) :
    RTA_PAYLOAD m g = (((want c).size : Nat) : Int) :=
  nl_parse_attrs_loop_slot_size m want max _ _ _ _ (fun _ _ h => by cases h) c g hg hcs

theorem rta_get_ipa_ip4 (m : Mem) (g : Nat) (h : RTA_PAYLOAD m g = 4) :
    rta_get_ipa m g = .ip4 (rta_get_ip4 m g) := by
  unfold rta_get_ipa
  rw [if_pos h]

theorem rta_get_ipa_ip6 (m : Mem) (g : Nat) (h : RTA_PAYLOAD m g = 16) :
    rta_get_ipa m g = .ip6 (rta_get_ip6 m g) := by
  unfold rta_get_ipa
  rw [if_neg (by rw [h]; decide)]

/-- The flags of a host record. -/
theorem ia_host_flags (s : Nat) (hs : s = 0 ∨ s = IA_SECONDARY) :
    (s ||| IA_HOST) &&& IA_HOST ≠ 0 ∧ (s ||| IA_HOST) &&& IA_PEER = 0 := by
  rcases hs with rfl | rfl <;> decide

/-- The flags of a peer record. -/
theorem ia_peer_flags (s : Nat) (hs : s = 0 ∨ s = IA_SECONDARY) :
    (s ||| IA_PEER) &&& IA_PEER ≠ 0 ∧ (s ||| IA_PEER) &&& IA_HOST = 0 := by
  rcases hs with rfl | rfl <;> decide

/-- An accepted IPv4 address message reaches the submission in `nl_parse_addr4`, and
an accepted IPv6 one in `nl_parse_addr6`. -/
theorem nl_parse_addr_accepted (d : Daemon) (ipa_classify : ip_addr → Int) (m : Mem) (h : Nat)
    (scan : Bool) (loc adr : Nat) (ifi : iface)
    (hacc : addr_accepted d ipa_classify m h loc adr ifi) :
    (ifa_family m (NLMSG_DATA h) = AF_INET →
      nl_parse_addr d ipa_classify m h scan
        = nl_parse_addr4 d ipa_classify m (NLMSG_DATA h) scan (nlmsg_type m h == RTM_NEWADDR)
            (nl_checkin m h sizeof_ifaddrmsg).1
      ∧ (nl_parse_attrs m (IFA_RTA (NLMSG_DATA h)) ifa_attr_want4 BIRD_IFA_MAX
          (nl_checkin m h sizeof_ifaddrmsg).1).ret ≠ 0
      ∧ (nl_parse_attrs m (IFA_RTA (NLMSG_DATA h)) ifa_attr_want4 BIRD_IFA_MAX
          (nl_checkin m h sizeof_ifaddrmsg).1).k IFA_LOCAL = some loc
      ∧ (nl_parse_attrs m (IFA_RTA (NLMSG_DATA h)) ifa_attr_want4 BIRD_IFA_MAX
          (nl_checkin m h sizeof_ifaddrmsg).1).k IFA_ADDRESS = some adr
      ∧ RTA_PAYLOAD m loc = 4 ∧ RTA_PAYLOAD m adr = 4)
    ∧ (ifa_family m (NLMSG_DATA h) = AF_INET6 →
      nl_parse_addr d ipa_classify m h scan
        = nl_parse_addr6 d ipa_classify m (NLMSG_DATA h) scan (nlmsg_type m h == RTM_NEWADDR)
            (nl_checkin m h sizeof_ifaddrmsg).1
      ∧ (nl_parse_attrs m (IFA_RTA (NLMSG_DATA h)) ifa_attr_want6 BIRD_IFA_MAX
          (nl_checkin m h sizeof_ifaddrmsg).1).ret ≠ 0
      ∧ (match (nl_parse_attrs m (IFA_RTA (NLMSG_DATA h)) ifa_attr_want6 BIRD_IFA_MAX
          (nl_checkin m h sizeof_ifaddrmsg).1).k IFA_LOCAL with
          | some l => l
          | none => adr) = loc
      ∧ (nl_parse_attrs m (IFA_RTA (NLMSG_DATA h)) ifa_attr_want6 BIRD_IFA_MAX
          (nl_checkin m h sizeof_ifaddrmsg).1).k IFA_ADDRESS = some adr
      ∧ RTA_PAYLOAD m loc = 16 ∧ RTA_PAYLOAD m adr = 16) := by
  obtain ⟨hck, _, hret, hloc, hadr, _, _⟩ := hacc
  have hpair : nl_checkin m h sizeof_ifaddrmsg
      = ((nl_checkin m h sizeof_ifaddrmsg).1, some (NLMSG_DATA h)) := by
    rw [← hck]
  unfold addr_local at hloc
  unfold addr_parse ifa_attr_want at hret hloc hadr
  constructor
  · intro h4
    rw [if_pos h4] at hret hloc hadr
    have h46 : ¬ ifa_family m (NLMSG_DATA h) = AF_INET6 := by rw [h4]; decide
    rw [if_neg h46] at hloc
    have hloc' : (nl_parse_attrs m (IFA_RTA (NLMSG_DATA h)) ifa_attr_want4 BIRD_IFA_MAX
        (nl_checkin m h sizeof_ifaddrmsg).1).k IFA_LOCAL = some loc := by
      cases hl : (nl_parse_attrs m (IFA_RTA (NLMSG_DATA h)) ifa_attr_want4 BIRD_IFA_MAX
          (nl_checkin m h sizeof_ifaddrmsg).1).k IFA_LOCAL with
      | none => rw [hl] at hloc; cases hloc
      | some l => rw [hl] at hloc; exact hloc
    refine ⟨?_, hret, hloc', hadr, ?_, ?_⟩
    · unfold nl_parse_addr
      rw [hpair]
      simp only []
      rw [if_pos h4]
    · exact nl_parse_attrs_slot_size m _ ifa_attr_want4 _ _ IFA_LOCAL loc hloc' (by decide)
    · exact nl_parse_attrs_slot_size m _ ifa_attr_want4 _ _ IFA_ADDRESS adr hadr (by decide)
  · intro h6
    have h64 : ¬ ifa_family m (NLMSG_DATA h) = AF_INET := by rw [h6]; decide
    rw [if_neg h64] at hret hloc hadr
    rw [if_pos h6] at hloc
    have hadr16 := nl_parse_attrs_slot_size m _ ifa_attr_want6 _ _ IFA_ADDRESS adr hadr
      (by decide)
    refine ⟨?_, hret, ?_, hadr, ?_, hadr16⟩
    · unfold nl_parse_addr
      rw [hpair]
      simp only []
      rw [if_neg h64, if_pos h6]
    · cases hl : (nl_parse_attrs m (IFA_RTA (NLMSG_DATA h)) ifa_attr_want6 BIRD_IFA_MAX
          (nl_checkin m h sizeof_ifaddrmsg).1).k IFA_LOCAL with
      | none =>
        rw [hl] at hloc
        simp only [] at hloc
        rw [hadr] at hloc
        cases hloc
        rfl
      | some l => rw [hl] at hloc; cases hloc; rfl
    · cases hl : (nl_parse_attrs m (IFA_RTA (NLMSG_DATA h)) ifa_attr_want6 BIRD_IFA_MAX
          (nl_checkin m h sizeof_ifaddrmsg).1).k IFA_LOCAL with
      | none =>
        rw [hl] at hloc
        simp only [] at hloc
        rw [hadr] at hloc
        cases hloc
        exact hadr16
      | some l =>
        rw [hl] at hloc
        cases hloc
        exact nl_parse_attrs_slot_size m _ ifa_attr_want6 _ _ IFA_LOCAL loc hl (by decide)


/-- C18: host and peer flags. For every accepted IPv4 address message with prefix length 32
and every accepted IPv6 address message with prefix length 128 (the message passes the
attribute parse, the interface lookup and the scope classification), `nl_parse_addr4` /
`nl_parse_addr6` submit a record `r` (to `ifa_update` for `RTM_NEWADDR`, to `ifa_delete`
otherwise) of the interface found, with the local address, such that: when the local address
equals the address attribute `IFA_ADDRESS`, `IA_HOST` is set and `IA_PEER` is clear; when
they differ, `IA_PEER` is set, `IA_HOST` is clear and the opposite address is the address
attribute. For IPv6 without `IFA_LOCAL` the local address is read from `IFA_ADDRESS`, so
`IA_HOST` is set. -/
theorem nl_parse_addr_host_peer (d : Daemon) (ipa_classify : ip_addr → Int) (m : Mem)
    (h : Nat) (scan : Bool) (loc adr : Nat) (ifi : iface)
    (hacc : addr_accepted d ipa_classify m h loc adr ifi)
    (hpx : ifa_prefixlen m (NLMSG_DATA h)
      = (if ifa_family m (NLMSG_DATA h) = AF_INET then 32 else 128)) :
    ∃ r : ifa, nl_parse_addr d ipa_classify m h scan = addr_submitted m h scan r
      ∧ r.iface = ifi ∧ r.ip = rta_get_ipa m loc
      ∧ (rta_get_ipa m loc = rta_get_ipa m adr →
          r.flags &&& IA_HOST ≠ 0 ∧ r.flags &&& IA_PEER = 0)
      ∧ (rta_get_ipa m loc ≠ rta_get_ipa m adr →
          r.flags &&& IA_PEER ≠ 0 ∧ r.flags &&& IA_HOST = 0
          ∧ r.opposite = rta_get_ipa m adr)
      ∧ (ifa_family m (NLMSG_DATA h) = AF_INET6 → (addr_parse m h).k IFA_LOCAL = none →
          loc = adr ∧ r.flags &&& IA_HOST ≠ 0 ∧ r.flags &&& IA_PEER = 0) := by
  have hfl : ∀ x : Nat, (if x &&& IFA_F_SECONDARY ≠ 0 then IA_SECONDARY else 0) = 0
      ∨ (if x &&& IFA_F_SECONDARY ≠ 0 then IA_SECONDARY else 0) = IA_SECONDARY := by
    intro x; split
    · exact Or.inr rfl
    · exact Or.inl rfl
  have hA := nl_parse_addr_accepted d ipa_classify m h scan loc adr ifi hacc
  obtain ⟨_, hfam, _, hlocal, _, hif, hscope⟩ := hacc
  rcases hfam with h4 | h6
  · obtain ⟨heq, hret, hloc, hadr, _, _⟩ := hA.1 h4
    rw [if_pos h4] at hpx
    have hpx' : ifa_prefixlen m (NLMSG_DATA h) = IP4_MAX_PREFIX_LENGTH := hpx
    have hng : ¬ ifa_prefixlen m (NLMSG_DATA h) > IP4_MAX_PREFIX_LENGTH := by
      rw [hpx']; decide
    have h46 : ¬ ifa_family m (NLMSG_DATA h) = AF_INET6 := by rw [h4]; decide
    rw [heq]
    unfold nl_parse_addr4
    simp only []
    rw [if_neg hret, hloc, hadr, hif]
    simp only []
    rw [if_pos hpx', if_neg hng]
    by_cases he : rta_get_ipa m loc = rta_get_ipa m adr
    · rw [if_pos he]
      unfold nl_parse_addr_submit
      simp only []
      rw [if_neg (not_lt.2 hscope)]
      exact ⟨_, rfl, rfl, rfl, fun _ => ia_host_flags _ (hfl _), fun hne => absurd he hne,
        fun h6 => absurd h6 h46⟩
    · rw [if_neg he]
      unfold nl_parse_addr_submit
      simp only []
      rw [if_neg (not_lt.2 hscope)]
      exact ⟨_, rfl, rfl, rfl, fun heq => absurd heq he,
        fun _ => ⟨(ia_peer_flags _ (hfl _)).1, (ia_peer_flags _ (hfl _)).2, rfl⟩,
        fun h6 => absurd h6 h46⟩
  · obtain ⟨heq, hret, hloc, hadr, _, _⟩ := hA.2 h6
    have h64 : ¬ ifa_family m (NLMSG_DATA h) = AF_INET := by rw [h6]; decide
    rw [if_neg h64] at hpx
    have hpx' : ifa_prefixlen m (NLMSG_DATA h) = IP6_MAX_PREFIX_LENGTH := hpx
    have hng : ¬ ifa_prefixlen m (NLMSG_DATA h) > IP6_MAX_PREFIX_LENGTH := by
      rw [hpx']; decide
    have hnoloc : (addr_parse m h).k IFA_LOCAL = none → loc = adr := by
      intro hn
      unfold addr_local at hlocal
      have hadr' : (addr_parse m h).k IFA_ADDRESS = some adr := by
        unfold addr_parse ifa_attr_want
        rw [if_neg h64]; exact hadr
      rw [hn] at hlocal
      simp only [] at hlocal
      rw [if_pos h6, hadr'] at hlocal
      cases hlocal
      rfl
    rw [heq]
    unfold nl_parse_addr6
    simp only []
    rw [if_neg hret, hadr, hif]
    simp only []
    rw [hloc, if_pos hpx', if_neg hng]
    by_cases he : rta_get_ipa m loc = rta_get_ipa m adr
    · rw [if_pos he]
      unfold nl_parse_addr_submit
      simp only []
      rw [if_neg (not_lt.2 hscope)]
      exact ⟨_, rfl, rfl, rfl, fun _ => ia_host_flags _ (hfl _), fun hne => absurd he hne,
        fun _ hn => ⟨hnoloc hn, ia_host_flags _ (hfl _)⟩⟩
    · rw [if_neg he]
      unfold nl_parse_addr_submit
      simp only []
      rw [if_neg (not_lt.2 hscope)]
      exact ⟨_, rfl, rfl, rfl, fun heq => absurd heq he,
        fun _ => ⟨(ia_peer_flags _ (hfl _)).1, (ia_peer_flags _ (hfl _)).2, rfl⟩,
        fun _ hn => absurd (by rw [hnoloc hn]) he⟩


theorem xor_one_eq (x : Nat) : x ^^^ 1 = if x % 2 = 0 then x + 1 else x - 1 := by
  have hd : (x ^^^ 1) / 2 = x / 2 := by
    rw [Nat.xor_div_two]; simp
  have hm : (x ^^^ 1) % 2 = (x + 1) % 2 := Nat.xor_mod_two_eq
  have h := Nat.div_add_mod (x ^^^ 1) 2
  split <;> omega

theorem xor_three_eq (x : Nat) :
    (x % 4 = 1 → x ^^^ 3 = x + 1) ∧ (x % 4 = 2 → x ^^^ 3 = x - 1) := by
  have hd : (x ^^^ 3) / 2 = x / 2 ^^^ 1 := by
    rw [Nat.xor_div_two]
  have hm : (x ^^^ 3) % 2 = (x + 3) % 2 := Nat.xor_mod_two_eq
  have h := Nat.div_add_mod (x ^^^ 3) 2
  have h1 := xor_one_eq (x / 2)
  rw [hd, h1] at h
  constructor
  · intro hx
    have : (x / 2) % 2 = 0 := by omega
    rw [if_pos this] at h
    omega
  · intro hx
    have : ¬ (x / 2) % 2 = 0 := by omega
    rw [if_neg this] at h
    omega

theorem and_mkmask31 (x : Nat) (hx : x < 2 ^ 32) : x &&& ip4_mkmask 31 = x / 2 * 2 := by
  have hM : ip4_mkmask 31 = 4294967294 := by decide
  rw [hM]
  have hd : (x &&& 4294967294) / 2 = x / 2 := by
    rw [Nat.and_div_two]
    exact Nat.and_pow_two_sub_one_of_lt_two_pow (n := 31) (by omega)
  have hm : ¬ (x &&& 4294967294) % 2 = 1 := by
    rw [Nat.and_mod_two_eq_one]
    omega
  have h := Nat.div_add_mod (x &&& 4294967294) 2
  omega

theorem and_mkmask127 (x : Nat) (hx : x < 2 ^ 128) : x &&& ip6_mkmask 127 = x / 2 * 2 := by
  have hM : ip6_mkmask 127 = 2 * (2 ^ 127 - 1) := by decide
  rw [hM]
  have hd : (x &&& 2 * (2 ^ 127 - 1)) / 2 = x / 2 := by
    rw [Nat.and_div_two]
    have : 2 * (2 ^ 127 - 1) / 2 = 2 ^ 127 - 1 := by omega
    rw [this]
    exact Nat.and_pow_two_sub_one_of_lt_two_pow (n := 127) (by omega)
  have hm : ¬ (x &&& 2 * (2 ^ 127 - 1)) % 2 = 1 := by
    rw [Nat.and_mod_two_eq_one]
    omega
  have h := Nat.div_add_mod (x &&& 2 * (2 ^ 127 - 1)) 2
  omega

theorem get_u32_lt (m : Mem) (a : Nat) : get_u32 m a < 2 ^ 32 := by
  simp only [get_u32, ld8]
  omega

theorem ld_ip6_lt (m : Mem) (a : Nat) : ld_ip6 m a < 2 ^ 128 := by
  have h0 := get_u32_lt m a
  have h1 := get_u32_lt m (a + 4)
  have h2 := get_u32_lt m (a + 8)
  have h3 := get_u32_lt m (a + 12)
  simp only [ld_ip6]
  omega


/-- The record of an accepted IPv4 address message whose prefix is shorter than 32 bits. -/
theorem nl_parse_addr4_narrow (d : Daemon) (ipa_classify : ip_addr → Int) (m : Mem)
    (h : Nat) (scan : Bool) (loc adr : Nat) (ifi : iface)
    (hacc : addr_accepted d ipa_classify m h loc adr ifi)
    (h4 : ifa_family m (NLMSG_DATA h) = AF_INET)
    (hpx : ifa_prefixlen m (NLMSG_DATA h) < 32) :
    ∃ r : ifa, nl_parse_addr d ipa_classify m h scan = addr_submitted m h scan r
      ∧ r.ip = .ip4 (rta_get_ip4 m loc)
      ∧ r.pfx = net_normalize (.ip4 (rta_get_ip4 m loc) (ifa_prefixlen m (NLMSG_DATA h)))
      ∧ r.opposite
        = (if ifa_prefixlen m (NLMSG_DATA h) = 30 then ipa_opposite_m2 (.ip4 (rta_get_ip4 m loc))
            else if ifa_prefixlen m (NLMSG_DATA h) = 31 then
              ipa_opposite_m1 (.ip4 (rta_get_ip4 m loc))
            else IPA_NONE) := by
  obtain ⟨heq, hret, hloc, hadr, hl4, _⟩ :=
    (nl_parse_addr_accepted d ipa_classify m h scan loc adr ifi hacc).1 h4
  obtain ⟨_, _, _, _, _, hif, hscope⟩ := hacc
  have hne : ¬ ifa_prefixlen m (NLMSG_DATA h) = IP4_MAX_PREFIX_LENGTH := by
    simp only [IP4_MAX_PREFIX_LENGTH]; omega
  have hng : ¬ ifa_prefixlen m (NLMSG_DATA h) > IP4_MAX_PREFIX_LENGTH := by
    simp only [IP4_MAX_PREFIX_LENGTH]; omega
  have hip := rta_get_ipa_ip4 m loc hl4
  rw [heq]
  unfold nl_parse_addr4
  simp only []
  rw [if_neg hret, hloc, hadr, hif]
  simp only []
  rw [if_neg hne, if_neg hng]
  unfold nl_parse_addr_submit
  simp only []
  rw [if_neg (not_lt.2 hscope)]
  refine ⟨_, rfl, hip, ?_, ?_⟩
  · show net_normalize (.ip4 (ipa_to_ip4 (rta_get_ipa m loc)) _) = _
    rw [hip]; rfl
  · show (if ifa_prefixlen m (NLMSG_DATA h) = IP4_MAX_PREFIX_LENGTH - 2 then
        ipa_opposite_m2 (rta_get_ipa m loc)
      else if ifa_prefixlen m (NLMSG_DATA h) = IP4_MAX_PREFIX_LENGTH - 1 then
        ipa_opposite_m1 (rta_get_ipa m loc)
      else IPA_NONE) = _
    rw [hip]; rfl

/-- The record of an accepted IPv6 address message whose prefix is shorter than 128 bits. -/
theorem nl_parse_addr6_narrow (d : Daemon) (ipa_classify : ip_addr → Int) (m : Mem)
    (h : Nat) (scan : Bool) (loc adr : Nat) (ifi : iface)
    (hacc : addr_accepted d ipa_classify m h loc adr ifi)
    (h6 : ifa_family m (NLMSG_DATA h) = AF_INET6)
    (hpx : ifa_prefixlen m (NLMSG_DATA h) < 128) :
    ∃ r : ifa, nl_parse_addr d ipa_classify m h scan = addr_submitted m h scan r
      ∧ r.ip = .ip6 (rta_get_ip6 m loc)
      ∧ r.pfx = net_normalize (.ip6 (rta_get_ip6 m loc) (ifa_prefixlen m (NLMSG_DATA h)))
      ∧ r.opposite
        = (if ifa_prefixlen m (NLMSG_DATA h) = 127 then
              ipa_opposite_m1 (.ip6 (rta_get_ip6 m loc))
            else IPA_NONE) := by
  obtain ⟨heq, hret, hloc, hadr, hl16, _⟩ :=
    (nl_parse_addr_accepted d ipa_classify m h scan loc adr ifi hacc).2 h6
  obtain ⟨_, _, _, _, _, hif, hscope⟩ := hacc
  have hne : ¬ ifa_prefixlen m (NLMSG_DATA h) = IP6_MAX_PREFIX_LENGTH := by
    simp only [IP6_MAX_PREFIX_LENGTH]; omega
  have hng : ¬ ifa_prefixlen m (NLMSG_DATA h) > IP6_MAX_PREFIX_LENGTH := by
    simp only [IP6_MAX_PREFIX_LENGTH]; omega
  have hip := rta_get_ipa_ip6 m loc hl16
  rw [heq]
  unfold nl_parse_addr6
  simp only []
  rw [if_neg hret, hadr, hif]
  simp only []
  rw [hloc, if_neg hne, if_neg hng]
  unfold nl_parse_addr_submit
  simp only []
  rw [if_neg (not_lt.2 hscope)]
  refine ⟨_, rfl, hip, ?_, ?_⟩
  · show net_normalize (.ip6 (ipa_to_ip6 (rta_get_ipa m loc)) _) = _
    rw [hip]; rfl
  · show (if ifa_prefixlen m (NLMSG_DATA h) = IP6_MAX_PREFIX_LENGTH - 1 then
        ipa_opposite_m1 (rta_get_ipa m loc)
      else IPA_NONE) = _
    rw [hip]; rfl

/-- C19: opposite address on narrow links. For every accepted IPv4 address message with
prefix length 31, and every accepted IPv6 address message with prefix length 127, with local
address `x`, the submitted record has as prefix `x` with the lowest bit cleared (`x / 2 * 2`)
and as opposite `x` with the lowest bit flipped (`x + 1` for an even `x`, `x - 1` for an odd
one). For every accepted IPv4 address message with prefix length 30, the opposite is `x` with
its two low bits flipped when they are 01 (`x + 1`) or 10 (`x - 1`), and there is no opposite
(`IPA_NONE`) when they are 00 or 11, the network and the broadcast address of the /30. -/
theorem nl_parse_addr_opposite (d : Daemon) (ipa_classify : ip_addr → Int) (m : Mem)
    (h : Nat) (scan : Bool) (loc adr : Nat) (ifi : iface)
    (hacc : addr_accepted d ipa_classify m h loc adr ifi) :
    (ifa_family m (NLMSG_DATA h) = AF_INET → ifa_prefixlen m (NLMSG_DATA h) = 31 →
      ∃ r : ifa, nl_parse_addr d ipa_classify m h scan = addr_submitted m h scan r
        ∧ r.ip = .ip4 (rta_get_ip4 m loc)
        ∧ r.pfx = .ip4 (rta_get_ip4 m loc / 2 * 2) 31
        ∧ r.opposite = .ip4 (if rta_get_ip4 m loc % 2 = 0 then rta_get_ip4 m loc + 1
            else rta_get_ip4 m loc - 1))
    ∧ (ifa_family m (NLMSG_DATA h) = AF_INET6 → ifa_prefixlen m (NLMSG_DATA h) = 127 →
      ∃ r : ifa, nl_parse_addr d ipa_classify m h scan = addr_submitted m h scan r
        ∧ r.ip = .ip6 (rta_get_ip6 m loc)
        ∧ r.pfx = .ip6 (rta_get_ip6 m loc / 2 * 2) 127
        ∧ r.opposite = .ip6 (if rta_get_ip6 m loc % 2 = 0 then rta_get_ip6 m loc + 1
            else rta_get_ip6 m loc - 1))
    ∧ (ifa_family m (NLMSG_DATA h) = AF_INET → ifa_prefixlen m (NLMSG_DATA h) = 30 →
      ∃ r : ifa, nl_parse_addr d ipa_classify m h scan = addr_submitted m h scan r
        ∧ r.ip = .ip4 (rta_get_ip4 m loc)
        ∧ (rta_get_ip4 m loc % 4 = 1 → r.opposite = .ip4 (rta_get_ip4 m loc + 1))
        ∧ (rta_get_ip4 m loc % 4 = 2 → r.opposite = .ip4 (rta_get_ip4 m loc - 1))
        ∧ (rta_get_ip4 m loc % 4 = 0 ∨ rta_get_ip4 m loc % 4 = 3 → r.opposite = IPA_NONE)) := by
  refine ⟨?_, ?_, ?_⟩
  · intro h4 hpx
    obtain ⟨r, hr, hip, hp, ho⟩ :=
      nl_parse_addr4_narrow d ipa_classify m h scan loc adr ifi hacc h4 (by omega)
    refine ⟨r, hr, hip, ?_, ?_⟩
    · rw [hp, hpx]
      simp only [net_normalize]
      rw [and_mkmask31 (rta_get_ip4 m loc) (get_u32_lt m _)]
    · rw [ho, hpx]
      simp only [ipa_opposite_m1]
      rw [xor_one_eq]
      rfl
  · intro h6 hpx
    obtain ⟨r, hr, hip, hp, ho⟩ :=
      nl_parse_addr6_narrow d ipa_classify m h scan loc adr ifi hacc h6 (by omega)
    refine ⟨r, hr, hip, ?_, ?_⟩
    · rw [hp, hpx]
      simp only [net_normalize]
      rw [and_mkmask127 (rta_get_ip6 m loc) (ld_ip6_lt m _)]
    · rw [ho, hpx]
      simp only [ipa_opposite_m1]
      rw [xor_one_eq]
      rfl
  · intro h4 hpx
    obtain ⟨r, hr, hip, _, ho⟩ :=
      nl_parse_addr4_narrow d ipa_classify m h scan loc adr ifi hacc h4 (by omega)
    rw [hpx] at ho
    simp only [ipa_opposite_m2, if_true] at ho
    refine ⟨r, hr, hip, ?_, ?_, ?_⟩
    · intro hx
      rw [ho, if_pos (Or.inl hx), (xor_three_eq _).1 hx]
    · intro hx
      rw [ho, if_pos (Or.inr hx), (xor_three_eq _).2 hx]
    · intro hx
      rw [ho, if_neg (by omega)]


/-- Witness of `nl_parse_addr_host_peer`: the IPv4 message `192.0.2.1 peer 192.0.2.2/32`,
received outside a scan; the record has the flag `IA_PEER` and the opposite `192.0.2.2`. -/
theorem nl_parse_addr_host_peer_witness :
    (∃ r : ifa, nl_parse_addr example_daemon example_classify addr_msg_peer4 0 false
        = addr_submitted addr_msg_peer4 0 false r
      ∧ r.iface = example_eth0 ∧ r.ip = rta_get_ipa addr_msg_peer4 32
      ∧ (rta_get_ipa addr_msg_peer4 32 = rta_get_ipa addr_msg_peer4 24 →
          r.flags &&& IA_HOST ≠ 0 ∧ r.flags &&& IA_PEER = 0)
      ∧ (rta_get_ipa addr_msg_peer4 32 ≠ rta_get_ipa addr_msg_peer4 24 →
          r.flags &&& IA_PEER ≠ 0 ∧ r.flags &&& IA_HOST = 0
          ∧ r.opposite = rta_get_ipa addr_msg_peer4 24)
      ∧ (ifa_family addr_msg_peer4 (NLMSG_DATA 0) = AF_INET6 →
          (addr_parse addr_msg_peer4 0).k IFA_LOCAL = none →
          32 = 24 ∧ r.flags &&& IA_HOST ≠ 0 ∧ r.flags &&& IA_PEER = 0))
    ∧ nl_parse_addr example_daemon example_classify addr_msg_peer4 0 false
        = .ifa_update { iface := example_eth0, ip := .ip4 0xC0000201, pfx := .ip4 0xC0000202 32,
                        brd := .ip4 0xC0000202, opposite := .ip4 0xC0000202, scope := 4,
                        flags := IA_PEER } true :=
  ⟨nl_parse_addr_host_peer example_daemon example_classify addr_msg_peer4 0 false 32 24
    example_eth0 (by unfold addr_accepted; decide) (by decide), by decide⟩

/-- Witness of `nl_parse_addr_opposite`: `10.0.0.0/31` with the local address `10.0.0.0` gives
the prefix `10.0.0.0/31` and the opposite `10.0.0.1`. -/
theorem nl_parse_addr_opposite_witness :
    (∃ r : ifa, nl_parse_addr example_daemon example_classify addr_msg_31 0 true
        = addr_submitted addr_msg_31 0 true r
      ∧ r.ip = .ip4 (rta_get_ip4 addr_msg_31 32)
      ∧ r.pfx = .ip4 (rta_get_ip4 addr_msg_31 32 / 2 * 2) 31
      ∧ r.opposite = .ip4 (if rta_get_ip4 addr_msg_31 32 % 2 = 0 then
            rta_get_ip4 addr_msg_31 32 + 1
          else rta_get_ip4 addr_msg_31 32 - 1))
    ∧ rta_get_ip4 addr_msg_31 32 = 10 * 2 ^ 24
    ∧ nl_parse_addr example_daemon example_classify addr_msg_31 0 true
        = .ifa_update { iface := example_eth0, ip := .ip4 (10 * 2 ^ 24),
                        pfx := .ip4 (10 * 2 ^ 24) 31, opposite := .ip4 (10 * 2 ^ 24 + 1),
                        scope := 4 } false :=
  ⟨(nl_parse_addr_opposite example_daemon example_classify addr_msg_31 0 true 32 24
      example_eth0 (by unfold addr_accepted; decide)).1 (by decide) (by decide),
    by decide, by decide⟩

theorem and_shift_ne_zero (b t : Nat) : (b &&& 1 <<< t != 0) = b.testBit t := by
  rw [Nat.one_shiftLeft]
  cases hb : b.testBit t with
  | true =>
    have h1 : (b &&& 2 ^ t).testBit t = true := by
      rw [Nat.testBit_and, hb, Nat.testBit_two_pow_self]; rfl
    have hne : b &&& 2 ^ t ≠ 0 := by
      intro h0; rw [h0] at h1; simp at h1
    simpa using hne
  | false =>
    have h0 : b &&& 2 ^ t = 0 := by
      apply Nat.eq_of_testBit_eq
      intro i
      rw [Nat.testBit_and, Nat.testBit_two_pow, Nat.zero_testBit]
      by_cases hi : t = i
      · subst hi; rw [hb]; rfl
      · simp [hi]
    simp [h0]

/-- The value that `ld32` reads from the 4 bytes `bytes_u32 v`. -/
theorem ld32_of_bytes (m : Mem) (a v : Nat) (hv : v < 2 ^ 32)
    (hdata : ∀ i, i < 4 → m (a + i) = (bytes_u32 v).getD i 0) : ld32 m a = v := by
  have h0 := hdata 0 (by omega)
  have h1 := hdata 1 (by omega)
  have h2 := hdata 2 (by omega)
  have h3 := hdata 3 (by omega)
  simp only [bytes_u32, List.getD_cons_zero, List.getD_cons_succ, Nat.add_zero] at h0 h1 h2 h3
  simp only [ld32, ld16, ld8]
  have e2 : a + 2 + 1 = a + 3 := by omega
  rw [e2, h0, h1, h2, h3]
  omega

/-- A list of attributes stays laid out when the memory changes outside of it. -/
theorem attrs_at_congr (m m' : Mem) : ∀ (attrs : List (Nat × List Nat)) (a : Nat),
    attrs_at m a attrs → (∀ i, a ≤ i → i < a + attrs_space attrs → m' i = m i) →
    attrs_at m' a attrs := by
  intro attrs
  induction attrs with
  | nil => intro _ _ _; trivial
  | cons cd rest ih =>
    obtain ⟨c, d⟩ := cd
    intro a hat hag
    obtain ⟨hrl, hrt, hdata, hrest⟩ := hat
    have hal := RTA_ALIGN_ge (RTA_LENGTH d.length)
    have hle := RTA_LENGTH_eq d.length
    simp only [attrs_space] at hag
    refine ⟨?_, ?_, ?_, ?_⟩
    · show ld16 m' a = _
      rw [ld16_congr m m' a (hag _ (by omega) (by omega)) (hag _ (by omega) (by omega))]
      exact hrl
    · show ld16 m' (a + 2) = _
      rw [ld16_congr m m' (a + 2) (hag _ (by omega) (by omega)) (hag _ (by omega) (by omega))]
      exact hrt
    · intro i hi
      rw [hag _ (by rw [RTA_DATA_eq]; omega) (by rw [RTA_DATA_eq]; omega)]
      exact hdata i hi
    · exact ih _ hrest (fun i h1 h2 => hag i (by omega) (by omega))

/-- The loop of `nl_parse_metrics` on sub-attributes of codes from 1 to `max - 1` with 4-byte
values accepts them and builds the vector `metrics_fold`. -/
theorem nl_parse_metrics_loop_attrs (m : Mem) (max : Nat) (metrics : Nat → Nat)
    (hval : ∀ t, metrics t < 2 ^ 32) :
    ∀ (ts : List Nat) (fuel a : Nat) (vec : Nat → Nat),
      attrs_at m a (ts.map (fun t => (t, bytes_u32 (metrics t)))) →
      attrs_space (ts.map (fun t => (t, bytes_u32 (metrics t)))) ≤ fuel →
      (∀ t ∈ ts, 1 ≤ t ∧ t < max) →
      nl_parse_metrics_loop m max fuel a
          (attrs_space (ts.map (fun t => (t, bytes_u32 (metrics t)))) : Nat) vec
        = (0, metrics_fold metrics vec ts) := by
  intro ts
  induction ts with
  | nil =>
    intro fuel a vec _ _ _
    have hno : RTA_OK m a 0 = false := by simp [RTA_OK, sizeof_rtattr]
    cases fuel with
    | zero => simp [nl_parse_metrics_loop, attrs_space, metrics_fold]
    | succ f => simp [nl_parse_metrics_loop, attrs_space, metrics_fold, hno]
  | cons t rest ih =>
    intro fuel a vec hat hfuel hts
    simp only [List.map_cons] at hat hfuel ⊢
    obtain ⟨hrl, hrt, hdata, hrest⟩ := hat
    obtain ⟨ht1, htmax⟩ := hts t (List.mem_cons_self _ _)
    have hb4 : (bytes_u32 (metrics t)).length = 4 := rfl
    rw [hb4] at hrl hrest hdata
    have hR : RTA_LENGTH 4 = 8 := by decide
    have hA : RTA_ALIGN 8 = 8 := by decide
    rw [hR] at hrl hrest
    rw [hA] at hrest
    simp only [attrs_space, hb4, hR, hA] at hfuel ⊢
    cases fuel with
    | zero => omega
    | succ f =>
      have hok : RTA_OK m a (((8 + attrs_space (rest.map
          (fun t => (t, bytes_u32 (metrics t)))) : Nat)) : Int) = true := by
        rw [RTA_OK_iff, hrl]
        refine ⟨?_, by omega, ?_⟩ <;> push_cast <;> omega
      have hnext : ((((8 + attrs_space (rest.map
          (fun t => (t, bytes_u32 (metrics t)))) : Nat)) : Int) - ((8 : Nat) : Int))
          = ((attrs_space (rest.map (fun t => (t, bytes_u32 (metrics t)))) : Nat) : Int) := by
        push_cast; omega
      have hp : RTA_PAYLOAD m a = 4 := by
        simp only [RTA_PAYLOAD, hrl, RTA_LENGTH_eq]; rfl
      have hget : rta_get_u32 m a = metrics t :=
        ld32_of_bytes m (RTA_DATA a) (metrics t) (hval t) hdata
      rw [nl_parse_metrics_loop, if_pos hok, hrl, hrt, hA, hnext]
      rw [if_neg (by simp only [RTA_UNSPEC]; omega), if_neg (by omega),
        if_neg (by rw [hp]; decide), hget]
      rw [ih f _ _ hrest (by omega) (fun x hx => hts x (List.mem_cons_of_mem _ hx))]
      rfl


/-- A slot other than 0 whose code is not in the list keeps its value. -/
theorem metrics_fold_other (metrics : Nat → Nat) : ∀ (ts : List Nat) (vec : Nat → Nat) (t : Nat),
    t ∉ ts → t ≠ 0 → metrics_fold metrics vec ts t = vec t := by
  intro ts
  induction ts with
  | nil => intro vec t _ _; rfl
  | cons t0 rest ih =>
    intro vec t hmem h0
    simp only [List.mem_cons, not_or] at hmem
    rw [metrics_fold, ih _ t hmem.2 h0]
    simp only [if_neg hmem.1, if_neg h0]

/-- The slot of a code of the list holds its value. -/
theorem metrics_fold_value (metrics : Nat → Nat) : ∀ (ts : List Nat) (vec : Nat → Nat) (t : Nat),
    ts.Nodup → t ∈ ts → t ≠ 0 → metrics_fold metrics vec ts t = metrics t := by
  intro ts
  induction ts with
  | nil => intro vec t _ hmem; cases hmem
  | cons t0 rest ih =>
    intro vec t hnd hmem h0
    simp only [List.nodup_cons] at hnd
    rw [metrics_fold]
    rcases List.mem_cons.1 hmem with heq | hin
    · subst heq
      rw [metrics_fold_other metrics rest _ t hnd.1 h0]
      simp
    · exact ih _ t hnd.2 hin h0

/-- The bitmap in slot 0 has the bits it had and the bits of the codes of the list. -/
theorem metrics_fold_bitmap (metrics : Nat → Nat) : ∀ (ts : List Nat) (vec : Nat → Nat),
    (∀ t ∈ ts, 1 ≤ t ∧ t < 16) → vec 0 < 2 ^ 16 →
    metrics_fold metrics vec ts 0 < 2 ^ 16
    ∧ ∀ i, (metrics_fold metrics vec ts 0).testBit i = ((vec 0).testBit i || decide (i ∈ ts)) := by
  intro ts
  induction ts with
  | nil =>
    intro vec _ hv
    exact ⟨hv, fun i => by simp [metrics_fold]⟩
  | cons t rest ih =>
    intro vec hts hv
    obtain ⟨ht1, ht16⟩ := hts t (List.mem_cons_self _ _)
    have hpow : 2 ^ t < 2 ^ 16 := Nat.pow_lt_pow_right (by omega) ht16
    have hor : vec 0 ||| 2 ^ t < 2 ^ 16 := Nat.or_lt_two_pow hv hpow
    have h0 : (if 0 = t then metrics t
        else if 0 = 0 then u32 (vec 0 ||| 1 <<< t) else vec 0) = vec 0 ||| 2 ^ t := by
      have : ¬ (0 = t) := by omega
      simp only [if_neg this, if_true, u32, Nat.one_shiftLeft]
      exact Nat.mod_eq_of_lt (by omega)
    obtain ⟨hlt, hbits⟩ := ih (fun i => if i = t then metrics t
        else if i = 0 then u32 (vec 0 ||| 1 <<< t) else vec i)
      (fun x hx => hts x (List.mem_cons_of_mem _ hx))
      (by show (if 0 = t then metrics t
            else if 0 = 0 then u32 (vec 0 ||| 1 <<< t) else vec 0) < 2 ^ 16
          rw [h0]; exact hor)
    rw [metrics_fold]
    refine ⟨hlt, fun i => ?_⟩
    rw [hbits i]
    show ((if 0 = t then metrics t
        else if 0 = 0 then u32 (vec 0 ||| 1 <<< t) else vec 0).testBit i || decide (i ∈ rest)) = _
    rw [h0, Nat.testBit_or, Nat.testBit_two_pow]
    by_cases hi : t = i
    · subst hi; simp
    · have hi' : ¬ i = t := fun h => hi h.symm
      simp [hi, hi']

/-- The loop of `nl_add_metrics` appends the sub-attributes of the set bits. -/
theorem nl_add_metrics_loop_eq (h bufsize : Nat) (metrics : Nat → Nat) :
    ∀ (ts : List Nat) (m : Mem),
      nl_add_metrics_loop h bufsize metrics m ts
        = nl_add_attrs m h bufsize
            ((ts.filter (fun t => metrics 0 &&& 1 <<< t != 0)).map
              (fun t => (t, bytes_u32 (metrics t)))) := by
  intro ts
  induction ts with
  | nil => intro m; rfl
  | cons t rest ih =>
    intro m
    rw [nl_add_metrics_loop]
    by_cases hb : (metrics 0 &&& 1 <<< t != 0) = true
    · rw [if_pos hb, List.filter_cons, if_pos hb]
      simp only [List.map_cons, nl_add_attrs, nl_add_attr_u32]
      cases hadd : nl_add_attr m h bufsize t (bytes_u32 (metrics t)) with
      | none => rfl
      | some r => obtain ⟨m1, a⟩ := r; exact ih m1
    · rw [if_neg hb, List.filter_cons, if_neg hb]
      exact ih m

theorem metrics_attrs_eq (metrics : Nat → Nat) (max : Nat) :
    (((List.range max).filter (fun t => decide (1 ≤ t))).filter
        (fun t => metrics 0 &&& 1 <<< t != 0)).map (fun t => (t, bytes_u32 (metrics t)))
      = metrics_attrs metrics max := by
  unfold metrics_attrs
  rw [List.filter_filter]
  congr 1
  apply List.filter_congr
  intro x _
  exact Bool.and_comm _ _


/-- The codes of the sub-attributes of a metrics vector. -/
theorem metrics_attrs_codes (metrics : Nat → Nat) (max : Nat) :
    metrics_attrs metrics max
      = ((List.range max).filter
          (fun t => decide (1 ≤ t) && (metrics 0 &&& 1 <<< t != 0))).map
        (fun t => (t, bytes_u32 (metrics t))) := rfl

theorem attrs_space_metrics (metrics : Nat → Nat) : ∀ ts : List Nat,
    attrs_space (ts.map (fun t => (t, bytes_u32 (metrics t)))) = 8 * ts.length
    ∧ attrs_len (ts.map (fun t => (t, bytes_u32 (metrics t)))) = 8 * ts.length := by
  intro ts
  induction ts with
  | nil => exact ⟨rfl, rfl⟩
  | cons t rest ih =>
    have hb4 : (bytes_u32 (metrics t)).length = 4 := rfl
    have hR : RTA_ALIGN (RTA_LENGTH (bytes_u32 (metrics t)).length) = 8 := by
      rw [hb4]; decide
    have hR' : RTA_LENGTH (bytes_u32 (metrics t)).length = 8 := by
      rw [hb4]; decide
    refine ⟨?_, ?_⟩
    · simp only [List.map_cons, attrs_space, hR, List.length_cons, ih.1]; omega
    · cases rest with
      | nil => simp [attrs_len, hR']
      | cons t2 rest2 =>
        simp only [List.map_cons, attrs_len, hR, List.length_cons] at ih ⊢
        omega

/-- C20: metrics vector round trip. Let `metrics` be a vector of `KRT_METRICS_MAX` slots of
32-bit values whose bitmap `metrics[0]` names only slots from 1 to `KRT_METRICS_MAX - 1`, and
let the message at `h` have room for the group. Then `nl_add_metrics` does not abort and
leaves at the end of the message one attribute `RTA_METRICS` whose payload is exactly the
list `metrics_attrs`: one sub-attribute of 4 bytes per set bit, in increasing order of the
index. `nl_parse_metrics` applied to that attribute returns 0 (success) with a bitmap equal to
`metrics[0]` and, for every set bit `t`, the value `metrics[t]` in slot `t`. -/
theorem metrics_round_trip (m : Mem) (h bufsize pos : Nat) (metrics : Nat → Nat)
    (hpos : NLMSG_ALIGN (nlmsg_len m h) = pos) (h4 : 4 ≤ pos)
    (hbits : metrics 0 < 2 ^ KRT_METRICS_MAX ∧ metrics 0 % 2 = 0)
    (hval : ∀ t, metrics t < 2 ^ 32)
    (hfit : pos + RTA_LENGTH (attrs_space (metrics_attrs metrics KRT_METRICS_MAX)) ≤ bufsize)
    (hbuf : bufsize < 2 ^ 32) :
    ∃ m', nl_add_metrics m h bufsize metrics KRT_METRICS_MAX = some m'
      ∧ rta_type m' (h + pos) = RTA_METRICS
      ∧ rta_len m' (h + pos) = RTA_LENGTH (attrs_space (metrics_attrs metrics KRT_METRICS_MAX))
      ∧ nlmsg_len m' h = pos + rta_len m' (h + pos)
      ∧ attrs_at m' (RTA_DATA (h + pos)) (metrics_attrs metrics KRT_METRICS_MAX)
      ∧ (nl_parse_metrics m' (h + pos) KRT_METRICS_MAX).1 = 0
      ∧ (nl_parse_metrics m' (h + pos) KRT_METRICS_MAX).2 0 = metrics 0
      ∧ ∀ t, 1 ≤ t → t < KRT_METRICS_MAX → metrics 0 &&& 1 <<< t ≠ 0 →
          (nl_parse_metrics m' (h + pos) KRT_METRICS_MAX).2 t = metrics t := by
  -- the codes of the set bits
  generalize hts : (List.range KRT_METRICS_MAX).filter
    (fun t => decide (1 ≤ t) && (metrics 0 &&& 1 <<< t != 0)) = ts
  have hL : metrics_attrs metrics KRT_METRICS_MAX
      = ts.map (fun t => (t, bytes_u32 (metrics t))) := by
    rw [metrics_attrs_codes, hts]
  have hmem : ∀ t, t ∈ ts ↔ t < KRT_METRICS_MAX ∧ 1 ≤ t ∧ (metrics 0).testBit t = true := by
    intro t
    rw [← hts, List.mem_filter, List.mem_range, Bool.and_eq_true, decide_eq_true_eq,
      and_shift_ne_zero]
  have hnd : ts.Nodup := by
    rw [← hts]; exact (List.nodup_range _).filter _
  have hlen : ts.length ≤ 16 := by
    rw [← hts]
    exact Nat.le_trans (List.length_filter_le _ _) (by simp [KRT_METRICS_MAX])
  obtain ⟨hS, hSl⟩ := attrs_space_metrics metrics ts
  rw [hL] at hfit ⊢
  rw [hS] at hfit ⊢
  have hR := RTA_LENGTH_eq (8 * ts.length)
  have hR0 := RTA_LENGTH_eq 0
  have hmod : pos % 4 = 0 := by rw [← hpos]; simp only [NLMSG_ALIGN]; omega
  -- the group is opened
  obtain ⟨m1, e1, hlen1, hrl1, hrt1, _, hframe1⟩ :=
    nl_add_attr_spec m h bufsize RTA_METRICS [] pos hpos
      (by simp only [List.length_nil]; omega) hbuf h4
  simp only [List.length_nil] at hlen1 hrl1
  -- the sub-attributes are appended
  have hpos1 : NLMSG_ALIGN (nlmsg_len m1 h) = pos + 4 := by
    rw [hlen1, hR0]; simp only [NLMSG_ALIGN]; omega
  obtain ⟨m2, e2, hat2, hlen2, hframe2⟩ :=
    nl_add_attrs_spec h bufsize hbuf (ts.map (fun t => (t, bytes_u32 (metrics t)))) m1
      (pos + 4) hpos1 (by omega) (by omega) (by rw [hS]; omega)
      (by
        intro cd hcd
        obtain ⟨t, ht, rfl⟩ := List.mem_map.1 hcd
        have := ((hmem t).1 ht).1
        simp only [KRT_METRICS_MAX] at this
        refine ⟨by show t < 65536; omega, by show RTA_LENGTH 4 < 65536; decide⟩)
  have hlen2' : nlmsg_len m2 h = pos + 4 + 8 * ts.length := by
    rw [hlen2]
    split
    · next he =>
      have : ts = [] := by simpa using he
      rw [hlen1, hR0, this]; rfl
    · rw [hSl]
  -- the result of `nl_add_metrics`
  have hadd : nl_add_metrics m h bufsize metrics KRT_METRICS_MAX
      = some (nl_close_attr m2 h (h + pos)) := by
    unfold nl_add_metrics nl_open_attr
    rw [e1]
    simp only []
    rw [nl_add_metrics_loop_eq, metrics_attrs_eq, hL, e2]
  have hclose : nl_close_attr m2 h (h + pos) = st16 m2 (h + pos) (4 + 8 * ts.length) := by
    unfold nl_close_attr
    rw [hlen2']
    have : h + (pos + 4 + 8 * ts.length) - (h + pos) = 4 + 8 * ts.length := by omega
    rw [this]
  have hother : ∀ i, i ≠ h + pos → i ≠ h + pos + 1 →
      nl_close_attr m2 h (h + pos) i = m2 i := by
    intro i hi0 hi1
    rw [hclose]; exact st16_other _ _ _ _ hi0 hi1
  have hrl' : rta_len (nl_close_attr m2 h (h + pos)) (h + pos) = 4 + 8 * ts.length := by
    show ld16 _ _ = _
    rw [hclose, ld16_st16]
    exact Nat.mod_eq_of_lt (by omega)
  have hat' : attrs_at (nl_close_attr m2 h (h + pos)) (RTA_DATA (h + pos))
      (ts.map (fun t => (t, bytes_u32 (metrics t)))) := by
    rw [RTA_DATA_eq]
    apply attrs_at_congr m2 _ _ _ (by rw [Nat.add_assoc]; exact hat2)
    intro i hi1 _
    exact hother i (by omega) (by omega)
  have hparse : nl_parse_metrics (nl_close_attr m2 h (h + pos)) (h + pos) KRT_METRICS_MAX
      = (0, metrics_fold metrics (fun _ => 0) ts) := by
    have hp : RTA_PAYLOAD (nl_close_attr m2 h (h + pos)) (h + pos)
        = ((attrs_space (ts.map (fun t => (t, bytes_u32 (metrics t)))) : Nat) : Int) := by
      simp only [RTA_PAYLOAD, hrl', hR0, hS]; push_cast; omega
    unfold nl_parse_metrics
    rw [hp, Int.toNat_ofNat]
    exact nl_parse_metrics_loop_attrs _ KRT_METRICS_MAX metrics hval ts _ _ _ hat'
      (Nat.le_refl _) (fun t ht => ⟨((hmem t).1 ht).2.1, ((hmem t).1 ht).1⟩)
  refine ⟨_, hadd, ?_, ?_, ?_, hat', ?_, ?_, ?_⟩
  · show ld16 _ (h + pos + 2) = _
    rw [ld16_congr m2 _ (h + pos + 2) (hother _ (by omega) (by omega))
      (hother _ (by omega) (by omega))]
    rw [ld16_congr m1 m2 (h + pos + 2) (hframe2 _ (by omega) (by omega))
      (hframe2 _ (by omega) (by omega))]
    show rta_type m1 (h + pos) = _
    rw [hrt1]; rfl
  · rw [hrl', hR]
  · rw [hrl']
    show ld32 _ h = _
    rw [ld32_congr m2 _ h (fun i hi1 hi2 => hother i (by omega) (by omega))]
    show nlmsg_len m2 h = _
    rw [hlen2']; omega
  · rw [hparse]
  · rw [hparse]
    show metrics_fold metrics (fun _ => 0) ts 0 = metrics 0
    obtain ⟨_, hb⟩ := metrics_fold_bitmap metrics ts (fun _ => 0)
      (fun t ht => ⟨((hmem t).1 ht).2.1, ((hmem t).1 ht).1⟩) (by decide)
    apply Nat.eq_of_testBit_eq
    intro i
    rw [hb i]
    simp only [Nat.zero_testBit, Bool.false_or]
    by_cases hi : i ∈ ts
    · simp only [hi, decide_True]
      exact ((hmem i).1 hi).2.2.symm
    · simp only [hi, decide_False]
      symm
      by_cases h16 : i < KRT_METRICS_MAX
      · by_cases h1 : 1 ≤ i
        · cases hb' : (metrics 0).testBit i with
          | false => rfl
          | true => exact absurd ((hmem i).2 ⟨h16, h1, hb'⟩) hi
        · have : i = 0 := by omega
          subst this
          rw [Nat.testBit_zero]
          simp only [decide_eq_false_iff_not]
          omega
      · apply Nat.testBit_lt_two_pow
        exact Nat.lt_of_lt_of_le hbits.1 (Nat.pow_le_pow_right (by omega) (by omega))
  · intro t ht1 ht16 hbit
    rw [hparse]
    show metrics_fold metrics (fun _ => 0) ts t = metrics t
    have htb : (metrics 0).testBit t = true := by
      rw [← and_shift_ne_zero]
      simpa using hbit
    exact metrics_fold_value metrics ts _ t hnd ((hmem t).2 ⟨ht16, ht1, htb⟩) (by omega)


/-- Witness of `metrics_round_trip`: the vector with the metrics 2 (value 1500) and 5 (value 7)
is added to an empty route message in a buffer of 64 bytes and parsed back. -/
theorem metrics_round_trip_witness :
    (∃ m', nl_add_metrics route_msg_empty 0 64 example_metrics KRT_METRICS_MAX = some m'
      ∧ rta_type m' (0 + 28) = RTA_METRICS
      ∧ rta_len m' (0 + 28)
        = RTA_LENGTH (attrs_space (metrics_attrs example_metrics KRT_METRICS_MAX))
      ∧ nlmsg_len m' 0 = 28 + rta_len m' (0 + 28)
      ∧ attrs_at m' (RTA_DATA (0 + 28)) (metrics_attrs example_metrics KRT_METRICS_MAX)
      ∧ (nl_parse_metrics m' (0 + 28) KRT_METRICS_MAX).1 = 0
      ∧ (nl_parse_metrics m' (0 + 28) KRT_METRICS_MAX).2 0 = example_metrics 0
      ∧ ∀ t, 1 ≤ t → t < KRT_METRICS_MAX → example_metrics 0 &&& 1 <<< t ≠ 0 →
          (nl_parse_metrics m' (0 + 28) KRT_METRICS_MAX).2 t = example_metrics t)
    ∧ metrics_attrs example_metrics KRT_METRICS_MAX
        = [(2, [220, 5, 0, 0]), (5, [7, 0, 0, 0])] :=
  ⟨metrics_round_trip route_msg_empty 0 64 28 example_metrics (by decide) (by decide)
    (by decide)
    (by
      intro t
      unfold example_metrics
      split
      · decide
      · split
        · decide
        · split <;> decide)
    (by decide) (by decide), by decide⟩

/-- The keys `(p->af, krt_table_id(p))` of the protocols of a registry are pairwise
distinct. -/
theorem registered_of_nodup : ∀ (map : List krt_proto),
    (map.map (fun q => (q.af, krt_table_id q))).Nodup →
    (∀ af id, (registered map af id).length ≤ 1)
    ∧ ∀ q ∈ map, HASH_FIND map q.af (krt_table_id q) = some q := by
  intro map
  induction map with
  | nil => intro _; exact ⟨fun _ _ => by simp [registered], fun q hq => by cases hq⟩
  | cons x rest ih =>
    intro hnd
    rw [List.map_cons, List.nodup_cons] at hnd
    obtain ⟨hx, hrest⟩ := hnd
    obtain ⟨ih1, ih2⟩ := ih hrest
    have hno : ∀ q ∈ rest, ¬ (q.af = x.af ∧ krt_table_id q = krt_table_id x) := by
      intro q hq ⟨h1, h2⟩
      apply hx
      rw [List.mem_map]
      exact ⟨q, hq, by rw [h1, h2]⟩
    refine ⟨?_, ?_⟩
    · intro af id
      unfold registered
      rw [List.filter_cons]
      by_cases hk : (x.af == af && krt_table_id x == id) = true
      · rw [if_pos hk]
        have hk' : x.af = af ∧ krt_table_id x = id := by
          simpa using hk
        have : rest.filter (fun q => q.af == af && krt_table_id q == id) = [] := by
          rw [List.filter_eq_nil_iff]
          intro q hq hq'
          have hq'' : q.af = af ∧ krt_table_id q = id := by simpa using hq'
          exact hno q hq ⟨by rw [hq''.1, hk'.1], by rw [hq''.2, hk'.2]⟩
        rw [this]
        simp
      · rw [if_neg hk]
        exact ih1 af id
    · intro q hq
      unfold HASH_FIND
      rw [List.find?_cons]
      rcases List.mem_cons.mp hq with hqx | hqr
      · subst hqx
        simp
      · have hne : (x.af == q.af && krt_table_id x == krt_table_id q) = false := by
          rw [Bool.eq_false_iff]
          intro hk
          have hk' : x.af = q.af ∧ krt_table_id x = krt_table_id q := by simpa using hk
          exact hno q hqr ⟨hk'.1.symm, hk'.2.symm⟩
        rw [hne]
        exact ih2 q hqr

/-- The keys of the registry stay pairwise distinct under `krt_sys_start` and
`krt_sys_shutdown`. -/
theorem registry_run_nodup : ∀ (calls : List registry_call) (map : List krt_proto),
    (map.map (fun q => (q.af, krt_table_id q))).Nodup →
    ((registry_run map calls).map (fun q => (q.af, krt_table_id q))).Nodup := by
  intro calls
  induction calls with
  | nil => intro map h; exact h
  | cons c rest ih =>
    intro map h
    cases c with
    | start p =>
      show ((registry_run (krt_sys_start map p).2 rest).map _).Nodup
      apply ih
      unfold krt_sys_start
      cases hf : HASH_FIND map p.af (krt_table_id p) with
      | some q => exact h
      | none =>
        show ((p :: map).map _).Nodup
        rw [List.map_cons, List.nodup_cons]
        refine ⟨?_, h⟩
        intro hmem
        rw [List.mem_map] at hmem
        obtain ⟨q, hq, hkey⟩ := hmem
        unfold HASH_FIND at hf
        rw [List.find?_eq_none] at hf
        have := hf q hq
        apply this
        have h1 : q.af = p.af := congrArg Prod.fst hkey
        have h2 : krt_table_id q = krt_table_id p := congrArg Prod.snd hkey
        simp [h1, h2]
    | shutdown p =>
      show ((registry_run (krt_sys_shutdown map p) rest).map _).Nodup
      apply ih
      exact List.Nodup.sublist (List.Sublist.map _ (List.erase_sublist p map)) h

/-- C25: table registry exclusivity. `krt_sys_start(p)` returns 0 and leaves the registry as it
was when some protocol is registered for the family and table id of `p`; otherwise it returns 1
and the registry is the old one with `p` inserted. Hence after every sequence of calls of
`krt_sys_start` and `krt_sys_shutdown` from the empty registry, at most one protocol is
registered for every (family, table id), and the lookup `HASH_FIND` that `nl_parse_route` uses
returns, for the key of a registered protocol, that protocol. -/
theorem krt_sys_start_exclusive :
    (∀ (map : List krt_proto) (p : krt_proto),
      (∃ q ∈ map, q.af = p.af ∧ krt_table_id q = krt_table_id p) →
      krt_sys_start map p = (0, map))
    ∧ (∀ (map : List krt_proto) (p : krt_proto),
      (¬ ∃ q ∈ map, q.af = p.af ∧ krt_table_id q = krt_table_id p) →
      krt_sys_start map p = (1, p :: map))
    ∧ ∀ (calls : List registry_call),
      (∀ af id, (registered (registry_run krt_sys_io_init calls) af id).length ≤ 1)
      ∧ ∀ q ∈ registry_run krt_sys_io_init calls,
          HASH_FIND (registry_run krt_sys_io_init calls) q.af (krt_table_id q) = some q := by
  refine ⟨?_, ?_, ?_⟩
  · intro map p ⟨q, hq, h1, h2⟩
    unfold krt_sys_start
    cases hf : HASH_FIND map p.af (krt_table_id p) with
    | some _ => rfl
    | none =>
      exfalso
      unfold HASH_FIND at hf
      rw [List.find?_eq_none] at hf
      apply hf q hq
      simp [h1, h2]
  · intro map p hno
    unfold krt_sys_start
    cases hf : HASH_FIND map p.af (krt_table_id p) with
    | none => rfl
    | some q =>
      exfalso
      apply hno
      unfold HASH_FIND at hf
      have hmem := List.mem_of_find?_eq_some hf
      have hp := List.find?_some hf
      have hp' : q.af = p.af ∧ krt_table_id q = krt_table_id p := by simpa using hp
      exact ⟨q, hmem, hp'⟩
  · intro calls
    exact registered_of_nodup _ (registry_run_nodup calls krt_sys_io_init List.nodup_nil)

/-- C25 at a concrete sequence: two protocols start for (IPv4, 254), the second is refused; the
first shuts down and the second starts again. -/
theorem krt_sys_start_exclusive_witness :
    krt_sys_start [example_proto4] { af := AF_INET, table_id := 254, name := 9 }
      = (0, [example_proto4])
    ∧ krt_sys_start [example_proto6] example_proto4 = (1, [example_proto4, example_proto6])
    ∧ registry_run krt_sys_io_init
        [.start example_proto4, .start { af := AF_INET, table_id := 254, name := 9 },
         .start example_proto6, .shutdown example_proto4,
         .start { af := AF_INET, table_id := 254, name := 9 }]
      = [{ af := AF_INET, table_id := 254, name := 9 }, example_proto6]
    ∧ (registered (registry_run krt_sys_io_init
        [.start example_proto4, .start { af := AF_INET, table_id := 254, name := 9 }])
        AF_INET 254).length ≤ 1 :=
  ⟨krt_sys_start_exclusive.1 [example_proto4] { af := AF_INET, table_id := 254, name := 9 }
      ⟨example_proto4, by decide, by decide, by decide⟩,
   krt_sys_start_exclusive.2.1 [example_proto6] example_proto4 (by decide),
   by decide,
   (krt_sys_start_exclusive.2.2
      [.start example_proto4, .start { af := AF_INET, table_id := 254, name := 9 }]).1
      AF_INET 254⟩

/-- The flag translation of `nl_parse_link` bit by bit. -/
theorem nl_parse_link_flags_bits (fl : Nat) :
    nl_parse_link_flags fl
      = (if fl &&& IFF_UP ≠ 0 then IF_ADMIN_UP else 0)
        ||| (if fl &&& IFF_LOWER_UP ≠ 0 then IF_LINK_UP else 0)
        ||| link_class_flags fl
        ||| (if fl &&& IFF_MULTICAST ≠ 0 then IF_MULTICAST else 0)
    ∧ (nl_parse_link_flags fl &&& IF_ADMIN_UP ≠ 0 ↔ fl &&& IFF_UP ≠ 0)
    ∧ (nl_parse_link_flags fl &&& IF_LINK_UP ≠ 0 ↔ fl &&& IFF_LOWER_UP ≠ 0)
    ∧ (nl_parse_link_flags fl &&& IF_LOOPBACK ≠ 0 ↔ fl &&& IFF_LOOPBACK ≠ 0)
    ∧ (nl_parse_link_flags fl &&& IF_IGNORE ≠ 0 ↔ fl &&& IFF_LOOPBACK ≠ 0)
    ∧ (nl_parse_link_flags fl &&& IF_MULTIACCESS ≠ 0 ↔
        (fl &&& IFF_LOOPBACK ≠ 0 ∨ fl &&& IFF_POINTOPOINT = 0))
    ∧ (nl_parse_link_flags fl &&& IF_BROADCAST ≠ 0 ↔
        (fl &&& IFF_LOOPBACK = 0 ∧ fl &&& IFF_POINTOPOINT = 0 ∧ fl &&& IFF_BROADCAST ≠ 0))
    ∧ (nl_parse_link_flags fl &&& IF_MULTICAST ≠ 0 ↔
        ((fl &&& IFF_LOOPBACK = 0 ∧ (fl &&& IFF_POINTOPOINT ≠ 0 ∨ fl &&& IFF_BROADCAST ≠ 0))
          ∨ fl &&& IFF_MULTICAST ≠ 0))
    ∧ nl_parse_link_flags fl
        ||| (IF_ADMIN_UP ||| IF_LINK_UP ||| IF_MULTIACCESS ||| IF_LOOPBACK ||| IF_IGNORE
              ||| IF_BROADCAST ||| IF_MULTICAST)
        = IF_ADMIN_UP ||| IF_LINK_UP ||| IF_MULTIACCESS ||| IF_LOOPBACK ||| IF_IGNORE
              ||| IF_BROADCAST ||| IF_MULTICAST := by
  unfold nl_parse_link_flags link_class_flags
  by_cases h1 : fl &&& IFF_UP = 0 <;> by_cases h2 : fl &&& IFF_LOWER_UP = 0
    <;> by_cases h3 : fl &&& IFF_LOOPBACK = 0 <;> by_cases h4 : fl &&& IFF_POINTOPOINT = 0
    <;> by_cases h5 : fl &&& IFF_BROADCAST = 0 <;> by_cases h6 : fl &&& IFF_MULTICAST = 0
    <;> simp only [h1, h2, h3, h4, h5, h6, ne_eq, not_true_eq_false, not_false_eq_true,
      if_true, if_false, true_and, false_and, and_true, and_false, or_true, or_false,
      true_or, false_or, iff_true, iff_false, true_iff, false_iff]
    <;> decide

/-- C22: link flag translation. For every `RTM_NEWLINK` message that passes the check-in and
the attribute parse and carries a name (`IFLA_IFNAME` with a payload of at least 2 bytes) and
an MTU, `nl_parse_link` submits an interface record to `if_update`, and with
`fl = i->ifi_flags` the flags of that record are exactly: `IF_ADMIN_UP` iff `fl` has `IFF_UP`;
`IF_LINK_UP` iff `fl` has `IFF_LOWER_UP`; plus `IF_MULTIACCESS | IF_LOOPBACK | IF_IGNORE` if
`fl` has `IFF_LOOPBACK`, else `IF_MULTICAST` if `fl` has `IFF_POINTOPOINT`, else
`IF_MULTIACCESS | IF_BROADCAST | IF_MULTICAST` if `fl` has `IFF_BROADCAST`, else
`IF_MULTIACCESS`; plus `IF_MULTICAST` if `fl` has `IFF_MULTICAST`; and no other flag bit. -/
theorem nl_parse_link_flag_translation (d : Daemon) (m : Mem) (h : Nat) (scan : Bool)
    (nm mt : Nat)
    (hnew : nlmsg_type m h = RTM_NEWLINK)
    (hck : (nl_checkin m h sizeof_ifinfomsg).2 = some (NLMSG_DATA h))
    (hret : (link_parse m h).ret ≠ 0)
    (hname : (link_parse m h).k IFLA_IFNAME = some nm) (hpl : 2 ≤ RTA_PAYLOAD m nm)
    (hmtu : (link_parse m h).k IFLA_MTU = some mt) :
    ∃ (deleted : Option iface) (f : iface),
      nl_parse_link d m h scan = .if_update deleted f (!scan)
      ∧ f.index = ifi_index m (NLMSG_DATA h) ∧ f.mtu = rta_get_u32 m mt
      ∧ f.flags
        = (if ifi_flags m (NLMSG_DATA h) &&& IFF_UP ≠ 0 then IF_ADMIN_UP else 0)
          ||| (if ifi_flags m (NLMSG_DATA h) &&& IFF_LOWER_UP ≠ 0 then IF_LINK_UP else 0)
          ||| link_class_flags (ifi_flags m (NLMSG_DATA h))
          ||| (if ifi_flags m (NLMSG_DATA h) &&& IFF_MULTICAST ≠ 0 then IF_MULTICAST else 0)
      ∧ (f.flags &&& IF_ADMIN_UP ≠ 0 ↔ ifi_flags m (NLMSG_DATA h) &&& IFF_UP ≠ 0)
      ∧ (f.flags &&& IF_LINK_UP ≠ 0 ↔ ifi_flags m (NLMSG_DATA h) &&& IFF_LOWER_UP ≠ 0)
      ∧ (f.flags &&& IF_LOOPBACK ≠ 0 ↔ ifi_flags m (NLMSG_DATA h) &&& IFF_LOOPBACK ≠ 0)
      ∧ (f.flags &&& IF_IGNORE ≠ 0 ↔ ifi_flags m (NLMSG_DATA h) &&& IFF_LOOPBACK ≠ 0)
      ∧ (f.flags &&& IF_MULTIACCESS ≠ 0 ↔
          (ifi_flags m (NLMSG_DATA h) &&& IFF_LOOPBACK ≠ 0
            ∨ ifi_flags m (NLMSG_DATA h) &&& IFF_POINTOPOINT = 0))
      ∧ (f.flags &&& IF_BROADCAST ≠ 0 ↔
          (ifi_flags m (NLMSG_DATA h) &&& IFF_LOOPBACK = 0
            ∧ ifi_flags m (NLMSG_DATA h) &&& IFF_POINTOPOINT = 0
            ∧ ifi_flags m (NLMSG_DATA h) &&& IFF_BROADCAST ≠ 0))
      ∧ (f.flags &&& IF_MULTICAST ≠ 0 ↔
          ((ifi_flags m (NLMSG_DATA h) &&& IFF_LOOPBACK = 0
              ∧ (ifi_flags m (NLMSG_DATA h) &&& IFF_POINTOPOINT ≠ 0
                ∨ ifi_flags m (NLMSG_DATA h) &&& IFF_BROADCAST ≠ 0))
            ∨ ifi_flags m (NLMSG_DATA h) &&& IFF_MULTICAST ≠ 0))
      ∧ f.flags
          ||| (IF_ADMIN_UP ||| IF_LINK_UP ||| IF_MULTIACCESS ||| IF_LOOPBACK ||| IF_IGNORE
                ||| IF_BROADCAST ||| IF_MULTICAST)
          = IF_ADMIN_UP ||| IF_LINK_UP ||| IF_MULTIACCESS ||| IF_LOOPBACK ||| IF_IGNORE
                ||| IF_BROADCAST ||| IF_MULTICAST := by
  have hpair : nl_checkin m h sizeof_ifinfomsg
      = ((nl_checkin m h sizeof_ifinfomsg).1, some (NLMSG_DATA h)) := by
    rw [← hck]
  unfold link_parse at hret hname hmtu
  have hpl' : ¬ RTA_PAYLOAD m nm < 2 := by omega
  have hn : (nlmsg_type m h == RTM_NEWLINK) = true := by rw [hnew]; rfl
  refine ⟨(match d.if_find_by_index (ifi_index m (NLMSG_DATA h)) with
      | some ifi => if ifi.name.take 15 ≠ c_string m (RTA_DATA nm) 15 then some ifi else none
      | none => none),
    { name := c_string m (RTA_DATA nm) 15, index := ifi_index m (NLMSG_DATA h),
      mtu := rta_get_u32 m mt, flags := nl_parse_link_flags (ifi_flags m (NLMSG_DATA h)) },
    ?_, rfl, rfl, nl_parse_link_flags_bits (ifi_flags m (NLMSG_DATA h))⟩
  unfold nl_parse_link
  rw [hpair]
  simp only []
  rw [if_neg hret, hname, hmtu]
  simp only []
  rw [if_neg hpl', hn]
  rfl

/-- C22 at a concrete message: the link message of `eth0` with the kernel flags
`IFF_UP | IFF_BROADCAST | IFF_MULTICAST | IFF_LOWER_UP` gives the record flags
`IF_ADMIN_UP | IF_LINK_UP | IF_MULTIACCESS | IF_BROADCAST | IF_MULTICAST`. -/
theorem nl_parse_link_flag_translation_witness :
    (∃ (deleted : Option iface) (f : iface),
      nl_parse_link example_daemon link_msg_eth0 0 false = .if_update deleted f (!false)
      ∧ f.index = ifi_index link_msg_eth0 (NLMSG_DATA 0) ∧ f.mtu = rta_get_u32 link_msg_eth0 44
      ∧ f.flags
        = (if ifi_flags link_msg_eth0 (NLMSG_DATA 0) &&& IFF_UP ≠ 0 then IF_ADMIN_UP else 0)
          ||| (if ifi_flags link_msg_eth0 (NLMSG_DATA 0) &&& IFF_LOWER_UP ≠ 0 then IF_LINK_UP
                else 0)
          ||| link_class_flags (ifi_flags link_msg_eth0 (NLMSG_DATA 0))
          ||| (if ifi_flags link_msg_eth0 (NLMSG_DATA 0) &&& IFF_MULTICAST ≠ 0 then IF_MULTICAST
                else 0)
      ∧ (f.flags &&& IF_ADMIN_UP ≠ 0 ↔ ifi_flags link_msg_eth0 (NLMSG_DATA 0) &&& IFF_UP ≠ 0)
      ∧ (f.flags &&& IF_LINK_UP ≠ 0
          ↔ ifi_flags link_msg_eth0 (NLMSG_DATA 0) &&& IFF_LOWER_UP ≠ 0)
      ∧ (f.flags &&& IF_LOOPBACK ≠ 0
          ↔ ifi_flags link_msg_eth0 (NLMSG_DATA 0) &&& IFF_LOOPBACK ≠ 0)
      ∧ (f.flags &&& IF_IGNORE ≠ 0
          ↔ ifi_flags link_msg_eth0 (NLMSG_DATA 0) &&& IFF_LOOPBACK ≠ 0)
      ∧ (f.flags &&& IF_MULTIACCESS ≠ 0 ↔
          (ifi_flags link_msg_eth0 (NLMSG_DATA 0) &&& IFF_LOOPBACK ≠ 0
            ∨ ifi_flags link_msg_eth0 (NLMSG_DATA 0) &&& IFF_POINTOPOINT = 0))
      ∧ (f.flags &&& IF_BROADCAST ≠ 0 ↔
          (ifi_flags link_msg_eth0 (NLMSG_DATA 0) &&& IFF_LOOPBACK = 0
            ∧ ifi_flags link_msg_eth0 (NLMSG_DATA 0) &&& IFF_POINTOPOINT = 0
            ∧ ifi_flags link_msg_eth0 (NLMSG_DATA 0) &&& IFF_BROADCAST ≠ 0))
      ∧ (f.flags &&& IF_MULTICAST ≠ 0 ↔
          ((ifi_flags link_msg_eth0 (NLMSG_DATA 0) &&& IFF_LOOPBACK = 0
              ∧ (ifi_flags link_msg_eth0 (NLMSG_DATA 0) &&& IFF_POINTOPOINT ≠ 0
                ∨ ifi_flags link_msg_eth0 (NLMSG_DATA 0) &&& IFF_BROADCAST ≠ 0))
            ∨ ifi_flags link_msg_eth0 (NLMSG_DATA 0) &&& IFF_MULTICAST ≠ 0))
      ∧ f.flags
          ||| (IF_ADMIN_UP ||| IF_LINK_UP ||| IF_MULTIACCESS ||| IF_LOOPBACK ||| IF_IGNORE
                ||| IF_BROADCAST ||| IF_MULTICAST)
          = IF_ADMIN_UP ||| IF_LINK_UP ||| IF_MULTIACCESS ||| IF_LOOPBACK ||| IF_IGNORE
                ||| IF_BROADCAST ||| IF_MULTICAST)
    ∧ nl_parse_link example_daemon link_msg_eth0 0 false
        = .if_update none
            { name := [101, 116, 104, 48], index := 2, mtu := 1500,
              flags := IF_ADMIN_UP ||| IF_LINK_UP ||| IF_MULTIACCESS ||| IF_BROADCAST
                ||| IF_MULTICAST } true :=
  ⟨nl_parse_link_flag_translation example_daemon link_msg_eth0 0 false 32 44
      (by decide) (by decide) (by decide) (by decide) (by decide) (by decide),
   by decide⟩

/-- The end of `nl_parse_route` drops the message after the network lookup, or delivers a
route with the destination, the source and the protocol tag it was given. -/
theorem nl_parse_route_deliver_elim (m : Mem) (i : Nat) (scan new : Bool) (a : AttrVec)
    (p : krt_proto) (dst : net_addr) (src : krt_src) (ra : rta) (P : RouteOutcome → Prop)
    (h0 : P (.ignored (some dst)))
    (h1 : ∀ e : rte, e.net = dst → e.krt_src = src → e.krt_proto = rtm_protocol m i →
      P (if scan then .got_route p e else .got_route_async p e new)) :
    P (nl_parse_route_deliver m i scan new a p dst src ra) := by
  unfold nl_parse_route_deliver
  simp only []
  cases hM : a RTA_METRICS with
  | none => simp only []; exact h1 _ rfl rfl rfl
  | some x =>
    simp only []
    split
    · exact h0
    · split
      · exact h1 _ rfl rfl rfl
      · exact h1 _ rfl rfl rfl

/-- What holds of both branches of a conditional holds of the conditional. -/
theorem ite_elim {α : Type} (P : α → Prop) (c : Prop) [Decidable c] (x y : α)
    (hx : c → P x) (hy : ¬ c → P y) : P (if c then x else y) := by
  by_cases h : c
  · rw [if_pos h]; exact hx h
  · rw [if_neg h]; exact hy h

/-- The part of `nl_parse_route` that reads the label stacks drops the message, dereferences
a `NULL` pointer, or goes on to the end of the function. -/
theorem nl_parse_route_labels_elim (m : Mem) (i : Nat) (scan new : Bool) (a : AttrVec)
    (p : krt_proto) (dst : net_addr) (src : krt_src) (ra : rta) (P : RouteOutcome → Prop)
    (h0 : P (.ignored (some dst))) (hn : P .null_deref)
    (h1 : ∀ r : rta, P (nl_parse_route_deliver m i scan new a p dst src r)) :
    P (nl_parse_route_labels m i scan new a p dst src ra) := by
  unfold nl_parse_route_labels
  simp only []
  generalize (match a RTA_NEWDST with
    | some x =>
      if rtm_family m i = AF_MPLS ∧ ra.nh_next = [] then
        { ra with nh := { ra.nh with labels := (rta_get_mpls m x).1,
                                     label := (rta_get_mpls m x).2 } }
      else ra
    | none => ra) = ra1
  cases hE : a RTA_ENCAP with
  | none => simp only []; exact h1 _
  | some enc =>
    cases hT : a RTA_ENCAP_TYPE with
    | none => simp only []; exact h1 _
    | some ty =>
      simp only []
      refine ite_elim P _ _ _ (fun _ => ?_) (fun _ => h1 _)
      refine ite_elim P _ _ _ (fun _ => ?_) (fun _ => h0)
      generalize (nl_parse_attrs m (RTA_DATA enc) encap_mpls_want BIRD_RTA_MAX
        (RTA_PAYLOAD m enc)).k RTA_DST = o
      cases o with
      | none => exact hn
      | some x => exact h1 _

/-- The switch on `rtm_type` of `nl_parse_route` drops the message, dereferences a `NULL`
pointer, or goes on to the end of the function. -/
theorem nl_parse_route_type_elim (d : Daemon) (m : Mem) (i : Nat) (scan new : Bool)
    (a : AttrVec) (p : krt_proto) (dst : net_addr) (src : krt_src) (oif : Nat)
    (P : RouteOutcome → Prop)
    (h0 : P (.ignored (some dst))) (hn : P .null_deref)
    (h1 : ∀ r : rta, P (nl_parse_route_deliver m i scan new a p dst src r)) :
    P (nl_parse_route_type d m i scan new a p dst src oif) := by
  have hl : ∀ r : rta, P (nl_parse_route_labels m i scan new a p dst src r) :=
    fun r => nl_parse_route_labels_elim m i scan new a p dst src r P h0 hn h1
  unfold nl_parse_route_type
  simp only []
  by_cases ht : rtm_type m i = RTN_UNICAST
  · rw [if_pos ht]
    generalize (if rtm_family m i = AF_INET then a RTA_MULTIPATH else none) = mpo
    cases mpo with
    | some mp =>
      simp only []
      cases hmp : nl_parse_multipath d m p mp with
      | none => exact h0
      | some l =>
        cases l with
        | nil => exact h0
        | cons nh rest => exact hl _
    | none =>
      simp only []
      cases hif : d.if_find_by_index oif with
      | none => exact h0
      | some ifa =>
        simp only []
        generalize (if rtm_family m i ≠ AF_MPLS then a RTA_GATEWAY else a RTA_VIA) = go
        cases go with
        | none => exact hl _
        | some g =>
          simp only []
          generalize (if rtm_family m i = AF_MPLS then rta_get_via m g else rta_get_ipa m g) = gw
          split
          · exact h0
          · cases hnb : d.neigh_find2 p gw ifa (rtm_flags m i &&& RTNH_F_ONLINK != 0) with
            | none => exact h0
            | some nbr =>
              simp only []
              split
              · exact h0
              · exact hl _
  · rw [if_neg ht]
    by_cases hb : rtm_type m i = RTN_BLACKHOLE
    · rw [if_pos hb]; exact hl _
    rw [if_neg hb]
    by_cases hu : rtm_type m i = RTN_UNREACHABLE
    · rw [if_pos hu]; exact hl _
    rw [if_neg hu]
    by_cases hp : rtm_type m i = RTN_PROHIBIT
    · rw [if_pos hp]; exact hl _
    rw [if_neg hp]
    exact h0

/-- After the per-family parse, `nl_parse_route` either returns before looking a network up,
or reaches the switch on `rtm_type` with a protocol tag that is neither `RTPROT_UNSPEC` nor
`RTPROT_KERNEL`, is `RTPROT_BIRD` only during a scan, and with the source that the switch on
`rtm_protocol` assigns. -/
theorem nl_parse_route_checks_elim_src (d : Daemon) (m : Mem) (i : Nat) (scan new : Bool)
    (a : AttrVec) (dst : net_addr) (P : RouteOutcome → Prop) (h0 : P (.ignored none))
    (h1 : ∀ p, HASH_FIND d.nl_table_map (rtm_family m i) (attr_table_id m i a) = some p →
      rtm_protocol m i ≠ RTPROT_UNSPEC → rtm_protocol m i ≠ RTPROT_KERNEL →
      (rtm_protocol m i = RTPROT_BIRD → scan = true) →
      P (nl_parse_route_type d m i scan new a p dst (route_src (rtm_protocol m i))
        (attr_oif m a))) :
    P (nl_parse_route_checks d m i scan new a dst) := by
  have ht : attr_table_id m i a = (match a RTA_TABLE with
      | some x => rta_get_u32 m x
      | none => rtm_table m i) := rfl
  have ho : attr_oif m a = (match a RTA_OIF with
      | some x => rta_get_u32 m x
      | none => 0xFFFFFFFF) := rfl
  unfold nl_parse_route_checks
  cases hT : a RTA_TABLE <;> cases hO : a RTA_OIF <;> rw [hT] at ht <;> rw [hO] at ho <;>
    rw [ht, ho] at h1 <;> simp only [] <;> split <;>
    first
    | with_reducible exact h0
    | (rename_i p hp
       by_cases c1 : (a RTA_IIF).isSome = true
       · rw [if_pos c1]; exact h0
       rw [if_neg c1]
       by_cases c2 : rtm_tos m i ≠ 0
       · rw [if_pos c2]; exact h0
       rw [if_neg c2]
       by_cases c3 : (scan && !new) = true
       · rw [if_pos c3]; exact h0
       rw [if_neg c3]
       by_cases c4 : d.net_classify dst < 0 ∨ (d.net_classify dst).toNat &&& IADDR_HOST = 0
           ∨ (((d.net_classify dst).toNat &&& IADDR_SCOPE_MASK : Nat) : Int) ≤ SCOPE_LINK
       · rw [if_pos c4]; exact h0
       rw [if_neg c4]
       by_cases c5 : rtm_protocol m i = RTPROT_UNSPEC
       · rw [if_pos c5]; exact h0
       rw [if_neg c5]
       by_cases c6 : rtm_protocol m i = RTPROT_REDIRECT
       · rw [if_pos c6]
         have hs : route_src (rtm_protocol m i) = .REDIRECT := by
           unfold route_src; rw [if_pos c6]
         have := h1 p hp c5 (by rw [c6]; decide) (by rw [c6]; intro hh; exact absurd hh (by decide))
         rw [hs] at this
         exact this
       rw [if_neg c6]
       by_cases c7 : rtm_protocol m i = RTPROT_KERNEL
       · rw [if_pos c7]; exact h0
       rw [if_neg c7]
       by_cases c8 : rtm_protocol m i = RTPROT_BIRD
       · rw [if_pos c8]
         by_cases c9 : (!scan) = true
         · rw [if_pos c9]; exact h0
         · rw [if_neg c9]
           have hs : route_src (rtm_protocol m i) = .BIRD := by
             unfold route_src; rw [if_neg c6, if_pos c8]
           have hsc : scan = true := by
             cases scan
             · exact absurd rfl c9
             · rfl
           have := h1 p hp c5 c7 (fun _ => hsc)
           rw [hs] at this
           exact this
       · rw [if_neg c8]
         have hs : route_src (rtm_protocol m i) = .ALIEN := by
           unfold route_src; rw [if_neg c6, if_neg c8]
         have := h1 p hp c5 c7 (fun hh => absurd hh c8)
         rw [hs] at this
         exact this)

/-- The outcome of `nl_parse_route` is an early return, or that of the switch on `rtm_type`
reached with an importable protocol tag and the source assigned to it. -/
theorem nl_parse_route_elim_src (d : Daemon) (m : Mem) (h : Nat) (scan : Bool)
    (P : RouteOutcome → Prop) (h0 : P (.ignored none))
    (h1 : ∀ p dst,
      HASH_FIND d.nl_table_map (rtm_family m (NLMSG_DATA h))
        (attr_table_id m (NLMSG_DATA h) (route_attr_vec m h)) = some p →
      rtm_protocol m (NLMSG_DATA h) ≠ RTPROT_UNSPEC →
      rtm_protocol m (NLMSG_DATA h) ≠ RTPROT_KERNEL →
      (rtm_protocol m (NLMSG_DATA h) = RTPROT_BIRD → scan = true) →
      P (nl_parse_route_type d m (NLMSG_DATA h) scan (nlmsg_type m h == RTM_NEWROUTE)
        (route_attr_vec m h) p dst (route_src (rtm_protocol m (NLMSG_DATA h)))
        (attr_oif m (route_attr_vec m h)))) :
    P (nl_parse_route d m h scan) := by
  unfold nl_parse_route
  rcases nl_checkin_cases m h sizeof_rtmsg with hck | hck
  · rw [hck]; exact h0
  · rw [hck]
    simp only []
    unfold route_attr_vec rtm_attr_want at h1
    by_cases h4 : rtm_family m (NLMSG_DATA h) = AF_INET
    · rw [if_pos h4] at h1 ⊢
      split
      · exact h0
      · split <;>
          exact nl_parse_route_checks_elim_src d m _ scan _ _ _ P h0 (fun p => h1 p _)
    · rw [if_neg h4] at h1 ⊢
      by_cases h6 : rtm_family m (NLMSG_DATA h) = AF_INET6
      · rw [if_pos h6] at h1 ⊢
        split
        · exact h0
        · split <;>
            exact nl_parse_route_checks_elim_src d m _ scan _ _ _ P h0 (fun p => h1 p _)
      · rw [if_neg h6] at h1 ⊢
        by_cases hm : rtm_family m (NLMSG_DATA h) = AF_MPLS
        · rw [if_pos hm]
          split
          · exact h0
          · split
            · split <;>
                exact nl_parse_route_checks_elim_src d m _ scan _ _ _ P h0 (fun p => h1 p _)
            · exact h0
        · rw [if_neg hm]; exact h0

/-- A route that `nl_parse_route` delivers comes from a message whose protocol tag is neither
`RTPROT_UNSPEC` nor `RTPROT_KERNEL`, and `RTPROT_BIRD` only during a scan; its source is the
one assigned to the tag and its `u.krt.proto` is the tag. -/
theorem nl_parse_route_delivers_src (d : Daemon) (m : Mem) (h : Nat) (scan : Bool)
    (p : krt_proto) (e : rte) (hd : (nl_parse_route d m h scan).delivers p e) :
    rtm_protocol m (NLMSG_DATA h) ≠ RTPROT_UNSPEC
    ∧ rtm_protocol m (NLMSG_DATA h) ≠ RTPROT_KERNEL
    ∧ (rtm_protocol m (NLMSG_DATA h) = RTPROT_BIRD → scan = true)
    ∧ e.krt_src = route_src (rtm_protocol m (NLMSG_DATA h))
    ∧ e.krt_proto = rtm_protocol m (NLMSG_DATA h) := by
  have key : ∀ r : RouteOutcome, r = nl_parse_route d m h scan → r.delivers p e →
      (rtm_protocol m (NLMSG_DATA h) ≠ RTPROT_UNSPEC
      ∧ rtm_protocol m (NLMSG_DATA h) ≠ RTPROT_KERNEL
      ∧ (rtm_protocol m (NLMSG_DATA h) = RTPROT_BIRD → scan = true)
      ∧ e.krt_src = route_src (rtm_protocol m (NLMSG_DATA h))
      ∧ e.krt_proto = rtm_protocol m (NLMSG_DATA h)) := by
    intro r hr
    rw [hr]
    refine nl_parse_route_elim_src d m h scan (fun r => r.delivers p e →
      (rtm_protocol m (NLMSG_DATA h) ≠ RTPROT_UNSPEC
      ∧ rtm_protocol m (NLMSG_DATA h) ≠ RTPROT_KERNEL
      ∧ (rtm_protocol m (NLMSG_DATA h) = RTPROT_BIRD → scan = true)
      ∧ e.krt_src = route_src (rtm_protocol m (NLMSG_DATA h))
      ∧ e.krt_proto = rtm_protocol m (NLMSG_DATA h))) ?_ ?_
    · intro hd
      rcases hd with hd | ⟨_, hd⟩ <;> cases hd
    · intro p' dst _ c5 c7 c8
      refine nl_parse_route_type_elim d m (NLMSG_DATA h) scan (nlmsg_type m h == RTM_NEWROUTE)
        (route_attr_vec m h) p' dst (route_src (rtm_protocol m (NLMSG_DATA h)))
        (attr_oif m (route_attr_vec m h)) (fun r => r.delivers p e →
          (rtm_protocol m (NLMSG_DATA h) ≠ RTPROT_UNSPEC
          ∧ rtm_protocol m (NLMSG_DATA h) ≠ RTPROT_KERNEL
          ∧ (rtm_protocol m (NLMSG_DATA h) = RTPROT_BIRD → scan = true)
          ∧ e.krt_src = route_src (rtm_protocol m (NLMSG_DATA h))
          ∧ e.krt_proto = rtm_protocol m (NLMSG_DATA h))) ?_ ?_ ?_
      · intro hd
        rcases hd with hd | ⟨_, hd⟩ <;> cases hd
      · intro hd
        rcases hd with hd | ⟨_, hd⟩ <;> cases hd
      · intro r
        refine nl_parse_route_deliver_elim m (NLMSG_DATA h) scan (nlmsg_type m h == RTM_NEWROUTE)
          (route_attr_vec m h) p' dst (route_src (rtm_protocol m (NLMSG_DATA h))) r
          (fun r => r.delivers p e →
            (rtm_protocol m (NLMSG_DATA h) ≠ RTPROT_UNSPEC
            ∧ rtm_protocol m (NLMSG_DATA h) ≠ RTPROT_KERNEL
            ∧ (rtm_protocol m (NLMSG_DATA h) = RTPROT_BIRD → scan = true)
            ∧ e.krt_src = route_src (rtm_protocol m (NLMSG_DATA h))
            ∧ e.krt_proto = rtm_protocol m (NLMSG_DATA h))) ?_ ?_
        · intro hd
          rcases hd with hd | ⟨_, hd⟩ <;> cases hd
        · intro e' _ hsrc hproto hd
          have he : e' = e := by
            cases scan
            · rcases hd with hd | ⟨_, hd⟩
              · simp at hd
              · simp at hd
                exact hd.2.1
            · rcases hd with hd | ⟨_, hd⟩
              · simp at hd
                exact hd.2
              · simp at hd
          subst he
          exact ⟨c5, c7, c8, hsrc, hproto⟩
  exact key _ rfl hd

/-- C23: source classification. `nl_parse_route` delivers no route when `rtm_protocol` is
`RTPROT_UNSPEC` or `RTPROT_KERNEL`, and none when it is `RTPROT_BIRD` on an asynchronous
notification (`scan = 0`); a route that it delivers has the source `KRT_SRC_REDIRECT` for
`RTPROT_REDIRECT`, `KRT_SRC_BIRD` for `RTPROT_BIRD` (then during a scan), and `KRT_SRC_ALIEN`
for every other protocol tag, `RTPROT_BOOT` included, and `e->u.krt.proto = rtm_protocol`. -/
theorem nl_parse_route_source (d : Daemon) (m : Mem) (h : Nat) (scan : Bool) :
    ((rtm_protocol m (NLMSG_DATA h) = RTPROT_UNSPEC
        ∨ rtm_protocol m (NLMSG_DATA h) = RTPROT_KERNEL
        ∨ (rtm_protocol m (NLMSG_DATA h) = RTPROT_BIRD ∧ scan = false)) →
      (nl_parse_route d m h scan).delivered = false)
    ∧ ∀ (p : krt_proto) (e : rte), (nl_parse_route d m h scan).delivers p e →
        e.krt_proto = rtm_protocol m (NLMSG_DATA h)
        ∧ (rtm_protocol m (NLMSG_DATA h) = RTPROT_REDIRECT → e.krt_src = .REDIRECT)
        ∧ (rtm_protocol m (NLMSG_DATA h) = RTPROT_BIRD → scan = true ∧ e.krt_src = .BIRD)
        ∧ (rtm_protocol m (NLMSG_DATA h) ≠ RTPROT_REDIRECT →
            rtm_protocol m (NLMSG_DATA h) ≠ RTPROT_BIRD → e.krt_src = .ALIEN)
        ∧ (rtm_protocol m (NLMSG_DATA h) = RTPROT_BOOT → e.krt_src = .ALIEN) := by
  refine ⟨?_, ?_⟩
  · intro hbad
    cases hr : nl_parse_route d m h scan with
    | ignored l => rfl
    | null_deref => rfl
    | got_route p e =>
      exfalso
      have hd := nl_parse_route_delivers_src d m h scan p e (by rw [hr]; exact Or.inl rfl)
      rcases hbad with hb | hb | ⟨hb, hs⟩
      · exact hd.1 hb
      · exact hd.2.1 hb
      · have := hd.2.2.1 hb
        rw [hs] at this
        cases this
    | got_route_async p e new =>
      exfalso
      have hd := nl_parse_route_delivers_src d m h scan p e (by rw [hr]; exact Or.inr ⟨new, rfl⟩)
      rcases hbad with hb | hb | ⟨hb, hs⟩
      · exact hd.1 hb
      · exact hd.2.1 hb
      · have := hd.2.2.1 hb
        rw [hs] at this
        cases this
  · intro p e hd
    obtain ⟨_, _, c8, hsrc, hproto⟩ := nl_parse_route_delivers_src d m h scan p e hd
    refine ⟨hproto, ?_, ?_, ?_, ?_⟩
    · intro hp
      rw [hsrc, hp]; rfl
    · intro hp
      refine ⟨c8 hp, ?_⟩
      rw [hsrc, hp]; rfl
    · intro h1 h2
      rw [hsrc]
      unfold route_src
      rw [if_neg h1, if_neg h2]
    · intro hp
      rw [hsrc, hp]; rfl

/-- C23 at concrete messages: the route `10.0.0.0/24 dev 2` is delivered with the source
`KRT_SRC_ALIEN` under the tag `RTPROT_BOOT`, with `KRT_SRC_BIRD` under `RTPROT_BIRD` during a
scan, with `KRT_SRC_REDIRECT` under `RTPROT_REDIRECT`; it is not delivered under `RTPROT_BIRD`
outside a scan, nor under `RTPROT_KERNEL`. -/
theorem nl_parse_route_source_witness :
    (nl_parse_route example_daemon route_msg_dev_bird 0 false).delivered = false
    ∧ (nl_parse_route example_daemon route_msg_dev_kernel 0 true).delivered = false
    ∧ nl_parse_route example_daemon route_msg_dev 0 true
        = .got_route example_proto4
            { net := .ip4 (10 * 2 ^ 24) 24,
              attrs := { dest := .UNICAST, nh := { iface := some example_eth0 } },
              krt_src := .ALIEN, krt_proto := RTPROT_BOOT }
    ∧ nl_parse_route example_daemon route_msg_dev_bird 0 true
        = .got_route example_proto4
            { net := .ip4 (10 * 2 ^ 24) 24,
              attrs := { dest := .UNICAST, nh := { iface := some example_eth0 } },
              krt_src := .BIRD, krt_proto := RTPROT_BIRD }
    ∧ nl_parse_route example_daemon route_msg_dev_redirect 0 false
        = .got_route_async example_proto4
            { net := .ip4 (10 * 2 ^ 24) 24,
              attrs := { dest := .UNICAST, nh := { iface := some example_eth0 } },
              krt_src := .REDIRECT, krt_proto := RTPROT_REDIRECT } true :=
  ⟨(nl_parse_route_source example_daemon route_msg_dev_bird 0 false).1
      (Or.inr (Or.inr ⟨by decide, rfl⟩)),
   (nl_parse_route_source example_daemon route_msg_dev_kernel 0 true).1
      (Or.inr (Or.inl (by decide))),
   by decide, by decide, by decide⟩

/-- The value that `rta_get_u32` reads from an attribute with a payload of the 4 bytes `d`. -/
theorem rta_get_u32_le32 (m : Mem) (a : Nat) (d : List Nat) (h4 : d.length = 4)
    (hdata : ∀ i, i < d.length → m (RTA_DATA a + i) = d.getD i 0) :
    rta_get_u32 m a = le32 d := by
  have h0 := hdata 0 (by omega)
  have h1 := hdata 1 (by omega)
  have h2 := hdata 2 (by omega)
  have h3 := hdata 3 (by omega)
  simp only [Nat.add_zero] at h0
  simp only [rta_get_u32, le32, ld32, ld16, ld8, mem_of_list]
  have e2 : RTA_DATA a + 2 + 1 = RTA_DATA a + 3 := by omega
  rw [e2, h0, h1, h2, h3]

/-- The head of a laid-out attribute list passes `RTA_OK` for the padded length of the list,
and `RTA_NEXT` leaves the padded length of the rest. -/
theorem attrs_at_head_ok (m : Mem) (a c : Nat) (d : List Nat) (rest : List (Nat × List Nat))
    (hat : attrs_at m a ((c, d) :: rest)) :
    RTA_OK m a ((attrs_space ((c, d) :: rest) : Nat) : Int) = true
    ∧ rta_type m a = c
    ∧ RTA_PAYLOAD m a = (d.length : Nat)
    ∧ (((attrs_space ((c, d) :: rest) : Nat) : Int) - ((RTA_ALIGN (rta_len m a) : Nat) : Int)
        = ((attrs_space rest : Nat) : Int))
    ∧ attrs_at m (a + RTA_ALIGN (rta_len m a)) rest
    ∧ 4 ≤ RTA_ALIGN (rta_len m a) := by
  obtain ⟨hrl, hrt, _, hrest⟩ := hat
  have hge := RTA_ALIGN_ge (RTA_LENGTH d.length)
  have hL := RTA_LENGTH_eq d.length
  refine ⟨?_, hrt, ?_, ?_, ?_, ?_⟩
  · rw [RTA_OK_iff, hrl]
    simp only [attrs_space]
    refine ⟨?_, by omega, ?_⟩ <;> push_cast <;> omega
  · simp only [RTA_PAYLOAD, hrl, RTA_LENGTH_eq]
    push_cast; omega
  · rw [hrl]
    simp only [attrs_space]
    push_cast; omega
  · rw [hrl]; exact hrest
  · rw [hrl]; omega

/-- A sub-attribute with a code from 1 to `max - 1` whose payload is not 4 bytes long makes
the loop of `nl_parse_metrics` return -1. -/
theorem nl_parse_metrics_loop_bad (m : Mem) (max : Nat) :
    ∀ (attrs : List (Nat × List Nat)) (fuel a : Nat) (vec : Nat → Nat),
      attrs_at m a attrs → attrs_space attrs ≤ fuel →
      (∃ cd ∈ attrs, 1 ≤ cd.1 ∧ cd.1 < max ∧ cd.2.length ≠ 4) →
      (nl_parse_metrics_loop m max fuel a (attrs_space attrs : Nat) vec).1 = -1 := by
  intro attrs
  induction attrs with
  | nil => intro _ _ _ _ _ ⟨cd, hcd, _⟩; cases hcd
  | cons x rest ih =>
    obtain ⟨c, d⟩ := x
    intro fuel a vec hat hfuel hbad
    obtain ⟨hok, hrt, hp, hnext, hrest, h4⟩ := attrs_at_head_ok m a c d rest hat
    have hsp : attrs_space ((c, d) :: rest)
        = RTA_ALIGN (RTA_LENGTH d.length) + attrs_space rest := rfl
    have hrl : rta_len m a = RTA_LENGTH d.length := hat.1
    cases fuel with
    | zero => rw [hsp, ← hrl] at hfuel; omega
    | succ f =>
      have hf : attrs_space rest ≤ f := by rw [hsp, ← hrl] at hfuel; omega
      rw [nl_parse_metrics_loop, if_pos hok, hnext, hrt]
      by_cases h0 : c = RTA_UNSPEC
      · rw [if_pos h0]
        apply ih f _ vec hrest hf
        obtain ⟨cd, hcd, h1, h2, h3⟩ := hbad
        rcases List.mem_cons.mp hcd with he | hr
        · subst he
          simp only [RTA_UNSPEC] at h0
          omega
        · exact ⟨cd, hr, h1, h2, h3⟩
      rw [if_neg h0]
      by_cases hm : max ≤ c
      · rw [if_pos hm]
        apply ih f _ vec hrest hf
        obtain ⟨cd, hcd, h1, h2, h3⟩ := hbad
        rcases List.mem_cons.mp hcd with he | hr
        · subst he
          omega
        · exact ⟨cd, hr, h1, h2, h3⟩
      rw [if_neg hm]
      by_cases h4' : d.length = 4
      · have hp4 : ¬ RTA_PAYLOAD m a ≠ 4 := by rw [hp, h4']; simp
        rw [if_neg hp4]
        apply ih f _ _ hrest hf
        obtain ⟨cd, hcd, h1, h2, h3⟩ := hbad
        rcases List.mem_cons.mp hcd with he | hr
        · subst he
          exact absurd h4' h3
        · exact ⟨cd, hr, h1, h2, h3⟩
      · have hp4 : RTA_PAYLOAD m a ≠ 4 := by
          rw [hp]
          intro hh
          apply h4'
          exact_mod_cast hh
        rw [if_pos hp4]

/-- When every sub-attribute with a code from 1 to `max - 1` has a payload of 4 bytes, the
loop of `nl_parse_metrics` returns 0; it has set in slot 0 the bits of the codes from 1 to
`max - 1` that occur, it has left the slots of the other codes as they were, and the slot of
a code that occurs holds the value of its sub-attribute. -/
theorem nl_parse_metrics_loop_good (m : Mem) (max : Nat) (hmax : max ≤ 32) :
    ∀ (attrs : List (Nat × List Nat)) (fuel a : Nat) (vec : Nat → Nat),
      attrs_at m a attrs → attrs_space attrs ≤ fuel →
      (∀ cd ∈ attrs, 1 ≤ cd.1 → cd.1 < max → cd.2.length = 4) → vec 0 < 2 ^ 32 →
      (nl_parse_metrics_loop m max fuel a (attrs_space attrs : Nat) vec).1 = 0
      ∧ (nl_parse_metrics_loop m max fuel a (attrs_space attrs : Nat) vec).2 0 < 2 ^ 32
      ∧ (∀ i, ((nl_parse_metrics_loop m max fuel a (attrs_space attrs : Nat) vec).2 0).testBit i
          = ((vec 0).testBit i
              || (decide (1 ≤ i) && decide (i < max) && decide (i ∈ attrs.map Prod.fst))))
      ∧ (∀ t, 1 ≤ t → (t ∉ attrs.map Prod.fst ∨ max ≤ t) →
          (nl_parse_metrics_loop m max fuel a (attrs_space attrs : Nat) vec).2 t = vec t)
      ∧ (∀ t d, 1 ≤ t → t < max → (t, d) ∈ attrs → (∀ d', (t, d') ∈ attrs → d' = d) →
          (nl_parse_metrics_loop m max fuel a (attrs_space attrs : Nat) vec).2 t = le32 d) := by
  intro attrs
  induction attrs with
  | nil =>
    intro fuel a vec _ _ _ hv
    have hno : RTA_OK m a 0 = false := by simp [RTA_OK, sizeof_rtattr]
    have hr : nl_parse_metrics_loop m max fuel a ((attrs_space [] : Nat) : Int) vec = (0, vec) := by
      cases fuel with
      | zero => simp [nl_parse_metrics_loop, attrs_space]
      | succ f => simp [nl_parse_metrics_loop, attrs_space, hno]
    rw [hr]
    refine ⟨rfl, hv, fun i => by simp, fun t _ _ => rfl, fun t d _ _ hmem _ => by cases hmem⟩
  | cons x rest ih =>
    obtain ⟨c, d⟩ := x
    intro fuel a vec hat hfuel hgood hv
    obtain ⟨hok, hrt, hp, hnext, hrest, h4⟩ := attrs_at_head_ok m a c d rest hat
    have hsp : attrs_space ((c, d) :: rest)
        = RTA_ALIGN (RTA_LENGTH d.length) + attrs_space rest := rfl
    have hrl : rta_len m a = RTA_LENGTH d.length := hat.1
    have hgood' : ∀ cd ∈ rest, 1 ≤ cd.1 → cd.1 < max → cd.2.length = 4 :=
      fun cd hcd => hgood cd (List.mem_cons_of_mem _ hcd)
    cases fuel with
    | zero => rw [hsp, ← hrl] at hfuel; omega
    | succ f =>
      have hf : attrs_space rest ≤ f := by rw [hsp, ← hrl] at hfuel; omega
      rw [nl_parse_metrics_loop, if_pos hok, hnext, hrt]
      have skip : (c = 0 ∨ max ≤ c) →
          (nl_parse_metrics_loop m max f (a + RTA_ALIGN (rta_len m a)) (attrs_space rest : Nat)
              vec).1 = 0
          ∧ (nl_parse_metrics_loop m max f (a + RTA_ALIGN (rta_len m a)) (attrs_space rest : Nat)
              vec).2 0 < 2 ^ 32
          ∧ (∀ i, ((nl_parse_metrics_loop m max f (a + RTA_ALIGN (rta_len m a))
                (attrs_space rest : Nat) vec).2 0).testBit i
              = ((vec 0).testBit i
                  || (decide (1 ≤ i) && decide (i < max)
                      && decide (i ∈ ((c, d) :: rest).map Prod.fst))))
          ∧ (∀ t, 1 ≤ t → (t ∉ ((c, d) :: rest).map Prod.fst ∨ max ≤ t) →
              (nl_parse_metrics_loop m max f (a + RTA_ALIGN (rta_len m a))
                (attrs_space rest : Nat) vec).2 t = vec t)
          ∧ (∀ t d0, 1 ≤ t → t < max → (t, d0) ∈ (c, d) :: rest →
              (∀ d', (t, d') ∈ (c, d) :: rest → d' = d0) →
              (nl_parse_metrics_loop m max f (a + RTA_ALIGN (rta_len m a))
                (attrs_space rest : Nat) vec).2 t = le32 d0) := by
        intro hskip
        obtain ⟨i1, i2, i3, i4, i5⟩ := ih f _ vec hrest hf hgood' hv
        refine ⟨i1, i2, ?_, ?_, ?_⟩
        · intro i
          rw [i3 i]
          by_cases hic : i = c
          · subst hic
            rcases hskip with h | h
            · subst h; simp
            · have : ¬ i < max := by omega
              simp [this]
          · have hb : (i == c) = false := by rw [beq_eq_false_iff_ne]; exact hic
            simp [hic, hb]
        · intro t ht hor
          apply i4 t ht
          rcases hor with h | h
          · left
            intro hmem
            apply h
            simp only [List.map_cons, List.mem_cons]
            exact Or.inr hmem
          · exact Or.inr h
        · intro t d0 ht htm hmem huniq
          rcases List.mem_cons.mp hmem with he | hr
          · exfalso
            have : t = c := congrArg Prod.fst he
            omega
          · exact i5 t d0 ht htm hr (fun d' hd' => huniq d' (List.mem_cons_of_mem _ hd'))
      by_cases h0 : c = RTA_UNSPEC
      · rw [if_pos h0]
        exact skip (Or.inl h0)
      rw [if_neg h0]
      by_cases hm : max ≤ c
      · rw [if_pos hm]
        exact skip (Or.inr hm)
      rw [if_neg hm]
      have hc1 : 1 ≤ c := by
        simp only [RTA_UNSPEC] at h0
        omega
      have hcm : c < max := by omega
      have hd4 : d.length = 4 := hgood (c, d) (List.mem_cons_self _ _) hc1 hcm
      have hp4 : ¬ RTA_PAYLOAD m a ≠ 4 := by rw [hp, hd4]; simp
      rw [if_neg hp4]
      have hget : rta_get_u32 m a = le32 d := rta_get_u32_le32 m a d hd4 hat.2.2.1
      have hpow : 2 ^ c < 2 ^ 32 := Nat.pow_lt_pow_right (by omega) (by omega)
      have hor : vec 0 ||| 2 ^ c < 2 ^ 32 := Nat.or_lt_two_pow hv hpow
      have hv0 : (if 0 = c then rta_get_u32 m a
          else if 0 = 0 then u32 (vec 0 ||| 1 <<< c) else vec 0) = vec 0 ||| 2 ^ c := by
        have : ¬ (0 = c) := by omega
        simp only [if_neg this, if_true, u32, Nat.one_shiftLeft]
        exact Nat.mod_eq_of_lt hor
      obtain ⟨i1, i2, i3, i4, i5⟩ := ih f _
        (fun i => if i = c then rta_get_u32 m a
          else if i = 0 then u32 (vec 0 ||| 1 <<< c) else vec i) hrest hf hgood'
        (by show (if 0 = c then rta_get_u32 m a
              else if 0 = 0 then u32 (vec 0 ||| 1 <<< c) else vec 0) < 2 ^ 32
            rw [hv0]; exact hor)
      refine ⟨i1, i2, ?_, ?_, ?_⟩
      · intro i
        rw [i3 i]
        show ((if 0 = c then rta_get_u32 m a
            else if 0 = 0 then u32 (vec 0 ||| 1 <<< c) else vec 0).testBit i || _) = _
        rw [hv0, Nat.testBit_or, Nat.testBit_two_pow]
        by_cases hic : c = i
        · subst hic
          simp [hc1, hcm]
        · have hic' : ¬ i = c := fun h => hic h.symm
          have hb : (i == c) = false := by rw [beq_eq_false_iff_ne]; exact hic'
          simp [hic, hic', hb]
      · intro t ht hor'
        have htc : t ≠ c := by
          rcases hor' with h | h
          · intro he
            apply h
            simp [he]
          · omega
        have := i4 t ht (by
          rcases hor' with h | h
          · left
            intro hmem
            apply h
            simp only [List.map_cons, List.mem_cons]
            exact Or.inr hmem
          · exact Or.inr h)
        rw [this]
        show (if t = c then rta_get_u32 m a
          else if t = 0 then u32 (vec 0 ||| 1 <<< c) else vec t) = vec t
        rw [if_neg htc, if_neg (by omega)]
      · intro t d0 ht htm hmem huniq
        by_cases hin : (t, d0) ∈ rest
        · exact i5 t d0 ht htm hin (fun d' hd' => huniq d' (List.mem_cons_of_mem _ hd'))
        · rcases List.mem_cons.mp hmem with he | hr
          · have htc : t = c := congrArg Prod.fst he
            have hdd : d0 = d := congrArg Prod.snd he
            have hnot : t ∉ rest.map Prod.fst := by
              intro hmem'
              rw [List.mem_map] at hmem'
              obtain ⟨⟨t', d'⟩, hm', ht'⟩ := hmem'
              simp only at ht'
              subst ht'
              have := huniq d' (List.mem_cons_of_mem _ hm')
              subst this
              exact hin hm'
            rw [i4 t ht (Or.inl hnot)]
            show (if t = c then rta_get_u32 m a
              else if t = 0 then u32 (vec 0 ||| 1 <<< c) else vec t) = le32 d0
            rw [if_pos htc, hget, hdd]
          · exact absurd hr hin

/-- The end of `nl_parse_route` drops the message when `nl_parse_metrics` fails on its
`RTA_METRICS` attribute. -/
theorem nl_parse_route_deliver_metrics (m : Mem) (i : Nat) (scan new : Bool) (a : AttrVec)
    (p : krt_proto) (dst : net_addr) (src : krt_src) (ra : rta) (x : Nat)
    (hx : a RTA_METRICS = some x) (hfail : (nl_parse_metrics m x KRT_METRICS_MAX).1 < 0) :
    nl_parse_route_deliver m i scan new a p dst src ra = .ignored (some dst) := by
  unfold nl_parse_route_deliver
  simp only []
  rw [hx]
  simp only []
  rw [if_pos hfail]

/-- A message on whose `RTA_METRICS` attribute `nl_parse_metrics` fails is not delivered. -/
theorem nl_parse_route_metrics_fail (d : Daemon) (m : Mem) (h : Nat) (scan : Bool) (x : Nat)
    (hx : route_attr_vec m h RTA_METRICS = some x)
    (hfail : (nl_parse_metrics m x KRT_METRICS_MAX).1 < 0) :
    (nl_parse_route d m h scan).delivered = false := by
  refine nl_parse_route_elim d m h scan (fun r => r.delivered = false) rfl ?_
  intro p dst src _
  refine nl_parse_route_type_elim d m (NLMSG_DATA h) scan (nlmsg_type m h == RTM_NEWROUTE)
    (route_attr_vec m h) p dst src (attr_oif m (route_attr_vec m h))
    (fun r => r.delivered = false) rfl rfl ?_
  intro r
  show (nl_parse_route_deliver m (NLMSG_DATA h) scan (nlmsg_type m h == RTM_NEWROUTE)
    (route_attr_vec m h) p dst src r).delivered = false
  rw [nl_parse_route_deliver_metrics m _ scan _ _ p dst src r x hx hfail]
  rfl

/-- The function `nl_parse_metrics` on an attribute whose payload is a laid-out list of
sub-attributes runs its loop over the padded length of the list. -/
theorem nl_parse_metrics_eq (m : Mem) (hdr max : Nat) (attrs : List (Nat × List Nat))
    (hlen : rta_len m hdr = RTA_LENGTH (attrs_space attrs)) :
    nl_parse_metrics m hdr max
      = nl_parse_metrics_loop m max (attrs_space attrs) (RTA_DATA hdr) (attrs_space attrs : Nat)
          (fun _ => 0) := by
  have hp : RTA_PAYLOAD m hdr = ((attrs_space attrs : Nat) : Int) := by
    simp only [RTA_PAYLOAD, hlen, RTA_LENGTH_eq]
    push_cast; omega
  unfold nl_parse_metrics
  rw [hp, Int.toNat_ofNat]

/-- C21 (amended): metrics sub-attributes with a recognised code must be 4 bytes. Let the
payload of an `RTA_METRICS` attribute be a list of sub-attributes. If a sub-attribute with a
code `t`, `1 <= t < max`, has a payload length other than 4 bytes, `nl_parse_metrics` returns
-1, and `nl_parse_route` (where `max` is `KRT_METRICS_MAX`) delivers no route for a message
with that attribute. If every sub-attribute with such a code has 4 bytes (the others, of code
0 or of a code from `max` on, are passed over whatever their length), `nl_parse_metrics`
returns 0, bit `t` of slot 0 is set if and only if `1 <= t < max` and a sub-attribute of code
`t` is present, and slot `t` then holds its 32-bit value. -/
theorem nl_parse_metrics_four_bytes (m : Mem) (hdr max : Nat) (attrs : List (Nat × List Nat))
    (hmax : max ≤ 32)
    (hat : attrs_at m (RTA_DATA hdr) attrs)
    (hlen : rta_len m hdr = RTA_LENGTH (attrs_space attrs)) :
    ((∃ cd ∈ attrs, 1 ≤ cd.1 ∧ cd.1 < max ∧ cd.2.length ≠ 4) →
      (nl_parse_metrics m hdr max).1 = -1)
    ∧ ((∃ cd ∈ attrs, 1 ≤ cd.1 ∧ cd.1 < KRT_METRICS_MAX ∧ cd.2.length ≠ 4) →
      ∀ (d : Daemon) (h : Nat) (scan : Bool), route_attr_vec m h RTA_METRICS = some hdr →
        (nl_parse_route d m h scan).delivered = false)
    ∧ ((∀ cd ∈ attrs, 1 ≤ cd.1 → cd.1 < max → cd.2.length = 4) →
      (nl_parse_metrics m hdr max).1 = 0
      ∧ (∀ t, ((nl_parse_metrics m hdr max).2 0).testBit t = true
          ↔ (1 ≤ t ∧ t < max ∧ t ∈ attrs.map Prod.fst))
      ∧ (∀ t d, 1 ≤ t → t < max → (t, d) ∈ attrs → (∀ d', (t, d') ∈ attrs → d' = d) →
          (nl_parse_metrics m hdr max).2 t = le32 d)) := by
  refine ⟨?_, ?_, ?_⟩
  · intro hbad
    rw [nl_parse_metrics_eq m hdr max attrs hlen]
    exact nl_parse_metrics_loop_bad m max attrs _ _ _ hat (Nat.le_refl _) hbad
  · intro hbad d h scan hx
    apply nl_parse_route_metrics_fail d m h scan hdr hx
    rw [nl_parse_metrics_eq m hdr KRT_METRICS_MAX attrs hlen,
      nl_parse_metrics_loop_bad m KRT_METRICS_MAX attrs _ _ _ hat (Nat.le_refl _) hbad]
    decide
  · intro hgood
    rw [nl_parse_metrics_eq m hdr max attrs hlen]
    obtain ⟨i1, _, i3, _, i5⟩ := nl_parse_metrics_loop_good m max hmax attrs _ _ (fun _ => 0)
      hat (Nat.le_refl _) hgood (by show (0 : Nat) < 2 ^ 32; decide)
    refine ⟨i1, ?_, i5⟩
    intro t
    rw [i3 t]
    simp [and_assoc]

/-- C21 (amended) at a concrete message: in `route_msg_metrics_short` the sub-attribute 2
(mtu) of `RTA_METRICS` has a payload of 2 bytes; `nl_parse_metrics` returns -1 and the route
is not delivered. -/
theorem nl_parse_metrics_four_bytes_witness :
    (nl_parse_metrics route_msg_metrics_short 44 KRT_METRICS_MAX).1 = -1
    ∧ (nl_parse_route example_daemon route_msg_metrics_short 0 true).delivered = false :=
  ⟨(nl_parse_metrics_four_bytes route_msg_metrics_short 44 KRT_METRICS_MAX [(2, [220, 5])]
      (by decide) (by simp only [attrs_at]; decide) (by decide)).1
      ⟨(2, [220, 5]), by decide, by decide, by decide, by decide⟩,
   (nl_parse_metrics_four_bytes route_msg_metrics_short 44 KRT_METRICS_MAX [(2, [220, 5])]
      (by decide) (by simp only [attrs_at]; decide) (by decide)).2.1
      ⟨(2, [220, 5]), by decide, by decide, by decide, by decide⟩
      example_daemon 0 true (by decide)⟩

/-- C21 as stated fails: in `route_msg_metrics_cc` the attribute `RTA_METRICS` holds the
sub-attribute 2 (mtu, 4 bytes) and the sub-attribute 16 (`RTAX_CC_ALGO`) with a payload of 6
bytes. The loop of `nl_parse_metrics` leaves a sub-attribute whose code is not below `max`
with `continue`, before the test of the payload length: the function returns 0 with the bit
of slot 2 set, and `nl_parse_route` delivers the route with the metric 2. -/
theorem nl_parse_metrics_unchecked_code :
    route_attr_vec route_msg_metrics_cc 0 RTA_METRICS = some 44
    ∧ attrs_at route_msg_metrics_cc (RTA_DATA 44)
        [(2, [220, 5, 0, 0]), (16, [99, 117, 98, 105, 99, 0])]
    ∧ rta_len route_msg_metrics_cc 44
        = RTA_LENGTH (attrs_space [(2, [220, 5, 0, 0]), (16, [99, 117, 98, 105, 99, 0])])
    ∧ RTA_PAYLOAD route_msg_metrics_cc 56 = 6
    ∧ (nl_parse_metrics route_msg_metrics_cc 44 KRT_METRICS_MAX).1 = 0
    ∧ (nl_parse_metrics route_msg_metrics_cc 44 KRT_METRICS_MAX).2 0 = 4
    ∧ (nl_parse_metrics route_msg_metrics_cc 44 KRT_METRICS_MAX).2 2 = 1500
    ∧ nl_parse_route example_daemon route_msg_metrics_cc 0 true
        = .got_route example_proto4
            { net := .ip4 (10 * 2 ^ 24) 24,
              attrs := { dest := .UNICAST, nh := { iface := some example_eth0 },
                         eattrs := [[⟨.KRT_METRICS 2, .data 1500⟩]] },
              krt_src := .ALIEN, krt_proto := RTPROT_BOOT } := by
  refine ⟨by decide, by simp only [attrs_at]; decide, by decide, by decide, by decide,
    by decide, by decide, by decide⟩

/-- C29 fails on the code: the message `route_msg_encap_empty` is accepted by
`nl_parse_attrs` and carries `RTA_ENCAP` and `RTA_ENCAP_TYPE = LWTUNNEL_ENCAP_MPLS`, but its
encapsulation group is empty. `nl_parse_route` runs `nl_parse_attrs` on the group, does not
test the slot `enca[RTA_DST]`, and passes the `NULL` pointer to `rta_get_mpls`, which reads
`rta_len` through it. With an `RTA_DST` in the group the label stack is read from it. -/
theorem nl_parse_route_encap_null :
    (nl_parse_attrs route_msg_encap_empty (RTM_RTA (NLMSG_DATA 0)) rtm_attr_want4 BIRD_RTA_MAX
        (nl_checkin route_msg_encap_empty 0 sizeof_rtmsg).1).ret = 1
    ∧ route_attr_vec route_msg_encap_empty 0 RTA_ENCAP_TYPE = some 44
    ∧ ld16 route_msg_encap_empty (RTA_DATA 44) = LWTUNNEL_ENCAP_MPLS
    ∧ route_attr_vec route_msg_encap_empty 0 RTA_ENCAP = some 52
    ∧ (nl_parse_attrs route_msg_encap_empty (RTA_DATA 52) encap_mpls_want BIRD_RTA_MAX
        (RTA_PAYLOAD route_msg_encap_empty 52)).k RTA_DST = none
    ∧ nl_parse_route example_daemon route_msg_encap_empty 0 true = .null_deref
    ∧ nl_parse_route example_daemon route_msg_encap_empty 0 false = .null_deref
    ∧ nl_parse_route example_daemon route_msg_encap_label 0 true
        = .got_route example_proto4
            { net := .ip4 (10 * 2 ^ 24) 24,
              attrs := { dest := .UNICAST,
                         nh := { iface := some example_eth0, labels := 1, label := [100] } },
              krt_src := .ALIEN, krt_proto := RTPROT_BOOT } := by
  decide

/-- The part of C28 that holds: for a unicast route with `krt_capable(e) = 1`, some next-hop
has an interface, and in the single-next-hop branch of `nl_send_route` the interface
`a->nh.iface` is present. -/
theorem krt_capable_unicast (a : rta) (hd : a.dest = .UNICAST) (hc : krt_capable a = 1) :
    (∃ nh ∈ a.nh :: a.nh_next, nh.iface ≠ none)
    ∧ (a.nh_next = [] → a.nh.iface ≠ none) := by
  unfold krt_capable at hc
  rw [hd] at hc
  simp only [] at hc
  have hany : (a.nh :: a.nh_next).any (fun nh => nh.iface.isSome) = true := by
    by_cases h : (a.nh :: a.nh_next).any (fun nh => nh.iface.isSome) = true
    · exact h
    · rw [if_neg h] at hc
      cases hc
  rw [List.any_eq_true] at hany
  obtain ⟨nh, hmem, hsome⟩ := hany
  have hne : nh.iface ≠ none := by
    intro h0
    rw [h0] at hsome
    cases hsome
  refine ⟨⟨nh, hmem, hne⟩, ?_⟩
  intro hnil
  rw [hnil] at hmem
  have : nh = a.nh := by simpa using hmem
  rw [← this]
  exact hne

/-- C28 fails on the code: the unicast route `example_route4_mp_noif` has two next-hops, the
first with an interface and the second without. `krt_capable` returns 1 at the first next-hop
that has an interface, and `nl_add_multipath`, walking the chain for `nl_send_route`, reads
`nh->iface->index` of the second through a `NULL` pointer. When both next-hops have an
interface the request is built. -/
theorem nl_send_route_multipath_null :
    krt_capable example_route4_mp_noif.attrs = 1
    ∧ example_route4_mp_noif.attrs.dest = .UNICAST
    ∧ (example_route4_mp_noif.attrs.nh :: example_route4_mp_noif.attrs.nh_next).map
        (fun nh => nh.iface.isSome) = [true, false]
    ∧ nl_send_route example_stack example_proto4 example_route4_mp_noif [] true (fun _ => 0)
        = .abort .null_deref
    ∧ krt_capable example_route4_mp.attrs = 1
    ∧ (match nl_send_route example_stack example_proto4 example_route4_mp [] true
          (fun _ => 0) with
        | .exchange pkt => some (nlmsg_len pkt 0, rta_type pkt 36, rta_len pkt 36)
        | .abort _ => none) = some (72, RTA_MULTIPATH, 36) := by
  refine ⟨by decide, by decide, by decide, rfl, by decide, by decide⟩

/-- Setting and clearing `KRF_SYNC_ERROR` in a flags byte changes that bit only. -/
theorem sync_error_bits : ∀ f, f < 256 →
    ((f ||| KRF_SYNC_ERROR) % 256 &&& KRF_SYNC_ERROR = KRF_SYNC_ERROR
      ∧ (f ||| KRF_SYNC_ERROR) % 256 ||| KRF_SYNC_ERROR = f ||| KRF_SYNC_ERROR
      ∧ (f ||| KRF_SYNC_ERROR) % 256 < 256)
    ∧ ((f &&& (0xFFFFFFFF - KRF_SYNC_ERROR)) % 256 &&& KRF_SYNC_ERROR = 0
      ∧ (f &&& (0xFFFFFFFF - KRF_SYNC_ERROR)) % 256 ||| KRF_SYNC_ERROR = f ||| KRF_SYNC_ERROR
      ∧ (f &&& (0xFFFFFFFF - KRF_SYNC_ERROR)) % 256 < 256) := by
  intro f hf
  interval_cases f <;> decide

/-- The value that the loop of `nl_exchange` returns, in terms of the reply that ends it. -/
theorem nl_exchange_ack_eq (fuel n : Nat) (nl_req : nl_sock) (m : Mem) (pkt : Nat)
    (input : List Recv) (err : Int)
    (h : nl_exchange fuel n nl_req m pkt true input = some err) :
    ∃ ack, nl_exchange_ack fuel n (nl_send nl_req m pkt).1 input = some ack
      ∧ nlmsg_type ack.2 ack.1 = NLMSG_ERROR
      ∧ ((NLMSG_LENGTH sizeof_nlmsgerr ≤ nlmsg_len ack.2 ack.1
            ∧ ld32 ack.2 (NLMSG_DATA ack.1) = 0) → err = 0)
      ∧ ((nlmsg_len ack.2 ack.1 < NLMSG_LENGTH sizeof_nlmsgerr
            ∨ ld32 ack.2 (NLMSG_DATA ack.1) ≠ 0) → err = -1) := by
  unfold nl_exchange at h
  rw [if_pos rfl, nl_exchange_loop_eq] at h
  unfold nl_exchange_ack
  cases hfind : (nl_get_replies fuel n (nl_send nl_req m pkt).1 input).find?
      (fun hb => nlmsg_type hb.2 hb.1 == NLMSG_ERROR) with
  | none => rw [hfind] at h; cases h
  | some ack =>
    rw [hfind] at h
    simp only [Option.map_some', Option.some.injEq] at h
    have hty := List.find?_some hfind
    have hty' : nlmsg_type ack.2 ack.1 = NLMSG_ERROR := by simpa using hty
    refine ⟨ack, rfl, hty', ?_, ?_⟩
    · intro hz
      rw [if_pos hz] at h
      exact h.symm
    · intro hnz
      have : ¬ (NLMSG_LENGTH sizeof_nlmsgerr ≤ nlmsg_len ack.2 ack.1
          ∧ ld32 ack.2 (NLMSG_DATA ack.1) = 0) := by
        intro ⟨h1, h2⟩
        rcases hnz with h3 | h3
        · omega
        · exact h3 h2
      rw [if_neg this] at h
      exact h.symm

/-- C24: the sync-error flag. When `krt_replace_rte(p, n, new, old, eattrs)` with a new route
returns, the request for the new route was passed to `nl_exchange` and the exchange ended at
an acknowledgement, the first `NLMSG_ERROR` reply on the request endpoint. After the call the
`KRF_SYNC_ERROR` bit of `n->n.flags` is clear if the acknowledgement is a full `nlmsgerr`
record with code 0, and set if its code is not 0 (or the record is truncated); every other
bit of the flags byte is as before. -/
theorem krt_replace_rte_sync_error (fuel n : Nat) (nl_req : nl_sock) (input : List Recv)
    (stack_old stack_new : Mem) (p : krt_proto) (flags : Nat) (e : rte) (old : Option rte)
    (eattrs : List eattr) (metrics0 : Nat → Nat) (flags' : Nat)
    (hf : flags < 256)
    (hret : krt_replace_rte fuel n nl_req input true stack_old stack_new p flags (some e) old
      eattrs metrics0 = some flags') :
    ∃ (nl1 : nl_sock) (rest : List Recv) (pkt : Mem) (ack : Nat × Mem),
      krt_replace_rte_old fuel n nl_req input true stack_old p old metrics0 = some (nl1, rest)
      ∧ nl_send_route stack_new p e eattrs true metrics0 = .exchange pkt
      ∧ nl_exchange_ack fuel n (nl_send nl1 pkt 0).1 rest = some ack
      ∧ nlmsg_type ack.2 ack.1 = NLMSG_ERROR
      ∧ ((NLMSG_LENGTH sizeof_nlmsgerr ≤ nlmsg_len ack.2 ack.1
            ∧ ld32 ack.2 (NLMSG_DATA ack.1) = 0) → flags' &&& KRF_SYNC_ERROR = 0)
      ∧ ((nlmsg_len ack.2 ack.1 < NLMSG_LENGTH sizeof_nlmsgerr
            ∨ ld32 ack.2 (NLMSG_DATA ack.1) ≠ 0) →
          flags' &&& KRF_SYNC_ERROR = KRF_SYNC_ERROR)
      ∧ flags' ||| KRF_SYNC_ERROR = flags ||| KRF_SYNC_ERROR
      ∧ flags' < 256 := by
  unfold krt_replace_rte at hret
  cases hold : krt_replace_rte_old fuel n nl_req input true stack_old p old metrics0 with
  | none => rw [hold] at hret; cases hret
  | some st =>
    obtain ⟨nl1, rest⟩ := st
    rw [hold] at hret
    simp only [] at hret
    cases hsend : nl_send_route stack_new p e eattrs true metrics0 with
    | abort why => rw [hsend] at hret; cases hret
    | exchange pkt =>
      rw [hsend] at hret
      simp only [] at hret
      cases hex : nl_exchange fuel n nl1 pkt 0 true rest with
      | none => rw [hex] at hret; cases hret
      | some err =>
        rw [hex] at hret
        simp only [] at hret
        obtain ⟨ack, hack, hty, hz, hnz⟩ := nl_exchange_ack_eq fuel n nl1 pkt 0 rest err hex
        obtain ⟨⟨s1, s2, s3⟩, c1, c2, c3⟩ := sync_error_bits flags hf
        refine ⟨nl1, rest, pkt, ack, rfl, rfl, hack, hty, ?_, ?_, ?_, ?_⟩
        · intro hh
          have he := hz hh
          rw [he] at hret
          simp only [Int.lt_irrefl, if_false, Option.some.injEq] at hret
          rw [← hret]
          exact c1
        · intro hh
          have he := hnz hh
          rw [he] at hret
          rw [if_pos (by decide)] at hret
          simp only [Option.some.injEq] at hret
          rw [← hret]
          exact s1
        · by_cases hlt : err < 0
          · rw [if_pos hlt] at hret
            simp only [Option.some.injEq] at hret
            rw [← hret]; exact s2
          · rw [if_neg hlt] at hret
            simp only [Option.some.injEq] at hret
            rw [← hret]; exact c2
        · by_cases hlt : err < 0
          · rw [if_pos hlt] at hret
            simp only [Option.some.injEq] at hret
            rw [← hret]; exact s3
          · rw [if_neg hlt] at hret
            simp only [Option.some.injEq] at hret
            rw [← hret]; exact c3

/-- C24 at concrete calls: installing `10.0.0.0/24 dev eth0` for a network whose flags byte is
`0xC0`, acknowledged with code 0, leaves `0x80` (`KRF_SYNC_ERROR` cleared); for a network with
the flags byte `0x80`, acknowledged with code -17, it leaves `0xC0`. -/
theorem krt_replace_rte_sync_error_witness :
    (∃ (nl1 : nl_sock) (rest : List Recv) (pkt : Mem) (ack : Nat × Mem),
      krt_replace_rte_old 8 4 { example_sock with seq := 6 }
          [.dgram 0 example_dgram_ack false] true example_stack example_proto4 none
          (fun _ => 0) = some (nl1, rest)
      ∧ nl_send_route example_stack example_proto4 example_route4_dev [] true (fun _ => 0)
          = .exchange pkt
      ∧ nl_exchange_ack 8 4 (nl_send nl1 pkt 0).1 rest = some ack
      ∧ nlmsg_type ack.2 ack.1 = NLMSG_ERROR
      ∧ ((NLMSG_LENGTH sizeof_nlmsgerr ≤ nlmsg_len ack.2 ack.1
            ∧ ld32 ack.2 (NLMSG_DATA ack.1) = 0) → 0x80 &&& KRF_SYNC_ERROR = 0)
      ∧ ((nlmsg_len ack.2 ack.1 < NLMSG_LENGTH sizeof_nlmsgerr
            ∨ ld32 ack.2 (NLMSG_DATA ack.1) ≠ 0) →
          0x80 &&& KRF_SYNC_ERROR = KRF_SYNC_ERROR)
      ∧ 0x80 ||| KRF_SYNC_ERROR = 0xC0 ||| KRF_SYNC_ERROR
      ∧ 0x80 < 256)
    ∧ krt_replace_rte 8 4 { example_sock with seq := 6 } [.dgram 0 example_dgram_ack false]
        true example_stack example_stack example_proto4 0xC0 (some example_route4_dev) none []
        (fun _ => 0) = some 0x80
    ∧ krt_replace_rte 8 4 { example_sock with seq := 6 } [.dgram 0 example_dgram_nack false]
        true example_stack example_stack example_proto4 0x80 (some example_route4_dev) none []
        (fun _ => 0) = some 0xC0 :=
  ⟨krt_replace_rte_sync_error 8 4 { example_sock with seq := 6 }
      [.dgram 0 example_dgram_ack false] example_stack example_stack example_proto4 0xC0
      example_route4_dev none [] (fun _ => 0) 0x80 (by decide) (by decide),
   by decide, by decide⟩

theorem nlmsg_len_st32 (m : Mem) (h a v : Nat) (ha : a + 3 < h ∨ h + 4 ≤ a) :
    nlmsg_len (st32 m a v) h = nlmsg_len m h := by
  unfold nlmsg_len
  exact ld32_congr _ _ h (fun i hi1 hi2 => st32_other _ _ _ _ (by omega))

theorem msg_room_mono (m : Mem) (B B' : Nat) (h : msg_room m B) (hB : B ≤ B') :
    msg_room m B' :=
  ⟨h.1, h.2.1, Nat.le_trans h.2.2 hB⟩

/-- With room in the buffer, `nl_add_attr` appends the attribute at the end of the request. -/
theorem nl_add_attr_room (m : Mem) (bufsize code : Nat) (data : List Nat) (B k : Nat)
    (hm : msg_room m B) (hk : data.length ≤ k) (hd4 : data.length % 4 = 0)
    (hfit : B + 4 + k ≤ bufsize) (hbuf : bufsize < 2 ^ 32) :
    ∃ m' a, nl_add_attr m 0 bufsize code data = some (m', a) ∧ msg_room m' (B + 4 + k)
      ∧ a = nlmsg_len m 0 ∧ nlmsg_len m' 0 = nlmsg_len m 0 + 4 + data.length
      ∧ ∀ i, 4 ≤ i → i < nlmsg_len m 0 → m' i = m i := by
  obtain ⟨h4, hlo, hB⟩ := hm
  have hpos : NLMSG_ALIGN (nlmsg_len m 0) = nlmsg_len m 0 := by
    simp only [NLMSG_ALIGN]; omega
  have hL := RTA_LENGTH_eq data.length
  obtain ⟨m', hadd, hlen, _, _, _, hframe⟩ := nl_add_attr_spec m 0 bufsize code data
    (nlmsg_len m 0) hpos (by omega) hbuf (by omega)
  refine ⟨m', nlmsg_len m 0, ?_, ⟨?_, ?_, ?_⟩, rfl, ?_, ?_⟩
  · rw [hadd]; simp
  · rw [hlen]; omega
  · rw [hlen]; omega
  · rw [hlen]; omega
  · rw [hlen]; omega
  · intro i hi1 hi2
    exact hframe i (Or.inr (by omega)) (Or.inl (by omega))

theorem nl_add_attr_u32_room (m : Mem) (bufsize code v B : Nat)
    (hm : msg_room m B) (hfit : B + 8 ≤ bufsize) (hbuf : bufsize < 2 ^ 32) :
    ∃ m', nl_add_attr_u32 m 0 bufsize code v = some m' ∧ msg_room m' (B + 8) := by
  obtain ⟨m', a, hadd, hr, _⟩ := nl_add_attr_room m bufsize code (bytes_u32 v) B 4 hm
    (by simp [bytes_u32]) (by simp [bytes_u32]) (by omega) hbuf
  exact ⟨m', by simp [nl_add_attr_u32, hadd], hr⟩

theorem nl_add_attr_ipa_room (m : Mem) (bufsize code : Nat) (ipa : ip_addr) (B : Nat)
    (hm : msg_room m B) (hfit : B + 20 ≤ bufsize) (hbuf : bufsize < 2 ^ 32) :
    ∃ m', nl_add_attr_ipa m 0 bufsize code ipa = some m' ∧ msg_room m' (B + 20) := by
  cases ipa with
  | ip4 x =>
    obtain ⟨m', a, hadd, hr, _⟩ := nl_add_attr_room m bufsize code (ip4_hton_bytes x) B 16 hm
      (by simp [ip4_hton_bytes, bytes_be32]) (by simp [ip4_hton_bytes, bytes_be32])
      (by omega) hbuf
    exact ⟨m', by simp [nl_add_attr_ipa, nl_add_attr_ip4, hadd], hr⟩
  | ip6 x =>
    obtain ⟨m', a, hadd, hr, _⟩ := nl_add_attr_room m bufsize code (ip6_hton_bytes x) B 16 hm
      (by simp [ip6_hton_bytes, bytes_be32]) (by simp [ip6_hton_bytes, bytes_be32])
      (by omega) hbuf
    exact ⟨m', by simp [nl_add_attr_ipa, nl_add_attr_ip6, hadd], hr⟩

/-- With room for every sub-attribute, the loop of `nl_add_metrics` does not abort. -/
theorem nl_add_metrics_loop_room (bufsize : Nat) (metrics : Nat → Nat) (hbuf : bufsize < 2 ^ 32) :
    ∀ (ts : List Nat) (m : Mem) (B : Nat), msg_room m B → B + 8 * ts.length ≤ bufsize →
      ∃ m', nl_add_metrics_loop 0 bufsize metrics m ts = some m'
        ∧ msg_room m' (B + 8 * ts.length) := by
  intro ts
  induction ts with
  | nil => intro m B hm _; exact ⟨m, rfl, by simpa using hm⟩
  | cons t rest ih =>
    intro m B hm hfit
    simp only [List.length_cons] at hfit ⊢
    rw [nl_add_metrics_loop]
    by_cases hb : (metrics 0 &&& 1 <<< t != 0) = true
    · rw [if_pos hb]
      obtain ⟨m1, hadd, hr⟩ := nl_add_attr_u32_room m bufsize t (metrics t) B hm (by omega) hbuf
      rw [hadd]
      simp only []
      obtain ⟨m', hrun, hr'⟩ := ih m1 (B + 8) hr (by omega)
      exact ⟨m', hrun, msg_room_mono _ _ _ hr' (by omega)⟩
    · rw [if_neg hb]
      obtain ⟨m', hrun, hr'⟩ := ih m B hm (by omega)
      exact ⟨m', hrun, msg_room_mono _ _ _ hr' (by omega)⟩

/-- With room for the group header and 15 sub-attributes, `nl_add_metrics` does not abort. -/
theorem nl_add_metrics_room (m : Mem) (bufsize : Nat) (metrics : Nat → Nat) (B : Nat)
    (hm : msg_room m B) (hfit : B + 124 ≤ bufsize) (hbuf : bufsize < 2 ^ 32) :
    ∃ m', nl_add_metrics m 0 bufsize metrics KRT_METRICS_MAX = some m'
      ∧ msg_room m' (B + 124) := by
  obtain ⟨m1, a, hopen, hr1, ha, _⟩ := nl_add_attr_room m bufsize RTA_METRICS [] B 0 hm
    (by simp) (by simp) (by omega) hbuf
  have hlen : ((List.range KRT_METRICS_MAX).filter (fun t => decide (1 ≤ t))).length = 15 := by
    decide
  obtain ⟨m2, hloop, hr2⟩ := nl_add_metrics_loop_room bufsize metrics hbuf
    ((List.range KRT_METRICS_MAX).filter (fun t => decide (1 ≤ t))) m1 (B + 4 + 0) hr1
    (by rw [hlen]; omega)
  rw [hlen] at hr2
  refine ⟨nl_close_attr m2 0 a, ?_, ?_⟩
  · unfold nl_add_metrics nl_open_attr
    rw [hopen]
    simp only []
    rw [hloop]
  · have ha28 : 28 ≤ a := by rw [ha]; exact hm.2.1
    unfold msg_room nl_close_attr
    rw [nlmsg_len_st16 _ _ _ _ (Or.inr (by omega))]
    exact msg_room_mono _ _ _ hr2 (by omega)

/-- With room for 28 bytes per next-hop, the loop of `nl_add_multipath` over next-hops that
all have an interface does not abort. -/
theorem nl_add_multipath_loop_room (bufsize : Nat) (hbuf : bufsize < 2 ^ 32) :
    ∀ (nhs : List nexthop) (m : Mem) (B : Nat), (∀ nh ∈ nhs, nh.iface ≠ none) →
      msg_room m B → B + 28 * nhs.length ≤ bufsize →
      ∃ m', nl_add_multipath_loop 0 bufsize m nhs = .ok m'
        ∧ msg_room m' (B + 28 * nhs.length) := by
  intro nhs
  induction nhs with
  | nil => intro m B _ hm _; exact ⟨m, rfl, by simpa using hm⟩
  | cons nh rest ih =>
    intro m B hif hm hfit
    simp only [List.length_cons] at hfit ⊢
    obtain ⟨h4, hlo, hB⟩ := hm
    have hpos : NLMSG_ALIGN (nlmsg_len m 0) = nlmsg_len m 0 := by
      simp only [NLMSG_ALIGN]; omega
    have hR : RTNH_LENGTH 0 = 8 := by decide
    have hopen : nl_open_nexthop m 0 bufsize
        = some (st32 m 0 (nlmsg_len m 0 + 8), nlmsg_len m 0) := by
      unfold nl_open_nexthop
      simp only [hpos, hR]
      have hu : u32 (nlmsg_len m 0) = nlmsg_len m 0 := Nat.mod_eq_of_lt (by omega)
      have hu2 : u32 (nlmsg_len m 0 + 8) = nlmsg_len m 0 + 8 := Nat.mod_eq_of_lt (by omega)
      rw [hu, hu2, if_neg (by omega)]
      simp
    obtain ⟨ifa, hifa⟩ : ∃ ifa, nh.iface = some ifa := by
      cases hi : nh.iface with
      | none => exact absurd hi (hif nh (List.mem_cons_self _ _))
      | some ifa => exact ⟨ifa, rfl⟩
    have hl1 : nlmsg_len (st32 m 0 (nlmsg_len m 0 + 8)) 0 = nlmsg_len m 0 + 8 := by
      show ld32 (st32 _ 0 _) 0 = _
      rw [ld32_st32]
      exact Nat.mod_eq_of_lt (by omega)
    have hr4 : msg_room (st32 (st8 (st8 (st32 m 0 (nlmsg_len m 0 + 8)) (nlmsg_len m 0 + 2) 0)
        (nlmsg_len m 0 + 3) nh.weight) (nlmsg_len m 0 + 4) ifa.index) (B + 8) := by
      unfold msg_room
      rw [nlmsg_len_st32 _ _ _ _ (Or.inr (by omega)), nlmsg_len_st8 _ _ _ _ (Or.inr (by omega)),
        nlmsg_len_st8 _ _ _ _ (Or.inr (by omega)), hl1]
      omega
    obtain ⟨m5, hgw, hr5⟩ := nl_add_attr_ipa_room _ bufsize RTA_GATEWAY nh.gw (B + 8) hr4
      (by omega) hbuf
    have hr6 : msg_room (nl_close_nexthop m5 0 (nlmsg_len m 0)) (B + 28) := by
      unfold msg_room nl_close_nexthop
      rw [nlmsg_len_st16 _ _ _ _ (Or.inr (by omega))]
      exact msg_room_mono _ _ _ hr5 (by omega)
    obtain ⟨m', hrun, hr'⟩ := ih (nl_close_nexthop m5 0 (nlmsg_len m 0)) (B + 28)
      (fun x hx => hif x (List.mem_cons_of_mem _ hx)) hr6 (by omega)
    refine ⟨m', ?_, msg_room_mono _ _ _ hr' (by omega)⟩
    rw [nl_add_multipath_loop, hopen]
    simp only [Nat.zero_add]
    rw [hifa]
    simp only []
    rw [hgw]
    simp only []
    exact hrun

/-- With room for the attribute header and 28 bytes per next-hop, `nl_add_multipath` on
next-hops that all have an interface does not abort. -/
theorem nl_add_multipath_room (m : Mem) (bufsize : Nat) (nhs : List nexthop) (B : Nat)
    (hif : ∀ nh ∈ nhs, nh.iface ≠ none) (hm : msg_room m B)
    (hfit : B + 4 + 28 * nhs.length ≤ bufsize) (hbuf : bufsize < 2 ^ 32) :
    ∃ m', nl_add_multipath m 0 bufsize nhs = .ok m'
      ∧ msg_room m' (B + 4 + 28 * nhs.length) := by
  obtain ⟨m1, a, hopen, hr1, ha, _⟩ := nl_add_attr_room m bufsize RTA_MULTIPATH [] B 0 hm
    (by simp) (by simp) (by omega) hbuf
  obtain ⟨m2, hloop, hr2⟩ := nl_add_multipath_loop_room bufsize hbuf nhs m1 (B + 4 + 0) hif hr1
    (by omega)
  refine ⟨nl_close_attr m2 0 a, ?_, ?_⟩
  · unfold nl_add_multipath nl_open_attr
    rw [hopen]
    simp only []
    rw [hloop]
  · have ha28 : 28 ≤ a := by rw [ha]; exact hm.2.1
    unfold msg_room nl_close_attr
    rw [nlmsg_len_st16 _ _ _ _ (Or.inr (by omega))]
    exact msg_room_mono _ _ _ hr2 (by omega)

/-- A builder call that does not abort through `bug()` passes the request on. -/
theorem or_bug_room (o : Option Mem) (B : Nat) (hsome : ∃ m', o = some m' ∧ msg_room m' B) :
    ∀ r, or_bug o = r → ∃ m', r = .ok m' ∧ msg_room m' B := by
  obtain ⟨m', ho, hr⟩ := hsome
  intro r h
  rw [ho] at h
  exact ⟨m', h.symm, hr⟩

/-- The switch on the disposition of `nl_send_route`, for a unicast route with several
next-hops that all have an interface: with room for the multipath attribute it does not
abort. -/
theorem nl_send_route_dest_room (m : Mem) (rsize : Nat) (p : krt_proto) (a : rta) (B : Nat)
    (hd : a.dest = .UNICAST) (hn : a.nh_next ≠ [])
    (hif : ∀ nh ∈ a.nh :: a.nh_next, nh.iface ≠ none) (hm : msg_room m B)
    (hfit : B + 4 + 28 * (a.nh :: a.nh_next).length ≤ rsize) (hbuf : rsize < 2 ^ 32) :
    ∃ pkt, nl_send_route_dest m rsize p a = .ok pkt
      ∧ msg_room pkt (B + 4 + 28 * (a.nh :: a.nh_next).length) := by
  have hm1 : msg_room (st8 m 23 RTN_UNICAST) B := by
    unfold msg_room
    rw [nlmsg_len_st8 _ _ _ _ (Or.inr (by omega))]
    exact hm
  obtain ⟨m5, hmp, hr5⟩ := nl_add_multipath_room (st8 m 23 RTN_UNICAST) rsize
    (a.nh :: a.nh_next) B hif hm1 hfit hbuf
  refine ⟨st8 m5 23 RTN_BLACKHOLE, ?_, ?_⟩
  · unfold nl_send_route_dest
    rw [hd]
    simp only []
    rw [if_pos hn, hmp]
  · unfold msg_room
    rw [nlmsg_len_st8 _ _ _ _ (Or.inr (by omega))]
    exact hr5

/-- The part of `nl_send_route` that is run for `new`, for a unicast route with several
next-hops that all have an interface: entered with a request of at most 56 bytes and a buffer
of at least `220 + 28 * n` bytes, it does not abort, and the request it builds has at most
`220 + 28 * n` bytes. -/
theorem nl_send_route_attrs_room (m : Mem) (rsize : Nat) (p : krt_proto) (a : rta)
    (eattrs : List eattr) (metrics0 : Nat → Nat)
    (hd : a.dest = .UNICAST) (hn : a.nh_next ≠ [])
    (hif : ∀ nh ∈ a.nh :: a.nh_next, nh.iface ≠ none) (hm : msg_room m 56)
    (hfit : 220 + 28 * (a.nh :: a.nh_next).length ≤ rsize) (hbuf : rsize < 2 ^ 32) :
    ∀ r, nl_send_route_attrs m rsize p a eattrs metrics0 = r →
      ∃ pkt, r = .ok pkt ∧ msg_room pkt (220 + 28 * (a.nh :: a.nh_next).length) := by
  intro r h
  unfold nl_send_route_attrs at h
  simp only at h
  have s1 : ∀ x, (match ea_find eattrs .KRT_METRIC with
      | some ea => or_bug (nl_add_attr_u32 m 0 rsize RTA_PRIORITY (ea_data ea.u))
      | none => .ok m) = x → ∃ m1, x = .ok m1 ∧ msg_room m1 64 := by
    intro x hx
    split at hx
    · exact or_bug_room _ 64 (nl_add_attr_u32_room m rsize _ _ 56 hm (by omega) hbuf) x hx
    · exact ⟨m, hx.symm, msg_room_mono _ _ _ hm (by omega)⟩
  split at h
  · next why herr =>
    obtain ⟨_, hc, _⟩ := s1 _ herr
    cases hc
  · next m1 hprio =>
    obtain ⟨m1', hc, hr1⟩ := s1 _ hprio
    injection hc with hc
    subst hc
    have s2 : ∀ x, (match ea_find eattrs .KRT_PREFSRC with
        | some ea => or_bug (nl_add_attr_ipa m1 0 rsize RTA_PREFSRC (ea_ip ea.u))
        | none => .ok m1) = x → ∃ m2, x = .ok m2 ∧ msg_room m2 84 := by
      intro x hx
      split at hx
      · exact or_bug_room _ 84 (nl_add_attr_ipa_room m1 rsize _ _ 64 hr1 (by omega) hbuf) x hx
      · exact ⟨m1, hx.symm, msg_room_mono _ _ _ hr1 (by omega)⟩
    split at h
    · next why herr =>
      obtain ⟨_, hc, _⟩ := s2 _ herr
      cases hc
    · next m2 hsrc =>
      obtain ⟨m2', hc, hr2⟩ := s2 _ hsrc
      injection hc with hc
      subst hc
      have s3 : ∀ x, (match ea_find eattrs .KRT_REALM with
          | some ea => or_bug (nl_add_attr_u32 m2 0 rsize RTA_FLOW (ea_data ea.u))
          | none => .ok m2) = x → ∃ m3, x = .ok m3 ∧ msg_room m3 92 := by
        intro x hx
        split at hx
        · exact or_bug_room _ 92 (nl_add_attr_u32_room m2 rsize _ _ 84 hr2 (by omega) hbuf) x hx
        · exact ⟨m2, hx.symm, msg_room_mono _ _ _ hr2 (by omega)⟩
      split at h
      · next why herr =>
        obtain ⟨_, hc, _⟩ := s3 _ herr
        cases hc
      · next m3 hrealm =>
        obtain ⟨m3', hc, hr3⟩ := s3 _ hrealm
        injection hc with hc
        subst hc
        have s4 : ∀ (mt : Nat → Nat) x, (if mt 0 ≠ 0 then
              or_bug (nl_add_metrics m3 0 rsize mt KRT_METRICS_MAX)
            else .ok m3) = x → ∃ m4, x = .ok m4 ∧ msg_room m4 216 := by
          intro mt x hx
          split at hx
          · exact or_bug_room _ 216 (nl_add_metrics_room m3 rsize mt 92 hr3 (by omega) hbuf) x hx
          · exact ⟨m3, hx.symm, msg_room_mono _ _ _ hr3 (by omega)⟩
        split at h
        · next why herr =>
          obtain ⟨_, hc, _⟩ := s4 _ _ herr
          cases hc
        · next m4 hmet =>
          obtain ⟨m4', hc, hr4⟩ := s4 _ _ hmet
          injection hc with hc
          subst hc
          obtain ⟨pkt, hdest, hrp⟩ := nl_send_route_dest_room m4 rsize p a 216 hd hn hif hr4
            (by omega) hbuf
          rw [hdest] at h
          exact ⟨pkt, h.symm, msg_room_mono _ _ _ hrp (by omega)⟩

/-- C30: the multipath buffer is large enough. For every route of an IPv4 or IPv6 protocol
with `n >= 2` next-hops that each have an interface and an IPv4 or IPv6 gateway, every table
id and every list of extended attributes (metric, preferred source, realm, metrics),
`nl_send_route` with `new = 1` does not abort: it hands a request to `nl_exchange`, whose
length is at most `220 + 28 * n`, which does not exceed
`rsize = sizeof(nlmsghdr) + sizeof(rtmsg) + 128 + 8 * KRT_METRICS_MAX + 28 * n`, the buffer size
that the code computes. -/
theorem nl_send_route_multipath_fits (stack : Mem) (p : krt_proto) (e : rte)
    (eattrs : List eattr) (metrics0 : Nat → Nat)
    (hfam : p.af = AF_INET ∨ p.af = AF_INET6)
    (hd : e.attrs.dest = .UNICAST) (hn : 2 ≤ (e.attrs.nh :: e.attrs.nh_next).length)
    (hif : ∀ nh ∈ e.attrs.nh :: e.attrs.nh_next, nh.iface ≠ none)
    (hrs : route_rsize (e.attrs.nh :: e.attrs.nh_next).length < 2 ^ 32) :
    route_rsize (e.attrs.nh :: e.attrs.nh_next).length
      = sizeof_nlmsghdr + sizeof_rtmsg
        + (128 + KRT_METRICS_MAX * 8 + nh_bufsize (e.attrs.nh :: e.attrs.nh_next))
    ∧ ∃ pkt, nl_send_route stack p e eattrs true metrics0 = .exchange pkt
      ∧ 28 ≤ nlmsg_len pkt 0
      ∧ nlmsg_len pkt 0 ≤ 220 + 28 * (e.attrs.nh :: e.attrs.nh_next).length
      ∧ nlmsg_len pkt 0 ≤ route_rsize (e.attrs.nh :: e.attrs.nh_next).length := by
  have hrsize : route_rsize (e.attrs.nh :: e.attrs.nh_next).length
      = sizeof_nlmsghdr + sizeof_rtmsg
        + (128 + KRT_METRICS_MAX * 8 + nh_bufsize (e.attrs.nh :: e.attrs.nh_next)) := by
    have hR : RTNH_LENGTH (RTA_LENGTH 16) = 28 := by decide
    simp only [route_rsize, nh_bufsize, hR, sizeof_nlmsghdr, sizeof_rtmsg, KRT_METRICS_MAX]
    omega
  refine ⟨hrsize, ?_⟩
  have hval : route_rsize (e.attrs.nh :: e.attrs.nh_next).length
      = 284 + 28 * (e.attrs.nh :: e.attrs.nh_next).length := by
    simp only [route_rsize, sizeof_nlmsghdr, sizeof_rtmsg, KRT_METRICS_MAX]
  have hnn : e.attrs.nh_next ≠ [] := by
    intro h0
    rw [h0] at hn
    simp at hn
  have hmpls : p.af ≠ AF_MPLS := by
    rcases hfam with h | h <;> rw [h] <;> decide
  have key : ∀ r, nl_send_route_build stack p e eattrs true metrics0 = r →
      ∃ pkt, r = .ok pkt
        ∧ msg_room pkt (220 + 28 * (e.attrs.nh :: e.attrs.nh_next).length) := by
    intro r h
    unfold nl_send_route_build at h
    simp only [Bool.not_true, Bool.false_eq_true, if_false] at h
    rw [← hrsize] at h
    generalize route_rsize (e.attrs.nh :: e.attrs.nh_next).length = rsize at h hrs hval
    have hstart : ∀ (m0 : Mem) (t f a1 a2 a3 a4 : Nat),
        nlmsg_len (st8 (st8 (st8 (st8 (st16 (st32 (st16 m0 4 t) 0 (NLMSG_LENGTH sizeof_rtmsg)) 6 f)
          16 a1) 17 a2) 21 a3) 22 a4) 0 = 28 := by
      intro m0 t f a1 a2 a3 a4
      rw [nlmsg_len_st8 _ _ _ _ (by omega), nlmsg_len_st8 _ _ _ _ (by omega),
        nlmsg_len_st8 _ _ _ _ (by omega), nlmsg_len_st8 _ _ _ _ (by omega),
        nlmsg_len_st16 _ _ _ _ (by omega)]
      show ld32 (st32 _ 0 _) 0 = 28
      rw [ld32_st32]
      decide
    have s7 : ∀ (m7 : Mem), nlmsg_len m7 0 = 28 → ∀ x,
        (if p.af = AF_MPLS then or_bug (nl_add_attr_mpls m7 0 rsize RTA_DST [net_mpls e.net])
          else or_bug (nl_add_attr_ipa m7 0 rsize RTA_DST (net_pfx e.net))) = x →
        ∃ m8, x = .ok m8 ∧ msg_room m8 48 := by
      intro m7 hl x hx
      rw [if_neg hmpls] at hx
      have hm7 : msg_room m7 28 := ⟨by rw [hl], by rw [hl], by rw [hl]⟩
      exact or_bug_room _ 48 (nl_add_attr_ipa_room m7 rsize _ _ 28 hm7 (by omega) hrs) x hx
    split at h
    · next why herr =>
      obtain ⟨_, hc, _⟩ := s7 _ (hstart _ _ _ _ _ _ _) _ herr
      cases hc
    · next m8 hdst =>
      obtain ⟨m8', hc, hr8⟩ := s7 _ (hstart _ _ _ _ _ _ _) _ hdst
      injection hc with hc
      subst hc
      have s8 : ∀ x, (if krt_table_id p < 256 then Except.ok (st8 m8 20 (krt_table_id p))
            else or_bug (nl_add_attr_u32 m8 0 rsize RTA_TABLE (krt_table_id p))) = x →
          ∃ m9, x = .ok m9 ∧ msg_room m9 56 := by
        intro x hx
        split at hx
        · refine ⟨_, hx.symm, ?_⟩
          unfold msg_room
          rw [nlmsg_len_st8 _ _ _ _ (Or.inr (by omega))]
          exact msg_room_mono _ _ _ hr8 (by omega)
        · exact or_bug_room _ 56 (nl_add_attr_u32_room m8 rsize _ _ 48 hr8 (by omega) hrs) x hx
      split at h
      · next why herr =>
        obtain ⟨_, hc, _⟩ := s8 _ herr
        cases hc
      · next m9 htable =>
        obtain ⟨m9', hc, hr9⟩ := s8 _ htable
        injection hc with hc
        subst hc
        exact nl_send_route_attrs_room m9 rsize p e.attrs eattrs metrics0 hd hnn hif hr9
          (by omega) hrs r h
  obtain ⟨pkt, hpkt, hroom⟩ := key _ rfl
  refine ⟨pkt, ?_, hroom.2.1, hroom.2.2, ?_⟩
  · unfold nl_send_route
    rw [hpkt]
  · rw [hval]
    have := hroom.2.2
    omega

/-- C30 at a concrete route: the request for `10.0.0.0/24` with the next-hops
`via 10.1.1.1 dev eth0` and `via 10.1.1.2 dev eth1` is built without abort and has 72 bytes,
within the 340 bytes of the buffer. -/
theorem nl_send_route_multipath_fits_witness :
    (route_rsize (example_route4_mp.attrs.nh :: example_route4_mp.attrs.nh_next).length
      = sizeof_nlmsghdr + sizeof_rtmsg
        + (128 + KRT_METRICS_MAX * 8
            + nh_bufsize (example_route4_mp.attrs.nh :: example_route4_mp.attrs.nh_next))
    ∧ ∃ pkt, nl_send_route example_stack example_proto4 example_route4_mp [] true (fun _ => 0)
          = .exchange pkt
      ∧ 28 ≤ nlmsg_len pkt 0
      ∧ nlmsg_len pkt 0
          ≤ 220 + 28 * (example_route4_mp.attrs.nh :: example_route4_mp.attrs.nh_next).length
      ∧ nlmsg_len pkt 0
          ≤ route_rsize (example_route4_mp.attrs.nh :: example_route4_mp.attrs.nh_next).length)
    ∧ route_rsize 2 = 340 :=
  ⟨nl_send_route_multipath_fits example_stack example_proto4 example_route4_mp []
      (fun _ => 0) (Or.inl rfl) rfl (by decide) (by decide) (by decide),
   by decide⟩

theorem attrs_space_append (A B : List (Nat × List Nat)) :
    attrs_space (A ++ B) = attrs_space A + attrs_space B := by
  induction A with
  | nil => simp [attrs_space]
  | cons cd rest ih =>
    obtain ⟨c, d⟩ := cd
    show attrs_space ((c, d) :: (rest ++ B)) = _
    simp only [attrs_space, ih]
    omega

theorem attrs_len_append_one (A : List (Nat × List Nat)) (c : Nat) (d : List Nat) :
    attrs_len (A ++ [(c, d)]) = attrs_space A + RTA_LENGTH d.length := by
  induction A with
  | nil => simp [attrs_len, attrs_space]
  | cons cd rest ih =>
    obtain ⟨c0, d0⟩ := cd
    cases rest with
    | nil => simp [attrs_len, attrs_space]
    | cons cd2 rest2 =>
      have ih' : attrs_len (cd2 :: (rest2 ++ [(c, d)]))
          = attrs_space (cd2 :: rest2) + RTA_LENGTH d.length := ih
      show attrs_len ((c0, d0) :: cd2 :: (rest2 ++ [(c, d)])) = _
      simp only [attrs_len, attrs_space] at ih' ⊢
      omega

theorem attrs_space_lt_len (A : List (Nat × List Nat)) :
    attrs_space A < attrs_len A + 4 := by
  induction A with
  | nil => simp [attrs_len, attrs_space]
  | cons cd rest ih =>
    obtain ⟨c, d⟩ := cd
    cases rest with
    | nil =>
      have := RTA_ALIGN_ge (RTA_LENGTH d.length)
      simp only [attrs_len, attrs_space]
      omega
    | cons cd2 rest2 =>
      simp only [attrs_len, attrs_space] at ih ⊢
      omega

theorem attrs_at_append (m : Mem) : ∀ (A B : List (Nat × List Nat)) (a : Nat),
    attrs_at m a A → attrs_at m (a + attrs_space A) B → attrs_at m a (A ++ B) := by
  intro A
  induction A with
  | nil => intro B a _ hB; simpa [attrs_space] using hB
  | cons cd rest ih =>
    obtain ⟨c, d⟩ := cd
    intro B a hA hB
    obtain ⟨h1, h2, h3, h4⟩ := hA
    refine ⟨h1, h2, h3, ?_⟩
    apply ih B _ h4
    simp only [attrs_space] at hB
    rw [Nat.add_assoc]
    exact hB

theorem attrs_at_append_left (m : Mem) : ∀ (A B : List (Nat × List Nat)) (a : Nat),
    attrs_at m a (A ++ B) → attrs_at m a A := by
  intro A
  induction A with
  | nil => intro B a _; trivial
  | cons cd rest ih =>
    obtain ⟨c, d⟩ := cd
    intro B a hA
    obtain ⟨h1, h2, h3, h4⟩ := hA
    exact ⟨h1, h2, h3, ih B _ h4⟩

theorem route_attrs_start : RTM_RTA (NLMSG_DATA 0) = 28 ∧ NLMSG_LENGTH sizeof_rtmsg = 28 := by
  decide

/-- Where the next attribute of a built request goes. -/
theorem msg_built_pos (m : Mem) (bufsize : Nat) (A : List (Nat × List Nat))
    (h : msg_built m bufsize A) :
    NLMSG_ALIGN (nlmsg_len m 0) = 28 + attrs_space A ∧ 28 ≤ nlmsg_len m 0
      ∧ nlmsg_len m 0 ≤ bufsize := by
  obtain ⟨hlen, hle, _⟩ := h
  rw [route_attrs_start.2] at hlen
  have h1 := attrs_len_le_space A
  have h2 := attrs_space_lt_len A
  have h3 := attrs_space_mod A
  refine ⟨?_, by omega, hle⟩
  rw [hlen]
  simp only [NLMSG_ALIGN]
  omega

theorem msg_built_congr (m m' : Mem) (bufsize : Nat) (A : List (Nat × List Nat))
    (h : msg_built m bufsize A) (hsame : ∀ i, i < 4 ∨ 28 ≤ i → m' i = m i) :
    msg_built m' bufsize A := by
  obtain ⟨hlen, hle, hat⟩ := h
  have hl : nlmsg_len m' 0 = nlmsg_len m 0 := by
    unfold nlmsg_len
    exact ld32_congr m m' 0 (fun i _ hi => hsame i (Or.inl (by omega)))
  refine ⟨by rw [hl]; exact hlen, by rw [hl]; exact hle, ?_⟩
  rw [route_attrs_start.1] at hat ⊢
  exact attrs_at_congr m m' A 28 hat (fun i hi _ => hsame i (Or.inr hi))

theorem hdr_same_refl (m : Mem) : hdr_same m m := fun _ _ _ _ => rfl

theorem hdr_same_trans (m m' m'' : Mem) (h1 : hdr_same m m') (h2 : hdr_same m' m'') :
    hdr_same m m'' :=
  fun i a b c => (h2 i a b c).trans (h1 i a b c)

theorem msg_extends_refl (bufsize c : Nat) (m : Mem) : msg_extends bufsize c m m :=
  fun A hA => ⟨hdr_same_refl m, [], by simpa using hA, by simp⟩

theorem msg_extends_trans (bufsize c : Nat) (m m' m'' : Mem)
    (h1 : msg_extends bufsize c m m') (h2 : msg_extends bufsize c m' m'') :
    msg_extends bufsize c m m'' := by
  intro A hA
  obtain ⟨hs1, B1, hB1, hc1⟩ := h1 A hA
  obtain ⟨hs2, B2, hB2, hc2⟩ := h2 (A ++ B1) hB1
  refine ⟨hdr_same_trans m m' m'' hs1 hs2, B1 ++ B2, by rw [← List.append_assoc]; exact hB2, ?_⟩
  simp only [List.map_append, List.mem_append, not_or]
  exact ⟨hc1, hc2⟩

/-- Storing the route type keeps the request and its attributes. -/
theorem msg_extends_st8_type (bufsize c : Nat) (m : Mem) (v : Nat) :
    msg_extends bufsize c m (st8 m 23 v) := by
  intro A hA
  refine ⟨fun i _ _ h23 => st8_other _ _ _ _ h23, [], ?_, by simp⟩
  rw [List.append_nil]
  exact msg_built_congr m _ bufsize A hA (fun i hi => st8_other _ _ _ _ (by omega))

/-- What a successful `nl_add_attr` on a route request has done. -/
theorem nl_add_attr_inv (m : Mem) (bufsize code : Nat) (data : List Nat) (m' : Mem) (a : Nat)
    (hlo : 28 ≤ nlmsg_len m 0) (hhi : nlmsg_len m 0 ≤ bufsize) (hbuf : bufsize < 2 ^ 31)
    (hd : data.length < 2 ^ 30)
    (hadd : nl_add_attr m 0 bufsize code data = some (m', a)) :
    a = NLMSG_ALIGN (nlmsg_len m 0)
      ∧ NLMSG_ALIGN (nlmsg_len m 0) + RTA_LENGTH data.length ≤ bufsize
      ∧ nlmsg_len m' 0 = NLMSG_ALIGN (nlmsg_len m 0) + RTA_LENGTH data.length
      ∧ rta_len m' a = RTA_LENGTH data.length % 65536
      ∧ rta_type m' a = code % 65536
      ∧ (∀ i, i < data.length → m' (RTA_DATA a + i) = data.getD i 0)
      ∧ (∀ i, 4 ≤ i → (i < a ∨ a + RTA_LENGTH data.length ≤ i) → m' i = m i) := by
  have hpos : NLMSG_ALIGN (nlmsg_len m 0) < nlmsg_len m 0 + 4
      ∧ nlmsg_len m 0 ≤ NLMSG_ALIGN (nlmsg_len m 0) := by
    simp only [NLMSG_ALIGN]; omega
  have hle := RTA_LENGTH_eq data.length
  have hp : u32 (NLMSG_ALIGN (nlmsg_len m 0)) = NLMSG_ALIGN (nlmsg_len m 0) :=
    Nat.mod_eq_of_lt (by omega)
  have hl : u32 (RTA_LENGTH data.length) = RTA_LENGTH data.length :=
    Nat.mod_eq_of_lt (by omega)
  have hs : u32 (NLMSG_ALIGN (nlmsg_len m 0) + RTA_LENGTH data.length)
      = NLMSG_ALIGN (nlmsg_len m 0) + RTA_LENGTH data.length := Nat.mod_eq_of_lt (by omega)
  have hfit : NLMSG_ALIGN (nlmsg_len m 0) + RTA_LENGTH data.length ≤ bufsize := by
    by_contra hc
    simp only [nl_add_attr, hp, hl, hs] at hadd
    rw [if_pos (by omega)] at hadd
    cases hadd
  obtain ⟨m'', hadd', h1, h2, h3, h4, h5⟩ := nl_add_attr_spec m 0 bufsize code data
    (NLMSG_ALIGN (nlmsg_len m 0)) rfl hfit (by omega) (by omega)
  rw [hadd] at hadd'
  simp only [Option.some.injEq, Prod.mk.injEq, Nat.zero_add] at hadd'
  obtain ⟨hm, ha⟩ := hadd'
  subst hm
  subst ha
  simp only [Nat.zero_add] at h1 h2 h3 h4 h5
  exact ⟨rfl, hfit, h1, h2, h3, h4, fun i hi hr => h5 i (Or.inr hi) hr⟩

/-- A successful `nl_add_attr` on a built request appends the attribute. -/
theorem nl_add_attr_built (m : Mem) (bufsize code : Nat) (data : List Nat) (m' : Mem) (a : Nat)
    (A : List (Nat × List Nat)) (hA : msg_built m bufsize A) (hbuf : bufsize < 65536)
    (hd : data.length < 2 ^ 30) (hc : code < 65536)
    (hadd : nl_add_attr m 0 bufsize code data = some (m', a)) :
    msg_built m' bufsize (A ++ [(code, data)]) ∧ hdr_same m m' ∧ a = 28 + attrs_space A := by
  obtain ⟨hpos, hlo, hhi⟩ := msg_built_pos m bufsize A hA
  obtain ⟨ha, hfit, hlen, hrl, hrt, hdata, hframe⟩ :=
    nl_add_attr_inv m bufsize code data m' a hlo hhi (by omega) hd hadd
  rw [hpos] at ha hfit hlen
  subst ha
  have hle := RTA_LENGTH_eq data.length
  refine ⟨⟨?_, ?_, ?_⟩, ?_, rfl⟩
  · rw [hlen, route_attrs_start.2, attrs_len_append_one]; omega
  · rw [hlen]; exact hfit
  · rw [route_attrs_start.1]
    apply attrs_at_append
    · have := hA.2.2
      rw [route_attrs_start.1] at this
      exact attrs_at_congr m m' A 28 this (fun i hi1 hi2 => hframe i (by omega) (Or.inl hi2))
    · refine ⟨?_, ?_, hdata, trivial⟩
      · rw [hrl]; exact Nat.mod_eq_of_lt (by omega)
      · rw [hrt]; exact Nat.mod_eq_of_lt hc
  · intro i hi1 hi2 _
    exact hframe i hi1 (Or.inl (by omega))

theorem mem_bytes_length (m : Mem) (a n : Nat) : (mem_bytes m a n).length = n := by
  simp [mem_bytes]

theorem mem_bytes_getD (m : Mem) (a n i : Nat) (hi : i < n) :
    (mem_bytes m a n).getD i 0 = m (a + i) := by
  simp [mem_bytes, List.getD, hi]

/-- Stores beyond the header of an open nested attribute keep it open. -/
theorem msg_open_congr (m m' : Mem) (bufsize : Nat) (A : List (Nat × List Nat)) (c : Nat)
    (h : msg_open m bufsize A c)
    (hsame : ∀ i, i < 28 + attrs_space A + 4 → m' i = m i) :
    msg_open m' bufsize A c ∧ hdr_same m m' := by
  obtain ⟨hlo, hhi, hat, hty⟩ := h
  rw [route_attrs_start.1] at hlo hat hty
  have hl : nlmsg_len m' 0 = nlmsg_len m 0 := by
    unfold nlmsg_len
    exact ld32_congr m m' 0 (fun i _ hi => hsame i (by omega))
  refine ⟨⟨?_, ?_, ?_, ?_⟩, fun i _ hi _ => hsame i (by omega)⟩
  · rw [hl, route_attrs_start.1]; exact hlo
  · rw [hl]; exact hhi
  · rw [route_attrs_start.1]
    exact attrs_at_congr m m' A 28 hat (fun i _ hi => hsame i (by omega))
  · rw [route_attrs_start.1]
    show ld16 m' _ = c
    rw [ld16_congr m m' _ (hsame _ (by omega)) (hsame _ (by omega))]
    exact hty

/-- Raising the message length keeps a nested attribute open. -/
theorem msg_open_len (m : Mem) (bufsize : Nat) (A : List (Nat × List Nat)) (c v : Nat)
    (h : msg_open m bufsize A c) (hv : nlmsg_len m 0 ≤ v) (hvb : v ≤ bufsize)
    (hbuf : bufsize < 2 ^ 32) :
    msg_open (st32 m 0 v) bufsize A c ∧ hdr_same m (st32 m 0 v) := by
  obtain ⟨hlo, hhi, hat, hty⟩ := h
  rw [route_attrs_start.1] at hlo hat hty
  have hl : nlmsg_len (st32 m 0 v) 0 = v := by
    show ld32 _ 0 = v
    rw [ld32_st32]; exact Nat.mod_eq_of_lt (by omega)
  have hsame : ∀ i, 4 ≤ i → st32 m 0 v i = m i := fun i hi => st32_other _ _ _ _ (Or.inr hi)
  refine ⟨⟨?_, ?_, ?_, ?_⟩, fun i hi _ _ => hsame i hi⟩
  · rw [hl, route_attrs_start.1]; omega
  · rw [hl]; exact hvb
  · rw [route_attrs_start.1]
    exact attrs_at_congr m _ A 28 hat (fun i hi _ => hsame i (by omega))
  · rw [route_attrs_start.1]
    show ld16 (st32 m 0 v) _ = c
    rw [ld16_congr m _ _ (hsame _ (by omega)) (hsame _ (by omega))]
    exact hty

/-- A successful `nl_add_attr` inside an open nested attribute keeps it open. -/
theorem nl_add_attr_open (m : Mem) (bufsize code : Nat) (data : List Nat) (m' : Mem) (a : Nat)
    (A : List (Nat × List Nat)) (c : Nat) (hA : msg_open m bufsize A c)
    (hbuf : bufsize < 65536) (hd : data.length < 2 ^ 30)
    (hadd : nl_add_attr m 0 bufsize code data = some (m', a)) :
    msg_open m' bufsize A c ∧ hdr_same m m' := by
  obtain ⟨hlo, hhi, hat, hty⟩ := hA
  rw [route_attrs_start.1] at hlo hat hty
  obtain ⟨ha, hfit, hlen, _, _, _, hframe⟩ :=
    nl_add_attr_inv m bufsize code data m' a (by omega) hhi (by omega) hd hadd
  have hpos : nlmsg_len m 0 ≤ NLMSG_ALIGN (nlmsg_len m 0) := by
    simp only [NLMSG_ALIGN]; omega
  have hsame : ∀ i, 4 ≤ i → i < 28 + attrs_space A + 4 → m' i = m i :=
    fun i h1 h2 => hframe i h1 (Or.inl (by omega))
  refine ⟨⟨?_, ?_, ?_, ?_⟩, fun i hi1 hi2 _ => hsame i hi1 (by omega)⟩
  · rw [hlen, route_attrs_start.1]; omega
  · rw [hlen]; exact hfit
  · rw [route_attrs_start.1]
    exact attrs_at_congr m m' A 28 hat (fun i h1 h2 => hsame i (by omega) (by omega))
  · rw [route_attrs_start.1]
    show ld16 m' _ = c
    rw [ld16_congr m m' _ (hsame _ (by omega) (by omega)) (hsame _ (by omega) (by omega))]
    exact hty

/-- A successful `nl_open_attr` on a built request opens a nested attribute after its
attributes. -/
theorem nl_open_attr_open (m : Mem) (bufsize code : Nat) (m' : Mem) (a : Nat)
    (A : List (Nat × List Nat)) (hA : msg_built m bufsize A) (hbuf : bufsize < 65536)
    (hc : code < 65536)
    (hadd : nl_open_attr m 0 bufsize code = some (m', a)) :
    msg_open m' bufsize A code ∧ hdr_same m m' ∧ a = 28 + attrs_space A := by
  obtain ⟨hpos, hlo, hhi⟩ := msg_built_pos m bufsize A hA
  obtain ⟨ha, hfit, hlen, _, hrt, _, hframe⟩ :=
    nl_add_attr_inv m bufsize code [] m' a hlo hhi (by omega) (by simp) hadd
  rw [hpos] at ha hfit hlen
  subst ha
  have hle := RTA_LENGTH_eq ([] : List Nat).length
  simp only [List.length_nil] at hle hlen hfit
  refine ⟨⟨?_, ?_, ?_, ?_⟩, ?_, rfl⟩
  · rw [hlen, route_attrs_start.1]; omega
  · rw [hlen]; exact hfit
  · have := hA.2.2
    rw [route_attrs_start.1] at this ⊢
    exact attrs_at_congr m m' A 28 this (fun i hi1 hi2 => hframe i (by omega) (Or.inl hi2))
  · rw [route_attrs_start.1, hrt]; exact Nat.mod_eq_of_lt hc
  · intro i hi1 hi2 _
    exact hframe i hi1 (Or.inl (by omega))

/-- Closing an open nested attribute makes it the last attribute of the request, with the
bytes written since it was opened as payload. -/
theorem nl_close_attr_built (m : Mem) (bufsize : Nat) (A : List (Nat × List Nat)) (c : Nat)
    (hA : msg_open m bufsize A c) (hbuf : bufsize < 65536) :
    msg_built (nl_close_attr m 0 (28 + attrs_space A)) bufsize
        (A ++ [(c, mem_bytes m (28 + attrs_space A + 4)
          (nlmsg_len m 0 - (28 + attrs_space A + 4)))])
      ∧ hdr_same m (nl_close_attr m 0 (28 + attrs_space A)) := by
  obtain ⟨hlo, hhi, hat, hty⟩ := hA
  rw [route_attrs_start.1] at hlo hat hty
  have hsame : ∀ i, i ≠ 28 + attrs_space A → i ≠ 28 + attrs_space A + 1 →
      nl_close_attr m 0 (28 + attrs_space A) i = m i :=
    fun i h1 h2 => st16_other _ _ _ _ h1 h2
  have hl : nlmsg_len (nl_close_attr m 0 (28 + attrs_space A)) 0 = nlmsg_len m 0 :=
    nlmsg_len_st16 m 0 _ _ (Or.inr (by omega))
  have hle := RTA_LENGTH_eq (nlmsg_len m 0 - (28 + attrs_space A + 4))
  refine ⟨⟨?_, ?_, ?_⟩, fun i _ hi _ => hsame i (by omega) (by omega)⟩
  · rw [hl, route_attrs_start.2, attrs_len_append_one, mem_bytes_length]; omega
  · rw [hl]; exact hhi
  · rw [route_attrs_start.1]
    apply attrs_at_append
    · exact attrs_at_congr m _ A 28 hat (fun i _ hi => hsame i (by omega) (by omega))
    · refine ⟨?_, ?_, ?_, trivial⟩
      · show ld16 (st16 m _ _) _ = _
        rw [ld16_st16, mem_bytes_length, Nat.mod_eq_of_lt (by omega)]
        omega
      · show ld16 _ (28 + attrs_space A + 2) = c
        rw [ld16_congr m _ _ (hsame _ (by omega) (by omega)) (hsame _ (by omega) (by omega))]
        exact hty
      · intro i hi
        rw [mem_bytes_length] at hi
        rw [mem_bytes_getD m _ _ i hi, RTA_DATA_eq, hsame _ (by omega) (by omega)]

theorem mpls_put_length : ∀ (l : List Nat), (mpls_put l).length = 4 * l.length := by
  intro l
  induction l with
  | nil => rfl
  | cons x rest ih =>
    cases rest with
    | nil => simp [mpls_put, bytes_be32]
    | cons y rest2 =>
      simp only [mpls_put, List.length_append, List.length_cons] at ih ⊢
      simp only [bytes_be32, List.length_cons, List.length_nil]
      omega

/-- A successful `nl_add_attr` appends one attribute to a built request. -/
theorem nl_add_attr_extends (m : Mem) (bufsize code : Nat) (data : List Nat) (m' : Mem)
    (c : Nat) (hbuf : bufsize < 65536) (hd : data.length < 2 ^ 30) (hc : code < 65536)
    (hne : code ≠ c) (hadd : (nl_add_attr m 0 bufsize code data).map Prod.fst = some m') :
    msg_extends bufsize c m m' := by
  intro A hA
  cases hr : nl_add_attr m 0 bufsize code data with
  | none => rw [hr] at hadd; cases hadd
  | some r =>
    obtain ⟨m1, a⟩ := r
    rw [hr] at hadd
    simp only [Option.map_some', Option.some.injEq] at hadd
    subst hadd
    obtain ⟨hb, hs, _⟩ := nl_add_attr_built m bufsize code data m1 a A hA hbuf hd hc hr
    refine ⟨hs, [(code, data)], hb, ?_⟩
    simp only [List.map_cons, List.map_nil, List.mem_singleton]
    exact fun h => hne h.symm

theorem nl_add_attr_u32_extends (m : Mem) (bufsize code v : Nat) (m' : Mem) (c : Nat)
    (hbuf : bufsize < 65536) (hc : code < 65536) (hne : code ≠ c)
    (hadd : nl_add_attr_u32 m 0 bufsize code v = some m') : msg_extends bufsize c m m' :=
  nl_add_attr_extends m bufsize code (bytes_u32 v) m' c hbuf (by simp [bytes_u32]) hc hne hadd

theorem nl_add_attr_u16_extends (m : Mem) (bufsize code v : Nat) (m' : Mem) (c : Nat)
    (hbuf : bufsize < 65536) (hc : code < 65536) (hne : code ≠ c)
    (hadd : nl_add_attr_u16 m 0 bufsize code v = some m') : msg_extends bufsize c m m' :=
  nl_add_attr_extends m bufsize code (bytes_u16 v) m' c hbuf (by simp [bytes_u16]) hc hne hadd

theorem nl_add_attr_ipa_extends (m : Mem) (bufsize code : Nat) (ipa : ip_addr) (m' : Mem)
    (c : Nat) (hbuf : bufsize < 65536) (hc : code < 65536) (hne : code ≠ c)
    (hadd : nl_add_attr_ipa m 0 bufsize code ipa = some m') : msg_extends bufsize c m m' := by
  cases ipa with
  | ip4 x =>
    exact nl_add_attr_extends m bufsize code (ip4_hton_bytes x) m' c hbuf
      (by simp [ip4_hton_bytes, bytes_be32]) hc hne hadd
  | ip6 x =>
    exact nl_add_attr_extends m bufsize code (ip6_hton_bytes x) m' c hbuf
      (by simp [ip6_hton_bytes, bytes_be32]) hc hne hadd

theorem nl_add_attr_mpls_extends (m : Mem) (bufsize code : Nat) (stack : List Nat) (m' : Mem)
    (c : Nat) (hbuf : bufsize < 65536) (hc : code < 65536) (hne : code ≠ c)
    (hs : stack.length < 2 ^ 28)
    (hadd : nl_add_attr_mpls m 0 bufsize code stack = some m') : msg_extends bufsize c m m' :=
  nl_add_attr_extends m bufsize code (mpls_put stack) m' c hbuf
    (by rw [mpls_put_length]; omega) hc hne hadd

/-- A successful `nl_add_attr` inside an open nested attribute, its pointer dropped. -/
theorem nl_add_attr_fst_open (m : Mem) (bufsize code : Nat) (data : List Nat) (m' : Mem)
    (A : List (Nat × List Nat)) (c : Nat) (hA : msg_open m bufsize A c)
    (hbuf : bufsize < 65536) (hd : data.length < 2 ^ 30)
    (hadd : (nl_add_attr m 0 bufsize code data).map Prod.fst = some m') :
    msg_open m' bufsize A c ∧ hdr_same m m' := by
  cases hr : nl_add_attr m 0 bufsize code data with
  | none => rw [hr] at hadd; cases hadd
  | some r =>
    obtain ⟨m1, a⟩ := r
    rw [hr] at hadd
    simp only [Option.map_some', Option.some.injEq] at hadd
    subst hadd
    exact nl_add_attr_open m bufsize code data m1 a A c hA hbuf hd hr

/-- The loop of `nl_add_metrics`, when it does not abort, writes inside the open attribute. -/
theorem nl_add_metrics_loop_open (bufsize : Nat) (metrics : Nat → Nat)
    (A : List (Nat × List Nat)) (c : Nat) (hbuf : bufsize < 65536) :
    ∀ (ts : List Nat) (m m' : Mem), msg_open m bufsize A c →
      nl_add_metrics_loop 0 bufsize metrics m ts = some m' →
      msg_open m' bufsize A c ∧ hdr_same m m' := by
  intro ts
  induction ts with
  | nil =>
    intro m m' hA h
    simp only [nl_add_metrics_loop, Option.some.injEq] at h
    subst h
    exact ⟨hA, hdr_same_refl m⟩
  | cons t rest ih =>
    intro m m' hA h
    rw [nl_add_metrics_loop] at h
    by_cases hbit : (metrics 0 &&& 1 <<< t != 0) = true
    · rw [if_pos hbit] at h
      cases hadd : nl_add_attr_u32 m 0 bufsize t (metrics t) with
      | none => rw [hadd] at h; cases h
      | some m1 =>
        rw [hadd] at h
        obtain ⟨h1, s1⟩ := nl_add_attr_fst_open m bufsize t (bytes_u32 (metrics t)) m1 A c hA
          hbuf (by simp [bytes_u32]) hadd
        obtain ⟨h2, s2⟩ := ih m1 m' h1 h
        exact ⟨h2, hdr_same_trans _ _ _ s1 s2⟩
    · rw [if_neg hbit] at h
      exact ih m m' hA h

/-- A successful `nl_add_metrics` appends one attribute `RTA_METRICS`. -/
theorem nl_add_metrics_extends (m : Mem) (bufsize : Nat) (metrics : Nat → Nat) (max : Nat)
    (m' : Mem) (c : Nat) (hbuf : bufsize < 65536) (hne : RTA_METRICS ≠ c)
    (hadd : nl_add_metrics m 0 bufsize metrics max = some m') : msg_extends bufsize c m m' := by
  intro A hA
  unfold nl_add_metrics at hadd
  cases hopen : nl_open_attr m 0 bufsize RTA_METRICS with
  | none => rw [hopen] at hadd; cases hadd
  | some r =>
    obtain ⟨m1, a⟩ := r
    rw [hopen] at hadd
    simp only [] at hadd
    obtain ⟨h1, s1, ha⟩ := nl_open_attr_open m bufsize RTA_METRICS m1 a A hA hbuf
      (by decide) hopen
    subst ha
    cases hloop : nl_add_metrics_loop 0 bufsize metrics m1
        ((List.range max).filter (fun t => 1 ≤ t)) with
    | none => rw [hloop] at hadd; cases hadd
    | some m2 =>
      rw [hloop] at hadd
      simp only [Option.some.injEq] at hadd
      subst hadd
      obtain ⟨h2, s2⟩ := nl_add_metrics_loop_open bufsize metrics A RTA_METRICS hbuf _ m1 m2
        h1 hloop
      obtain ⟨h3, s3⟩ := nl_close_attr_built m2 bufsize A RTA_METRICS h2 hbuf
      refine ⟨hdr_same_trans _ _ _ (hdr_same_trans _ _ _ s1 s2) s3, _, h3, ?_⟩
      simp only [List.map_cons, List.map_nil, List.mem_singleton]
      exact fun h => hne h.symm

theorem nl_open_nexthop_inv (m : Mem) (bufsize : Nat) (m1 : Mem) (rtnh : Nat)
    (hhi : nlmsg_len m 0 ≤ bufsize) (hbuf : bufsize < 2 ^ 31)
    (h : nl_open_nexthop m 0 bufsize = some (m1, rtnh)) :
    rtnh = NLMSG_ALIGN (nlmsg_len m 0) ∧ nlmsg_len m 0 ≤ rtnh
      ∧ m1 = st32 m 0 (rtnh + 8) ∧ rtnh + 8 ≤ bufsize := by
  have hpos : NLMSG_ALIGN (nlmsg_len m 0) < nlmsg_len m 0 + 4
      ∧ nlmsg_len m 0 ≤ NLMSG_ALIGN (nlmsg_len m 0) := by
    simp only [NLMSG_ALIGN]; omega
  have hR : RTNH_LENGTH 0 = 8 := by decide
  have hp : u32 (NLMSG_ALIGN (nlmsg_len m 0)) = NLMSG_ALIGN (nlmsg_len m 0) :=
    Nat.mod_eq_of_lt (by omega)
  have hs : u32 (NLMSG_ALIGN (nlmsg_len m 0) + 8) = NLMSG_ALIGN (nlmsg_len m 0) + 8 :=
    Nat.mod_eq_of_lt (by omega)
  unfold nl_open_nexthop at h
  simp only [hR, hp, hs, Nat.zero_add] at h
  split at h
  · cases h
  · next hfit =>
    simp only [Option.some.injEq, Prod.mk.injEq] at h
    obtain ⟨h1, h2⟩ := h
    subst h2
    exact ⟨rfl, hpos.2, h1.symm, by omega⟩

/-- The loop of `nl_add_multipath`, when it does not abort, writes inside the open
attribute. -/
theorem nl_add_multipath_loop_open (bufsize : Nat) (A : List (Nat × List Nat)) (c : Nat)
    (hbuf : bufsize < 65536) :
    ∀ (nhs : List nexthop) (m m' : Mem), msg_open m bufsize A c →
      nl_add_multipath_loop 0 bufsize m nhs = .ok m' →
      msg_open m' bufsize A c ∧ hdr_same m m' := by
  intro nhs
  induction nhs with
  | nil =>
    intro m m' hA h
    simp only [nl_add_multipath_loop, Except.ok.injEq] at h
    subst h
    exact ⟨hA, hdr_same_refl m⟩
  | cons nh rest ih =>
    intro m m' hA h
    rw [nl_add_multipath_loop] at h
    have hlo : 28 + attrs_space A + 4 ≤ nlmsg_len m 0 := by
      have := hA.1
      rw [route_attrs_start.1] at this
      exact this
    cases hopen : nl_open_nexthop m 0 bufsize with
    | none => rw [hopen] at h; cases h
    | some r =>
      obtain ⟨m1, rtnh⟩ := r
      rw [hopen] at h
      simp only [] at h
      obtain ⟨hr, hge, hm1, hfit⟩ := nl_open_nexthop_inv m bufsize m1 rtnh hA.2.1
        (by omega) hopen
      obtain ⟨h1, s1⟩ := msg_open_len m bufsize A c (rtnh + 8) hA (by omega) hfit (by omega)
      rw [← hm1] at h1 s1
      cases hif : nh.iface with
      | none => rw [hif] at h; cases h
      | some ifa =>
        rw [hif] at h
        simp only [] at h
        obtain ⟨h4, s4⟩ := msg_open_congr m1
          (st32 (st8 (st8 m1 (rtnh + 2) 0) (rtnh + 3) nh.weight) (rtnh + 4) ifa.index)
          bufsize A c h1 (fun i hi => by
            rw [st32_other _ _ _ _ (Or.inl (by omega)), st8_other _ _ _ _ (by omega),
              st8_other _ _ _ _ (by omega)])
        cases hgw : nl_add_attr_ipa
            (st32 (st8 (st8 m1 (rtnh + 2) 0) (rtnh + 3) nh.weight) (rtnh + 4) ifa.index)
            0 bufsize RTA_GATEWAY nh.gw with
        | none => rw [hgw] at h; cases h
        | some m5 =>
          rw [hgw] at h
          simp only [] at h
          have h5s : msg_open m5 bufsize A c ∧ hdr_same
              (st32 (st8 (st8 m1 (rtnh + 2) 0) (rtnh + 3) nh.weight) (rtnh + 4) ifa.index)
              m5 := by
            cases hgwv : nh.gw with
            | ip4 x =>
              rw [hgwv] at hgw
              exact nl_add_attr_fst_open _ bufsize RTA_GATEWAY (ip4_hton_bytes x) m5 A c h4
                hbuf (by simp [ip4_hton_bytes, bytes_be32]) hgw
            | ip6 x =>
              rw [hgwv] at hgw
              exact nl_add_attr_fst_open _ bufsize RTA_GATEWAY (ip6_hton_bytes x) m5 A c h4
                hbuf (by simp [ip6_hton_bytes, bytes_be32]) hgw
          obtain ⟨h5, s5⟩ := h5s
          obtain ⟨h6, s6⟩ := msg_open_congr m5 (nl_close_nexthop m5 0 rtnh) bufsize A c h5
            (fun i hi => st16_other _ _ _ _ (by omega) (by omega))
          obtain ⟨h7, s7⟩ := ih _ m' h6 h
          exact ⟨h7, hdr_same_trans _ _ _ (hdr_same_trans _ _ _ (hdr_same_trans _ _ _
            (hdr_same_trans _ _ _ s1 s4) s5) s6) s7⟩

/-- A successful `nl_add_multipath` appends one attribute `RTA_MULTIPATH`. -/
theorem nl_add_multipath_extends (m : Mem) (bufsize : Nat) (nhs : List nexthop)
    (m' : Mem) (c : Nat) (hbuf : bufsize < 65536) (hne : RTA_MULTIPATH ≠ c)
    (hadd : nl_add_multipath m 0 bufsize nhs = .ok m') : msg_extends bufsize c m m' := by
  intro A hA
  unfold nl_add_multipath at hadd
  cases hopen : nl_open_attr m 0 bufsize RTA_MULTIPATH with
  | none => rw [hopen] at hadd; cases hadd
  | some r =>
    obtain ⟨m1, a⟩ := r
    rw [hopen] at hadd
    simp only [] at hadd
    obtain ⟨h1, s1, ha⟩ := nl_open_attr_open m bufsize RTA_MULTIPATH m1 a A hA hbuf
      (by decide) hopen
    subst ha
    cases hloop : nl_add_multipath_loop 0 bufsize m1 nhs with
    | error e => rw [hloop] at hadd; cases hadd
    | ok m2 =>
      rw [hloop] at hadd
      simp only [Except.ok.injEq] at hadd
      subst hadd
      obtain ⟨h2, s2⟩ := nl_add_multipath_loop_open bufsize A RTA_MULTIPATH hbuf nhs m1 m2
        h1 hloop
      obtain ⟨h3, s3⟩ := nl_close_attr_built m2 bufsize A RTA_MULTIPATH h2 hbuf
      refine ⟨hdr_same_trans _ _ _ (hdr_same_trans _ _ _ s1 s2) s3, _, h3, ?_⟩
      simp only [List.map_cons, List.map_nil, List.mem_singleton]
      exact fun h => hne h.symm

/-- A successful `nl_add_attr_mpls_encap` appends the attributes `RTA_ENCAP` and
`RTA_ENCAP_TYPE`. -/
theorem nl_add_attr_mpls_encap_extends (m : Mem) (bufsize : Nat) (stack : List Nat)
    (m' : Mem) (c : Nat) (hbuf : bufsize < 65536) (hne : RTA_ENCAP ≠ c)
    (hne2 : RTA_ENCAP_TYPE ≠ c) (hs : stack.length < 2 ^ 28)
    (hadd : nl_add_attr_mpls_encap m 0 bufsize stack = some m') :
    msg_extends bufsize c m m' := by
  unfold nl_add_attr_mpls_encap at hadd
  cases hopen : nl_open_attr m 0 bufsize RTA_ENCAP with
  | none => rw [hopen] at hadd; cases hadd
  | some r =>
    obtain ⟨m1, a⟩ := r
    rw [hopen] at hadd
    simp only [] at hadd
    cases hin : nl_add_attr_mpls m1 0 bufsize RTA_DST stack with
    | none => rw [hin] at hadd; cases hadd
    | some m2 =>
      rw [hin] at hadd
      simp only [] at hadd
      have e1 : msg_extends bufsize c m (nl_close_attr m2 0 a) := by
        intro A hA
        obtain ⟨h1, s1, ha⟩ := nl_open_attr_open m bufsize RTA_ENCAP m1 a A hA hbuf
          (by decide) hopen
        subst ha
        obtain ⟨h2, s2⟩ := nl_add_attr_fst_open m1 bufsize RTA_DST (mpls_put stack) m2 A
          RTA_ENCAP h1 hbuf (by rw [mpls_put_length]; omega) hin
        obtain ⟨h3, s3⟩ := nl_close_attr_built m2 bufsize A RTA_ENCAP h2 hbuf
        refine ⟨hdr_same_trans _ _ _ (hdr_same_trans _ _ _ s1 s2) s3, _, h3, ?_⟩
        simp only [List.map_cons, List.map_nil, List.mem_singleton]
        exact fun h => hne h.symm
      exact msg_extends_trans bufsize c _ _ _ e1
        (nl_add_attr_u16_extends _ bufsize RTA_ENCAP_TYPE LWTUNNEL_ENCAP_MPLS m' c hbuf
          (by decide) hne2 hadd)

theorem or_bug_extends (o : Option Mem) (bufsize c : Nat) (m m' : Mem)
    (hok : or_bug o = .ok m') (hext : o = some m' → msg_extends bufsize c m m') :
    msg_extends bufsize c m m' :=
  hext (or_bug_ok _ _ hok)

/-- The switch on the disposition of `nl_send_route`, when it does not abort, appends
attributes other than `RTA_TABLE` to the request. -/
theorem nl_send_route_dest_extends (m : Mem) (rsize : Nat) (p : krt_proto) (a : rta)
    (m' : Mem) (hbuf : rsize < 65536) (hlab : a.nh.labels ≤ 255)
    (h : nl_send_route_dest m rsize p a = .ok m') : msg_extends rsize RTA_TABLE m m' := by
  have hstack : (a.nh.label.take a.nh.labels.toNat).length < 2 ^ 28 := by
    have h1 : (a.nh.label.take a.nh.labels.toNat).length ≤ a.nh.labels.toNat :=
      List.length_take_le _ _
    omega
  unfold nl_send_route_dest at h
  cases hd : a.dest with
  | NONE => rw [hd] at h; cases h
  | BLACKHOLE =>
    rw [hd] at h
    simp only [Except.ok.injEq] at h
    subst h
    exact msg_extends_st8_type rsize RTA_TABLE m _
  | UNREACHABLE =>
    rw [hd] at h
    simp only [Except.ok.injEq] at h
    subst h
    exact msg_extends_st8_type rsize RTA_TABLE m _
  | PROHIBIT =>
    rw [hd] at h
    simp only [Except.ok.injEq] at h
    subst h
    exact msg_extends_st8_type rsize RTA_TABLE m _
  | UNICAST =>
    rw [hd] at h
    simp only [] at h
    have e0 := msg_extends_st8_type rsize RTA_TABLE m RTN_UNICAST
    split at h
    · cases h
    · next m4 hnh =>
      simp only [Except.ok.injEq] at h
      subst h
      refine msg_extends_trans rsize RTA_TABLE _ _ _ ?_
        (msg_extends_st8_type rsize RTA_TABLE m4 RTN_BLACKHOLE)
      refine msg_extends_trans rsize RTA_TABLE _ _ _ e0 ?_
      by_cases hn : a.nh_next ≠ []
      · rw [if_pos hn] at hnh
        exact nl_add_multipath_extends _ rsize _ m4 RTA_TABLE hbuf (by decide) hnh
      · rw [if_neg hn] at hnh
        cases hif : a.nh.iface with
        | none => rw [hif] at hnh; cases hnh
        | some ifa =>
          rw [hif] at hnh
          simp only [] at hnh
          cases hoif : nl_add_attr_u32 (st8 m 23 RTN_UNICAST) 0 rsize RTA_OIF ifa.index with
          | none => rw [hoif] at hnh; cases hnh
          | some m2 =>
            rw [hoif] at hnh
            simp only [] at hnh
            have e2 := nl_add_attr_u32_extends _ rsize RTA_OIF ifa.index m2 RTA_TABLE hbuf
              (by decide) (by decide) hoif
            refine msg_extends_trans rsize RTA_TABLE _ _ _ e2 ?_
            intro A hA
            obtain ⟨_, hlo, hhi⟩ := msg_built_pos m2 rsize A hA
            have hno := nl_add_gateway_sizeof_ptr m2 a.nh.gw hlo (by omega)
            by_cases hz : ipa_nonzero a.nh.gw = true
            · rw [if_pos hz] at hnh
              by_cases hmp : p.af = AF_MPLS
              · rw [if_pos hmp, hno.1] at hnh
                cases hnh
              · rw [if_neg hmp, hno.2] at hnh
                cases hnh
            · rw [if_neg hz] at hnh
              simp only [] at hnh
              by_cases hl : a.nh.labels > 0
              · rw [if_pos hl] at hnh
                by_cases hmp : p.af = AF_MPLS
                · rw [if_pos hmp] at hnh
                  exact nl_add_attr_mpls_extends m2 rsize RTA_NEWDST _ m4 RTA_TABLE hbuf
                    (by decide) (by decide) hstack (or_bug_ok _ _ hnh) A hA
                · rw [if_neg hmp] at hnh
                  exact nl_add_attr_mpls_encap_extends m2 rsize _ m4 RTA_TABLE hbuf
                    (by decide) (by decide) hstack (or_bug_ok _ _ hnh) A hA
              · rw [if_neg hl] at hnh
                simp only [Except.ok.injEq] at hnh
                subst hnh
                exact msg_extends_refl rsize RTA_TABLE m2 A hA

/-- The part of `nl_send_route` that is run for `new`, when it does not abort, appends
attributes other than `RTA_TABLE` to the request. -/
theorem nl_send_route_attrs_extends (m : Mem) (rsize : Nat) (p : krt_proto) (a : rta)
    (eattrs : List eattr) (metrics0 : Nat → Nat) (m' : Mem) (hbuf : rsize < 65536)
    (hlab : a.nh.labels ≤ 255)
    (h : nl_send_route_attrs m rsize p a eattrs metrics0 = .ok m') :
    msg_extends rsize RTA_TABLE m m' := by
  unfold nl_send_route_attrs at h
  simp only at h
  split at h
  · cases h
  · next m1 hprio =>
    have e1 : msg_extends rsize RTA_TABLE m m1 := by
      split at hprio
      · exact nl_add_attr_u32_extends m rsize RTA_PRIORITY _ m1 RTA_TABLE hbuf (by decide)
          (by decide) (or_bug_ok _ _ hprio)
      · injection hprio with hprio
        subst hprio
        exact msg_extends_refl _ _ _
    split at h
    · cases h
    · next m2 hsrc =>
      have e2 : msg_extends rsize RTA_TABLE m1 m2 := by
        split at hsrc
        · exact nl_add_attr_ipa_extends m1 rsize RTA_PREFSRC _ m2 RTA_TABLE hbuf (by decide)
            (by decide) (or_bug_ok _ _ hsrc)
        · injection hsrc with hsrc
          subst hsrc
          exact msg_extends_refl _ _ _
      split at h
      · cases h
      · next m3 hrealm =>
        have e3 : msg_extends rsize RTA_TABLE m2 m3 := by
          split at hrealm
          · exact nl_add_attr_u32_extends m2 rsize RTA_FLOW _ m3 RTA_TABLE hbuf (by decide)
              (by decide) (or_bug_ok _ _ hrealm)
          · injection hrealm with hrealm
            subst hrealm
            exact msg_extends_refl _ _ _
        split at h
        · cases h
        · next m4 hmet =>
          have e4 : msg_extends rsize RTA_TABLE m3 m4 := by
            split at hmet
            · exact nl_add_metrics_extends m3 rsize _ _ m4 RTA_TABLE hbuf (by decide)
                (or_bug_ok _ _ hmet)
            · injection hmet with hmet
              subst hmet
              exact msg_extends_refl _ _ _
          have e5 := nl_send_route_dest_extends m4 rsize p a m' hbuf hlab h
          exact msg_extends_trans _ _ _ _ _ e1 (msg_extends_trans _ _ _ _ _ e2
            (msg_extends_trans _ _ _ _ _ e3 (msg_extends_trans _ _ _ _ _ e4 e5)))

theorem route_rsize_eq (nhs : List nexthop) :
    sizeof_nlmsghdr + sizeof_rtmsg + (128 + KRT_METRICS_MAX * 8 + nh_bufsize nhs)
      = route_rsize nhs.length := by
  have h1 : RTNH_LENGTH (RTA_LENGTH 16) = 28 := by decide
  simp only [route_rsize, nh_bufsize, h1, sizeof_nlmsghdr, sizeof_rtmsg, KRT_METRICS_MAX]
  omega

theorem nl_add_attr_fst_built (m : Mem) (bufsize code : Nat) (data : List Nat) (m' : Mem)
    (A : List (Nat × List Nat)) (hA : msg_built m bufsize A) (hbuf : bufsize < 65536)
    (hd : data.length < 2 ^ 30) (hc : code < 65536)
    (hadd : (nl_add_attr m 0 bufsize code data).map Prod.fst = some m') :
    msg_built m' bufsize (A ++ [(code, data)]) ∧ hdr_same m m' := by
  cases hr : nl_add_attr m 0 bufsize code data with
  | none => rw [hr] at hadd; cases hadd
  | some r =>
    obtain ⟨m1, a⟩ := r
    rw [hr] at hadd
    simp only [Option.map_some', Option.some.injEq] at hadd
    subst hadd
    obtain ⟨hb, hs, _⟩ := nl_add_attr_built m bufsize code data m1 a A hA hbuf hd hc hr
    exact ⟨hb, hs⟩

/-- The request of `nl_send_route` after its header and fixed payload have been filled in. -/
theorem nl_send_route_init_built (m0 : Mem) (t f a1 a2 a3 a4 rsize : Nat) (hr : 28 ≤ rsize) :
    msg_built (st8 (st8 (st8 (st8 (st16 (st32 (st16 m0 4 t) 0 (NLMSG_LENGTH sizeof_rtmsg)) 6 f)
        16 a1) 17 a2) 21 a3) 22 a4) rsize [] := by
  have hl : nlmsg_len (st8 (st8 (st8 (st8 (st16 (st32 (st16 m0 4 t) 0
      (NLMSG_LENGTH sizeof_rtmsg)) 6 f) 16 a1) 17 a2) 21 a3) 22 a4) 0 = 28 := by
    rw [nlmsg_len_st8 _ _ _ _ (by omega), nlmsg_len_st8 _ _ _ _ (by omega),
      nlmsg_len_st8 _ _ _ _ (by omega), nlmsg_len_st8 _ _ _ _ (by omega),
      nlmsg_len_st16 _ _ _ _ (by omega)]
    show ld32 (st32 _ 0 _) 0 = 28
    rw [ld32_st32]
    decide
  refine ⟨?_, ?_, trivial⟩
  · rw [hl]; decide
  · rw [hl]; exact hr

/-- The header fields of a request whose bytes 4 to 27, the table and the route type apart,
are those that `nl_send_route` stores first. -/
theorem route_hdr_of_init (stack : Mem) (new : Bool) (p : krt_proto) (net : net_addr)
    (pkt : Mem)
    (hs : ∀ i, 4 ≤ i → i < 28 → i ≠ 20 → i ≠ 23 → pkt i = (st8 (st8 (st8 (st8 (st16 (st32 (st16
        (bzero (bzero stack 0 sizeof_nlmsghdr) sizeof_nlmsghdr sizeof_rtmsg) 4
          (if new then RTM_NEWROUTE else RTM_DELROUTE)) 0 (NLMSG_LENGTH sizeof_rtmsg)) 6
        (NLM_F_REQUEST ||| NLM_F_ACK ||| (if new then NLM_F_CREATE ||| NLM_F_EXCL else 0)))
        16 p.af) 17 (net_pxlen net)) 21 RTPROT_BIRD) 22 RT_SCOPE_UNIVERSE) i)
    (h20 : pkt 20 = (if krt_table_id p < 256 then krt_table_id p else 0)) :
    route_hdr pkt new p net := by
  have b4 := hs 4 (by omega) (by omega) (by omega) (by omega)
  have b5 := hs 5 (by omega) (by omega) (by omega) (by omega)
  have b6 := hs 6 (by omega) (by omega) (by omega) (by omega)
  have b7 := hs 7 (by omega) (by omega) (by omega) (by omega)
  have b16 := hs 16 (by omega) (by omega) (by omega) (by omega)
  have b17 := hs 17 (by omega) (by omega) (by omega) (by omega)
  have b19 := hs 19 (by omega) (by omega) (by omega) (by omega)
  have b21 := hs 21 (by omega) (by omega) (by omega) (by omega)
  have b22 := hs 22 (by omega) (by omega) (by omega) (by omega)
  have b24 := hs 24 (by omega) (by omega) (by omega) (by omega)
  have b25 := hs 25 (by omega) (by omega) (by omega) (by omega)
  have b26 := hs 26 (by omega) (by omega) (by omega) (by omega)
  have b27 := hs 27 (by omega) (by omega) (by omega) (by omega)
  simp only [st8, st16, st32, bzero, sizeof_nlmsghdr, sizeof_rtmsg] at b4 b5 b6 b7 b16 b17 b19
  simp only [st8, st16, st32, bzero, sizeof_nlmsghdr, sizeof_rtmsg] at b21 b22 b24 b25 b26 b27
  norm_num at b4 b5 b6 b7 b16 b17 b19 b21 b22 b24 b25 b26 b27
  have hN : NLMSG_DATA 0 = 16 := by decide
  have ht : (if krt_table_id p < 256 then krt_table_id p else 0) % 256
      = (if krt_table_id p < 256 then krt_table_id p else 0) := by
    split
    · exact Nat.mod_eq_of_lt (by assumption)
    · rfl
  unfold route_hdr
  simp only [nlmsg_type, nlmsg_flags, rtm_family, rtm_dst_len, rtm_tos, rtm_table,
    rtm_protocol, rtm_scope, rtm_flags, hN, ld32, ld16, ld8, b4, b5, b6, b7, b16, b17, b19,
    b21, b22, b24, b25, b26, b27, h20, ht]
  cases new <;> simp [RTM_NEWROUTE, RTM_DELROUTE, NLM_F_REQUEST, NLM_F_ACK, NLM_F_CREATE,
    NLM_F_EXCL, RTPROT_BIRD, RT_SCOPE_UNIVERSE]

/-- The structure of every request that `nl_send_route` builds: the header and fixed payload,
then the attribute `RTA_DST`, then `RTA_TABLE` when the table id is 256 or more, then, for
`new` only, further attributes, none of which is `RTA_TABLE`. -/
theorem nl_send_route_build_built (stack : Mem) (p : krt_proto) (e : rte)
    (eattrs : List eattr) (new : Bool) (metrics0 : Nat → Nat) (pkt : Mem)
    (hrs : route_rsize (e.attrs.nh :: e.attrs.nh_next).length < 65536)
    (hlab : e.attrs.nh.labels ≤ 255)
    (h : nl_send_route_build stack p e eattrs new metrics0 = .ok pkt) :
    ∃ B, msg_built pkt (route_rsize (e.attrs.nh :: e.attrs.nh_next).length)
        ((RTA_DST, route_dst_bytes p e.net) :: (route_table_attr p ++ B))
      ∧ RTA_TABLE ∉ B.map Prod.fst ∧ (new = false → B = [])
      ∧ route_hdr pkt new p e.net := by
  unfold nl_send_route_build at h
  simp only [] at h
  rw [route_rsize_eq] at h
  have hr28 : 28 ≤ route_rsize (e.attrs.nh :: e.attrs.nh_next).length := by
    simp only [route_rsize, sizeof_nlmsghdr, sizeof_rtmsg]; omega
  generalize route_rsize (e.attrs.nh :: e.attrs.nh_next).length = rsize at h hrs hr28 ⊢
  have hb7 := nl_send_route_init_built
    (bzero (bzero stack 0 sizeof_nlmsghdr) sizeof_nlmsghdr sizeof_rtmsg)
    (if new then RTM_NEWROUTE else RTM_DELROUTE)
    (NLM_F_REQUEST ||| NLM_F_ACK ||| (if new then NLM_F_CREATE ||| NLM_F_EXCL else 0))
    p.af (net_pxlen e.net) RTPROT_BIRD RT_SCOPE_UNIVERSE rsize hr28
  have hh7 := route_hdr_of_init stack new p e.net
  have h720 : (st8 (st8 (st8 (st8 (st16 (st32 (st16
        (bzero (bzero stack 0 sizeof_nlmsghdr) sizeof_nlmsghdr sizeof_rtmsg) 4
          (if new then RTM_NEWROUTE else RTM_DELROUTE)) 0 (NLMSG_LENGTH sizeof_rtmsg)) 6
        (NLM_F_REQUEST ||| NLM_F_ACK ||| (if new then NLM_F_CREATE ||| NLM_F_EXCL else 0)))
        16 p.af) 17 (net_pxlen e.net)) 21 RTPROT_BIRD) 22 RT_SCOPE_UNIVERSE) 20 = 0 := by
    simp [st8, st16, st32, bzero, sizeof_nlmsghdr, sizeof_rtmsg]
  generalize (st8 (st8 (st8 (st8 (st16 (st32 (st16
        (bzero (bzero stack 0 sizeof_nlmsghdr) sizeof_nlmsghdr sizeof_rtmsg) 4
          (if new then RTM_NEWROUTE else RTM_DELROUTE)) 0 (NLMSG_LENGTH sizeof_rtmsg)) 6
        (NLM_F_REQUEST ||| NLM_F_ACK ||| (if new then NLM_F_CREATE ||| NLM_F_EXCL else 0)))
        16 p.af) 17 (net_pxlen e.net)) 21 RTPROT_BIRD) 22 RT_SCOPE_UNIVERSE) = m7
    at h hb7 hh7 h720
  split at h
  · cases h
  · next m8 hdst =>
    have i8 : msg_built m8 rsize ([] ++ [(RTA_DST, route_dst_bytes p e.net)])
        ∧ hdr_same m7 m8 := by
      unfold route_dst_bytes
      by_cases hmp : p.af = AF_MPLS
      · rw [if_pos hmp] at hdst ⊢
        exact nl_add_attr_fst_built m7 rsize RTA_DST _ m8 [] hb7 hrs
          (by rw [mpls_put_length]; simp) (by decide) (or_bug_ok _ _ hdst)
      · rw [if_neg hmp] at hdst ⊢
        have hdst' := or_bug_ok _ _ hdst
        cases hpf : net_pfx e.net with
        | ip4 x =>
          rw [hpf] at hdst'
          exact nl_add_attr_fst_built m7 rsize RTA_DST _ m8 [] hb7 hrs
            (by simp [ipa_bytes, ip4_hton_bytes, bytes_be32]) (by decide) hdst'
        | ip6 x =>
          rw [hpf] at hdst'
          exact nl_add_attr_fst_built m7 rsize RTA_DST _ m8 [] hb7 hrs
            (by simp [ipa_bytes, ip6_hton_bytes, bytes_be32]) (by decide) hdst'
    obtain ⟨b8, s8⟩ := i8
    rw [List.nil_append] at b8
    split at h
    · cases h
    · next m9 htable =>
      have i9 : msg_built m9 rsize ([(RTA_DST, route_dst_bytes p e.net)] ++ route_table_attr p)
          ∧ (∀ i, 4 ≤ i → i < 28 → i ≠ 20 → i ≠ 23 → m9 i = m7 i)
          ∧ m9 20 = (if krt_table_id p < 256 then krt_table_id p else 0) := by
        unfold route_table_attr
        by_cases ht : krt_table_id p < 256
        · rw [if_pos ht] at htable ⊢
          injection htable with htable
          subst htable
          refine ⟨?_, ?_, ?_⟩
          · rw [List.append_nil]
            exact msg_built_congr m8 _ rsize _ b8 (fun i hi => st8_other _ _ _ _ (by omega))
          · intro i h1 h2 h3 h4
            rw [st8_other _ _ _ _ h3]
            exact s8 i h1 h2 h4
          · rw [st8_same, if_pos ht]
            exact Nat.mod_eq_of_lt ht
        · rw [if_neg ht] at htable ⊢
          obtain ⟨b9, s9⟩ := nl_add_attr_fst_built m8 rsize RTA_TABLE _ m9 _ b8 hrs
            (by simp [bytes_u32]) (by decide) (or_bug_ok _ _ htable)
          refine ⟨b9, ?_, ?_⟩
          · intro i h1 h2 _ h4
            rw [s9 i h1 h2 h4]
            exact s8 i h1 h2 h4
          · rw [s9 20 (by omega) (by omega) (by omega), s8 20 (by omega) (by omega) (by omega),
              if_neg ht]
            exact h720
      obtain ⟨b9, s9, t9⟩ := i9
      cases new with
      | false =>
        simp only [Bool.not_false, if_true] at h
        injection h with h
        subst h
        refine ⟨[], ?_, by simp, fun _ => rfl, hh7 m9 s9 t9⟩
        rw [List.append_nil]
        exact b9
      | true =>
        simp only [Bool.not_true, Bool.false_eq_true, if_false] at h
        obtain ⟨s10, B, b10, hB⟩ := nl_send_route_attrs_extends m9 rsize p e.attrs eattrs
          metrics0 pkt hrs hlab h _ b9
        refine ⟨B, ?_, hB, (fun hc => Bool.noConfusion hc), hh7 pkt ?_ ?_⟩
        · rw [List.append_assoc] at b10
          exact b10
        · intro i h1 h2 h3 h4
          rw [s10 i h1 h2 h4]
          exact s9 i h1 h2 h3 h4
        · rw [s10 20 (by omega) (by omega) (by omega)]
          exact t9

/-- The buffer size only decides whether `nl_add_attr` aborts: with room in both buffers, the
result is the same. -/
theorem nl_add_attr_bufsize (m : Mem) (code : Nat) (data : List Nat) (b1 b2 : Nat)
    (hlen : nlmsg_len m 0 < 2 ^ 31) (h4 : nlmsg_len m 0 % 4 = 0) (hd : data.length ≤ 16)
    (h1 : nlmsg_len m 0 + 4 + data.length ≤ b1) (h2 : nlmsg_len m 0 + 4 + data.length ≤ b2) :
    nl_add_attr m 0 b1 code data = nl_add_attr m 0 b2 code data := by
  have hpos : NLMSG_ALIGN (nlmsg_len m 0) = nlmsg_len m 0 := by
    simp only [NLMSG_ALIGN]; omega
  have hle := RTA_LENGTH_eq data.length
  have hp : u32 (NLMSG_ALIGN (nlmsg_len m 0)) = NLMSG_ALIGN (nlmsg_len m 0) :=
    Nat.mod_eq_of_lt (by omega)
  have hl : u32 (RTA_LENGTH data.length) = RTA_LENGTH data.length :=
    Nat.mod_eq_of_lt (by omega)
  have hs : u32 (NLMSG_ALIGN (nlmsg_len m 0) + RTA_LENGTH data.length)
      = NLMSG_ALIGN (nlmsg_len m 0) + RTA_LENGTH data.length := Nat.mod_eq_of_lt (by omega)
  have c1 : ¬ (NLMSG_ALIGN (nlmsg_len m 0) + RTA_LENGTH data.length > b1) := by omega
  have c2 : ¬ (NLMSG_ALIGN (nlmsg_len m 0) + RTA_LENGTH data.length > b2) := by omega
  simp only [nl_add_attr, hp, hl, hs]
  rw [if_neg c1, if_neg c2]

/-- The destination attribute of a request does not depend on the buffer size, from 48 bytes
on. -/
theorem nl_send_route_dst_bufsize (m7 : Mem) (p : krt_proto) (net : net_addr) (r r' : Nat)
    (hl : nlmsg_len m7 0 = 28) (hr : 48 ≤ r) (hr' : 48 ≤ r') :
    (if p.af = AF_MPLS then or_bug (nl_add_attr_mpls m7 0 r RTA_DST [net_mpls net])
      else or_bug (nl_add_attr_ipa m7 0 r RTA_DST (net_pfx net)))
    = (if p.af = AF_MPLS then or_bug (nl_add_attr_mpls m7 0 r' RTA_DST [net_mpls net])
      else or_bug (nl_add_attr_ipa m7 0 r' RTA_DST (net_pfx net))) := by
  by_cases hmp : p.af = AF_MPLS
  · rw [if_pos hmp, if_pos hmp]
    unfold nl_add_attr_mpls
    have hlen : (mpls_put [net_mpls net]).length = 4 := by simp [mpls_put, bytes_be32]
    rw [nl_add_attr_bufsize m7 RTA_DST _ r r' (by omega) (by omega) (by omega) (by omega)
      (by omega)]
  · rw [if_neg hmp, if_neg hmp]
    cases net_pfx net with
    | ip4 x =>
      show or_bug ((nl_add_attr m7 0 r RTA_DST (ip4_hton_bytes x)).map Prod.fst)
        = or_bug ((nl_add_attr m7 0 r' RTA_DST (ip4_hton_bytes x)).map Prod.fst)
      have hlen : (ip4_hton_bytes x).length = 4 := by simp [ip4_hton_bytes, bytes_be32]
      rw [nl_add_attr_bufsize m7 RTA_DST _ r r' (by omega) (by omega) (by omega) (by omega)
        (by omega)]
    | ip6 x =>
      show or_bug ((nl_add_attr m7 0 r RTA_DST (ip6_hton_bytes x)).map Prod.fst)
        = or_bug ((nl_add_attr m7 0 r' RTA_DST (ip6_hton_bytes x)).map Prod.fst)
      have hlen : (ip6_hton_bytes x).length = 16 := by simp [ip6_hton_bytes, bytes_be32]
      rw [nl_add_attr_bufsize m7 RTA_DST _ r r' (by omega) (by omega) (by omega) (by omega)
        (by omega)]

/-- The table attribute of a request does not depend on the buffer size, from 56 bytes on. -/
theorem nl_send_route_table_bufsize (m8 : Mem) (p : krt_proto) (r r' : Nat)
    (hm : msg_room m8 48) (hr : 56 ≤ r) (hr' : 56 ≤ r') :
    (if krt_table_id p < 256 then Except.ok (st8 m8 20 (krt_table_id p))
      else or_bug (nl_add_attr_u32 m8 0 r RTA_TABLE (krt_table_id p)))
    = (if krt_table_id p < 256 then Except.ok (st8 m8 20 (krt_table_id p))
      else or_bug (nl_add_attr_u32 m8 0 r' RTA_TABLE (krt_table_id p))) := by
  by_cases ht : krt_table_id p < 256
  · rw [if_pos ht, if_pos ht]
  · rw [if_neg ht, if_neg ht]
    unfold nl_add_attr_u32
    obtain ⟨hm4, _, hm48⟩ := hm
    have hlen : (bytes_u32 (krt_table_id p)).length = 4 := by simp [bytes_u32]
    rw [nl_add_attr_bufsize m8 RTA_TABLE _ r r' (by omega) hm4 (by omega) (by omega)
      (by omega)]

theorem except_bind_congr (f g : Mem → Except Abort Mem) :
    ∀ x : Except Abort Mem, (∀ m, x = .ok m → f m = g m) →
    (match x with
      | .error why => Except.error why
      | .ok m => f m)
    = (match x with
      | .error why => Except.error why
      | .ok m => g m) := by
  intro x h
  cases x with
  | error why => rfl
  | ok m => exact h m rfl

/-- With a buffer of 48 bytes or more, the destination attribute is added. -/
theorem nl_send_route_dst_room (m7 : Mem) (p : krt_proto) (net : net_addr) (r : Nat)
    (hl : nlmsg_len m7 0 = 28) (hr : 48 ≤ r) :
    ∃ m8, (if p.af = AF_MPLS then or_bug (nl_add_attr_mpls m7 0 r RTA_DST [net_mpls net])
      else or_bug (nl_add_attr_ipa m7 0 r RTA_DST (net_pfx net))) = .ok m8
      ∧ msg_room m8 48 := by
  rw [nl_send_route_dst_bufsize m7 p net r 48 hl hr (by omega)]
  have hm7 : msg_room m7 28 := ⟨by rw [hl], by rw [hl], by rw [hl]⟩
  by_cases hmp : p.af = AF_MPLS
  · rw [if_pos hmp]
    obtain ⟨m', a, hadd, hroom, _⟩ := nl_add_attr_room m7 48 RTA_DST (mpls_put [net_mpls net])
      28 16 hm7 (by simp [mpls_put, bytes_be32]) (by simp [mpls_put, bytes_be32]) (by omega)
      (by omega)
    exact ⟨m', by simp [nl_add_attr_mpls, hadd, or_bug], hroom⟩
  · rw [if_neg hmp]
    obtain ⟨m', hadd, hroom⟩ := nl_add_attr_ipa_room m7 48 RTA_DST (net_pfx net) 28 hm7
      (by omega) (by omega)
    exact ⟨m', by rw [hadd]; rfl, hroom⟩

/-- The request of `nl_send_route` with `new = 0` depends on the route through its
destination only. -/
theorem nl_send_route_build_withdraw_eq (stack : Mem) (p : krt_proto) (e e' : rte)
    (eattrs eattrs' : List eattr) (metrics0 metrics0' : Nat → Nat) (hnet : e'.net = e.net) :
    nl_send_route_build stack p e' eattrs' false metrics0'
      = nl_send_route_build stack p e eattrs false metrics0 := by
  have hstart : ∀ (m0 : Mem) (t f a1 a2 a3 a4 : Nat),
      nlmsg_len (st8 (st8 (st8 (st8 (st16 (st32 (st16 m0 4 t) 0 (NLMSG_LENGTH sizeof_rtmsg)) 6 f)
        16 a1) 17 a2) 21 a3) 22 a4) 0 = 28 := by
    intro m0 t f a1 a2 a3 a4
    rw [nlmsg_len_st8 _ _ _ _ (by omega), nlmsg_len_st8 _ _ _ _ (by omega),
      nlmsg_len_st8 _ _ _ _ (by omega), nlmsg_len_st8 _ _ _ _ (by omega),
      nlmsg_len_st16 _ _ _ _ (by omega)]
    show ld32 (st32 _ 0 _) 0 = 28
    rw [ld32_st32]
    decide
  unfold nl_send_route_build
  simp only [Bool.not_false, if_true]
  rw [route_rsize_eq, route_rsize_eq, hnet]
  have hr : ∀ n, 56 ≤ route_rsize n := by
    intro n
    simp only [route_rsize, sizeof_nlmsghdr, sizeof_rtmsg]; omega
  have hr1 := hr (e'.attrs.nh :: e'.attrs.nh_next).length
  have hr2 := hr (e.attrs.nh :: e.attrs.nh_next).length
  generalize route_rsize (e'.attrs.nh :: e'.attrs.nh_next).length = r' at hr1 ⊢
  generalize route_rsize (e.attrs.nh :: e.attrs.nh_next).length = r at hr2 ⊢
  rw [nl_send_route_dst_bufsize _ p e.net r' r (hstart _ _ _ _ _ _ _) (by omega) (by omega)]
  refine except_bind_congr _ _ _ (fun m8 h8 => ?_)
  obtain ⟨m8', h8', hroom⟩ := nl_send_route_dst_room _ p e.net r (hstart _ _ _ _ _ _ _)
    (by omega)
  rw [h8] at h8'
  injection h8' with h8'
  subst h8'
  rw [nl_send_route_table_bufsize m8 p r' r hroom hr1 hr2]

/-- The request of `nl_send_route` with `new = 0` is always built: the buffer has room for the
destination and the table attribute. -/
theorem nl_send_route_build_withdraw_ok (stack : Mem) (p : krt_proto) (e : rte)
    (eattrs : List eattr) (metrics0 : Nat → Nat) :
    ∃ pkt, nl_send_route_build stack p e eattrs false metrics0 = .ok pkt := by
  have hstart : ∀ (m0 : Mem) (t f a1 a2 a3 a4 : Nat),
      nlmsg_len (st8 (st8 (st8 (st8 (st16 (st32 (st16 m0 4 t) 0 (NLMSG_LENGTH sizeof_rtmsg)) 6 f)
        16 a1) 17 a2) 21 a3) 22 a4) 0 = 28 := by
    intro m0 t f a1 a2 a3 a4
    rw [nlmsg_len_st8 _ _ _ _ (by omega), nlmsg_len_st8 _ _ _ _ (by omega),
      nlmsg_len_st8 _ _ _ _ (by omega), nlmsg_len_st8 _ _ _ _ (by omega),
      nlmsg_len_st16 _ _ _ _ (by omega)]
    show ld32 (st32 _ 0 _) 0 = 28
    rw [ld32_st32]
    decide
  unfold nl_send_route_build
  simp only [Bool.not_false, if_true]
  rw [route_rsize_eq]
  have hr : 56 ≤ route_rsize (e.attrs.nh :: e.attrs.nh_next).length := by
    simp only [route_rsize, sizeof_nlmsghdr, sizeof_rtmsg]; omega
  generalize route_rsize (e.attrs.nh :: e.attrs.nh_next).length = r at hr ⊢
  obtain ⟨m8, h8, hroom⟩ := nl_send_route_dst_room _ p e.net r (hstart _ _ _ _ _ _ _)
    (by omega)
  rw [h8]
  simp only []
  rw [nl_send_route_table_bufsize m8 p r 56 hroom hr (by omega)]
  by_cases ht : krt_table_id p < 256
  · rw [if_pos ht]
    exact ⟨_, rfl⟩
  · rw [if_neg ht]
    obtain ⟨m9, h9, _⟩ := nl_add_attr_u32_room m8 56 RTA_TABLE (krt_table_id p) 48 hroom
      (by omega) (by omega)
    rw [h9]
    exact ⟨m9, rfl⟩

/-- C27: withdraw carries no route attributes. For every route `e`, every list of extended
attributes and every protocol, `nl_send_route` with `new = 0` hands a request to `nl_exchange`
that has type `RTM_DELROUTE`, flags exactly `NLM_F_REQUEST | NLM_F_ACK` (neither
`NLM_F_CREATE` nor `NLM_F_EXCL`), the fixed payload (family, destination length, protocol tag
`RTPROT_BIRD`, scope universe, table: the table id when it is below 256, else 0), and as
attributes exactly the destination `RTA_DST` followed, when the table id is 256 or more, by
`RTA_TABLE` with the table id; the message length covers just these. Every other route with
the same destination, whatever its next-hops, disposition and extended attributes (metric,
preferred source, realm, metrics), gives the same request. -/
theorem nl_send_route_withdraw (stack : Mem) (p : krt_proto) (e : rte)
    (eattrs : List eattr) (metrics0 : Nat → Nat) :
    ∃ pkt, nl_send_route stack p e eattrs false metrics0 = .exchange pkt
      ∧ nlmsg_type pkt 0 = RTM_DELROUTE
      ∧ nlmsg_flags pkt 0 = NLM_F_REQUEST ||| NLM_F_ACK
      ∧ nlmsg_flags pkt 0 &&& (NLM_F_CREATE ||| NLM_F_EXCL) = 0
      ∧ rtm_family pkt (NLMSG_DATA 0) = p.af % 256
      ∧ rtm_dst_len pkt (NLMSG_DATA 0) = net_pxlen e.net % 256
      ∧ rtm_protocol pkt (NLMSG_DATA 0) = RTPROT_BIRD
      ∧ rtm_scope pkt (NLMSG_DATA 0) = RT_SCOPE_UNIVERSE
      ∧ rtm_table pkt (NLMSG_DATA 0) = (if krt_table_id p < 256 then krt_table_id p else 0)
      ∧ nlmsg_len pkt 0 = NLMSG_LENGTH sizeof_rtmsg
          + attrs_len ((RTA_DST, route_dst_bytes p e.net) :: route_table_attr p)
      ∧ attrs_at pkt (RTM_RTA (NLMSG_DATA 0))
          ((RTA_DST, route_dst_bytes p e.net) :: route_table_attr p)
      ∧ ∀ (e' : rte) (eattrs' : List eattr) (metrics0' : Nat → Nat), e'.net = e.net →
          nl_send_route stack p e' eattrs' false metrics0' = .exchange pkt := by
  obtain ⟨pkt, hpkt⟩ := nl_send_route_build_withdraw_ok stack p
    { net := e.net, attrs := {} } [] (fun _ => 0)
  obtain ⟨B, hb, _, hB, hh⟩ := nl_send_route_build_built stack p
    { net := e.net, attrs := {} } [] false (fun _ => 0) pkt
    (show route_rsize 1 < 65536 by decide) (show (0 : Int) ≤ 255 by decide) hpkt
  have hB0 := hB rfl
  subst hB0
  rw [List.append_nil] at hb
  have heq : ∀ (e' : rte) (eattrs' : List eattr) (metrics0' : Nat → Nat), e'.net = e.net →
      nl_send_route stack p e' eattrs' false metrics0' = .exchange pkt := by
    intro e' eattrs' metrics0' hnet
    unfold nl_send_route
    rw [nl_send_route_build_withdraw_eq stack p { net := e.net, attrs := {} } e' []
      eattrs' (fun _ => 0) metrics0' hnet, hpkt]
  obtain ⟨h1, h2, h3, h4, _, h6, h7, h8, _⟩ := hh
  simp only [Bool.false_eq_true, if_false, Nat.or_zero] at h1 h2
  refine ⟨pkt, heq e eattrs metrics0 rfl, h1, h2, ?_, h3, h4, h7, h8, h6, hb.1, hb.2.2, heq⟩
  rw [h2]
  decide

theorem nl_parse_attrs_end_k (k : AttrVec) (len : Int) : (nl_parse_attrs_end k len).k = k := by
  unfold nl_parse_attrs_end
  split <;> rfl

/-- Whatever the bytes of the message, a slot that `nl_parse_attrs` fills points to an
attribute header with the code of the slot, and with the payload size of the descriptor when
the descriptor asks for the size check. -/
theorem nl_parse_attrs_loop_slot (m : Mem) (want : Nat → nl_want_attrs) (max c : Nat) :
    ∀ (fuel a : Nat) (len : Int) (k : AttrVec),
      (∀ x, k c = some x → rta_type m x = c
        ∧ ((want c).checksize = true → RTA_PAYLOAD m x = ((want c).size : Nat))) →
      ∀ x, (nl_parse_attrs_loop m want max fuel a len k).k c = some x → rta_type m x = c
        ∧ ((want c).checksize = true → RTA_PAYLOAD m x = ((want c).size : Nat)) := by
  intro fuel
  induction fuel with
  | zero =>
    intro a len k hk x hx
    rw [nl_parse_attrs_loop, nl_parse_attrs_end_k] at hx
    exact hk x hx
  | succ f ih =>
    intro a len k hk x hx
    rw [nl_parse_attrs_loop] at hx
    split at hx
    · split at hx
      · exact ih _ _ _ hk x hx
      · split at hx
        · exact hk x hx
        · next hskip hsize =>
          refine ih _ _ (k_set k (rta_type m a) a) ?_ x hx
          intro y hy
          simp only [k_set] at hy
          split at hy
          · next hc =>
            injection hy with hy
            subst hy
            refine ⟨hc.symm, fun hcs => ?_⟩
            rw [hc] at hcs ⊢
            simp only [hcs, Bool.true_and, decide_eq_true_eq, ne_eq, Decidable.not_not]
              at hsize
            exact hsize
          · exact hk y hy
    · rw [nl_parse_attrs_end_k] at hx
      exact hk x hx

/-- Walking a stream of attributes, none of which has the code `c`, leaves the slot `c` as it
was. -/
theorem nl_parse_attrs_loop_not_mem (m : Mem) (want : Nat → nl_want_attrs) (max c : Nat) :
    ∀ (attrs : List (Nat × List Nat)) (fuel a : Nat) (len : Int) (k : AttrVec),
      attrs_at m a attrs → len ≤ (attrs_space attrs : Nat) → c ∉ attrs.map Prod.fst →
      (nl_parse_attrs_loop m want max fuel a len k).k c = k c := by
  intro attrs
  induction attrs with
  | nil =>
    intro fuel a len k _ hlen _
    simp only [attrs_space, Nat.cast_zero] at hlen
    cases fuel with
    | zero => rw [nl_parse_attrs_loop, nl_parse_attrs_end_k]
    | succ f =>
      have hno : RTA_OK m a len = false := by
        cases hok : RTA_OK m a len with
        | false => rfl
        | true => rw [RTA_OK_iff] at hok; omega
      rw [nl_parse_attrs_loop, hno]
      simp only [Bool.false_eq_true, if_false]
      rw [nl_parse_attrs_end_k]
  | cons cd rest ih =>
    obtain ⟨c0, d0⟩ := cd
    intro fuel a len k hat hlen hc
    obtain ⟨hrl, hrt, _, hrest⟩ := hat
    simp only [List.map_cons, List.mem_cons, not_or] at hc
    simp only [attrs_space, Nat.cast_add] at hlen
    cases fuel with
    | zero => rw [nl_parse_attrs_loop, nl_parse_attrs_end_k]
    | succ f =>
      rw [nl_parse_attrs_loop, hrl, hrt]
      split
      · split
        · exact ih f _ _ k hrest (by omega) hc.2
        · split
          · rfl
          · rw [ih f _ _ _ hrest (by omega) hc.2]
            simp only [k_set, if_neg hc.1]
      · rw [nl_parse_attrs_end_k]

/-- One iteration of `nl_parse_attrs` on an attribute that is accepted. -/
theorem nl_parse_attrs_loop_step (m : Mem) (want : Nat → nl_want_attrs) (max : Nat)
    (fuel a : Nat) (len : Int) (k : AttrVec) (c : Nat) (d : List Nat)
    (rest : List (Nat × List Nat)) (hat : attrs_at m a ((c, d) :: rest))
    (hlen : ((RTA_LENGTH d.length : Nat) : Int) ≤ len) (hc : c < max)
    (hdef : (want c).defined = true)
    (hsize : (want c).checksize = true → d.length = (want c).size) :
    nl_parse_attrs_loop m want max (fuel + 1) a len k
      = nl_parse_attrs_loop m want max fuel (a + RTA_ALIGN (RTA_LENGTH d.length))
          (len - (RTA_ALIGN (RTA_LENGTH d.length) : Nat)) (k_set k c a) := by
  obtain ⟨hrl, hrt, _, _⟩ := hat
  have hle := RTA_LENGTH_eq d.length
  have hok : RTA_OK m a len = true := by
    rw [RTA_OK_iff, hrl]
    refine ⟨by omega, by omega, hlen⟩
  have hskip : (decide (max ≤ c) || !(want c).defined) = false := by
    rw [hdef]; simp; exact hc
  have hpl : RTA_PAYLOAD m a = (d.length : Nat) := by
    simp only [RTA_PAYLOAD, hrl, RTA_LENGTH_eq]
    push_cast
    omega
  have hchk : ((want c).checksize && decide (RTA_PAYLOAD m a ≠ ((want c).size : Nat)))
      = false := by
    cases hcs : (want c).checksize with
    | false => rfl
    | true =>
      rw [hpl, hsize hcs]
      simp
  rw [nl_parse_attrs_loop, if_pos hok, hrl, hrt]
  simp only [hskip, hchk, Bool.false_eq_true, if_false]

theorem attrs_len_cons_ge (c : Nat) (d : List Nat) (rest : List (Nat × List Nat)) :
    RTA_LENGTH d.length ≤ attrs_len ((c, d) :: rest) := by
  have := RTA_ALIGN_ge (RTA_LENGTH d.length)
  cases rest with
  | nil => simp [attrs_len]
  | cons x r =>
    simp only [attrs_len]
    omega

/-- The attribute length that `nl_checkin` computes for a built request. -/
theorem msg_built_checkin (pkt : Mem) (rsize : Nat) (A : List (Nat × List Nat))
    (hb : msg_built pkt rsize A) (hrs : rsize < 2 ^ 31) :
    (nl_checkin pkt 0 sizeof_rtmsg).1 = ((attrs_len A : Nat) : Int) := by
  obtain ⟨hlen, hle, _⟩ := hb
  have hN := NLMSG_LENGTH_eq sizeof_rtmsg
  have h12 : sizeof_rtmsg = 12 := rfl
  have hv : to_int32 ((nlmsg_len pkt 0 : Int) - (NLMSG_LENGTH sizeof_rtmsg : Nat))
      = (attrs_len A : Nat) := by
    rw [to_int32_of_range] <;> push_cast <;> omega
  simp only [nl_checkin, hv]
  split <;> rfl

/-- Parsing a built request that holds no attribute `RTA_TABLE` leaves the slot empty. -/
theorem msg_built_slot_none (pkt : Mem) (rsize : Nat) (A : List (Nat × List Nat))
    (want : Nat → nl_want_attrs) (hb : msg_built pkt rsize A) (hrs : rsize < 2 ^ 31)
    (hA : RTA_TABLE ∉ A.map Prod.fst) :
    (nl_parse_attrs pkt (RTM_RTA (NLMSG_DATA 0)) want BIRD_RTA_MAX
      (nl_checkin pkt 0 sizeof_rtmsg).1).k RTA_TABLE = none := by
  rw [msg_built_checkin pkt rsize A hb hrs]
  unfold nl_parse_attrs
  rw [nl_parse_attrs_loop_not_mem pkt want BIRD_RTA_MAX RTA_TABLE A _ _ _ k_zero hb.2.2
    (by have := attrs_len_le_space A; omega) hA]
  rfl

/-- Parsing a built request whose second attribute is `RTA_TABLE`, and that holds no other,
fills the slot with that attribute, provided the first attribute passes its size check. -/
theorem msg_built_slot_table (pkt : Mem) (rsize : Nat) (d v : List Nat)
    (B : List (Nat × List Nat)) (want : Nat → nl_want_attrs)
    (hb : msg_built pkt rsize ((RTA_DST, d) :: (RTA_TABLE, v) :: B)) (hrs : rsize < 2 ^ 31)
    (hv : v.length = 4) (hB : RTA_TABLE ∉ B.map Prod.fst)
    (hdef : (want RTA_DST).defined = true)
    (hsize : (want RTA_DST).checksize = true → d.length = (want RTA_DST).size)
    (hwt : want RTA_TABLE = ⟨true, true, 4⟩) :
    (nl_parse_attrs pkt (RTM_RTA (NLMSG_DATA 0)) want BIRD_RTA_MAX
      (nl_checkin pkt 0 sizeof_rtmsg).1).k RTA_TABLE
        = some (RTM_RTA (NLMSG_DATA 0) + RTA_ALIGN (RTA_LENGTH d.length))
    ∧ ∀ i, i < 4 → pkt (RTA_DATA (RTM_RTA (NLMSG_DATA 0) + RTA_ALIGN (RTA_LENGTH d.length)) + i)
        = v.getD i 0 := by
  rw [msg_built_checkin pkt rsize _ hb hrs]
  obtain ⟨_, _, hat⟩ := hb
  have hat2 := hat.2.2.2
  have hal := RTA_ALIGN_ge (RTA_LENGTH d.length)
  have hle := RTA_LENGTH_eq d.length
  have hlv := RTA_LENGTH_eq v.length
  have halv := RTA_ALIGN_ge (RTA_LENGTH v.length)
  have hl1 : attrs_len ((RTA_DST, d) :: (RTA_TABLE, v) :: B)
      = RTA_ALIGN (RTA_LENGTH d.length) + attrs_len ((RTA_TABLE, v) :: B) := by
    simp only [attrs_len]
  have hl2 := attrs_len_cons_ge RTA_TABLE v B
  have hl3 := attrs_len_le_space ((RTA_TABLE, v) :: B)
  simp only [attrs_space] at hl3
  obtain ⟨f, hf⟩ : ∃ f, ((attrs_len ((RTA_DST, d) :: (RTA_TABLE, v) :: B) : Nat) : Int).toNat
      = f + 2 := ⟨attrs_len ((RTA_DST, d) :: (RTA_TABLE, v) :: B) - 2, by
    rw [Int.toNat_ofNat]; omega⟩
  refine ⟨?_, fun i hi => hat2.2.2.1 i (by omega)⟩
  unfold nl_parse_attrs
  rw [hf, nl_parse_attrs_loop_step pkt want BIRD_RTA_MAX (f + 1) _ _ k_zero RTA_DST d _ hat
      (by rw [hl1]; push_cast; omega) (by decide) hdef hsize,
    nl_parse_attrs_loop_step pkt want BIRD_RTA_MAX f _ _ _ RTA_TABLE v B hat2
      (by rw [hl1]; push_cast; omega) (by decide) (by rw [hwt])
      (by rw [hwt]; intro _; exact hv),
    nl_parse_attrs_loop_not_mem pkt want BIRD_RTA_MAX RTA_TABLE B _ _ _ _ hat2.2.2.2
      (by rw [hl1]; push_cast; omega) hB]
  simp [k_set]

theorem rtm_attr_want_table (f : Nat) : rtm_attr_want f RTA_TABLE = ⟨true, true, 4⟩ := by
  unfold rtm_attr_want
  split
  · rfl
  · split <;> rfl

theorem le32_bytes_u32 (v : Nat) (hv : v < 2 ^ 32) : le32 (bytes_u32 v) = v :=
  ld32_of_bytes (mem_of_list (bytes_u32 v)) 0 v hv (fun i _ => by simp [mem_of_list])

/-- A route that `nl_parse_route` delivers goes to the protocol that the registry holds for
the family of the message and the resolved table id. -/
theorem nl_parse_route_delivers_table (d : Daemon) (m : Mem) (h : Nat) (scan : Bool)
    (p : krt_proto) (e : rte) (hd : (nl_parse_route d m h scan).delivers p e) :
    HASH_FIND d.nl_table_map (rtm_family m (NLMSG_DATA h))
      (attr_table_id m (NLMSG_DATA h) (route_attr_vec m h)) = some p := by
  have key : ∀ r : RouteOutcome, r = nl_parse_route d m h scan → r.delivers p e →
      HASH_FIND d.nl_table_map (rtm_family m (NLMSG_DATA h))
        (attr_table_id m (NLMSG_DATA h) (route_attr_vec m h)) = some p := by
    intro r hr
    rw [hr]
    refine nl_parse_route_elim d m h scan (fun r => r.delivers p e →
      HASH_FIND d.nl_table_map (rtm_family m (NLMSG_DATA h))
        (attr_table_id m (NLMSG_DATA h) (route_attr_vec m h)) = some p) ?_ ?_
    · intro hd
      rcases hd with hd | ⟨_, hd⟩ <;> cases hd
    · intro p' dst src hfind
      refine nl_parse_route_type_elim d m (NLMSG_DATA h) scan (nlmsg_type m h == RTM_NEWROUTE)
        (route_attr_vec m h) p' dst src (attr_oif m (route_attr_vec m h))
        (fun r => r.delivers p e →
          HASH_FIND d.nl_table_map (rtm_family m (NLMSG_DATA h))
            (attr_table_id m (NLMSG_DATA h) (route_attr_vec m h)) = some p) ?_ ?_ ?_
      · intro hd
        rcases hd with hd | ⟨_, hd⟩ <;> cases hd
      · intro hd
        rcases hd with hd | ⟨_, hd⟩ <;> cases hd
      · intro r
        refine nl_parse_route_deliver_elim m (NLMSG_DATA h) scan (nlmsg_type m h == RTM_NEWROUTE)
          (route_attr_vec m h) p' dst src r
          (fun r => r.delivers p e →
            HASH_FIND d.nl_table_map (rtm_family m (NLMSG_DATA h))
              (attr_table_id m (NLMSG_DATA h) (route_attr_vec m h)) = some p) ?_ ?_
        · intro hd
          rcases hd with hd | ⟨_, hd⟩ <;> cases hd
        · intro e' _ _ _ hd
          have hp : p' = p := by
            cases scan
            · rcases hd with hd | ⟨_, hd⟩
              · simp at hd
              · simp at hd
                exact hd.1
            · rcases hd with hd | ⟨_, hd⟩
              · simp at hd
                exact hd.1
              · simp at hd
          rw [← hp]
          exact hfind
  exact key _ rfl hd

/-- The slot `RTA_TABLE` of the vector of a route message, when filled, points to an
attribute header of code `RTA_TABLE` with a payload of 4 bytes. -/
theorem route_attr_vec_table_slot (m : Mem) (h x : Nat)
    (hx : route_attr_vec m h RTA_TABLE = some x) :
    rta_type m x = RTA_TABLE ∧ RTA_PAYLOAD m x = 4 := by
  unfold route_attr_vec nl_parse_attrs at hx
  obtain ⟨h1, h2⟩ := nl_parse_attrs_loop_slot m (rtm_attr_want (rtm_family m (NLMSG_DATA h)))
    BIRD_RTA_MAX RTA_TABLE _ _ _ k_zero (fun y hy => by cases hy) x hx
  refine ⟨h1, ?_⟩
  rw [rtm_attr_want_table] at h2
  exact h2 rfl

/-- A route message whose attribute stream holds no `RTA_TABLE` leaves the slot empty. -/
theorem route_attr_vec_table_absent (m : Mem) (h : Nat) (attrs : List (Nat × List Nat))
    (hat : attrs_at m (RTM_RTA (NLMSG_DATA h)) attrs)
    (hlen : nlmsg_len m h ≤ NLMSG_LENGTH sizeof_rtmsg + attrs_space attrs)
    (hno : RTA_TABLE ∉ attrs.map Prod.fst) :
    route_attr_vec m h RTA_TABLE = none := by
  have hL : (nl_checkin m h sizeof_rtmsg).1 ≤ ((attrs_space attrs : Nat) : Int) := by
    have hN := NLMSG_LENGTH_eq sizeof_rtmsg
    have hv : (nl_checkin m h sizeof_rtmsg).1
        = to_int32 ((nlmsg_len m h : Int) - (NLMSG_LENGTH sizeof_rtmsg : Nat)) := by
      simp only [nl_checkin]
      split <;> rfl
    rw [hv]
    simp only [to_int32]
    have h12 : sizeof_rtmsg = 12 := rfl
    omega
  unfold route_attr_vec nl_parse_attrs
  rw [nl_parse_attrs_loop_not_mem m _ BIRD_RTA_MAX RTA_TABLE attrs _ _ _ k_zero hat hL hno]
  rfl

/-- A route message whose padded attribute stream holds `RTA_TABLE` is rejected by the parse,
or has the slot filled. -/
theorem route_attr_vec_table_present (d : Daemon) (m : Mem) (h : Nat) (scan : Bool)
    (attrs : List (Nat × List Nat)) (hat : attrs_at m (RTM_RTA (NLMSG_DATA h)) attrs)
    (hlen : nlmsg_len m h = NLMSG_LENGTH sizeof_rtmsg + attrs_space attrs)
    (h31 : nlmsg_len m h < 2 ^ 31) (hmem : RTA_TABLE ∈ attrs.map Prod.fst) :
    nl_parse_route d m h scan = .ignored none
      ∨ (route_attr_vec m h RTA_TABLE).isSome = true := by
  have hL : (nl_checkin m h sizeof_rtmsg).1 = ((attrs_space attrs : Nat) : Int) := by
    have hN := NLMSG_LENGTH_eq sizeof_rtmsg
    have hv : to_int32 ((nlmsg_len m h : Int) - (NLMSG_LENGTH sizeof_rtmsg : Nat))
        = (attrs_space attrs : Nat) := by
      rw [to_int32_of_range] <;> push_cast <;> omega
    simp only [nl_checkin, hv]
    split <;> rfl
  rcases nl_parse_attrs_loop_mem m (rtm_attr_want (rtm_family m (NLMSG_DATA h))) BIRD_RTA_MAX
    RTA_TABLE (by decide) (by rw [rtm_attr_want_table]) attrs (attrs_space attrs) _ k_zero hat
    (Nat.le_refl _) hmem with hr | hs
  · left
    apply nl_parse_route_rejected
    rw [hL]
    simpa [nl_parse_attrs] using hr
  · right
    unfold route_attr_vec
    rw [hL]
    simpa [nl_parse_attrs] using hs

/-- The table id that the parse rule resolves from a request of `nl_send_route`. -/
theorem nl_send_route_build_table_id (stack : Mem) (p : krt_proto) (e : rte)
    (eattrs : List eattr) (new : Bool) (metrics0 : Nat → Nat) (pkt : Mem)
    (ht : krt_table_id p < 2 ^ 32)
    (hrs : route_rsize (e.attrs.nh :: e.attrs.nh_next).length < 65536)
    (hlab : e.attrs.nh.labels ≤ 255)
    (hfam : krt_table_id p < 256
      ∨ (p.af = AF_INET ∧ ∃ a l, e.net = .ip4 a l)
      ∨ (p.af = AF_INET6 ∧ ∃ a l, e.net = .ip6 a l)
      ∨ p.af = AF_MPLS)
    (h : nl_send_route_build stack p e eattrs new metrics0 = .ok pkt) :
    attr_table_id pkt (NLMSG_DATA 0) (route_attr_vec pkt 0) = krt_table_id p := by
  obtain ⟨B, hb, hB, _, hh⟩ := nl_send_route_build_built stack p e eattrs new metrics0 pkt
    hrs hlab h
  obtain ⟨_, _, hfamily, _, _, htab, _⟩ := hh
  by_cases hlt : krt_table_id p < 256
  · have hT : route_table_attr p = [] := by unfold route_table_attr; rw [if_pos hlt]
    rw [hT, List.nil_append] at hb
    have hnone := msg_built_slot_none pkt _ _
      (rtm_attr_want (rtm_family pkt (NLMSG_DATA 0))) hb (by omega)
      (by
        simp only [List.map_cons, List.mem_cons, not_or]
        exact ⟨by decide, hB⟩)
    unfold attr_table_id route_attr_vec
    rw [hnone]
    simp only []
    rw [htab, if_pos hlt]
  · have hT : route_table_attr p = [(RTA_TABLE, bytes_u32 (krt_table_id p))] := by
      unfold route_table_attr; rw [if_neg hlt]
    rw [hT] at hb
    have hb' : msg_built pkt (route_rsize (e.attrs.nh :: e.attrs.nh_next).length)
        ((RTA_DST, route_dst_bytes p e.net) :: (RTA_TABLE, bytes_u32 (krt_table_id p)) :: B) :=
      hb
    have hwant : (rtm_attr_want (rtm_family pkt (NLMSG_DATA 0)) RTA_DST).defined = true
        ∧ ((rtm_attr_want (rtm_family pkt (NLMSG_DATA 0)) RTA_DST).checksize = true →
          (route_dst_bytes p e.net).length
            = (rtm_attr_want (rtm_family pkt (NLMSG_DATA 0)) RTA_DST).size) := by
      rw [hfamily]
      rcases hfam with h0 | ⟨h4, a, l, hn⟩ | ⟨h6, a, l, hn⟩ | hm
      · exact absurd h0 hlt
      · rw [h4, hn]
        refine ⟨by decide, fun _ => ?_⟩
        simp [route_dst_bytes, h4, AF_INET, AF_MPLS, net_pfx, ipa_bytes, ip4_hton_bytes,
          bytes_be32]
        decide
      · rw [h6, hn]
        refine ⟨by decide, fun _ => ?_⟩
        simp [route_dst_bytes, h6, AF_INET6, AF_MPLS, net_pfx, ipa_bytes, ip6_hton_bytes,
          bytes_be32]
        decide
      · rw [hm]
        refine ⟨by decide, fun _ => ?_⟩
        simp [route_dst_bytes, hm, mpls_put, bytes_be32]
        decide
    obtain ⟨hslot, hdata⟩ := msg_built_slot_table pkt _ _ _ B
      (rtm_attr_want (rtm_family pkt (NLMSG_DATA 0))) hb' (by omega) (by simp [bytes_u32]) hB
      hwant.1 hwant.2 (rtm_attr_want_table _)
    unfold attr_table_id route_attr_vec
    rw [hslot]
    simp only []
    exact ld32_of_bytes pkt _ _ ht hdata

/-- The end of `nl_parse_route` delivers the route to the protocol it was given, when
`nl_parse_metrics` accepts `RTA_METRICS`. -/
theorem nl_parse_route_deliver_pass (m : Mem) (i : Nat) (scan new : Bool) (a : AttrVec)
    (p : krt_proto) (dst : net_addr) (src : krt_src) (ra : rta)
    (hmet : ∀ x, a RTA_METRICS = some x → 0 ≤ (nl_parse_metrics m x KRT_METRICS_MAX).1) :
    ∃ e, (nl_parse_route_deliver m i scan new a p dst src ra).delivers p e := by
  have key : ∀ e : rte,
      ∃ e', (if scan then RouteOutcome.got_route p e
        else RouteOutcome.got_route_async p e new).delivers p e' := by
    intro e
    cases scan
    · exact ⟨e, Or.inr ⟨new, rfl⟩⟩
    · exact ⟨e, Or.inl rfl⟩
  unfold nl_parse_route_deliver
  simp only []
  cases hM : a RTA_METRICS with
  | none => exact key _
  | some x =>
    simp only []
    have hx := hmet x hM
    rw [if_neg (by omega)]
    split
    · exact key _
    · exact key _

/-- The label part of `nl_parse_route` goes on to the delivery when there is no
encapsulation. -/
theorem nl_parse_route_labels_pass (m : Mem) (i : Nat) (scan new : Bool) (a : AttrVec)
    (p : krt_proto) (dst : net_addr) (src : krt_src) (ra : rta)
    (henc : a RTA_ENCAP = none ∨ a RTA_ENCAP_TYPE = none)
    (hmet : ∀ x, a RTA_METRICS = some x → 0 ≤ (nl_parse_metrics m x KRT_METRICS_MAX).1) :
    ∃ e, (nl_parse_route_labels m i scan new a p dst src ra).delivers p e := by
  unfold nl_parse_route_labels
  simp only []
  split
  · next enc ty he ht =>
    rcases henc with h1 | h1
    · rw [h1] at he; cases he
    · rw [h1] at ht; cases ht
  · exact nl_parse_route_deliver_pass m i scan new a p dst src _ hmet

/-- The switch on `rtm_type` goes on to the delivery for a type without next-hop and for a
unicast route over a known interface without gateway. -/
theorem nl_parse_route_type_pass (d : Daemon) (m : Mem) (i : Nat) (scan new : Bool)
    (a : AttrVec) (p : krt_proto) (dst : net_addr) (src : krt_src) (oif : Nat)
    (hfam : rtm_family m i = AF_INET ∨ rtm_family m i = AF_INET6)
    (htype : rtm_type m i = RTN_BLACKHOLE ∨ rtm_type m i = RTN_UNREACHABLE
      ∨ rtm_type m i = RTN_PROHIBIT
      ∨ (rtm_type m i = RTN_UNICAST ∧ a RTA_MULTIPATH = none ∧ a RTA_GATEWAY = none
          ∧ (d.if_find_by_index oif).isSome = true))
    (henc : a RTA_ENCAP = none ∨ a RTA_ENCAP_TYPE = none)
    (hmet : ∀ x, a RTA_METRICS = some x → 0 ≤ (nl_parse_metrics m x KRT_METRICS_MAX).1) :
    ∃ e, (nl_parse_route_type d m i scan new a p dst src oif).delivers p e := by
  have hnm : rtm_family m i ≠ AF_MPLS := by
    rcases hfam with h | h <;> rw [h] <;> decide
  unfold nl_parse_route_type
  simp only []
  rcases htype with h | h | h | ⟨h, hmp, hgw, hif⟩
  · rw [h, if_neg (by decide), if_pos rfl]
    exact nl_parse_route_labels_pass m i scan new a p dst src _ henc hmet
  · rw [h, if_neg (by decide), if_neg (by decide), if_pos rfl]
    exact nl_parse_route_labels_pass m i scan new a p dst src _ henc hmet
  · rw [h, if_neg (by decide), if_neg (by decide), if_neg (by decide), if_pos rfl]
    exact nl_parse_route_labels_pass m i scan new a p dst src _ henc hmet
  · rw [if_pos h, hmp]
    have hm0 : (if rtm_family m i = AF_INET then (none : Option Nat) else none) = none := by
      split <;> rfl
    rw [hm0]
    simp only []
    cases hi : d.if_find_by_index oif with
    | none => rw [hi] at hif; cases hif
    | some ifa =>
      simp only []
      rw [if_pos hnm, hgw]
      exact nl_parse_route_labels_pass m i scan new a p dst src _ henc hmet

/-- The checks of `nl_parse_route` after the attribute parse go on to the switch on `rtm_type`
with the protocol that the registry holds for the family and the resolved table id, when no
skip condition holds. -/
theorem nl_parse_route_checks_pass (d : Daemon) (m : Mem) (i : Nat) (scan new : Bool)
    (a : AttrVec) (dst : net_addr) (p : krt_proto)
    (hfind : HASH_FIND d.nl_table_map (rtm_family m i) (attr_table_id m i a) = some p)
    (hiif : a RTA_IIF = none) (htos : rtm_tos m i = 0) (hscan : scan = true → new = true)
    (hcls : ¬ (d.net_classify dst < 0 ∨ (d.net_classify dst).toNat &&& IADDR_HOST = 0
      ∨ (((d.net_classify dst).toNat &&& IADDR_SCOPE_MASK : Nat) : Int) ≤ SCOPE_LINK))
    (hp0 : rtm_protocol m i ≠ RTPROT_UNSPEC) (hp2 : rtm_protocol m i ≠ RTPROT_KERNEL)
    (hpb : rtm_protocol m i = RTPROT_BIRD → scan = true) :
    ∃ src, nl_parse_route_checks d m i scan new a dst
      = nl_parse_route_type d m i scan new a p dst src (attr_oif m a) := by
  have c3 : ¬ ((scan && !new) = true) := by
    cases scan
    · simp
    · rw [hscan rfl]; simp
  have c1 : ¬ ((a RTA_IIF).isSome = true) := by rw [hiif]; simp
  have c2 : ¬ (rtm_tos m i ≠ 0) := by rw [htos]; simp
  unfold nl_parse_route_checks
  unfold attr_table_id at hfind
  unfold attr_oif
  cases hT : a RTA_TABLE <;> cases hO : a RTA_OIF <;> rw [hT] at hfind <;>
    simp only [] at hfind ⊢ <;> rw [hfind] <;> simp only [] <;>
    rw [if_neg c1, if_neg c2, if_neg c3, if_neg hcls, if_neg hp0] <;>
    (by_cases c6 : rtm_protocol m i = RTPROT_REDIRECT
     · rw [if_pos c6]; exact ⟨_, rfl⟩
     rw [if_neg c6, if_neg hp2]
     by_cases c8 : rtm_protocol m i = RTPROT_BIRD
     · rw [if_pos c8]
       have hs := hpb c8
       rw [if_neg (by rw [hs]; simp)]
       exact ⟨_, rfl⟩
     · rw [if_neg c8]; exact ⟨_, rfl⟩)

/-- For an IPv4 or IPv6 message that `nl_checkin` and `nl_parse_attrs` accept, `nl_parse_route`
is its checks applied to the vector and the destination of the message. -/
theorem nl_parse_route_ip (d : Daemon) (m : Mem) (h : Nat) (scan : Bool)
    (hck : 0 ≤ (nl_checkin m h sizeof_rtmsg).1)
    (hfam : rtm_family m (NLMSG_DATA h) = AF_INET ∨ rtm_family m (NLMSG_DATA h) = AF_INET6)
    (hret : (nl_parse_attrs m (RTM_RTA (NLMSG_DATA h))
      (rtm_attr_want (rtm_family m (NLMSG_DATA h))) BIRD_RTA_MAX
      (nl_checkin m h sizeof_rtmsg).1).ret ≠ 0) :
    nl_parse_route d m h scan
      = nl_parse_route_checks d m (NLMSG_DATA h) scan (nlmsg_type m h == RTM_NEWROUTE)
          (route_attr_vec m h) (route_dst_ip m h) := by
  have hc : nl_checkin m h sizeof_rtmsg
      = ((nl_checkin m h sizeof_rtmsg).1, some (NLMSG_DATA h)) := by
    rcases nl_checkin_cases m h sizeof_rtmsg with hc | hc
    · exfalso
      have h2 : (nl_checkin m h sizeof_rtmsg).2 = none := by rw [hc]
      unfold nl_checkin at h2 hck
      simp only [] at h2 hck
      split at h2
      · next hneg =>
        rw [if_pos hneg] at hck
        simp only [] at hck
        omega
      · cases h2
    · exact hc
  unfold nl_parse_route
  rw [hc]
  simp only []
  unfold route_dst_ip route_attr_vec
  unfold rtm_attr_want at hret ⊢
  rcases hfam with h4 | h6
  · rw [if_pos h4] at hret ⊢
    rw [if_neg hret, if_pos h4, if_pos h4]
    split <;> rfl
  · have h4 : rtm_family m (NLMSG_DATA h) ≠ AF_INET := by rw [h6]; decide
    rw [if_neg h4, if_pos h6] at hret ⊢
    rw [if_neg hret, if_neg h4, if_neg h4, if_pos h6]
    split <;> rfl

/-- A message that passes the other tests of `nl_parse_route` is delivered to the protocol
that the registry holds for its family and its resolved table id. -/
theorem nl_parse_route_passes_delivers (d : Daemon) (m : Mem) (h : Nat) (scan : Bool)
    (p : krt_proto) (hpass : route_passes d m h scan)
    (hfind : HASH_FIND d.nl_table_map (rtm_family m (NLMSG_DATA h))
      (attr_table_id m (NLMSG_DATA h) (route_attr_vec m h)) = some p) :
    ∃ e, (nl_parse_route d m h scan).delivers p e := by
  obtain ⟨hck, hfam, hret, hiif, htos, hscan, hcls, hp0, hp2, hpb, htype, henc, hmet⟩ := hpass
  rw [nl_parse_route_ip d m h scan hck hfam hret]
  obtain ⟨src, hsrc⟩ := nl_parse_route_checks_pass d m (NLMSG_DATA h) scan
    (nlmsg_type m h == RTM_NEWROUTE) (route_attr_vec m h) (route_dst_ip m h) p hfind hiif htos
    (fun hs => by rw [hscan hs]; rfl) hcls hp0 hp2 hpb
  rw [hsrc]
  refine nl_parse_route_type_pass d m (NLMSG_DATA h) scan _ _ p _ src _ hfam ?_ henc hmet
  rcases htype with h1 | h1 | h1 | h1
  · exact Or.inl h1
  · exact Or.inr (Or.inl h1)
  · exact Or.inr (Or.inr (Or.inl h1))
  · exact Or.inr (Or.inr (Or.inr h1))

/-- The loop of `nl_parse_multipath` does not read the registry of protocols. -/
theorem nl_parse_multipath_loop_registry (d : Daemon) (map : List krt_proto) (m : Mem)
    (p : krt_proto) :
    ∀ (fuel nh : Nat) (len : Int) (used : Nat) (acc : List nexthop),
      nl_parse_multipath_loop { d with nl_table_map := map } m p fuel nh len used acc
        = nl_parse_multipath_loop d m p fuel nh len used acc := by
  intro fuel
  induction fuel with
  | zero => intro nh len used acc; rfl
  | succ f ih =>
    intro nh len used acc
    rw [nl_parse_multipath_loop, nl_parse_multipath_loop]
    simp only [ih]

/-- The switch on `rtm_type` of `nl_parse_route` does not read the registry of protocols. -/
theorem nl_parse_route_type_registry (d : Daemon) (map : List krt_proto) (m : Mem) (i : Nat)
    (scan new : Bool) (a : AttrVec) (p : krt_proto) (dst : net_addr) (src : krt_src)
    (oif : Nat) :
    nl_parse_route_type { d with nl_table_map := map } m i scan new a p dst src oif
      = nl_parse_route_type d m i scan new a p dst src oif := by
  unfold nl_parse_route_type nl_parse_multipath
  simp only [nl_parse_multipath_loop_registry]

/-- The checks of `nl_parse_route` read the registry of protocols through the one lookup of
the family and the resolved table id. -/
theorem nl_parse_route_checks_registry (d : Daemon) (map : List krt_proto) (m : Mem) (i : Nat)
    (scan new : Bool) (a : AttrVec) (dst : net_addr)
    (hmap : HASH_FIND map (rtm_family m i) (attr_table_id m i a)
      = HASH_FIND d.nl_table_map (rtm_family m i) (attr_table_id m i a)) :
    nl_parse_route_checks { d with nl_table_map := map } m i scan new a dst
      = nl_parse_route_checks d m i scan new a dst := by
  unfold nl_parse_route_checks
  unfold attr_table_id at hmap
  cases hT : a RTA_TABLE <;> rw [hT] at hmap <;> simp only [] at hmap ⊢ <;> rw [hmap] <;>
    simp only [nl_parse_route_type_registry]

/-- The outcome of `nl_parse_route` depends on the registry of protocols only through the
lookup of the family of the message and its resolved table id. -/
theorem nl_parse_route_registry (d : Daemon) (map : List krt_proto) (m : Mem) (h : Nat)
    (scan : Bool)
    (hmap : HASH_FIND map (rtm_family m (NLMSG_DATA h))
        (attr_table_id m (NLMSG_DATA h) (route_attr_vec m h))
      = HASH_FIND d.nl_table_map (rtm_family m (NLMSG_DATA h))
        (attr_table_id m (NLMSG_DATA h) (route_attr_vec m h))) :
    nl_parse_route { d with nl_table_map := map } m h scan = nl_parse_route d m h scan := by
  unfold nl_parse_route
  rcases nl_checkin_cases m h sizeof_rtmsg with hck | hck
  · rw [hck]
  · rw [hck]
    simp only []
    unfold route_attr_vec rtm_attr_want at hmap
    by_cases h4 : rtm_family m (NLMSG_DATA h) = AF_INET
    · rw [if_pos h4] at hmap
      rw [if_pos h4, if_pos h4]
      simp only [nl_parse_route_checks_registry d map m _ scan _ _ _ hmap]
    · rw [if_neg h4] at hmap
      rw [if_neg h4, if_neg h4]
      by_cases h6 : rtm_family m (NLMSG_DATA h) = AF_INET6
      · rw [if_pos h6] at hmap
        rw [if_pos h6, if_pos h6]
        simp only [nl_parse_route_checks_registry d map m _ scan _ _ _ hmap]
      · rw [if_neg h6] at hmap
        rw [if_neg h6, if_neg h6]
        simp only [nl_parse_route_checks_registry d map m _ scan _ _ _ hmap]

/-- What `nl_parse_route` does with the table id `t` that it resolves from a message: without
a protocol registered for the family and `t` it returns at once; what it delivers, it delivers
to the protocol registered for them; a message that passes its other tests is delivered to
that protocol; and no other entry of the registry bears on the outcome. -/
theorem nl_parse_route_lookup (d : Daemon) (m : Mem) (h : Nat) (scan : Bool) (t : Nat)
    (ht : attr_table_id m (NLMSG_DATA h) (route_attr_vec m h) = t) :
    (HASH_FIND d.nl_table_map (rtm_family m (NLMSG_DATA h)) t = none →
      nl_parse_route d m h scan = .ignored none)
    ∧ (∀ (p : krt_proto) (e : rte), (nl_parse_route d m h scan).delivers p e →
        HASH_FIND d.nl_table_map (rtm_family m (NLMSG_DATA h)) t = some p)
    ∧ (∀ p : krt_proto, route_passes d m h scan →
        HASH_FIND d.nl_table_map (rtm_family m (NLMSG_DATA h)) t = some p →
        ∃ e, (nl_parse_route d m h scan).delivers p e)
    ∧ (∀ map : List krt_proto,
        HASH_FIND map (rtm_family m (NLMSG_DATA h)) t
          = HASH_FIND d.nl_table_map (rtm_family m (NLMSG_DATA h)) t →
        nl_parse_route { d with nl_table_map := map } m h scan = nl_parse_route d m h scan) := by
  subst ht
  exact ⟨fun hnone => nl_parse_route_skips_vec d m h scan (Or.inr (Or.inr hnone)),
    fun p e hd => nl_parse_route_delivers_table d m h scan p e hd,
    fun p hpass hfind => nl_parse_route_passes_delivers d m h scan p hpass hfind,
    fun map hmap => nl_parse_route_registry d map m h scan hmap⟩

/-- The slot `RTA_TABLE` of a request of `nl_send_route`, parsed as a route message: empty,
with `rtm_table` holding the table id, when the id is below 256; filled with an attribute that
holds the id otherwise. -/
theorem nl_send_route_build_table_slot (stack : Mem) (p : krt_proto) (e : rte)
    (eattrs : List eattr) (new : Bool) (metrics0 : Nat → Nat) (pkt : Mem)
    (ht : krt_table_id p < 2 ^ 32)
    (hrs : route_rsize (e.attrs.nh :: e.attrs.nh_next).length < 65536)
    (hlab : e.attrs.nh.labels ≤ 255)
    (hfam : krt_table_id p < 256
      ∨ (p.af = AF_INET ∧ ∃ a l, e.net = .ip4 a l)
      ∨ (p.af = AF_INET6 ∧ ∃ a l, e.net = .ip6 a l)
      ∨ p.af = AF_MPLS)
    (h : nl_send_route_build stack p e eattrs new metrics0 = .ok pkt) :
    (krt_table_id p < 256 ∧ route_attr_vec pkt 0 RTA_TABLE = none
      ∧ rtm_table pkt (NLMSG_DATA 0) = krt_table_id p)
    ∨ (256 ≤ krt_table_id p ∧ ∃ x, route_attr_vec pkt 0 RTA_TABLE = some x
      ∧ rta_get_u32 pkt x = krt_table_id p) := by
  obtain ⟨B, hb, hB, _, hh⟩ := nl_send_route_build_built stack p e eattrs new metrics0 pkt
    hrs hlab h
  obtain ⟨_, _, hfamily, _, _, htab, _⟩ := hh
  by_cases hlt : krt_table_id p < 256
  · left
    have hT : route_table_attr p = [] := by unfold route_table_attr; rw [if_pos hlt]
    rw [hT, List.nil_append] at hb
    have hnone := msg_built_slot_none pkt _ _
      (rtm_attr_want (rtm_family pkt (NLMSG_DATA 0))) hb (by omega)
      (by
        simp only [List.map_cons, List.mem_cons, not_or]
        exact ⟨by decide, hB⟩)
    refine ⟨hlt, hnone, ?_⟩
    rw [htab, if_pos hlt]
  · right
    have hT : route_table_attr p = [(RTA_TABLE, bytes_u32 (krt_table_id p))] := by
      unfold route_table_attr; rw [if_neg hlt]
    rw [hT] at hb
    have hb' : msg_built pkt (route_rsize (e.attrs.nh :: e.attrs.nh_next).length)
        ((RTA_DST, route_dst_bytes p e.net) :: (RTA_TABLE, bytes_u32 (krt_table_id p)) :: B) :=
      hb
    have hwant : (rtm_attr_want (rtm_family pkt (NLMSG_DATA 0)) RTA_DST).defined = true
        ∧ ((rtm_attr_want (rtm_family pkt (NLMSG_DATA 0)) RTA_DST).checksize = true →
          (route_dst_bytes p e.net).length
            = (rtm_attr_want (rtm_family pkt (NLMSG_DATA 0)) RTA_DST).size) := by
      rw [hfamily]
      rcases hfam with h0 | ⟨h4, a, l, hn⟩ | ⟨h6, a, l, hn⟩ | hm
      · exact absurd h0 hlt
      · rw [h4, hn]
        refine ⟨by decide, fun _ => ?_⟩
        simp [route_dst_bytes, h4, AF_INET, AF_MPLS, net_pfx, ipa_bytes, ip4_hton_bytes,
          bytes_be32]
        decide
      · rw [h6, hn]
        refine ⟨by decide, fun _ => ?_⟩
        simp [route_dst_bytes, h6, AF_INET6, AF_MPLS, net_pfx, ipa_bytes, ip6_hton_bytes,
          bytes_be32]
        decide
      · rw [hm]
        refine ⟨by decide, fun _ => ?_⟩
        simp [route_dst_bytes, hm, mpls_put, bytes_be32]
        decide
    obtain ⟨hslot, hdata⟩ := msg_built_slot_table pkt _ _ _ B
      (rtm_attr_want (rtm_family pkt (NLMSG_DATA 0))) hb' (by omega) (by simp [bytes_u32]) hB
      hwant.1 hwant.2 (rtm_attr_want_table _)
    exact ⟨by omega, _, hslot, ld32_of_bytes pkt _ _ ht hdata⟩

/-- C26: table id resolution and its round trip. For every route message, `nl_parse_route`
looks the protocol up in the registry under the family of the message and the table id `t`
that is the 32-bit value of the attribute in the slot `RTA_TABLE` of the parsed vector when
the slot is filled (with an attribute header of code `RTA_TABLE` and 4 bytes of payload), and
the 8-bit field `rtm_table` when it is empty: with no protocol registered for the family and
`t` it returns at once; every route it delivers goes to the protocol registered for them; a
message that passes its other tests and needs no gateway (`route_passes`) is delivered to that
protocol; and the outcome is the same for every registry with the same entry for the family
and `t`. A stream without `RTA_TABLE` leaves the slot empty, a padded stream with `RTA_TABLE`
fills it unless the parse rejects the message. For every table id `t` below `2^32`, every
request that `nl_send_route` hands to `nl_exchange` for a protocol with table id `t` (for at
most 2330 next-hops, so that every length fits its 16-bit field) holds `RTA_DST`, then
`RTA_TABLE` with the 4 bytes of `t` when `256 <= t`, then attributes other than `RTA_TABLE`;
its `rtm_table` is `t` when `t < 256` and 0 otherwise; and when `t < 256` or the destination
has the address family of the protocol, `nl_parse_route` on that request finds the slot empty
and `rtm_table = t`, or the slot filled with an attribute of value `t`, and looks the protocol
up under `t`. -/
theorem nl_table_id_round_trip :
    (∀ (d : Daemon) (m : Mem) (h : Nat) (scan : Bool),
      (∀ x, route_attr_vec m h RTA_TABLE = some x →
          rta_type m x = RTA_TABLE ∧ RTA_PAYLOAD m x = 4)
      ∧ (∀ attrs, attrs_at m (RTM_RTA (NLMSG_DATA h)) attrs →
          nlmsg_len m h ≤ NLMSG_LENGTH sizeof_rtmsg + attrs_space attrs →
          RTA_TABLE ∉ attrs.map Prod.fst → route_attr_vec m h RTA_TABLE = none)
      ∧ (∀ attrs, attrs_at m (RTM_RTA (NLMSG_DATA h)) attrs →
          nlmsg_len m h = NLMSG_LENGTH sizeof_rtmsg + attrs_space attrs →
          nlmsg_len m h < 2 ^ 31 → RTA_TABLE ∈ attrs.map Prod.fst →
          nl_parse_route d m h scan = .ignored none
            ∨ (route_attr_vec m h RTA_TABLE).isSome = true)
      ∧ ∀ t : Nat,
          ((route_attr_vec m h RTA_TABLE = none ∧ t = rtm_table m (NLMSG_DATA h))
            ∨ ∃ x, route_attr_vec m h RTA_TABLE = some x ∧ t = rta_get_u32 m x) →
          (HASH_FIND d.nl_table_map (rtm_family m (NLMSG_DATA h)) t = none →
            nl_parse_route d m h scan = .ignored none)
          ∧ (∀ (p : krt_proto) (e : rte), (nl_parse_route d m h scan).delivers p e →
              HASH_FIND d.nl_table_map (rtm_family m (NLMSG_DATA h)) t = some p)
          ∧ (∀ p : krt_proto, route_passes d m h scan →
              HASH_FIND d.nl_table_map (rtm_family m (NLMSG_DATA h)) t = some p →
              ∃ e, (nl_parse_route d m h scan).delivers p e)
          ∧ (∀ map : List krt_proto,
              HASH_FIND map (rtm_family m (NLMSG_DATA h)) t
                = HASH_FIND d.nl_table_map (rtm_family m (NLMSG_DATA h)) t →
              nl_parse_route { d with nl_table_map := map } m h scan
                = nl_parse_route d m h scan))
    ∧ (∀ (stack : Mem) (p : krt_proto) (e : rte) (eattrs : List eattr) (new : Bool)
        (metrics0 : Nat → Nat) (pkt : Mem),
      krt_table_id p < 2 ^ 32 →
      route_rsize (e.attrs.nh :: e.attrs.nh_next).length < 65536 →
      e.attrs.nh.labels ≤ 255 →
      nl_send_route stack p e eattrs new metrics0 = .exchange pkt →
      (∃ B, nlmsg_len pkt 0 = NLMSG_LENGTH sizeof_rtmsg
              + attrs_len ((RTA_DST, route_dst_bytes p e.net)
                  :: ((if krt_table_id p < 256 then []
                        else [(RTA_TABLE, bytes_u32 (krt_table_id p))]) ++ B))
          ∧ attrs_at pkt (RTM_RTA (NLMSG_DATA 0))
              ((RTA_DST, route_dst_bytes p e.net)
                  :: ((if krt_table_id p < 256 then []
                        else [(RTA_TABLE, bytes_u32 (krt_table_id p))]) ++ B))
          ∧ RTA_TABLE ∉ B.map Prod.fst)
      ∧ rtm_table pkt (NLMSG_DATA 0) = (if krt_table_id p < 256 then krt_table_id p else 0)
      ∧ le32 (bytes_u32 (krt_table_id p)) = krt_table_id p
      ∧ ((krt_table_id p < 256
            ∨ (p.af = AF_INET ∧ ∃ a l, e.net = .ip4 a l)
            ∨ (p.af = AF_INET6 ∧ ∃ a l, e.net = .ip6 a l)
            ∨ p.af = AF_MPLS) →
          ((krt_table_id p < 256 ∧ route_attr_vec pkt 0 RTA_TABLE = none
              ∧ rtm_table pkt (NLMSG_DATA 0) = krt_table_id p)
            ∨ (256 ≤ krt_table_id p ∧ ∃ x, route_attr_vec pkt 0 RTA_TABLE = some x
              ∧ rta_get_u32 pkt x = krt_table_id p))
          ∧ ∀ (d : Daemon) (scan : Bool),
              (HASH_FIND d.nl_table_map (rtm_family pkt (NLMSG_DATA 0)) (krt_table_id p) = none →
                nl_parse_route d pkt 0 scan = .ignored none)
              ∧ (∀ (q : krt_proto) (r : rte), (nl_parse_route d pkt 0 scan).delivers q r →
                  HASH_FIND d.nl_table_map (rtm_family pkt (NLMSG_DATA 0)) (krt_table_id p)
                    = some q)
              ∧ (∀ q : krt_proto, route_passes d pkt 0 scan →
                  HASH_FIND d.nl_table_map (rtm_family pkt (NLMSG_DATA 0)) (krt_table_id p)
                    = some q →
                  ∃ r, (nl_parse_route d pkt 0 scan).delivers q r))) := by
  refine ⟨fun d m h scan => ⟨?_, ?_, ?_, ?_⟩, ?_⟩
  · exact fun x hx => route_attr_vec_table_slot m h x hx
  · exact fun attrs hat hlen hno => route_attr_vec_table_absent m h attrs hat hlen hno
  · exact fun attrs hat hlen h31 hmem =>
      route_attr_vec_table_present d m h scan attrs hat hlen h31 hmem
  · intro t ht
    apply nl_parse_route_lookup d m h scan t
    unfold attr_table_id
    rcases ht with ⟨hn, ht⟩ | ⟨x, hx, ht⟩
    · rw [hn, ht]
    · rw [hx, ht]
  · intro stack p e eattrs new metrics0 pkt ht hrs hlab hsend
    have hbuild : nl_send_route_build stack p e eattrs new metrics0 = .ok pkt := by
      unfold nl_send_route at hsend
      split at hsend
      · cases hsend
      · next pkt' hb =>
        injection hsend with hsend
        rw [← hsend]
        exact hb
    obtain ⟨B, hb, hB, _, hh⟩ := nl_send_route_build_built stack p e eattrs new metrics0 pkt
      hrs hlab hbuild
    refine ⟨⟨B, hb.1, hb.2.2, hB⟩, hh.2.2.2.2.2.1, le32_bytes_u32 _ ht, fun hfam => ?_⟩
    have hid := nl_send_route_build_table_id stack p e eattrs new metrics0 pkt ht hrs hlab hfam
      hbuild
    refine ⟨nl_send_route_build_table_slot stack p e eattrs new metrics0 pkt ht hrs hlab hfam
      hbuild, fun d scan => ?_⟩
    obtain ⟨h1, h2, h3, _⟩ := nl_parse_route_lookup d pkt 0 scan _ hid
    exact ⟨h1, h2, h3⟩

/-- C26 at concrete messages, with a registry that holds an IPv4 protocol for the table 254
and one for the table 1000. The message `route_msg_tab1000` has `rtm_table = 254` and
`RTA_TABLE` 1000 and is delivered to the protocol of the table 1000; the message
`route_msg_dev` has no `RTA_TABLE` and is delivered to the protocol of the table 254, its
`rtm_table`; and the request that `nl_send_route` builds for the route `10.0.0.0/24 dev eth0`
and the protocol of the table 1000 has `rtm_table = 0` and `RTA_TABLE` 1000 and, parsed by
`nl_parse_route` in a scan, is delivered to the protocol of the table 1000. -/
theorem nl_table_id_round_trip_witness :
    (route_attr_vec route_msg_tab1000 0 RTA_TABLE = some 36
      ∧ rta_get_u32 route_msg_tab1000 36 = 1000
      ∧ rtm_table route_msg_tab1000 (NLMSG_DATA 0) = 254
      ∧ route_passes example_daemon_tables route_msg_tab1000 0 true
      ∧ HASH_FIND example_daemon_tables.nl_table_map
          (rtm_family route_msg_tab1000 (NLMSG_DATA 0)) 1000 = some example_proto4_tab1000
      ∧ HASH_FIND example_daemon_tables.nl_table_map
          (rtm_family route_msg_tab1000 (NLMSG_DATA 0)) 254 = some example_proto4)
    ∧ (∃ e, (nl_parse_route example_daemon_tables route_msg_tab1000 0 true).delivers
        example_proto4_tab1000 e)
    ∧ nl_parse_route example_daemon_tables route_msg_tab1000 0 true
        = .got_route example_proto4_tab1000
            { net := .ip4 (10 * 2 ^ 24) 24,
              attrs := { dest := .UNICAST, nh := { iface := some example_eth0 } },
              krt_src := .ALIEN, krt_proto := RTPROT_BOOT }
    ∧ (route_attr_vec route_msg_dev 0 RTA_TABLE = none
      ∧ rtm_table route_msg_dev (NLMSG_DATA 0) = 254
      ∧ route_passes example_daemon_tables route_msg_dev 0 false)
    ∧ (∃ e, (nl_parse_route example_daemon_tables route_msg_dev 0 false).delivers
        example_proto4 e)
    ∧ nl_parse_route example_daemon_tables route_msg_dev 0 false
        = .got_route_async example_proto4
            { net := .ip4 (10 * 2 ^ 24) 24,
              attrs := { dest := .UNICAST, nh := { iface := some example_eth0 } },
              krt_src := .ALIEN, krt_proto := RTPROT_BOOT } true
    ∧ (krt_table_id example_proto4_tab1000 < 2 ^ 32
      ∧ route_rsize (example_route4_dev.attrs.nh :: example_route4_dev.attrs.nh_next).length
          < 65536
      ∧ example_route4_dev.attrs.nh.labels ≤ 255
      ∧ nl_send_route example_stack example_proto4_tab1000 example_route4_dev [] true
          (fun _ => 0) = .exchange example_request_tab1000
      ∧ example_proto4_tab1000.af = AF_INET ∧ example_route4_dev.net = .ip4 (10 * 2 ^ 24) 24
      ∧ krt_table_id example_proto4_tab1000 = 1000
      ∧ route_passes example_daemon_tables example_request_tab1000 0 true)
    ∧ ((krt_table_id example_proto4_tab1000 < 256
          ∧ route_attr_vec example_request_tab1000 0 RTA_TABLE = none
          ∧ rtm_table example_request_tab1000 (NLMSG_DATA 0)
              = krt_table_id example_proto4_tab1000)
        ∨ (256 ≤ krt_table_id example_proto4_tab1000
          ∧ ∃ x, route_attr_vec example_request_tab1000 0 RTA_TABLE = some x
            ∧ rta_get_u32 example_request_tab1000 x = krt_table_id example_proto4_tab1000))
    ∧ (∃ r, (nl_parse_route example_daemon_tables example_request_tab1000 0 true).delivers
        example_proto4_tab1000 r)
    ∧ rtm_table example_request_tab1000 (NLMSG_DATA 0) = 0
    ∧ route_attr_vec example_request_tab1000 0 RTA_TABLE = some 36
    ∧ rta_get_u32 example_request_tab1000 36 = 1000
    ∧ nl_parse_route example_daemon_tables example_request_tab1000 0 true
        = .got_route example_proto4_tab1000
            { net := .ip4 (10 * 2 ^ 24) 24,
              attrs := { dest := .BLACKHOLE },
              krt_src := .BIRD, krt_proto := RTPROT_BIRD } :=
  ⟨⟨by decide, by decide, by decide, by decide, by decide, by decide⟩,
   ((nl_table_id_round_trip.1 example_daemon_tables route_msg_tab1000 0 true).2.2.2 1000
      (Or.inr ⟨36, by decide, by decide⟩)).2.2.1 example_proto4_tab1000 (by decide) (by decide),
   by decide,
   ⟨by decide, by decide, by decide⟩,
   ((nl_table_id_round_trip.1 example_daemon_tables route_msg_dev 0 false).2.2.2 254
      (Or.inl ⟨by decide, by decide⟩)).2.2.1 example_proto4 (by decide) (by decide),
   by decide,
   ⟨by decide, by decide, by decide, rfl, rfl, rfl, by decide, by decide⟩,
   ((nl_table_id_round_trip.2 example_stack example_proto4_tab1000 example_route4_dev [] true
      (fun _ => 0) example_request_tab1000 (by decide) (by decide) (by decide) rfl).2.2.2
      (Or.inr (Or.inl ⟨rfl, _, _, rfl⟩))).1,
   (((nl_table_id_round_trip.2 example_stack example_proto4_tab1000 example_route4_dev [] true
      (fun _ => 0) example_request_tab1000 (by decide) (by decide) (by decide) rfl).2.2.2
      (Or.inr (Or.inl ⟨rfl, _, _, rfl⟩))).2 example_daemon_tables true).2.2
      example_proto4_tab1000 (by decide) (by decide),
   by decide, by decide, by decide, by decide⟩

/-- The loop of `nl_parse_multipath` with a bound is the run of its passes: it gives what the
function returns when the run has returned within the bound, and `none` when it has not. -/
theorem nl_parse_multipath_loop_run (d : Daemon) (m : Mem) (p : krt_proto) :
    ∀ (fuel nh : Nat) (len : Int) (used : Nat) (acc : List nexthop),
      nl_parse_multipath_loop d m p fuel nh len used acc
        = (nl_parse_multipath_run d m p fuel nh len used acc).getD none := by
  intro fuel
  induction fuel with
  | zero => intro nh len used acc; rfl
  | succ f ih =>
    intro nh len used acc
    rw [nl_parse_multipath_loop, nl_parse_multipath_run]
    unfold nl_parse_multipath_iter
    by_cases h0 : len = 0
    · rw [if_pos h0, if_pos h0]
      rfl
    · rw [if_neg h0, if_neg h0]
      by_cases h1 : (0 ≤ len ∧ len < (sizeof_rtnexthop : Nat)) ∨ len < (ld16 m nh : Nat)
      · rw [if_pos h1, if_pos h1]
        rfl
      · rw [if_neg h1, if_neg h1]
        cases hif : d.if_find_by_index (ld32 m (nh + 4)) with
        | none => rfl
        | some ifa =>
          simp only []
          cases hg : (nl_parse_attrs m (RTNH_DATA nh) nexthop_attr_want4 BIRD_RTA_MAX
              ((ld16 m nh : Nat) - (RTNH_LENGTH 0 : Nat))).k RTA_GATEWAY with
          | none => rfl
          | some g =>
            simp only []
            cases hn : d.neigh_find2 p (rta_get_ipa m g) ifa
                (ld8 m (nh + 2) &&& RTNH_F_ONLINK != 0) with
            | none => rfl
            | some nbr =>
              simp only []
              by_cases hs : nbr.scope = SCOPE_HOST
              · rw [if_pos hs, if_pos hs]
                rfl
              · rw [if_neg hs, if_neg hs]
                exact ih _ _ _ _

/-- A slot of `nl_parse_attrs` whose size is checked is only filled when the stream has room
for the attribute header and a payload of that size. -/
theorem nl_parse_attrs_loop_some_len (m : Mem) (want : Nat → nl_want_attrs) (max c : Nat)
    (hcs : (want c).checksize = true) :
    ∀ (fuel a : Nat) (len : Int) (k : AttrVec) (x : Nat), k c = none →
      (nl_parse_attrs_loop m want max fuel a len k).k c = some x →
      ((4 + (want c).size : Nat) : Int) ≤ len := by
  intro fuel
  induction fuel with
  | zero =>
    intro a len k x hk hx
    rw [nl_parse_attrs_loop, nl_parse_attrs_end_k, hk] at hx
    cases hx
  | succ f ih =>
    intro a len k x hk hx
    have hal := RTA_ALIGN_ge (rta_len m a)
    rw [nl_parse_attrs_loop] at hx
    split at hx
    · next hok =>
      rw [RTA_OK_iff] at hok
      split at hx
      · have := ih _ _ k x hk hx
        omega
      · split at hx
        · have hx' : k c = some x := hx
          rw [hk] at hx'
          cases hx'
        · next hskip hsize =>
          by_cases hc : c = rta_type m a
          · rw [← hc, hcs] at hsize
            simp only [Bool.true_and, decide_eq_true_eq, ne_eq, Decidable.not_not] at hsize
            have hp : RTA_PAYLOAD m a = (rta_len m a : Int) - 4 := by
              simp only [RTA_PAYLOAD, RTA_LENGTH_eq]
              push_cast
              omega
            rw [hp] at hsize
            push_cast
            omega
          · have := ih _ _ (k_set k (rta_type m a) a) x (by simp only [k_set, if_neg hc]; exact hk)
              hx
            omega
    · rw [nl_parse_attrs_end_k, hk] at hx
      cases hx

/-- A negative remaining length makes the pass return `NULL`. -/
theorem nl_parse_multipath_iter_neg (d : Daemon) (m : Mem) (p : krt_proto) (nh : Nat)
    (len : Int) (used : Nat) (acc : List nexthop) (hneg : len < 0) :
    nl_parse_multipath_iter d m p nh len used acc = .null := by
  unfold nl_parse_multipath_iter
  rw [if_neg (by omega), if_pos (Or.inr (by omega))]

/-- A pass after which the loop goes on has read an entry of at least 16 bytes that the
remaining length covers, and has lowered the remaining length by the padded entry length. -/
theorem nl_parse_multipath_iter_next (d : Daemon) (m : Mem) (p : krt_proto) (nh : Nat)
    (len : Int) (used : Nat) (acc : List nexthop) (nh' : Nat) (len' : Int) (used' : Nat)
    (acc' : List nexthop) (hlen : len < 2 ^ 31)
    (h : nl_parse_multipath_iter d m p nh len used acc = .next nh' len' used' acc') :
    16 ≤ rtnh_len m nh ∧ ((rtnh_len m nh : Nat) : Int) ≤ len
      ∧ nh' = nh + RTNH_ALIGN (rtnh_len m nh)
      ∧ len' = len - ((NLMSG_ALIGN (rtnh_len m nh) : Nat) : Int)
      ∧ len' ≤ len - 16 ∧ -3 ≤ len' ∧ used' = used + 1 := by
  unfold nl_parse_multipath_iter at h
  by_cases h0 : len = 0
  · rw [if_pos h0] at h; cases h
  rw [if_neg h0] at h
  by_cases h1 : (0 ≤ len ∧ len < (sizeof_rtnexthop : Nat)) ∨ len < (ld16 m nh : Nat)
  · rw [if_pos h1] at h; cases h
  rw [if_neg h1] at h
  cases hif : d.if_find_by_index (ld32 m (nh + 4)) with
  | none => rw [hif] at h; cases h
  | some ifa =>
    rw [hif] at h
    simp only [] at h
    cases hg : (nl_parse_attrs m (RTNH_DATA nh) nexthop_attr_want4 BIRD_RTA_MAX
        ((ld16 m nh : Nat) - (RTNH_LENGTH 0 : Nat))).k RTA_GATEWAY with
    | none => rw [hg] at h; cases h
    | some g =>
      rw [hg] at h
      simp only [] at h
      cases hn : d.neigh_find2 p (rta_get_ipa m g) ifa
          (ld8 m (nh + 2) &&& RTNH_F_ONLINK != 0) with
      | none => rw [hn] at h; cases h
      | some nbr =>
        rw [hn] at h
        simp only [] at h
        by_cases hs : nbr.scope = SCOPE_HOST
        · rw [if_pos hs] at h; cases h
        rw [if_neg hs] at h
        injection h with e1 e2 e3 e4
        have hroom := nl_parse_attrs_loop_some_len m nexthop_attr_want4 BIRD_RTA_MAX
          RTA_GATEWAY (by decide) _ _ _ k_zero g rfl hg
        have hsz : (nexthop_attr_want4 RTA_GATEWAY).size = 4 := by decide
        have hR : RTNH_LENGTH 0 = 8 := by decide
        rw [hsz, hR] at hroom
        push_cast at hroom
        have hal : ld16 m nh ≤ NLMSG_ALIGN (ld16 m nh)
            ∧ NLMSG_ALIGN (ld16 m nh) < ld16 m nh + 4 := by
          simp only [NLMSG_ALIGN]; omega
        have h16 := ld16_lt m nh
        have hle : ((ld16 m nh : Nat) : Int) ≤ len := by
          by_contra hc
          exact h1 (Or.inr (by omega))
        have hv : to_int32 (len - ((NLMSG_ALIGN (ld16 m nh) : Nat) : Int))
            = len - ((NLMSG_ALIGN (ld16 m nh) : Nat) : Int) :=
          to_int32_of_range _ (by omega) (by omega)
        rw [hv] at e2
        refine ⟨?_, hle, e1.symm, e2.symm, ?_, ?_, e3.symm⟩
        · show 16 ≤ ld16 m nh
          omega
        · rw [← e2]; omega
        · rw [← e2]; omega

/-- Once the run of the loop has returned, a larger bound gives the same result. -/
theorem nl_parse_multipath_run_mono (d : Daemon) (m : Mem) (p : krt_proto) :
    ∀ (f1 f2 nh : Nat) (len : Int) (used : Nat) (acc : List nexthop)
      (r : Option (List nexthop)), f1 ≤ f2 →
      nl_parse_multipath_run d m p f1 nh len used acc = some r →
      nl_parse_multipath_run d m p f2 nh len used acc = some r := by
  intro f1
  induction f1 with
  | zero => intro f2 nh len used acc r _ h; cases h
  | succ f ih =>
    intro f2 nh len used acc r hle h
    cases f2 with
    | zero => omega
    | succ g =>
      rw [nl_parse_multipath_run] at h ⊢
      cases hit : nl_parse_multipath_iter d m p nh len used acc with
      | done first => rw [hit] at h; exact h
      | null => rw [hit] at h; exact h
      | next nh' len' used' acc' =>
        rw [hit] at h
        exact ih g _ _ _ _ r (by omega) h

/-- The loop of `nl_parse_multipath` returns within `len / 16 + 1` passes. -/
theorem nl_parse_multipath_run_returns (d : Daemon) (m : Mem) (p : krt_proto) :
    ∀ (fuel nh : Nat) (len : Int) (used : Nat) (acc : List nexthop), len < 2 ^ 31 →
      len.toNat / 16 + 1 ≤ fuel →
      ∃ r, nl_parse_multipath_run d m p fuel nh len used acc = some r := by
  intro fuel
  induction fuel with
  | zero => intro nh len used acc _ h; omega
  | succ f ih =>
    intro nh len used acc hlen hfuel
    rw [nl_parse_multipath_run]
    cases hit : nl_parse_multipath_iter d m p nh len used acc with
    | done first => exact ⟨_, rfl⟩
    | null => exact ⟨_, rfl⟩
    | next nh' len' used' acc' =>
      obtain ⟨h16, hle, _, _, hdec, hlo, _⟩ :=
        nl_parse_multipath_iter_next d m p nh len used acc nh' len' used' acc' hlen hit
      exact ih nh' len' used' acc' (by omega) (by omega)

/-- C31: the multipath parse terminates. For every memory content (the bytes of the
`RTA_MULTIPATH` payload and beyond are arbitrary, so `rtnh_len` may be 0, below 8, unaligned
or larger than what remains), every entry pointer, every remaining length `len` that is an
`int`, and every result of the interface and neighbor lookups: a pass through the loop of
`nl_parse_multipath` with a negative `len` returns `NULL`; a pass after which the loop goes
on has read an entry with `16 <= rtnh_len <= len` and has lowered `len` by
`NLMSG_ALIGN(rtnh_len)`, that is by at least 16, to a value not below -3; hence the loop
returns within `len / 16 + 1` passes, with the same result for every larger bound, which is
the result of the bounded loop of the model. The bound `RTA_PAYLOAD(ra) + 1` used for
`nl_parse_multipath(p, ra)` is large enough for every attribute `ra`, and the nested
`nl_parse_attrs` of a pass gives the same result for every bound from its `nl_attr_len`
on. -/
theorem nl_parse_multipath_terminates (d : Daemon) (m : Mem) (p : krt_proto) (nh : Nat)
    (len : Int) (used : Nat) (acc : List nexthop) (hlen : len < 2 ^ 31) :
    (len < 0 → nl_parse_multipath_iter d m p nh len used acc = .null)
    ∧ (∀ nh' len' used' acc',
        nl_parse_multipath_iter d m p nh len used acc = .next nh' len' used' acc' →
        16 ≤ rtnh_len m nh ∧ ((rtnh_len m nh : Nat) : Int) ≤ len
          ∧ len' = len - ((NLMSG_ALIGN (rtnh_len m nh) : Nat) : Int)
          ∧ len' ≤ len - 16 ∧ -3 ≤ len')
    ∧ (∃ r, ∀ fuel, len.toNat / 16 + 1 ≤ fuel →
        nl_parse_multipath_run d m p fuel nh len used acc = some r
          ∧ nl_parse_multipath_loop d m p fuel nh len used acc = r)
    ∧ (∀ ra, ∃ r,
        nl_parse_multipath_run d m p ((RTA_PAYLOAD m ra).toNat + 1) (RTA_DATA ra)
            (RTA_PAYLOAD m ra) 0 [] = some r
          ∧ nl_parse_multipath_loop d m p ((RTA_PAYLOAD m ra).toNat + 1) (RTA_DATA ra)
              (RTA_PAYLOAD m ra) 0 [] = r)
    ∧ (∀ fuel, (((rtnh_len m nh : Nat) : Int) - ((RTNH_LENGTH 0 : Nat) : Int)) ≤ (fuel : Nat) →
        nl_parse_attrs_loop m nexthop_attr_want4 BIRD_RTA_MAX fuel (RTNH_DATA nh)
            (((rtnh_len m nh : Nat) : Int) - ((RTNH_LENGTH 0 : Nat) : Int)) k_zero
          = nl_parse_attrs m (RTNH_DATA nh) nexthop_attr_want4 BIRD_RTA_MAX
              (((rtnh_len m nh : Nat) : Int) - ((RTNH_LENGTH 0 : Nat) : Int))) := by
  refine ⟨nl_parse_multipath_iter_neg d m p nh len used acc, ?_, ?_, ?_, ?_⟩
  · intro nh' len' used' acc' h
    obtain ⟨h1, h2, _, h4, h5, h6, _⟩ :=
      nl_parse_multipath_iter_next d m p nh len used acc nh' len' used' acc' hlen h
    exact ⟨h1, h2, h4, h5, h6⟩
  · obtain ⟨r, hr⟩ := nl_parse_multipath_run_returns d m p (len.toNat / 16 + 1) nh len used acc
      hlen (Nat.le_refl _)
    refine ⟨r, fun fuel hfuel => ?_⟩
    have h := nl_parse_multipath_run_mono d m p _ fuel nh len used acc r hfuel hr
    refine ⟨h, ?_⟩
    rw [nl_parse_multipath_loop_run, h]
    rfl
  · intro ra
    have hp : RTA_PAYLOAD m ra < 2 ^ 31 := by
      have := ld16_lt m ra
      simp only [RTA_PAYLOAD, rta_len]
      omega
    obtain ⟨r, hr⟩ := nl_parse_multipath_run_returns d m p ((RTA_PAYLOAD m ra).toNat + 1)
      (RTA_DATA ra) (RTA_PAYLOAD m ra) 0 [] hp (by omega)
    refine ⟨r, hr, ?_⟩
    rw [nl_parse_multipath_loop_run, hr]
    rfl
  · intro fuel hfuel
    unfold nl_parse_attrs
    exact nl_parse_attrs_loop_fuel m nexthop_attr_want4 BIRD_RTA_MAX fuel _ _ _ k_zero hfuel
      (Int.self_le_toNat _)

/-- C31 at concrete payloads. The multipath attribute of `route_msg_mp_onlink` has 32 bytes
and two entries of 16 bytes: the loop returns in the third pass, not in two, with the result
of `nl_parse_multipath`. In `multipath_unaligned` the entry has `rtnh_len = 17` for 17
remaining bytes: the first pass leaves the length -3 and the second returns `NULL`. In
`multipath_zero_len` the entry has `rtnh_len = 0`: the pass returns `NULL`. -/
theorem nl_parse_multipath_terminates_witness :
    ((32 : Int) < 2 ^ 31
      ∧ ∃ r, ∀ fuel, (32 : Int).toNat / 16 + 1 ≤ fuel →
          nl_parse_multipath_run example_daemon_mp route_msg_mp_onlink example_proto4 fuel 40
              32 0 [] = some r
            ∧ nl_parse_multipath_loop example_daemon_mp route_msg_mp_onlink example_proto4
                fuel 40 32 0 [] = r)
    ∧ RTA_PAYLOAD route_msg_mp_onlink 36 = 32 ∧ RTA_DATA 36 = 40
    ∧ nl_parse_multipath_run example_daemon_mp route_msg_mp_onlink example_proto4 3 40 32 0 []
        = some (nl_parse_multipath example_daemon_mp route_msg_mp_onlink example_proto4 36)
    ∧ (nl_parse_multipath example_daemon_mp route_msg_mp_onlink example_proto4 36).isSome
        = true
    ∧ nl_parse_multipath_run example_daemon_mp route_msg_mp_onlink example_proto4 2 40 32 0 []
        = none
    ∧ (match nl_parse_multipath_iter example_daemon_mp multipath_unaligned example_proto4 0
          17 0 [] with
        | .next nh len _ _ => some (nh, len)
        | _ => none) = some (20, -3)
    ∧ nl_parse_multipath_run example_daemon_mp multipath_unaligned example_proto4 2 0 17 0 []
        = some none
    ∧ rtnh_len multipath_zero_len 0 = 0
    ∧ nl_parse_multipath_iter example_daemon_mp multipath_zero_len example_proto4 0 16 0 []
        = .null :=
  ⟨⟨by decide,
    (nl_parse_multipath_terminates example_daemon_mp route_msg_mp_onlink example_proto4 40 32
      0 [] (by decide)).2.2.1⟩,
   by decide, by decide, by decide, by decide, by decide, by decide, by decide, by decide,
   by decide⟩

end Netlink
